import Mathlib

/-!
# HelloVTM decoder control plane: a shallow embedding of `DecLib.cpp`

The picture pool (`m_cListPic`), the buffer acquisition `DecLib::xGetNewPicBuffer`,
`DecLib::finishPicture`, the loss recovery `DecLib::xCreateLostPicture`, the skip tests
`DecLib::isRandomAccessSkipPicture` and `DecLib::isSkipPictureForBLA`, the slice entry
point `DecLib::xDecodeSlice` and the output loop of `tryDecodePicture` are embedded as
pure functions on explicit state.

Pointers to `Picture` objects are embedded as addresses: every `Picture` value
carries the address `addr` of the object it stands for, the pool is the list of the
objects in list order, and `m_pcPic` holds an address.
-/

namespace HelloVTM

/-! ## Machine integers -/

/-- Constant `MAX_INT` of CommonDef.h, the largest 32-bit signed integer. -/
def MAX_INT : Int := 2147483647

/-- Conversion of an `int` to `uint32_t` (the cast `(uint32_t)m_iMaxRefPicNum`). -/
def toUInt32 (i : Int) : Nat := (i % 4294967296).toNat

/-- Conversion of a `uint32_t` to `int` (the assignment
`m_iMaxRefPicNum = sps.getMaxDecPicBuffering(temporalLayer)`), two's complement. -/
def toInt32 (n : Nat) : Int :=
  if n % 4294967296 < 2147483648 then ((n % 4294967296 : Nat) : Int)
  else ((n % 4294967296 : Nat) : Int) - 4294967296

/-- Value of an operation on `int`s: the result reduced to 32 bits, two's
complement. -/
def wrapInt (i : Int) : Int := toInt32 (toUInt32 i)

/-! ## Configuration and NAL unit types -/

/-- The preprocessor macros of TypeDef.h (not under src/) that select between
alternative code in `DecLib.cpp`, `UnitTools.h` and `IntraPrediction.cpp`, and the
constant `MAX_NUM_APS` of CommonDef.h.
They are taken as inputs: a statement made for every `Config` holds for every
setting of the macros. -/
structure Config where
  JVET_M0101_HLS : Bool := true
  HEVC_DEPENDENT_SLICES : Bool := false
  JVET_N0415_CTB_ALF : Bool := true
  HEVC_VPS : Bool := false
  RExt__HIGH_BIT_DEPTH_SUPPORT : Bool := false
  MAX_NUM_APS : Nat := 32
  JVET_N0235_SMVD_SPS : Bool := true
  JVET_N0470_SMVD_FIX : Bool := true
  HEVC_USE_DC_PREDFILTERING : Bool := false
deriving DecidableEq, Repr

/-- Modelled from the spec: enum `NalUnitType` (CommonDef.h) is not under src/. The
enumerators are those named in `DecLib.cpp`, for both settings of `JVET_M0101_HLS`. -/
inductive NalUnitType where
  | NAL_UNIT_CODED_SLICE_TRAIL_N
  | NAL_UNIT_CODED_SLICE_TRAIL_R
  | NAL_UNIT_CODED_SLICE_TSA_N
  | NAL_UNIT_CODED_SLICE_TSA_R
  | NAL_UNIT_CODED_SLICE_STSA_N
  | NAL_UNIT_CODED_SLICE_STSA_R
  | NAL_UNIT_CODED_SLICE_RADL_N
  | NAL_UNIT_CODED_SLICE_RADL_R
  | NAL_UNIT_CODED_SLICE_RASL_N
  | NAL_UNIT_CODED_SLICE_RASL_R
  | NAL_UNIT_CODED_SLICE_BLA_W_LP
  | NAL_UNIT_CODED_SLICE_BLA_W_RADL
  | NAL_UNIT_CODED_SLICE_BLA_N_LP
  | NAL_UNIT_CODED_SLICE_IDR_W_RADL
  | NAL_UNIT_CODED_SLICE_IDR_N_LP
  | NAL_UNIT_CODED_SLICE_CRA
  | NAL_UNIT_CODED_SLICE_TRAIL
  | NAL_UNIT_CODED_SLICE_STSA
  | NAL_UNIT_CODED_SLICE_RADL
  | NAL_UNIT_CODED_SLICE_RASL
  | NAL_UNIT_VPS
  | NAL_UNIT_SPS
  | NAL_UNIT_PPS
  | NAL_UNIT_APS
  | NAL_UNIT_ACCESS_UNIT_DELIMITER
  | NAL_UNIT_EOS
  | NAL_UNIT_EOB
  | NAL_UNIT_FILLER_DATA
  | NAL_UNIT_PREFIX_SEI
  | NAL_UNIT_SUFFIX_SEI
  | NAL_UNIT_RESERVED_VCL_N10
  | NAL_UNIT_RESERVED_VCL_R11
  | NAL_UNIT_RESERVED_VCL_N12
  | NAL_UNIT_RESERVED_VCL_R13
  | NAL_UNIT_RESERVED_VCL_N14
  | NAL_UNIT_RESERVED_VCL_R15
  | NAL_UNIT_RESERVED_IRAP_VCL22
  | NAL_UNIT_RESERVED_IRAP_VCL23
  | NAL_UNIT_RESERVED_VCL24
  | NAL_UNIT_RESERVED_VCL25
  | NAL_UNIT_RESERVED_VCL26
  | NAL_UNIT_RESERVED_VCL27
  | NAL_UNIT_RESERVED_VCL28
  | NAL_UNIT_RESERVED_VCL29
  | NAL_UNIT_RESERVED_VCL30
  | NAL_UNIT_RESERVED_VCL31
  | NAL_UNIT_RESERVED_32
  | NAL_UNIT_RESERVED_VCL_4
  | NAL_UNIT_RESERVED_VCL_5
  | NAL_UNIT_RESERVED_VCL_6
  | NAL_UNIT_RESERVED_VCL_7
  | NAL_UNIT_RESERVED_IRAP_VCL11
  | NAL_UNIT_RESERVED_IRAP_VCL12
  | NAL_UNIT_RESERVED_IRAP_VCL13
  | NAL_UNIT_RESERVED_VCL14
  | NAL_UNIT_RESERVED_VCL15
  | NAL_UNIT_RESERVED_NVCL41
  | NAL_UNIT_RESERVED_NVCL42
  | NAL_UNIT_RESERVED_NVCL43
  | NAL_UNIT_RESERVED_NVCL44
  | NAL_UNIT_RESERVED_NVCL45
  | NAL_UNIT_RESERVED_NVCL46
  | NAL_UNIT_RESERVED_NVCL47
  | NAL_UNIT_RESERVED_NVCL16
  | NAL_UNIT_RESERVED_NVCL26
  | NAL_UNIT_RESERVED_NVCL27
  | NAL_UNIT_UNSPECIFIED_48
  | NAL_UNIT_UNSPECIFIED_49
  | NAL_UNIT_UNSPECIFIED_50
  | NAL_UNIT_UNSPECIFIED_51
  | NAL_UNIT_UNSPECIFIED_52
  | NAL_UNIT_UNSPECIFIED_53
  | NAL_UNIT_UNSPECIFIED_54
  | NAL_UNIT_UNSPECIFIED_55
  | NAL_UNIT_UNSPECIFIED_56
  | NAL_UNIT_UNSPECIFIED_57
  | NAL_UNIT_UNSPECIFIED_58
  | NAL_UNIT_UNSPECIFIED_59
  | NAL_UNIT_UNSPECIFIED_60
  | NAL_UNIT_UNSPECIFIED_61
  | NAL_UNIT_UNSPECIFIED_62
  | NAL_UNIT_UNSPECIFIED_63
  | NAL_UNIT_UNSPECIFIED_28
  | NAL_UNIT_UNSPECIFIED_29
  | NAL_UNIT_UNSPECIFIED_30
  | NAL_UNIT_UNSPECIFIED_31
  | NAL_UNIT_INVALID
deriving DecidableEq, Repr

/-- The fields of `InputNALUnit` (NALread.h, not under src/) that `decode` and
`xDecodeSlice` read: the type, the temporal id and the layer id of the NAL unit
header. -/
structure InputNALUnit where
  m_nalUnitType : NalUnitType
  m_temporalId : Nat := 0
  m_nuhLayerId : Nat := 0
deriving DecidableEq, Repr

/-- Modelled from the spec: the payload types of `SEI` (SEI.h, not under src/) that
`DecLib.cpp` names, and any other type. -/
inductive SEIPayloadType where
  | PICTURE_TIMING
  | DECODING_UNIT_INFO
  | other (payloadType : Nat)
deriving DecidableEq, Repr

/-- Modelled from the spec: a supplemental message (`SEI`, SEI.h, not under src/):
its payload type and, for a picture timing message, the member `m_picStruct`. -/
structure SEI where
  payloadType : SEIPayloadType
  m_picStruct : Nat := 0
deriving DecidableEq, Repr

/-! ## Data model -/

/-- Modelled from the spec: class `SPS` (Slice.h) is not under src/. Only what
`DecLib.cpp` reads is kept: the number of temporal sub-layers, the per-sub-layer
arrays behind `getNumReorderPics` and `getMaxDecPicBuffering`, the geometry
compared by `xGetNewPicBuffer`, the id, the number of bits of the POC LSB, and the
precision fields tested in line 817. -/
structure SPS where
  maxTLayers : Nat := 1
  numReorderPics : List Nat := []
  maxDecPicBuffering : List Nat := []
  picWidthInLumaSamples : Nat := 0
  picHeightInLumaSamples : Nat := 0
  maxCUWidth : Nat := 0
  maxCUHeight : Nat := 0
  spsId : Int := 0
  bitsForPOC : Nat := 8
  extendedPrecisionProcessingFlag : Bool := false
  bitDepthLuma : Nat := 8
  bitDepthChroma : Nat := 8
deriving DecidableEq, Repr

/-- Getter `SPS::getMaxTLayers`, a `uint32_t`. -/
def SPS.getMaxTLayers (sps : SPS) : Nat := sps.maxTLayers % 4294967296

/-- Getter `SPS::getNumReorderPics(tlayer)`, a `uint32_t` read from the array. -/
def SPS.getNumReorderPics (sps : SPS) (tlayer : Nat) : Nat :=
  sps.numReorderPics.getD tlayer 0 % 4294967296

/-- Getter `SPS::getMaxDecPicBuffering(tlayer)`, a `uint32_t` read from the array. -/
def SPS.getMaxDecPicBuffering (sps : SPS) (tlayer : Nat) : Nat :=
  sps.maxDecPicBuffering.getD tlayer 0 % 4294967296

/-- Modelled from the spec: class `Slice` (Slice.h) is not under src/. Only the
header fields read by the pool, the output scheduler and `xDecodeSlice` are kept;
`rps` lists the POCs that the reference picture set of the slice requires. -/
structure Slice where
  poc : Int := 0
  picOutputFlag : Bool := true
  tLayer : Nat := 0
  nalUnitType : NalUnitType := .NAL_UNIT_INVALID
  sliceCurStartCtuTsAddr : Nat := 0
  dependentSliceSegmentFlag : Bool := false
  noRaslOutputFlag : Bool := false
  noOutputPriorPicsFlag : Bool := false
  handleCraAsCvsStartFlag : Bool := false
  ppsId : Int := 0
  apsId : Int := -1
  rps : List Int := []
  tileGroupApsIdLuma : List Int := []
  tileGroupApsIdChroma : Int := -1
deriving DecidableEq, Repr

/-- Modelled from the spec: class `PPS` (Slice.h) is not under src/. Only its id and
the id of the SPS it refers to are kept. -/
structure PPS where
  ppsId : Int := 0
  spsId : Int := 0
deriving DecidableEq, Repr

/-- Modelled from the spec: class `ParameterSetManager` (Slice.h) is not under src/.
The store maps an id to the parameter set stored under it and keeps, per kind, the
ids whose changed (dirty) flag is set; `apss` holds the ids of the entries of the
array `getAPSs()` that are not null. -/
structure ParameterSetManager where
  spsMap : List (Int × SPS) := []
  ppsMap : List (Int × PPS) := []
  apsMap : List (Int × Unit) := []
  vpsMap : List (Int × Unit) := []
  spsChanged : List Int := []
  ppsChanged : List Int := []
  apsChanged : List Int := []
  apss : List Int := []
deriving DecidableEq, Repr

/-- Lookup `ParameterSetManager::getPPS`, `none` for the null pointer. -/
def ParameterSetManager.getPPS (m : ParameterSetManager) (id : Int) : Option PPS :=
  m.ppsMap.lookup id

/-- Lookup `ParameterSetManager::getSPS`, `none` for the null pointer. -/
def ParameterSetManager.getSPS (m : ParameterSetManager) (id : Int) : Option SPS :=
  m.spsMap.lookup id

/-- Lookup `ParameterSetManager::getAPS`, `none` for the null pointer. -/
def ParameterSetManager.getAPS (m : ParameterSetManager) (id : Int) : Option Unit :=
  m.apsMap.lookup id

/-- Modelled from the spec: `getSPSChangedFlag`, the dirty flag of an SPS id. -/
def ParameterSetManager.getSPSChangedFlag (m : ParameterSetManager) (id : Int) : Bool :=
  decide (id ∈ m.spsChanged)

/-- Modelled from the spec: `getPPSChangedFlag`, the dirty flag of a PPS id. -/
def ParameterSetManager.getPPSChangedFlag (m : ParameterSetManager) (id : Int) : Bool :=
  decide (id ∈ m.ppsChanged)

/-- Modelled from the spec: `getAPSChangedFlag`, the dirty flag of an APS id. -/
def ParameterSetManager.getAPSChangedFlag (m : ParameterSetManager) (id : Int) : Bool :=
  decide (id ∈ m.apsChanged)

/-- Modelled from the spec: `clearSPSChangedFlag`, the operation `clearDirty` on an
SPS id. -/
def ParameterSetManager.clearSPSChangedFlag (m : ParameterSetManager) (id : Int) :
    ParameterSetManager :=
  { m with spsChanged := m.spsChanged.filter (fun x => decide (x ≠ id)) }

/-- Modelled from the spec: `clearPPSChangedFlag`, the operation `clearDirty` on a
PPS id. -/
def ParameterSetManager.clearPPSChangedFlag (m : ParameterSetManager) (id : Int) :
    ParameterSetManager :=
  { m with ppsChanged := m.ppsChanged.filter (fun x => decide (x ≠ id)) }

/-- Modelled from the spec: `clearAPSChangedFlag`, the operation `clearDirty` on an
APS id. -/
def ParameterSetManager.clearAPSChangedFlag (m : ParameterSetManager) (id : Int) :
    ParameterSetManager :=
  { m with apsChanged := m.apsChanged.filter (fun x => decide (x ≠ id)) }

/-- Modelled from the spec: the operation `store` on a map of the store
(replace-or-insert). -/
def storePS {α : Type} (id : Int) (x : α) (m : List (Int × α)) : List (Int × α) :=
  (id, x) :: m.filter (fun e => decide (e.1 ≠ id))

/-- Modelled from the spec: `storeSPS`: replace-or-insert; the dirty flag is set
when the id is redefined. -/
def ParameterSetManager.storeSPS (m : ParameterSetManager) (sps : SPS) : ParameterSetManager :=
  { m with spsMap := storePS sps.spsId sps m.spsMap,
           spsChanged := if (m.getSPS sps.spsId).isSome then sps.spsId :: m.spsChanged
                         else m.spsChanged }

/-- Modelled from the spec: `storePPS`: replace-or-insert; the dirty flag is set
when the id is redefined. -/
def ParameterSetManager.storePPS (m : ParameterSetManager) (pps : PPS) : ParameterSetManager :=
  { m with ppsMap := storePS pps.ppsId pps m.ppsMap,
           ppsChanged := if (m.getPPS pps.ppsId).isSome then pps.ppsId :: m.ppsChanged
                         else m.ppsChanged }

/-- Modelled from the spec: `storeAPS`: replace-or-insert; the dirty flag is set
when the id is redefined. -/
def ParameterSetManager.storeAPS (m : ParameterSetManager) (apsId : Int) : ParameterSetManager :=
  { m with apsMap := storePS apsId () m.apsMap,
           apsChanged := if (m.getAPS apsId).isSome then apsId :: m.apsChanged
                         else m.apsChanged }

/-- Modelled from the spec: `storeVPS` (compiled when `HEVC_VPS` is on):
replace-or-insert. -/
def ParameterSetManager.storeVPS (m : ParameterSetManager) (vpsId : Int) : ParameterSetManager :=
  { m with vpsMap := storePS vpsId () m.vpsMap }

/-- Modelled from the spec: struct `Picture` (Picture.h) is not under src/. The
fields are the members `DecLib.cpp` reads and writes: `poc` (read through
`getPOC()`), `layer`, the flags `referenced`, `neededForOutput`, `reconstructed`,
`fieldPic`, the owned slice list `slices`, `cs->slice` (as an index into `slices`),
`cs->sps`, the luma size `Y()` and `cs->pcv->maxCUWidth/maxCUHeight`, the border
extension flag, the content of the reconstruction buffer `getRecoBuf()` as a
token `recoBuf`, `cs->pps`, the id of `cs->aps` when it is not null, and the
attached messages `SEIs`. `addr` is the address of the object. -/
structure Picture where
  addr : Nat
  poc : Int := 0
  layer : Nat := 0
  referenced : Bool := false
  neededForOutput : Bool := false
  reconstructed : Bool := false
  fieldPic : Bool := false
  slices : List Slice := []
  csSlice : Option Nat := none
  sps : SPS := {}
  lumaWidth : Nat := 0
  lumaHeight : Nat := 0
  pcvMaxCUWidth : Nat := 0
  pcvMaxCUHeight : Nat := 0
  borderExtension : Bool := false
  recoBuf : Nat := 0
  pps : PPS := {}
  aps : Option Int := none
  SEIs : List SEI := []
deriving DecidableEq, Repr

/-- Modelled from the spec: `Picture::getPOC` (Picture.h, not under src/) reads the
picture's `poc` attribute, the member `xDecodeSlice` assigns in line 1240. -/
def Picture.getPOC (p : Picture) : Int := p.poc

/-- Modelled from the spec: the constructor `Picture::Picture()` (Picture.cpp) is
not under src/. A newly created picture is not reconstructed, not needed for output
and not referenced; it has no slices. The constructor leaves `poc` uninitialised:
`rawPoc` is whatever the fresh storage holds. -/
def Picture.new (addr : Nat) (rawPoc : Int) : Picture :=
  { addr := addr, poc := rawPoc }

/-- Modelled from the spec: `Picture::create` (Picture.cpp, not under src/) allocates
the sample buffers sized to the geometry of the SPS. -/
def Picture.create (p : Picture) (sps : SPS) : Picture :=
  { p with lumaWidth := sps.picWidthInLumaSamples,
           lumaHeight := sps.picHeightInLumaSamples }

/-- Modelled from the spec: `Picture::destroy` (Picture.cpp, not under src/) releases
the sample buffers; flags and `poc` are not touched. -/
def Picture.destroy (p : Picture) : Picture :=
  { p with lumaWidth := 0, lumaHeight := 0 }

/-- Decoder state: the members of `DecLib` that the embedded functions use, with
the initial values of the constructor `DecLib::DecLib()`. `nextAddr` is the
allocator: the address the next `new Picture()` returns. An entry of
`m_prefixSEINALUs` is a buffered NAL unit with the messages that the SEI reader
parses from it. -/
structure DecLib where
  m_iMaxRefPicNum : Int := 0
  m_pocRandomAccess : Int := MAX_INT
  m_cListPic : List Picture := []
  m_apcSlicePilot : Slice := {}
  m_pcPic : Option Nat := none
  m_prevPOC : Int := MAX_INT
  m_bFirstSliceInPicture : Bool := true
  m_uiSliceSegmentIdx : Nat := 0
  nextAddr : Nat := 0
  m_parameterSetManager : ParameterSetManager := {}
  m_associatedIRAPType : NalUnitType := .NAL_UNIT_INVALID
  m_pocCRA : Int := 0
  m_lastRasPoc : Int := MAX_INT
  m_bFirstSliceInSequence : Bool := true
  m_prevSliceSkipped : Bool := false
  m_skippedPOC : Int := 0
  m_bFirstSliceInBitstream : Bool := true
  m_lastPOCNoOutputPriorPics : Int := -1
  m_isNoOutputPriorPics : Bool := false
  m_craNoRaslOutputFlag : Bool := false
  m_warningMessageSkipPicture : Bool := false
  m_SEIs : List SEI := []
  m_prefixSEINALUs : List (InputNALUnit × List SEI) := []
deriving DecidableEq, Repr

/-- Dereference of a `Picture*`: the pool entry at address `a`. -/
def DecLib.pic? (s : DecLib) (a : Nat) : Option Picture :=
  s.m_cListPic.find? (fun p => p.addr == a)

/-- Heap well-formedness: distinct pool entries are distinct objects, and the
allocator never hands out an address that is in use. -/
def DecLib.WF (s : DecLib) : Prop :=
  (s.m_cListPic.map Picture.addr).Nodup ∧ ∀ p ∈ s.m_cListPic, p.addr < s.nextAddr

instance (s : DecLib) : Decidable s.WF := by
  unfold DecLib.WF
  infer_instance

/-- Update of the object at address `a` through a pointer. -/
def updateAt (a : Nat) (f : Picture → Picture) (l : List Picture) : List Picture :=
  l.map (fun p => if p.addr = a then f p else p)

/-! ## `DecLib::xGetNewPicBuffer` (DecLib.cpp 483–543) -/

/-- The reuse condition of the scan loop, lines 502 and 509. -/
def Picture.reusable (p : Picture) : Bool :=
  (p.reconstructed == false && !p.neededForOutput) ||
  (!p.referenced && !p.neededForOutput)

/-- Scan loop of lines 499–516: position of the first entry at which the loop
breaks, and the pool after the assignments made in the loop body; `none` when the
loop runs to the end (`bBufferIsAvailable` stays false). -/
def scanForBuffer : List Picture → Option (Nat × List Picture)
  | [] => none
  | p :: ps =>
    if p.reconstructed == false && !p.neededForOutput then
      some (0, { p with neededForOutput := false } :: ps)
    else if !p.referenced && !p.neededForOutput then
      some (0, { p with neededForOutput := false, reconstructed := false } :: ps)
    else
      match scanForBuffer ps with
      | none => none
      | some (i, ps') => some (i + 1, p :: ps')

/-- Assignments of the loop body at the entry where the scan breaks (lines 504 and
511–512). -/
def scanBody (p : Picture) : Picture :=
  if p.reconstructed == false && !p.neededForOutput then
    { p with neededForOutput := false }
  else
    { p with neededForOutput := false, reconstructed := false }

/-- Lines 531–540 applied to the reused picture: rebuild the buffers when the
geometry differs, then clear the border extension and both flags. -/
def prepareReused (sps : SPS) (p : Picture) : Picture :=
  let q :=
    if p.lumaWidth ≠ sps.picWidthInLumaSamples ∨ p.lumaHeight ≠ sps.picHeightInLumaSamples
        ∨ p.pcvMaxCUWidth ≠ sps.maxCUWidth ∨ p.pcvMaxCUHeight ≠ sps.maxCUHeight then
      (p.destroy).create sps
    else p
  { q with borderExtension := false, neededForOutput := false, reconstructed := false }

/-- Which of the three paths of `xGetNewPicBuffer` a call takes. -/
inductive AcquirePath where
  | fresh
  | reuse
  | extension
deriving DecidableEq, Repr

/-- Path taken by `xGetNewPicBuffer` on a pool for a bound `maxDPB`
(the value `sps.getMaxDecPicBuffering(temporalLayer)`). -/
def acquirePath (pool : List Picture) (maxDPB : Nat) : AcquirePath :=
  if pool.length < toUInt32 (toInt32 maxDPB) then .fresh
  else if (scanForBuffer pool).isSome then .reuse
  else .extension

/-- Embedding of `DecLib::xGetNewPicBuffer`: the new decoder state and the address
of the returned picture. `rawPoc` is the uninitialised `poc` of a picture that the
call creates. The parameter `pps` of the source is not used by the function. The
increment `m_iMaxRefPicNum++` of line 521 is made on an `int`. -/
def DecLib.xGetNewPicBuffer (s : DecLib) (sps : SPS) (temporalLayer : Nat)
    (rawPoc : Int) : DecLib × Nat :=
  let s1 := { s with m_iMaxRefPicNum := toInt32 (sps.getMaxDecPicBuffering temporalLayer) }
  if s1.m_cListPic.length < toUInt32 s1.m_iMaxRefPicNum then
    let pcPic := (Picture.new s1.nextAddr rawPoc).create sps
    ({ s1 with m_cListPic := s1.m_cListPic ++ [pcPic], nextAddr := s1.nextAddr + 1 },
      pcPic.addr)
  else
    match scanForBuffer s1.m_cListPic with
    | none =>
      let pcPic := (Picture.new s1.nextAddr rawPoc).create sps
      let pcPic := { pcPic with borderExtension := false, neededForOutput := false,
                                reconstructed := false }
      ({ s1 with m_iMaxRefPicNum := wrapInt (s1.m_iMaxRefPicNum + 1),
                 m_cListPic := s1.m_cListPic ++ [pcPic],
                 nextAddr := s1.nextAddr + 1 },
        pcPic.addr)
    | some (i, pool) =>
      ({ s1 with m_cListPic := pool.modify (prepareReused sps) i },
        ((pool.get? i).map Picture.addr).getD 0)

/-! ## Activation and binding of the current picture -/

/-- A picture that the reference picture set does not keep is marked unused for
reference. -/
def markUnused (keep : Picture → Bool) (p : Picture) : Picture :=
  if p.referenced && !keep p then { p with referenced := false } else p

/-- Modelled from the spec: `Slice::applyReferencePictureSet` (Slice.cpp) is not
under src/. It resolves the reference picture set of the slice against the pool;
its effect on the pool is taken as the input `keep`: the pictures for which `keep`
holds stay marked as referenced, every other picture is marked unused for
reference. No other flag and no POC is written. -/
def applyReferencePictureSet (keep : Picture → Bool) (pool : List Picture) : List Picture :=
  pool.map (markUnused keep)

/-- Lines 1240–1243 on the current picture. -/
def bindFields (pcSlice : Slice) (temporalId : Nat) (p : Picture) : Picture :=
  { p with poc := pcSlice.poc, layer := temporalId, referenced := true }

/-- Lines 828–891 on the acquired picture: it owns exactly the new slice, `cs->slice`
points to it, `cs->sps` and `cs->pcv` are those of the activation, and the field
flag is set from the picture timing SEI. -/
def attachFirstSlice (pilot : Slice) (sps : SPS) (isField : Bool) (p : Picture) : Picture :=
  { p with slices := [pilot], csSlice := some 0, sps := sps,
           pcvMaxCUWidth := sps.maxCUWidth, pcvMaxCUHeight := sps.maxCUHeight,
           fieldPic := isField }

/-- Pool part of the first-slice branch of `xActivateParameterSets` (lines 823–895),
for a picture whose parameter sets are present: acquire a picture, resolve the
reference picture set, attach the slice pilot as slice 0 and the SPS, set the field
flag. `Picture::finalInit`, `allocateNewSlice` and `swapSliceObject` (Picture.cpp,
not under src/) are modelled from the spec: the new slice is attached to the
picture, which then owns exactly this slice. -/
def DecLib.activateFirstSlice (s : DecLib) (sps : SPS) (keep : Picture → Bool)
    (isField : Bool) (rawPoc : Int) : DecLib :=
  let r := s.xGetNewPicBuffer sps s.m_apcSlicePilot.tLayer rawPoc
  let pool := applyReferencePictureSet keep r.1.m_cListPic
  let pool := updateAt r.2 (attachFirstSlice s.m_apcSlicePilot sps isField) pool
  { r.1 with m_pcPic := some r.2, m_cListPic := pool }

/-- Lines 1238–1243 of `xDecodeSlice`: the current picture takes the POC of its
slice `slices[m_uiSliceSegmentIdx]` and the temporal id of the NAL unit, and is
marked as referenced. The state is returned as it is when `m_pcPic` or the slice is
a null pointer. -/
def DecLib.bindPicture (s : DecLib) (temporalId : Nat) : DecLib :=
  match s.m_pcPic with
  | none => s
  | some a =>
    match (s.pic? a).bind (fun p => p.slices.get? s.m_uiSliceSegmentIdx) with
    | none => s
    | some pcSlice =>
      { s with m_cListPic := updateAt a (bindFields pcSlice temporalId) s.m_cListPic }

/-- Path of `xDecodeSlice` for the first slice of a picture that is neither skipped
nor reported as a new-picture boundary and has no lost reference: the parsed header
`pilot` is activated (line 1232), the current picture is bound (lines 1238–1243),
and lines 1454–1455 close the call. -/
def DecLib.decodeFirstSlice (s : DecLib) (pilot : Slice) (temporalId : Nat) (sps : SPS)
    (keep : Picture → Bool) (isField : Bool) (rawPoc : Int) : DecLib :=
  let s0 := { s with m_apcSlicePilot := pilot, m_uiSliceSegmentIdx := 0 }
  let s1 := s0.activateFirstSlice sps keep isField rawPoc
  let s2 := s1.bindPicture temporalId
  { s2 with m_prevPOC := pilot.poc, m_bFirstSliceInPicture := false,
            m_uiSliceSegmentIdx := s2.m_uiSliceSegmentIdx + 1 }

/-! ## `DecLib::xCreateLostPicture` (DecLib.cpp 696–738) -/

/-- First loop, lines 706–714: the smallest non-zero POC distance to `iLostPoc`
among the pool entries whose POC differs from the pilot POC, capped at 1000000. -/
def closestPocLoop (iLostPoc pilotPoc : Int) : List Picture → Int → Int
  | [], closestPoc => closestPoc
  | rpcPic :: rest, closestPoc =>
    if ((rpcPic.getPOC - iLostPoc).natAbs : Int) < closestPoc ∧
        ((rpcPic.getPOC - iLostPoc).natAbs : Int) ≠ 0 ∧ rpcPic.getPOC ≠ pilotPoc then
      closestPocLoop iLostPoc pilotPoc rest ((rpcPic.getPOC - iLostPoc).natAbs : Int)
    else
      closestPocLoop iLostPoc pilotPoc rest closestPoc

/-- Second loop, lines 715–725: the first pool entry at distance `closestPoc`
whose POC differs from the pilot POC; its reconstruction is copied. -/
def copySource (iLostPoc pilotPoc closestPoc : Int) (pool : List Picture) : Option Picture :=
  pool.find? (fun rpcPic =>
    decide (((rpcPic.getPOC - iLostPoc).natAbs : Int) = closestPoc) &&
    decide (rpcPic.getPOC ≠ pilotPoc))

/-- Assignment `slices[0]->setPOC(iLostPoc)`. -/
def setFirstSlicePOC (iLostPoc : Int) : List Slice → List Slice
  | [] => []
  | sl :: rest => { sl with poc := iLostPoc } :: rest

/-- Embedding of `DecLib::xCreateLostPicture`. `firstSPS` is the SPS returned by
`m_parameterSetManager.getFirstSPS()`. The `CHECK` of line 701 is the error exit.
`Slice::initSlice` leaves the modelled header fields as they are, and
`xUpdatePreviousTid0POC` writes no modelled member. -/
def DecLib.xCreateLostPicture (s : DecLib) (iLostPoc : Int) (firstSPS : SPS)
    (rawPoc : Int) : Except String DecLib :=
  let r := s.xGetNewPicBuffer firstSPS 0 rawPoc
  match r.1.pic? r.2 with
  | none => .error "null picture"
  | some cFillPic =>
    if cFillPic.slices.length = 0 then .error "No slices in picture"
    else
      let pilotPoc := s.m_apcSlicePilot.poc
      let closestPoc := closestPocLoop iLostPoc pilotPoc r.1.m_cListPic 1000000
      let src := copySource iLostPoc pilotPoc closestPoc r.1.m_cListPic
      let pool := updateAt r.2 (fun p =>
        { p with recoBuf := (match src with
                             | some rpcPic => rpcPic.recoBuf
                             | none => p.recoBuf),
                 referenced := true, slices := setFirstSlicePOC iLostPoc p.slices,
                 reconstructed := true, neededForOutput := true }) r.1.m_cListPic
      .ok { r.1 with m_cListPic := pool,
                     m_pocRandomAccess :=
                       if r.1.m_pocRandomAccess = MAX_INT then iLostPoc
                       else r.1.m_pocRandomAccess }

/-! ## Finishing a picture (DecLib.cpp 592–661) -/

/-- Modelled from the spec: `Slice::sortPicList` (Slice.cpp) is not under src/. It
sorts the pool by POC, entries of equal POC keeping their order. -/
def sortPicList (l : List Picture) : List Picture :=
  l.insertionSort (fun p q => p.getPOC ≤ q.getPOC)

instance : IsTotal Picture (fun p q => p.getPOC ≤ q.getPOC) :=
  ⟨fun p q => le_total p.getPOC q.getPOC⟩

instance : IsTrans Picture (fun p q => p.getPOC ≤ q.getPOC) :=
  ⟨fun _ _ _ h₁ h₂ => le_trans h₁ h₂⟩

/-- Lines 649–650 on the current picture. -/
def finishFields (pcSlice : Slice) (p : Picture) : Picture :=
  { p with neededForOutput := pcSlice.picOutputFlag, reconstructed := true }

/-- The slice `m_pcPic->cs->slice` of a picture, when the pointer is set. -/
def Picture.csSlice? (p : Picture) : Option Slice :=
  p.csSlice.bind (fun i => p.slices.get? i)

/-- Embedding of `DecLib::finishPictureLight`: the new state and the value written
to the out-parameter `poc`; the out-parameter `rpcListPic` is the pool of the new
state. `none` when `m_pcPic` or its slice is a null pointer. -/
def DecLib.finishPictureLight (s : DecLib) : Option (DecLib × Int) :=
  match s.m_pcPic with
  | none => none
  | some a =>
    match (s.pic? a).bind Picture.csSlice? with
    | none => none
    | some pcSlice =>
      let pool := updateAt a (finishFields pcSlice) s.m_cListPic
      some ({ s with m_cListPic := sortPicList pool }, pcSlice.poc)

/-- Embedding of `DecLib::finishPicture` (messages, hash check and the release of
temporary buffers are not part of the state). -/
def DecLib.finishPicture (s : DecLib) : Option (DecLib × Int) :=
  match s.m_pcPic with
  | none => none
  | some a =>
    match (s.pic? a).bind Picture.csSlice? with
    | none => none
    | some pcSlice =>
      let pool := updateAt a (finishFields pcSlice) s.m_cListPic
      some ({ s with m_cListPic := sortPicList pool, m_bFirstSliceInPicture := true },
        pcSlice.poc)

/-! ## The output loop of `tryDecodePicture` (DecLib.cpp 254–322) -/

/-- The two counters of the output loop. -/
structure Counters where
  numPicsNotYetDisplayed : Int := 0
  dpbFullness : Int := 0
deriving DecidableEq, Repr

/-- Counting loop, lines 265–278. -/
def countLoop (iPOCLastDisplay : Int) : List Picture → Counters → Counters
  | [], c => c
  | p :: ps, c =>
    if p.neededForOutput && decide (p.getPOC > iPOCLastDisplay) then
      countLoop iPOCLastDisplay ps
        { numPicsNotYetDisplayed := c.numPicsNotYetDisplayed + 1,
          dpbFullness := c.dpbFullness + 1 }
    else if p.referenced then
      countLoop iPOCLastDisplay ps { c with dpbFullness := c.dpbFullness + 1 }
    else
      countLoop iPOCLastDisplay ps c

/-- Record of one execution of the body of the `if` in lines 300–317: the POC of the
emitted picture and the values of `iPOCLastDisplay` and of the two counters when the
condition was evaluated. -/
structure Emission where
  poc : Int
  lastBefore : Int
  numBefore : Int
  fullBefore : Int
deriving DecidableEq, Repr

/-- Variables of the output loop: the static `iPOCLastDisplay`, the two counters,
and the emissions made so far, oldest first. -/
structure OutputState where
  iPOCLastDisplay : Int
  numPicsNotYetDisplayed : Int := 0
  dpbFullness : Int := 0
  emitted : List Emission := []
deriving DecidableEq, Repr

/-- Condition of line 300–301. The counters are `int`, the two SPS values
`uint32_t`: the comparisons are made in `uint32_t`. -/
def emitCond (numReorder maxDPB : Nat) (p : Picture) (st : OutputState) : Bool :=
  p.neededForOutput && decide (p.getPOC > st.iPOCLastDisplay) &&
    (decide (toUInt32 st.numPicsNotYetDisplayed > numReorder) ||
     decide (toUInt32 st.dpbFullness > maxDPB))

/-- Body of the `if`, lines 303–316, on the picture. -/
def emitPicture (p : Picture) : Picture :=
  let q := if !p.referenced && p.reconstructed then { p with reconstructed := false } else p
  { q with neededForOutput := false }

/-- Body of the `if`, lines 303–316, on the loop variables. -/
def emitState (p : Picture) (st : OutputState) : OutputState :=
  { iPOCLastDisplay := p.getPOC,
    numPicsNotYetDisplayed := st.numPicsNotYetDisplayed - 1,
    dpbFullness := if !p.referenced then st.dpbFullness - 1 else st.dpbFullness,
    emitted := st.emitted ++ [{ poc := p.getPOC, lastBefore := st.iPOCLastDisplay,
                                numBefore := st.numPicsNotYetDisplayed,
                                fullBefore := st.dpbFullness }] }

/-- Emitting loop of frame decoding, lines 296–320. -/
def emitLoop (numReorder maxDPB : Nat) : List Picture → OutputState → List Picture × OutputState
  | [], st => ([], st)
  | p :: ps, st =>
    if emitCond numReorder maxDPB p st then
      let r := emitLoop numReorder maxDPB ps (emitState p st)
      (emitPicture p :: r.1, r.2)
    else
      let r := emitLoop numReorder maxDPB ps st
      (p :: r.1, r.2)

/-- Index `maxNrSublayers-1` of lines 262–263, computed in `uint32_t`. -/
def highestTid (sps : SPS) : Nat := (sps.getMaxTLayers + 4294967295) % 4294967296

/-- Lines 280–287: the entry whose `fieldPic` flag is inspected, the second one
when more than two pictures await output and the first one otherwise. When more
than two pictures await output the list has a second entry, so the default of
`headD` is never used. -/
def inspectedPic (front : Picture) (rest : List Picture) (numPicsNotYetDisplayed : Int) :
    Picture :=
  if numPicsNotYetDisplayed > 2 then rest.headD front else front

/-- The block "write output", lines 255–322, run on the list handed back by
`finishPicture`: the pool and the loop variables afterwards, or the error thrown by
`THROW`. -/
def outputPass (pool : List Picture) (iPOCLastDisplay : Int) :
    Except String (List Picture × OutputState) :=
  match pool with
  | [] => .ok (pool, { iPOCLastDisplay := iPOCLastDisplay })
  | front :: rest =>
    let activeSPS := front.sps
    let numReorderPicsHighestTid := activeSPS.getNumReorderPics (highestTid activeSPS)
    let maxDecPicBufferingHighestTid := activeSPS.getMaxDecPicBuffering (highestTid activeSPS)
    let c := countLoop iPOCLastDisplay pool {}
    let st : OutputState :=
      { iPOCLastDisplay := iPOCLastDisplay,
        numPicsNotYetDisplayed := c.numPicsNotYetDisplayed,
        dpbFullness := c.dpbFullness }
    let pcCurPic := inspectedPic front rest c.numPicsNotYetDisplayed
    if decide (c.numPicsNotYetDisplayed > 2) && pcCurPic.fieldPic then
      .error "no field coding support "
    else if !pcCurPic.fieldPic then
      .ok (emitLoop numReorderPicsHighestTid maxDecPicBufferingHighestTid pool st)
    else
      .ok (pool, st)

/-- POCs emitted by a pass, in emission order. -/
def emittedPOCs (st : OutputState) : List Int := st.emitted.map Emission.poc

/-- A picture awaits output: `neededForOutput && POC > iPOCLastDisplay`. -/
def awaitsOutput (iPOCLastDisplay : Int) (p : Picture) : Bool :=
  p.neededForOutput && decide (p.getPOC > iPOCLastDisplay)

/-- Value `numReorderPicsHighestTid` of line 262, read from the SPS of the first
pool entry (0 for the empty pool, on which the block is not entered). -/
def frontNumReorderPics : List Picture → Nat
  | [] => 0
  | front :: _ => front.sps.getNumReorderPics (highestTid front.sps)

/-- Value `maxDecPicBufferingHighestTid` of line 263, read from the SPS of the
first pool entry (0 for the empty pool, on which the block is not entered). -/
def frontMaxDecPicBuffering : List Picture → Nat
  | [] => 0
  | front :: _ => front.sps.getMaxDecPicBuffering (highestTid front.sps)

/-- Monotonicity invariant of the emitting loop, relative to a lower bound `lo` of
`iPOCLastDisplay`: the emitted POCs increase strictly, and each emission was made
with `lo ≤ lastBefore < poc ≤ iPOCLastDisplay`. -/
def EmitInv (lo : Int) (st : OutputState) : Prop :=
  lo ≤ st.iPOCLastDisplay ∧
  (st.emitted.map Emission.poc).Pairwise (· < ·) ∧
  ∀ e ∈ st.emitted, lo ≤ e.lastBefore ∧ e.lastBefore < e.poc ∧ e.poc ≤ st.iPOCLastDisplay

/-- Counter invariant of the emitting loop on the part `ps` of the pool not yet
visited: the counters are not below the number of entries they still account for. -/
def CntInv (ps : List Picture) (st : OutputState) : Prop :=
  (ps.countP (awaitsOutput st.iPOCLastDisplay) : Int) ≤ st.numPicsNotYetDisplayed ∧
  (ps.countP (fun p => awaitsOutput st.iPOCLastDisplay p || p.referenced) : Int)
    ≤ st.dpbFullness

/-- Loop variables when the emitting loop is entered: the counters as the counting
loop left them, nothing emitted yet. -/
def passStart (pool : List Picture) (iPOCLastDisplay : Int) : OutputState :=
  { iPOCLastDisplay := iPOCLastDisplay,
    numPicsNotYetDisplayed := (countLoop iPOCLastDisplay pool {}).numPicsNotYetDisplayed,
    dpbFullness := (countLoop iPOCLastDisplay pool {}).dpbFullness }

/-- A picture is live: `referenced || neededForOutput`. -/
def Picture.live (p : Picture) : Bool := p.referenced || p.neededForOutput

/-- POC uniqueness: no two distinct pool entries that are live have the same POC. -/
def PocUnique (pool : List Picture) : Prop :=
  pool.Pairwise (fun p q => p.live = true → q.live = true → p.getPOC ≠ q.getPOC)

instance (pool : List Picture) : Decidable (PocUnique pool) := by
  unfold PocUnique
  infer_instance

/-- A step that keeps the POC of a pool entry and does not make it live. -/
def Harmless (p p' : Picture) : Prop :=
  p'.getPOC = p.getPOC ∧ p'.addr = p.addr ∧ (p'.live = true → p.live = true)

/-- Every pool entry is a frame picture (not a field) that carries the SPS `sps`. -/
def AllFrames (sps : SPS) (pool : List Picture) : Prop :=
  ∀ p ∈ pool, p.fieldPic = false ∧ p.sps = sps

/-! ## Sessions of the output loop -/

/-- What happens to a variable `iPOCLastDisplay` during a session: it is
incremented, as the skip functions do with their reference parameter when they skip
a leading picture (lines 1706 and 1764; in a session the increment is made on
unbounded integers), or a picture is finished and the block "write output" runs on the pool
as it then stands. `xDecodeSlice` receives `iPOCLastDisplay` by value (line 1013),
so the static of `tryDecodePicture` is not changed by a skip and its sessions
consist of `pass` steps; the step `skipped` covers a caller that lets the
increment through. -/
inductive SessionStep where
  | skipped : SessionStep
  | pass (pool : List Picture) : SessionStep
deriving DecidableEq, Repr

/-- Emissions of a session that starts with `iPOCLastDisplay = last`, oldest first.
A pass that throws ends the session. -/
def runSession : List SessionStep → Int → List Emission
  | [], _ => []
  | .skipped :: rest, last => runSession rest (last + 1)
  | .pass pool :: rest, last =>
    match outputPass pool last with
    | .error _ => []
    | .ok (_, st) => st.emitted ++ runSession rest st.iPOCLastDisplay

/-! ## Sessions of `tryDecodePicture` -/

/-- The decoder together with the static `iPOCLastDisplay` of `tryDecodePicture`
(initially `-MAX_INT`), the POCs emitted so far, oldest first, and the value of
`dpbFullness` computed by the counting loop of each output pass so far. -/
structure Session where
  dec : DecLib := {}
  iPOCLastDisplay : Int := -MAX_INT
  emitted : List Int := []
  passFullness : List Int := []
deriving DecidableEq, Repr

/-- One picture of a single slice through the main loop of `tryDecodePicture`: the
slice is decoded (line 132), the picture is finished (lines 149 and 252) and the
block "write output" runs (lines 255–322). `none` when a null pointer is
dereferenced or the output block throws. -/
def Session.decodePicture (ss : Session) (sps : SPS) (pilot : Slice)
    (keep : Picture → Bool) (rawPoc : Int) : Option Session :=
  let d1 := ss.dec.decodeFirstSlice pilot pilot.tLayer sps keep false rawPoc
  match d1.finishPictureLight with
  | none => none
  | some (d2, _) =>
    match d2.finishPicture with
    | none => none
    | some (d3, _) =>
      match outputPass d3.m_cListPic ss.iPOCLastDisplay with
      | .error _ => none
      | .ok (pool, st) =>
        some { dec := { d3 with m_cListPic := pool },
               iPOCLastDisplay := st.iPOCLastDisplay,
               emitted := ss.emitted ++ emittedPOCs st,
               passFullness := ss.passFullness ++
                 [(passStart d3.m_cListPic ss.iPOCLastDisplay).dpbFullness] }

/-- A sequence of pictures in decode order, each given by its POC and by the
pictures its reference picture set keeps marked as referenced (the input `keep` of
`applyReferencePictureSet`); every picture has its output flag set and temporal
layer 0. -/
def runKeeps (sps : SPS) : List (Int × (Picture → Bool)) → Session → Option Session
  | [], ss => some ss
  | (poc, keep) :: rest, ss =>
    match ss.decodePicture sps { poc := poc, picOutputFlag := true, tLayer := 0 } keep 0 with
    | none => none
    | some ss' => runKeeps sps rest ss'

/-- A sequence of pictures in decode order, each given by its POC and the POCs of
its reference picture set: the pictures of the pool whose POC is not in the
reference picture set are marked unused for reference. -/
def runPictures (sps : SPS) (pics : List (Int × List Int)) (ss : Session) : Option Session :=
  runKeeps sps (pics.map (fun x => (x.1, fun p => decide (p.getPOC ∈ x.2)))) ss

/-- SPS of the hierarchical-B scenario: `numReorderPics = 3`,
`maxDecPicBuffering = 6`. -/
def spsB : SPS := { maxTLayers := 1, numReorderPics := [3], maxDecPicBuffering := [6] }

/-- The hierarchical-B scenario: decode order of POCs `[0, 8, 4, 2, 1, 3, 6, 5, 7]`,
each picture with the reference picture set of the usual GOP-8 structure (the key
pictures 0, 8 and 4 stay referenced, 2 until picture 6 is decoded, the odd pictures
are never kept). -/
def hierB : List (Int × List Int) :=
  [(0, []), (8, [0]), (4, [0, 8]), (2, [0, 4, 8]), (1, [0, 2, 4, 8]),
   (3, [0, 2, 4, 8]), (6, [0, 2, 4, 8]), (5, [0, 4, 6, 8]), (7, [0, 4, 6, 8])]

/-- An SPS with `maxDecPicBuffering = 1` and `numReorderPics = 0`. -/
def spsOne : SPS := { maxTLayers := 1, numReorderPics := [0], maxDecPicBuffering := [1] }

/-- POCs of the pool entries that still await output, in pool order. -/
def pendingPOCs (pool : List Picture) : List Int :=
  (pool.filter (fun p => p.neededForOutput)).map Picture.getPOC

/-- The hierarchical-B decode order with an arbitrary reference marking: `keep i`
is the input of `applyReferencePictureSet` for the picture at position `i`. -/
def hierBKeeps (keep : Nat → Picture → Bool) : List (Int × (Picture → Bool)) :=
  [(0, keep 0), (8, keep 1), (4, keep 2), (2, keep 3), (1, keep 4),
   (3, keep 5), (6, keep 6), (5, keep 7), (7, keep 8)]

/-- The reference marking of `hierB` as an input of `hierBKeeps`. -/
def hierBMarking (i : Nat) (p : Picture) : Bool :=
  decide (p.getPOC ∈ (hierB.getD i (0, [])).2)

/-- State of a session of the scenario: the heap is well formed, the pool holds
frame pictures of `spsB`, and, if `dpbFullness` never exceeded 6 at the start of a
pass, the emitted POCs are `E`, the pending POCs are `P` and `iPOCLastDisplay` is
`d`. -/
def Reached (ss : Session) (E P : List Int) (d : Int) : Prop :=
  ss.dec.WF ∧ AllFrames spsB ss.dec.m_cListPic ∧
  ((∀ f ∈ ss.passFullness, f ≤ 6) →
    ss.emitted = E ∧ pendingPOCs ss.dec.m_cListPic = P ∧ ss.iPOCLastDisplay = d)

/-! ## Skipping for random access (DecLib.cpp 1696–1769) -/

/-- Result of a skip test: the returned flag, the decoder, and the reference
parameters `iSkipFrame` and `iPOCLastDisplay` after the call. -/
structure SkipResult where
  ret : Bool
  dec : DecLib
  iSkipFrame : Int
  iPOCLastDisplay : Int
deriving DecidableEq, Repr

/-- Condition of lines 1729–1736: the NAL unit types that set the anchor to the POC
of the slice. -/
def startsRandomAccess (cfg : Config) (t : NalUnitType) : Bool :=
  if cfg.JVET_M0101_HLS then t == .NAL_UNIT_CODED_SLICE_CRA
  else
    t == .NAL_UNIT_CODED_SLICE_CRA || t == .NAL_UNIT_CODED_SLICE_BLA_W_LP ||
    t == .NAL_UNIT_CODED_SLICE_BLA_N_LP || t == .NAL_UNIT_CODED_SLICE_BLA_W_RADL

/-- Condition of line 1742: the two IDR types. -/
def isIDR (t : NalUnitType) : Bool :=
  t == .NAL_UNIT_CODED_SLICE_IDR_W_RADL || t == .NAL_UNIT_CODED_SLICE_IDR_N_LP

/-- Type test of lines 1759–1761 (and of lines 1128–1130): the RASL types. -/
def isRASL (cfg : Config) (t : NalUnitType) : Bool :=
  if cfg.JVET_M0101_HLS then t == .NAL_UNIT_CODED_SLICE_RASL
  else t == .NAL_UNIT_CODED_SLICE_RASL_R || t == .NAL_UNIT_CODED_SLICE_RASL_N

/-- Embedding of `DecLib::isRandomAccessSkipPicture`. The decrement `iSkipFrame--`
and the increment `iPOCLastDisplay++` are made on `int`s. -/
def DecLib.isRandomAccessSkipPicture (cfg : Config) (s : DecLib)
    (iSkipFrame iPOCLastDisplay : Int) : SkipResult :=
  if iSkipFrame ≠ 0 then
    { ret := true, dec := s, iSkipFrame := wrapInt (iSkipFrame - 1),
      iPOCLastDisplay := iPOCLastDisplay }
  else if s.m_pocRandomAccess = MAX_INT then
    if startsRandomAccess cfg s.m_apcSlicePilot.nalUnitType then
      { ret := false, dec := { s with m_pocRandomAccess := s.m_apcSlicePilot.poc },
        iSkipFrame := iSkipFrame, iPOCLastDisplay := iPOCLastDisplay }
    else if isIDR s.m_apcSlicePilot.nalUnitType then
      { ret := false, dec := { s with m_pocRandomAccess := -MAX_INT },
        iSkipFrame := iSkipFrame, iPOCLastDisplay := iPOCLastDisplay }
    else
      { ret := true, dec := { s with m_warningMessageSkipPicture := true },
        iSkipFrame := iSkipFrame, iPOCLastDisplay := iPOCLastDisplay }
  else if decide (s.m_apcSlicePilot.poc < s.m_pocRandomAccess) &&
      isRASL cfg s.m_apcSlicePilot.nalUnitType then
    { ret := true, dec := s, iSkipFrame := iSkipFrame,
      iPOCLastDisplay := wrapInt (iPOCLastDisplay + 1) }
  else
    { ret := false, dec := s, iSkipFrame := iSkipFrame, iPOCLastDisplay := iPOCLastDisplay }

/-- Embedding of `DecLib::isSkipPictureForBLA`, compiled when `JVET_M0101_HLS` is
off: the returned flag and `iPOCLastDisplay` after the call. -/
def DecLib.isSkipPictureForBLA (s : DecLib) (iPOCLastDisplay : Int) : Bool × Int :=
  if (s.m_associatedIRAPType == .NAL_UNIT_CODED_SLICE_BLA_N_LP ||
      s.m_associatedIRAPType == .NAL_UNIT_CODED_SLICE_BLA_W_LP ||
      s.m_associatedIRAPType == .NAL_UNIT_CODED_SLICE_BLA_W_RADL) &&
      decide (s.m_apcSlicePilot.poc < s.m_pocCRA) &&
      (s.m_apcSlicePilot.nalUnitType == .NAL_UNIT_CODED_SLICE_RASL_R ||
       s.m_apcSlicePilot.nalUnitType == .NAL_UNIT_CODED_SLICE_RASL_N) then
    (true, wrapInt (iPOCLastDisplay + 1))
  else (false, iPOCLastDisplay)

/-! ## The loss-recovery loop of `xDecodeSlice` (DecLib.cpp 1208–1215) -/

/-- Modelled from the spec: `Slice::checkThatAllRefPicsAreAvailable` (Slice.cpp) is
not under src/. For each POC required by the reference picture set, a pool entry
with that POC (`Picture::getPOC`) that is marked as referenced is looked up. The
result is 0 when every required POC is found, and otherwise the first missing POC
plus 1, the encoding that the loop of lines 1211–1214 decodes. The arguments
`printErrors` and `pocRandomAccess` of the call are not part of the model. -/
def checkThatAllRefPicsAreAvailable (pool : List Picture) (rps : List Int) : Int :=
  match rps.find? (fun poc => !pool.any (fun p => decide (p.getPOC = poc) && p.referenced)) with
  | some poc => poc + 1
  | none => 0

/-- Loop of lines 1211–1214, run for at most `fuel` iterations: the arguments of the
calls of `xCreateLostPicture`, in order, and the state after the loop or the error
that a call threw; `none` when the loop is still running after `fuel` calls. `raw k`
is the uninitialised `poc` of a picture created by the call number `k`. -/
def DecLib.recoverLostPictures (firstSPS : SPS) (raw : Nat → Int) :
    Nat → Nat → DecLib → Option (List Int × Except String DecLib)
  | fuel, k, s =>
    let lostPoc := checkThatAllRefPicsAreAvailable s.m_cListPic s.m_apcSlicePilot.rps
    if lostPoc > 0 then
      match fuel with
      | 0 => none
      | fuel + 1 =>
        match s.xCreateLostPicture (lostPoc - 1) firstSPS (raw k) with
        | .error e => some ([lostPoc - 1], .error e)
        | .ok s1 =>
          match DecLib.recoverLostPictures firstSPS raw fuel (k + 1) s1 with
          | none => none
          | some (calls, r) => some ((lostPoc - 1) :: calls, r)
    else some ([], .ok s)

/-! ## `DecLib::xDecodeSlice` (DecLib.cpp 1013–1458) -/

/-- Modelled from the spec: `Slice::getRapPicFlag` (Slice.h) is not under src/. The
slice belongs to a random access point picture: its NAL unit type is a BLA, IDR or
CRA type. -/
def Slice.getRapPicFlag (sl : Slice) : Bool :=
  sl.nalUnitType == .NAL_UNIT_CODED_SLICE_BLA_W_LP ||
  sl.nalUnitType == .NAL_UNIT_CODED_SLICE_BLA_W_RADL ||
  sl.nalUnitType == .NAL_UNIT_CODED_SLICE_BLA_N_LP ||
  sl.nalUnitType == .NAL_UNIT_CODED_SLICE_IDR_W_RADL ||
  sl.nalUnitType == .NAL_UNIT_CODED_SLICE_IDR_N_LP ||
  sl.nalUnitType == .NAL_UNIT_CODED_SLICE_CRA

/-- Modelled from the spec: `Slice::isIRAP` (Slice.h) is not under src/. It holds
for the random access point types. -/
def Slice.isIRAP (sl : Slice) : Bool := sl.getRapPicFlag

/-- Lines 1015–1042: the slice pilot is reset and filled from the slice header.
`parsed` is the slice pilot as `parseSliceHeader` leaves it (`HLSyntaxReader` is not
under src/); the NAL unit type and the temporal layer are those of lines 1030 and
1039. -/
def DecLib.readSliceHeader (s : DecLib) (nalu : InputNALUnit) (parsed : Slice) : DecLib :=
  let pilot := { parsed with nalUnitType := nalu.m_nalUnitType, tLayer := nalu.m_temporalId }
  if s.m_bFirstSliceInPicture then { s with m_uiSliceSegmentIdx := 0, m_apcSlicePilot := pilot }
  else { s with m_apcSlicePilot := pilot }

/-- Lines 1071–1077, compiled when `HEVC_DEPENDENT_SLICES` is on: a dependent slice
of a skipped picture takes the POC of the skipped picture. -/
def DecLib.setSkippedPOC (cfg : Config) (s : DecLib) : DecLib :=
  if cfg.HEVC_DEPENDENT_SLICES && s.m_apcSlicePilot.dependentSliceSegmentFlag &&
      s.m_prevSliceSkipped then
    { s with m_apcSlicePilot := { s.m_apcSlicePilot with poc := s.m_skippedPOC } }
  else s

/-- Condition of lines 1088–1093 under which `NoRaslOutputFlag` is set. The range
test of line 1088 holds for the three BLA and the two IDR types. -/
def DecLib.startsCodedVideoSequence (cfg : Config) (s : DecLib) : Bool :=
  (!cfg.JVET_M0101_HLS &&
    (s.m_apcSlicePilot.nalUnitType == .NAL_UNIT_CODED_SLICE_BLA_W_LP ||
     s.m_apcSlicePilot.nalUnitType == .NAL_UNIT_CODED_SLICE_BLA_W_RADL ||
     s.m_apcSlicePilot.nalUnitType == .NAL_UNIT_CODED_SLICE_BLA_N_LP ||
     s.m_apcSlicePilot.nalUnitType == .NAL_UNIT_CODED_SLICE_IDR_W_RADL ||
     s.m_apcSlicePilot.nalUnitType == .NAL_UNIT_CODED_SLICE_IDR_N_LP)) ||
  (s.m_apcSlicePilot.nalUnitType == .NAL_UNIT_CODED_SLICE_CRA && s.m_bFirstSliceInSequence) ||
  (s.m_apcSlicePilot.nalUnitType == .NAL_UNIT_CODED_SLICE_CRA &&
    s.m_apcSlicePilot.handleCraAsCvsStartFlag)

/-- Lines 1085–1115 on the slice pilot: inference of `NoRaslOutputFlag` and of
`NoOutputPriorPicsFlag` for a random access point picture. -/
def DecLib.inferPilotFlags (cfg : Config) (s : DecLib) : Slice :=
  let p0 := s.m_apcSlicePilot
  if p0.getRapPicFlag then
    let p1 := if s.startsCodedVideoSequence cfg then { p0 with noRaslOutputFlag := true } else p0
    if !s.m_bFirstSliceInBitstream && p1.getRapPicFlag && p1.noRaslOutputFlag then
      if p1.nalUnitType == .NAL_UNIT_CODED_SLICE_CRA then { p1 with noOutputPriorPicsFlag := true }
      else p1
    else { p1 with noOutputPriorPicsFlag := false }
  else p0

/-- Lines 1084–1124: inference of `NoOutputPriorPicsFlag`, with the members
`m_craNoRaslOutputFlag`, `m_lastPOCNoOutputPriorPics` and `m_isNoOutputPriorPics`. -/
def DecLib.inferNoOutputPriorPics (cfg : Config) (s : DecLib) : DecLib :=
  let pilot := s.inferPilotFlags cfg
  let cra :=
    if pilot.getRapPicFlag && pilot.nalUnitType == .NAL_UNIT_CODED_SLICE_CRA then
      pilot.noRaslOutputFlag
    else s.m_craNoRaslOutputFlag
  if pilot.getRapPicFlag && pilot.noOutputPriorPicsFlag then
    { s with m_apcSlicePilot := pilot, m_craNoRaslOutputFlag := cra,
             m_lastPOCNoOutputPriorPics := pilot.poc, m_isNoOutputPriorPics := true }
  else
    { s with m_apcSlicePilot := pilot, m_craNoRaslOutputFlag := cra,
             m_isNoOutputPriorPics := false }

/-- Lines 1126–1137: a RASL picture that follows a CRA picture with
`NoRaslOutputFlag` is not output. -/
def DecLib.inferPicOutputFlag (cfg : Config) (s : DecLib) : DecLib :=
  if isRASL cfg s.m_apcSlicePilot.nalUnitType && s.m_craNoRaslOutputFlag then
    { s with m_apcSlicePilot := { s.m_apcSlicePilot with picOutputFlag := false } }
  else s

/-- Lines 1139–1155: the POC MSB is reset for a CRA picture with `NoRaslOutputFlag`.
The mask `iMaxPOClsb - 1` of line 1146 keeps the low `getBitsForPOC()` bits, which
for fewer than 31 bits is the remainder modulo `2 ^ getBitsForPOC()`. The three
`CHECK`s are the error exits. -/
def DecLib.resetPocMsb (cfg : Config) (s : DecLib) : Except String DecLib :=
  if s.m_apcSlicePilot.nalUnitType == .NAL_UNIT_CODED_SLICE_CRA && s.m_craNoRaslOutputFlag then
    match s.m_parameterSetManager.getPPS s.m_apcSlicePilot.ppsId with
    | none => .error "No PPS present"
    | some pps =>
      match s.m_parameterSetManager.getSPS pps.spsId with
      | none => .error "No SPS present"
      | some sps =>
        let pilot := { s.m_apcSlicePilot with poc := s.m_apcSlicePilot.poc % 2 ^ sps.bitsForPOC }
        if !cfg.JVET_N0415_CTB_ALF && decide (pilot.apsId ≠ -1) &&
            (s.m_parameterSetManager.getAPS pilot.apsId).isNone then
          .error "No APS present"
        else .ok { s with m_apcSlicePilot := pilot }
  else .ok s

/-- Lines 1015–1155 of `xDecodeSlice`: the state when the skip tests are reached.
`xUpdatePreviousTid0POC` and the setters of lines 1058 and 1081–1082 write no
modelled member. -/
def DecLib.sliceHeaderStage (cfg : Config) (s : DecLib) (nalu : InputNALUnit)
    (parsed : Slice) : Except String DecLib :=
  ((((s.readSliceHeader nalu parsed).setSkippedPOC cfg).inferNoOutputPriorPics cfg).inferPicOutputFlag
    cfg).resetPocMsb cfg

/-- Embedding of `DecLib::xUpdateRasInit` (lines 681–694); the flag
`pendingRasInit` of the slice is not modelled. -/
def DecLib.xUpdateRasInit (s : DecLib) : DecLib :=
  let s1 := if s.m_apcSlicePilot.poc > s.m_lastRasPoc then { s with m_lastRasPoc := MAX_INT } else s
  if s.m_apcSlicePilot.isIRAP then { s1 with m_lastRasPoc := s.m_apcSlicePilot.poc } else s1

/-- What `xDecodeSlice` takes from outside the modelled state: the SPS returned by
`getFirstSPS()`, the uninitialised `poc` of the picture created by the call number
`k` of `xCreateLostPicture`, the number of iterations granted to the loss-recovery
loop, and the embedding of the member function `xActivateParameterSets` called in
line 1232, passed as an input so that a statement about `xDecodeSlice` holds for
every embedding of it. -/
structure SliceEnv where
  firstSPS : SPS
  raw : Nat → Int
  fuel : Nat
  xActivateParameterSets : DecLib → Except String DecLib

/-- Result of `xDecodeSlice`: the returned flag, the decoder and the reference
parameter `iSkipFrame` after the call (`iPOCLastDisplay` is passed by value). -/
structure SliceResult where
  ret : Bool
  dec : DecLib
  iSkipFrame : Int
deriving DecidableEq, Repr

/-- The slice is not a dependent slice segment (the test guarded by
`HEVC_DEPENDENT_SLICES` in lines 1190 and 1218). -/
def DecLib.independentSlice (cfg : Config) (s : DecLib) : Bool :=
  !(cfg.HEVC_DEPENDENT_SLICES && s.m_apcSlicePilot.dependentSliceSegmentFlag)

/-- Condition of lines 1190–1192: the slice starts a picture while a picture is
being decoded. -/
def DecLib.startsNewPicture (cfg : Config) (s : DecLib) : Bool :=
  s.independentSlice cfg && s.m_apcSlicePilot.sliceCurStartCtuTsAddr == 0 &&
    !s.m_bFirstSliceInPicture

/-- Lines 1208–1457 of `xDecodeSlice`, for a slice that is decoded: loss recovery,
activation, binding of the current picture and the closing assignments. The
conversion of the slice addresses, the construction of the reference lists and
`decompressSlice` (lines 1245–1452) write no modelled member. `none` when the
loss-recovery loop is still running after `env.fuel` calls. -/
def DecLib.decodeSlice (cfg : Config) (s : DecLib) (nalu : InputNALUnit) (env : SliceEnv)
    (iSkipFrame : Int) : Option (Except String SliceResult) :=
  match s.recoverLostPictures env.firstSPS env.raw env.fuel 0 with
  | none => none
  | some (_, .error e) => some (.error e)
  | some (_, .ok s1) =>
    let s2 := if s1.independentSlice cfg then { s1 with m_prevPOC := s1.m_apcSlicePilot.poc } else s1
    let s3 := if s2.m_bFirstSliceInPicture then s2.xUpdateRasInit else s2
    match env.xActivateParameterSets s3 with
    | .error e => some (.error e)
    | .ok s4 =>
      let s5 := { s4 with m_bFirstSliceInSequence := false, m_bFirstSliceInBitstream := false }
      let s6 := s5.bindPicture nalu.m_temporalId
      some (.ok { ret := false,
                  dec := { s6 with m_bFirstSliceInPicture := false,
                                   m_uiSliceSegmentIdx := s6.m_uiSliceSegmentIdx + 1 },
                  iSkipFrame := iSkipFrame })

/-- Embedding of `DecLib::xDecodeSlice`. The result is `none` when the loss-recovery
loop is still running after `env.fuel` calls, and an error when a `CHECK` fires. -/
def DecLib.xDecodeSlice (cfg : Config) (s : DecLib) (nalu : InputNALUnit) (parsed : Slice)
    (env : SliceEnv) (iSkipFrame iPOCLastDisplay : Int) : Option (Except String SliceResult) :=
  match s.sliceHeaderStage cfg nalu parsed with
  | .error e => some (.error e)
  | .ok s1 =>
    let r := s1.isRandomAccessSkipPicture cfg iSkipFrame iPOCLastDisplay
    if r.ret then
      some (.ok { ret := false,
                  dec := { r.dec with m_prevSliceSkipped := true,
                                      m_skippedPOC := r.dec.m_apcSlicePilot.poc },
                  iSkipFrame := r.iSkipFrame })
    else if !cfg.JVET_M0101_HLS && (r.dec.isSkipPictureForBLA r.iPOCLastDisplay).1 then
      some (.ok { ret := false,
                  dec := { r.dec with m_prevSliceSkipped := true,
                                      m_skippedPOC := r.dec.m_apcSlicePilot.poc },
                  iSkipFrame := r.iSkipFrame })
    else
      let s2 := { r.dec with m_prevSliceSkipped := false }
      if s2.startsNewPicture cfg then
        if s2.m_prevPOC ≥ s2.m_pocRandomAccess then
          some (.ok { ret := true, dec := { s2 with m_prevPOC := s2.m_apcSlicePilot.poc },
                      iSkipFrame := r.iSkipFrame })
        else
          DecLib.decodeSlice cfg { s2 with m_prevPOC := s2.m_apcSlicePilot.poc } nalu env
            r.iSkipFrame
      else DecLib.decodeSlice cfg s2 nalu env r.iSkipFrame

/-! ## Example states -/

/-- An SPS with one temporal sub-layer, `maxDecPicBuffering = 2` and
`numReorderPics = 1`. -/
def sps2 : SPS := { maxTLayers := 1, numReorderPics := [1], maxDecPicBuffering := [2] }

/-- A decoded picture that is still referenced and awaits output. -/
def picBusy (a : Nat) (poc : Int) : Picture :=
  { addr := a, poc := poc, referenced := true, neededForOutput := true,
    reconstructed := true, sps := sps2 }

/-- A decoded picture that was output and is no longer referenced. -/
def picIdle (a : Nat) (poc : Int) : Picture :=
  { addr := a, poc := poc, referenced := false, neededForOutput := false,
    reconstructed := true, sps := sps2 }

/-- A full pool whose second entry is the first reusable one. -/
def stReuse : DecLib :=
  { m_cListPic := [picBusy 0 4, picIdle 1 2, picIdle 2 3], nextAddr := 3 }

/-- A full pool without a reusable entry. -/
def stFull : DecLib :=
  { m_cListPic := [picBusy 0 4, picBusy 1 8], nextAddr := 2 }

/-- A decoded picture that awaits output and is not referenced. -/
def picPending (a : Nat) (poc : Int) : Picture :=
  { addr := a, poc := poc, referenced := false, neededForOutput := true,
    reconstructed := true, sps := sps2 }

/-- Three decoded pictures awaiting output, in POC order, under an SPS with
`numReorderPics = 1` and `maxDecPicBuffering = 2`. -/
def poolThree : List Picture := [picPending 0 2, picPending 1 4, picPending 2 8]

/-- A full pool whose second entry is reusable and still owns a slice. -/
def stLost : DecLib :=
  { m_cListPic := [picBusy 0 4,
      { picIdle 1 2 with slices := [{ poc := 2 }], csSlice := some 0 }],
    nextAddr := 2 }

/-- A pool below the bound. -/
def stRoom : DecLib :=
  { m_cListPic := [picBusy 0 4], nextAddr := 1 }

/-! ## Effect of an output pass on the pool -/

/-- POCs of the pool entries that a pass changed, in pool order: `pool` is the pool
before the pass and `pool'` the pool after it. -/
def changedPOCs (pool pool' : List Picture) : List Int :=
  ((pool.zip pool').filter (fun x => decide (x.1 ≠ x.2))).map (fun x => x.1.getPOC)

/-- Relation between a pool entry `p` before a pass and the same entry `p'` after
it: the entry is unchanged, or it awaited output and was emitted, which clears
`neededForOutput`, clears `reconstructed` when the picture is not referenced, keeps
`reconstructed` when it is referenced, and writes no other member. -/
def EmitEffect (p p' : Picture) : Prop :=
  p' = p ∨ (p.neededForOutput = true ∧
    p' = { p with neededForOutput := false, reconstructed := p.referenced && p.reconstructed })

/-- A picture that is being decoded: it is referenced, owns its slice, and is not
yet reconstructed. -/
def picCurrent (a : Nat) (poc : Int) (outputFlag : Bool) : Picture :=
  { addr := a, poc := poc, referenced := true,
    slices := [{ poc := poc, picOutputFlag := outputFlag }], csSlice := some 0, sps := sps2 }

/-- A decoder whose current picture, of POC 2, stands behind a decoded picture of
POC 4 in the pool. -/
def stCurrent : DecLib :=
  { m_cListPic := [picBusy 0 4, picCurrent 1 2 true], m_pcPic := some 1,
    m_bFirstSliceInPicture := false, m_uiSliceSegmentIdx := 1, nextAddr := 2 }

/-! ## Loss recovery: source selection and example states -/

/-- Distance `abs(rpcPic->getPOC() - iLostPoc)` of lines 710 and 719. -/
def pocDistance (iLostPoc : Int) (p : Picture) : Int := ((p.getPOC - iLostPoc).natAbs : Int)

/-- The pool entries that the first loop of `xCreateLostPicture` compares (line
710): the POC differs from the lost POC and from the POC of the slice pilot. -/
def Picture.candidate (iLostPoc pilotPoc : Int) (p : Picture) : Prop :=
  pocDistance iLostPoc p ≠ 0 ∧ p.getPOC ≠ pilotPoc

/-- Lines 722 and 728–732 on the substitute picture: the reconstruction of the
source `src`, when there is one, is copied into it, slice 0 takes the lost POC, and
the three flags are set. -/
def fillFields (iLostPoc : Int) (src : Option Picture) (p : Picture) : Picture :=
  { p with recoBuf := (match src with
                       | some rpcPic => rpcPic.recoBuf
                       | none => p.recoBuf),
           referenced := true, slices := setFirstSlicePOC iLostPoc p.slices,
           reconstructed := true, neededForOutput := true }

/-- The pool entry whose reconstruction `xCreateLostPicture` copies (lines 705–725),
found in the pool as it stands after the substitute buffer was acquired; `none`
when the second loop ends without a copy. -/
def DecLib.lostPictureSource (s : DecLib) (iLostPoc : Int) (firstSPS : SPS) (rawPoc : Int) :
    Option Picture :=
  copySource iLostPoc s.m_apcSlicePilot.poc
    (closestPocLoop iLostPoc s.m_apcSlicePilot.poc
      (s.xGetNewPicBuffer firstSPS 0 rawPoc).1.m_cListPic 1000000)
    (s.xGetNewPicBuffer firstSPS 0 rawPoc).1.m_cListPic

/-- State of the decoder when `xDecodeSlice` reaches the loss-recovery loop of line
1208: `none` when the header stage throws, the slice is skipped, or the call returns
at the new-picture boundary. -/
def DecLib.stateAtRecovery (cfg : Config) (s : DecLib) (nalu : InputNALUnit) (parsed : Slice)
    (iSkipFrame iPOCLastDisplay : Int) : Option DecLib :=
  match s.sliceHeaderStage cfg nalu parsed with
  | .error _ => none
  | .ok s1 =>
    let r := s1.isRandomAccessSkipPicture cfg iSkipFrame iPOCLastDisplay
    if r.ret then none
    else if !cfg.JVET_M0101_HLS && (r.dec.isSkipPictureForBLA r.iPOCLastDisplay).1 then none
    else
      let s2 := { r.dec with m_prevSliceSkipped := false }
      if s2.startsNewPicture cfg then
        if s2.m_prevPOC ≥ s2.m_pocRandomAccess then none
        else some { s2 with m_prevPOC := s2.m_apcSlicePilot.poc }
      else some s2

/-- An SPS with one temporal sub-layer and `maxDecPicBuffering = 3`. -/
def sps3 : SPS := { maxTLayers := 1, numReorderPics := [1], maxDecPicBuffering := [3] }

/-- A full pool of three pictures while a slice of POC 7 is being decoded: POC 4 is
referenced, POC 3 awaits output and is no longer referenced, and the third entry is
a reusable buffer that still owns a slice. The reconstruction buffers hold 40, 30
and 90. -/
def stNear : DecLib :=
  { m_cListPic := [{ picBusy 0 4 with recoBuf := 40 }, { picPending 1 3 with recoBuf := 30 },
      { picIdle 2 9 with slices := [{ poc := 9 }], csSlice := some 0, recoBuf := 90 }],
    m_apcSlicePilot := { poc := 7, rps := [4, 3] }, m_pocRandomAccess := 0, nextAddr := 3 }

/-- A full pool with two reusable buffers that still own a slice, while a slice of
POC 5 whose reference picture set requires the POCs 4 and 3 is being decoded. -/
def stLost2 : DecLib :=
  { m_cListPic := [picBusy 0 4,
      { picIdle 1 2 with slices := [{ poc := 2 }], csSlice := some 0 },
      { picIdle 2 1 with slices := [{ poc := 1 }], csSlice := some 0 }],
    m_apcSlicePilot := { poc := 5, rps := [4, 3] }, m_pocRandomAccess := 0, nextAddr := 3 }

/-- Environment of the scenarios: pictures of a single slice under `spsB` whose
parameter sets are present, so that the activation of line 1232 is the first-slice
branch `activateFirstSlice`; the reference picture set keeps the pictures whose POC
it lists. -/
def envB : SliceEnv :=
  { firstSPS := spsB, raw := fun _ => 0, fuel := 8,
    xActivateParameterSets := fun s =>
      .ok (s.activateFirstSlice spsB (fun p => decide (p.getPOC ∈ s.m_apcSlicePilot.rps))
        false 0) }

/-- NAL unit header of an IDR slice. -/
def naluIDR : InputNALUnit := { m_nalUnitType := .NAL_UNIT_CODED_SLICE_IDR_W_RADL }

/-- NAL unit header of a trailing slice, for either setting of `JVET_M0101_HLS`. -/
def naluTrail (cfg : Config) : InputNALUnit :=
  { m_nalUnitType := if cfg.JVET_M0101_HLS then .NAL_UNIT_CODED_SLICE_TRAIL
                     else .NAL_UNIT_CODED_SLICE_TRAIL_R }

/-- NAL unit header of a RASL slice, for either setting of `JVET_M0101_HLS`. -/
def naluRASL (cfg : Config) : InputNALUnit :=
  { m_nalUnitType := if cfg.JVET_M0101_HLS then .NAL_UNIT_CODED_SLICE_RASL
                     else .NAL_UNIT_CODED_SLICE_RASL_R }

/-- NAL unit header of a CRA slice. -/
def naluCRA : InputNALUnit := { m_nalUnitType := .NAL_UNIT_CODED_SLICE_CRA }

/-- The decoder after an IDR picture of POC 0 was decoded and finished under `spsB`.
`noRasl` is the `NoRaslOutputFlag` that the inference of lines 1085–1097 gave the
slice: it is set for an IDR slice when `JVET_M0101_HLS` is off. -/
def stAfterIDRWith (noRasl : Bool) : DecLib :=
  { m_iMaxRefPicNum := 6, m_pocRandomAccess := -MAX_INT,
    m_cListPic := [{ addr := 0, poc := 0, referenced := true, neededForOutput := true,
                     reconstructed := true, csSlice := some 0, sps := spsB,
                     slices := [{ poc := 0, noRaslOutputFlag := noRasl,
                                  nalUnitType := .NAL_UNIT_CODED_SLICE_IDR_W_RADL }] }],
    m_apcSlicePilot := { poc := 0, noRaslOutputFlag := noRasl,
                         nalUnitType := .NAL_UNIT_CODED_SLICE_IDR_W_RADL },
    m_pcPic := some 0, m_prevPOC := 0, m_bFirstSliceInPicture := true,
    m_uiSliceSegmentIdx := 1, nextAddr := 1, m_lastRasPoc := 0,
    m_bFirstSliceInSequence := false, m_bFirstSliceInBitstream := false }

/-- The decoder after an IDR picture of POC 0 was decoded and finished under `spsB`
with `JVET_M0101_HLS` on. -/
def stAfterIDR : DecLib := stAfterIDRWith false

/-- The decoder when the slice of POC 2 of the lost-reference scenario, whose
reference picture set requires the POCs 0 and 1, reaches the loss-recovery loop. -/
def stAtLoss : DecLib :=
  { stAfterIDR with
    m_uiSliceSegmentIdx := 0,
    m_apcSlicePilot := { poc := 2, rps := [0, 1], nalUnitType := .NAL_UNIT_CODED_SLICE_TRAIL } }

/-! ## Example states of the skip controller -/

/-- A decoder whose anchor is set to 8 while a slice of POC `poc` and type `t` is
in the slice pilot. -/
def stAnchor (poc : Int) (t : NalUnitType) : DecLib :=
  { m_pocRandomAccess := 8, m_apcSlicePilot := { poc := poc, nalUnitType := t },
    m_cListPic := [picBusy 0 8], nextAddr := 1 }

/-- A decoder whose anchor is 8, after the picture of POC 8 was decoded and
finished. -/
def stLeading : DecLib :=
  { m_pocRandomAccess := 8, m_cListPic := [picBusy 0 8], m_pcPic := some 0,
    m_prevPOC := 8, m_bFirstSliceInPicture := true, m_uiSliceSegmentIdx := 1, nextAddr := 1 }

/-- A decoder at the start of the bitstream with a slice of POC `poc` and type `t`
in the slice pilot. -/
def stStart (poc : Int) (t : NalUnitType) : DecLib :=
  { m_apcSlicePilot := { poc := poc, nalUnitType := t } }

/-! ## Runs of `xDecodeSlice` -/

/-- The NAL unit type is neither CRA nor a BLA type nor an IDR type: with the anchor
unset, the last branch of lines 1729–1754 is taken. -/
def isInvalidEntryType (t : NalUnitType) : Bool :=
  !(t == .NAL_UNIT_CODED_SLICE_CRA || t == .NAL_UNIT_CODED_SLICE_BLA_W_LP ||
    t == .NAL_UNIT_CODED_SLICE_BLA_N_LP || t == .NAL_UNIT_CODED_SLICE_BLA_W_RADL ||
    t == .NAL_UNIT_CODED_SLICE_IDR_W_RADL || t == .NAL_UNIT_CODED_SLICE_IDR_N_LP)

/-- The warning of line 1751 was written between the states `before` and `after`:
`m_warningMessageSkipPicture` is assigned only in line 1752, next to the message,
and only when it was false. -/
def DecLib.warned (before after : DecLib) : Bool :=
  !before.m_warningMessageSkipPicture && after.m_warningMessageSkipPicture

/-- A run of calls of `xDecodeSlice`: the decoder and `iSkipFrame` after the last
call, the values returned so far, oldest first, and the number of times the warning
of line 1751 was written. -/
structure SliceRun where
  dec : DecLib
  iSkipFrame : Int := 0
  rets : List Bool := []
  warnings : Nat := 0
deriving DecidableEq, Repr

/-- The calls of `xDecodeSlice` for a sequence of slice NAL units, each given by its
header and its parsed slice header, one after the other on the same decoder; the
run ends at the first call that throws. -/
def sliceRun (cfg : Config) (env : SliceEnv) (iPOCLastDisplay : Int) :
    List (InputNALUnit × Slice) → SliceRun → Option (Except String SliceRun)
  | [], st => some (.ok st)
  | (nalu, parsed) :: rest, st =>
    match st.dec.xDecodeSlice cfg nalu parsed env st.iSkipFrame iPOCLastDisplay with
    | none => none
    | some (.error e) => some (.error e)
    | some (.ok r) =>
      sliceRun cfg env iPOCLastDisplay rest
        { dec := r.dec, iSkipFrame := r.iSkipFrame, rets := st.rets ++ [r.ret],
          warnings := st.warnings + (if st.dec.warned r.dec then 1 else 0) }

/-! ## The outcomes of `xDecodeSlice` after the header stage -/

/-- The slice is skipped by one of the two skip tests of lines 1159 and 1167, made
on the state `s1` that the header stage leaves. -/
def DecLib.sliceSkipped (cfg : Config) (s1 : DecLib) (iSkipFrame iPOCLastDisplay : Int) : Bool :=
  let r := s1.isRandomAccessSkipPicture cfg iSkipFrame iPOCLastDisplay
  r.ret || (!cfg.JVET_M0101_HLS && (r.dec.isSkipPictureForBLA r.iPOCLastDisplay).1)

/-- What `xDecodeSlice` returns for a skipped slice (lines 1161–1163 and
1169–1171). -/
def DecLib.skippedResult (cfg : Config) (s1 : DecLib) (iSkipFrame iPOCLastDisplay : Int) :
    SliceResult :=
  let r := s1.isRandomAccessSkipPicture cfg iSkipFrame iPOCLastDisplay
  let d := r.dec
  { ret := false,
    dec := { d with m_prevSliceSkipped := true, m_skippedPOC := d.m_apcSlicePilot.poc },
    iSkipFrame := r.iSkipFrame }

/-- The decoder at the boundary test of line 1190, for a slice that is not skipped. -/
def DecLib.afterSkipTests (cfg : Config) (s1 : DecLib) (iSkipFrame iPOCLastDisplay : Int) :
    DecLib :=
  let d := (s1.isRandomAccessSkipPicture cfg iSkipFrame iPOCLastDisplay).dec
  { d with m_prevSliceSkipped := false }

/-- Condition of lines 1190–1195 under which `xDecodeSlice` returns true. -/
def DecLib.boundaryReached (cfg : Config) (s1 : DecLib) (iSkipFrame iPOCLastDisplay : Int) :
    Bool :=
  let s2 := s1.afterSkipTests cfg iSkipFrame iPOCLastDisplay
  s2.startsNewPicture cfg && decide (s2.m_prevPOC ≥ s2.m_pocRandomAccess)

/-- What `xDecodeSlice` returns at a new-picture boundary (lines 1198–1199). -/
def DecLib.boundaryResult (cfg : Config) (s1 : DecLib) (iSkipFrame iPOCLastDisplay : Int) :
    SliceResult :=
  let s2 := s1.afterSkipTests cfg iSkipFrame iPOCLastDisplay
  { ret := true, dec := { s2 with m_prevPOC := s2.m_apcSlicePilot.poc },
    iSkipFrame := (s1.isRandomAccessSkipPicture cfg iSkipFrame iPOCLastDisplay).iSkipFrame }

/-- The decoder that `xDecodeSlice` passes to `xActivateParameterSets` in line 1232,
from the state `s1` that the loss-recovery loop leaves (lines 1217–1229). -/
def DecLib.beforeActivation (cfg : Config) (s1 : DecLib) : DecLib :=
  let s2 := if s1.independentSlice cfg then { s1 with m_prevPOC := s1.m_apcSlicePilot.poc } else s1
  if s2.m_bFirstSliceInPicture then s2.xUpdateRasInit else s2

/-! ## `DecLib::xActivateParameterSets` (DecLib.cpp 741–986) -/

/-- Loop of `xParsePrefixSEImessages` (lines 1003–1009): the messages parsed from
the buffered NAL unit at the front are appended to the message list, and the NAL
unit is popped. -/
def parsePrefixLoop : List (InputNALUnit × List SEI) → List SEI → List SEI
  | [], seis => seis
  | (_, msgs) :: rest, seis => parsePrefixLoop rest (seis ++ msgs)

/-- Embedding of `DecLib::xParsePrefixSEImessages`. An entry of `m_prefixSEINALUs`
is a buffered NAL unit with the messages that `SEIReader::parseSEImessage` (not
under src/) reads from it. The loop ends with an empty queue. -/
def DecLib.xParsePrefixSEImessages (s : DecLib) : DecLib :=
  { s with m_SEIs := parsePrefixLoop s.m_prefixSEINALUs s.m_SEIs, m_prefixSEINALUs := [] }

/-- Lines 874–876: the values of `m_picStruct` that stand for a field. -/
def isFieldPicStruct (n : Nat) : Bool :=
  n == 1 || n == 2 || n == 9 || n == 10 || n == 11 || n == 12

/-- Lines 865–878: `isField` is taken from the first picture timing message of
`m_SEIs`, and is false when there is none. -/
def fieldFlag (seis : List SEI) : Bool :=
  match seis.find? (fun m => m.payloadType == .PICTURE_TIMING) with
  | some m => isFieldPicStruct m.m_picStruct
  | none => false

/-- What `xActivateParameterSets` takes from outside the modelled state: the results
of `ParameterSetManager::activatePPS` and `activateAPS` (Slice.cpp, not under src/),
the pictures that the reference picture set of a slice keeps, and the uninitialised
`poc` of a picture that `xGetNewPicBuffer` creates. -/
structure ActivationEnv where
  activatePPS : Int → Bool → Bool
  activateAPS : Int → Bool
  keep : Slice → Picture → Bool
  rawPoc : Int

/-- Result of `xActivateParameterSets`: the decoder after the call or at the point
where it aborts, the message of the `CHECK`, `THROW` or `EXIT` that aborts it, and
the pictures returned by the calls of `xGetNewPicBuffer` that were made. -/
structure ActResult where
  dec : DecLib
  error : Option String := none
  acquired : List Nat := []
deriving DecidableEq, Repr

/-- Lines 778–788 and 793–801: an APS id that is present has its changed flag
cleared, is entered in the array `apss` and is activated. The flag of the result is
false when an activation fails. -/
def activateApsIds (aenv : ActivationEnv) :
    List Int → ParameterSetManager → ParameterSetManager × Bool
  | [], m => (m, true)
  | id :: rest, m =>
    match m.getAPS id with
    | none => activateApsIds aenv rest m
    | some _ =>
      let m1 := m.clearAPSChangedFlag id
      let m2 := { m1 with apss := id :: m1.apss }
      if aenv.activateAPS id then activateApsIds aenv rest m2 else (m2, false)

/-- Lines 771–809: activation of the APSs of the slice pilot. With
`JVET_N0415_CTB_ALF` these are the luma ids followed by the chroma id (the call
`getApsMap()->clear()` resets the active ids, which are not modelled); without it,
the APS of `getAPSId()` when it is present. -/
def activateAPSs (cfg : Config) (aenv : ActivationEnv) (pilot : Slice)
    (m : ParameterSetManager) : ParameterSetManager × Bool :=
  if cfg.JVET_N0415_CTB_ALF then
    activateApsIds aenv (pilot.tileGroupApsIdLuma ++ [pilot.tileGroupApsIdChroma]) m
  else
    match m.getAPS pilot.apsId with
    | none => (m, true)
    | some _ => (m.clearAPSChangedFlag pilot.apsId, aenv.activateAPS pilot.apsId)

/-- Lines 816–821: the bit depth test made when `RExt__HIGH_BIT_DEPTH_SUPPORT` is
0. -/
def needsHighBitDepth (cfg : Config) (sps : SPS) : Bool :=
  !cfg.RExt__HIGH_BIT_DEPTH_SUPPORT &&
    (sps.extendedPrecisionProcessingFlag || decide (sps.bitDepthLuma > 12) ||
      decide (sps.bitDepthChroma > 12))

/-- Lines 847–855 and 885 on the current picture: `cs->pps`, `cs->aps` (without
`JVET_N0415_CTB_ALF`) and the messages received for the picture. -/
def attachParameterSets (cfg : Config) (pps : PPS) (aps : Option Int) (seis : List SEI)
    (p : Picture) : Picture :=
  { p with pps := pps, aps := if cfg.JVET_N0415_CTB_ALF then p.aps else aps, SEIs := seis }

/-- Lines 745–747: with `JVET_N0415_CTB_ALF` the array `getAPSs()` is set to null
pointers. -/
def resetApss (cfg : Config) (m : ParameterSetManager) : ParameterSetManager :=
  if cfg.JVET_N0415_CTB_ALF then { m with apss := [] } else m

/-- The APS test of lines 749–753, made without `JVET_N0415_CTB_ALF`, fails. -/
def DecLib.apsMissing (cfg : Config) (s : DecLib) : Bool :=
  !cfg.JVET_N0415_CTB_ALF && decide (s.m_apcSlicePilot.apsId ≠ -1) &&
    (s.m_parameterSetManager.getAPS s.m_apcSlicePilot.apsId).isNone

/-- Lines 823–886 of the first-slice branch: a picture is acquired from the pool,
the reference picture set is applied, the slice pilot becomes slice 0 of the picture
(`activateFirstSlice`; the `CHECK` of line 837 is made on the picture that owns the
one slice `allocateNewSlice` gave it), and the parameter sets and the received
messages are attached. -/
def DecLib.acquireAndAttach (cfg : Config) (aenv : ActivationEnv) (s : DecLib) (sps : SPS)
    (pps : PPS) : ActResult :=
  let pilot := s.m_apcSlicePilot
  let r := s.xGetNewPicBuffer sps pilot.tLayer aenv.rawPoc
  if s.m_uiSliceSegmentIdx ≠ 0 then
    let pool := applyReferencePictureSet (aenv.keep pilot) r.1.m_cListPic
    let pool := updateAt r.2 (fun p => { p with slices := [{}] }) pool
    { dec := { r.1 with m_pcPic := some r.2, m_cListPic := pool },
      error := some "Invalid number of slices", acquired := [r.2] }
  else
    let s3 := s.activateFirstSlice sps (aenv.keep pilot) (fieldFlag s.m_SEIs) aenv.rawPoc
    let aps := (s.m_parameterSetManager.getAPS pilot.apsId).map (fun _ => pilot.apsId)
    let pool := updateAt r.2 (attachParameterSets cfg pps aps s.m_SEIs) s3.m_cListPic
    { dec := { s3 with m_cListPic := pool, m_SEIs := [] }, acquired := [r.2] }

/-- First-slice branch of `xActivateParameterSets` (lines 743–917). The steps are
those of the source, in order: the APS array is reset or the APS is checked, the PPS
and the SPS are looked up (`CHECK`s of lines 756 and 759), their changed flags are
cleared, the PPS and the APSs are activated, the buffered prefix messages are
parsed, the bit depth is tested, and a picture is acquired and set up
(`acquireAndAttach`). The creation of the tools (lines 858–863 and 888–910) writes
no modelled member. -/
def DecLib.firstSliceActivation (cfg : Config) (aenv : ActivationEnv) (s : DecLib) :
    ActResult :=
  let pilot := s.m_apcSlicePilot
  let m1 := resetApss cfg s.m_parameterSetManager
  let s1 := { s with m_parameterSetManager := m1 }
  if s.apsMissing cfg then { dec := s1, error := some "No APS present" }
  else
    match m1.getPPS pilot.ppsId with
    | none => { dec := s1, error := some "No PPS present" }
    | some pps =>
      match m1.getSPS pps.spsId with
      | none => { dec := s1, error := some "No SPS present" }
      | some sps =>
        let m2 := (m1.clearSPSChangedFlag sps.spsId).clearPPSChangedFlag pps.ppsId
        if !aenv.activatePPS pilot.ppsId pilot.isIRAP then
          { dec := { s with m_parameterSetManager := m2 },
            error := some "Parameter set activation failed!" }
        else
          let a := activateAPSs cfg aenv pilot m2
          if !a.2 then
            { dec := { s with m_parameterSetManager := a.1 },
              error := some "APS activation failed!" }
          else
            let s2 := DecLib.xParsePrefixSEImessages { s with m_parameterSetManager := a.1 }
            if needsHighBitDepth cfg sps then
              { dec := s2,
                error := some "High bit depth support must be enabled at compile-time in order to decode this bitstream\n" }
            else
              s2.acquireAndAttach cfg aenv sps pps

/-- Modelled from the spec: `Picture::allocateNewSlice` and
`Picture::swapSliceObject` (Picture.cpp, not under src/) as lines 922–936 use them: a
slice is appended to the slices of the picture, the slice pilot takes its place, and
`cs->slice` is this slice. The slice takes the parameter sets of the picture. -/
def attachLaterSlice (pilot : Slice) (idx : Nat) (p : Picture) : Picture :=
  { p with slices := p.slices ++ [pilot], csSlice := some idx }

/-- Lines 958–972: the changed flag of an APS is set. With `JVET_N0415_CTB_ALF` every
id below `MAX_NUM_APS` with an APS in the store is tested, without it the APS of the
picture when it has one. -/
def apsChangedMidPicture (cfg : Config) (m : ParameterSetManager) (p : Picture) : Bool :=
  if cfg.JVET_N0415_CTB_ALF then
    (List.range cfg.MAX_NUM_APS).any
      (fun i => (m.getAPS (i : Int)).isSome && m.getAPSChangedFlag (i : Int))
  else
    match p.aps with
    | some id => m.getAPSChangedFlag id
    | none => false

/-- Lines 977–984 on the messages of the current picture: the decoding unit
information messages are extracted and inserted again at the end. -/
def reorderDecodingUnitInfo (p : Picture) : Picture :=
  { p with SEIs := p.SEIs.filter (fun m => m.payloadType != .DECODING_UNIT_INFO) ++
                   p.SEIs.filter (fun m => m.payloadType == .DECODING_UNIT_INFO) }

/-- Later-slice branch of `xActivateParameterSets` (lines 919–985): the slice pilot
is attached to the current picture (`CHECK` of line 923), the changed flags of the
parameter sets of the picture are tested (`EXIT`s of lines 951, 955 and 964), and
the buffered prefix messages are parsed. The dereference of a null `m_pcPic`, for
which the source has no defined behaviour, is reported as an error. -/
def DecLib.laterSliceActivation (cfg : Config) (s : DecLib) : ActResult :=
  match s.m_pcPic.bind s.pic? with
  | none => { dec := s, error := some "m_pcPic is a null pointer" }
  | some p =>
    if p.slices.length + 1 ≠ s.m_uiSliceSegmentIdx + 1 then
      let pool := updateAt p.addr (fun q => { q with slices := q.slices ++ [{}] }) s.m_cListPic
      { dec := { s with m_cListPic := pool }, error := some "Invalid number of slices" }
    else
      let pool := updateAt p.addr (attachLaterSlice s.m_apcSlicePilot s.m_uiSliceSegmentIdx)
        s.m_cListPic
      let s1 := { s with m_cListPic := pool }
      let m := s.m_parameterSetManager
      if m.getSPSChangedFlag p.sps.spsId then
        { dec := s1, error := some "Error - a new SPS has been decoded while processing a picture" }
      else if m.getPPSChangedFlag p.pps.ppsId then
        { dec := s1, error := some "Error - a new PPS has been decoded while processing a picture" }
      else if apsChangedMidPicture cfg m p then
        { dec := s1, error := some "Error - a new APS has been decoded while processing a picture" }
      else
        let s2 := s1.xParsePrefixSEImessages
        if s2.m_SEIs.isEmpty then { dec := s2 }
        else
          { dec := { s2 with m_cListPic := updateAt p.addr reorderDecodingUnitInfo s2.m_cListPic,
                             m_SEIs := [] } }

/-- Embedding of `DecLib::xActivateParameterSets`. -/
def DecLib.xActivateParameterSets (cfg : Config) (aenv : ActivationEnv) (s : DecLib) :
    ActResult :=
  if s.m_bFirstSliceInPicture then s.firstSliceActivation cfg aenv
  else s.laterSliceActivation cfg

/-- The result of an activation as the value of the call in line 1232 of
`xDecodeSlice`. -/
def ActResult.toExcept (r : ActResult) : Except String DecLib :=
  match r.error with
  | some e => .error e
  | none => .ok r.dec

/-- The environment of `xDecodeSlice` whose activation is the embedding
`DecLib.xActivateParameterSets`. -/
def sliceEnvOf (cfg : Config) (aenv : ActivationEnv) (firstSPS : SPS) (raw : Nat → Int)
    (fuel : Nat) : SliceEnv :=
  { firstSPS := firstSPS, raw := raw, fuel := fuel,
    xActivateParameterSets := fun s => (s.xActivateParameterSets cfg aenv).toExcept }

/-! ## Example states of the activation -/

/-- A PPS of id 0 that refers to the SPS of id 0. -/
def ppsB : PPS := { ppsId := 0, spsId := 0 }

/-- A store in which `spsB` and `ppsB` were stored once. -/
def storeB : ParameterSetManager := (({} : ParameterSetManager).storeSPS spsB).storePPS ppsB

/-- An environment in which every activation of a parameter set succeeds; the
reference picture set keeps the pictures whose POC it lists. -/
def aenvB : ActivationEnv :=
  { activatePPS := fun _ _ => true, activateAPS := fun _ => true,
    keep := fun pilot p => decide (p.getPOC ∈ pilot.rps), rawPoc := 0 }

/-- A decoder with the store `m` at the first slice of the IDR picture of POC 0. -/
def stFirstSlice (m : ParameterSetManager) : DecLib :=
  { m_parameterSetManager := m, m_pocRandomAccess := -MAX_INT,
    m_apcSlicePilot := { poc := 0, nalUnitType := .NAL_UNIT_CODED_SLICE_IDR_W_RADL } }

/-- A decoder with the store `m` at the second slice of the picture of POC 0, which
was activated with `spsB` and `ppsB` and owns one slice. -/
def stSecondSlice (m : ParameterSetManager) : DecLib :=
  { m_parameterSetManager := m, m_pocRandomAccess := -MAX_INT, m_iMaxRefPicNum := 6,
    m_cListPic := [{ addr := 0, poc := 0, referenced := true, csSlice := some 0, sps := spsB,
                     pps := ppsB,
                     slices := [{ poc := 0, nalUnitType := .NAL_UNIT_CODED_SLICE_IDR_W_RADL }] }],
    m_apcSlicePilot := { poc := 0, sliceCurStartCtuTsAddr := 4,
                         nalUnitType := .NAL_UNIT_CODED_SLICE_IDR_W_RADL },
    m_pcPic := some 0, m_prevPOC := 0, m_bFirstSliceInPicture := false,
    m_uiSliceSegmentIdx := 1, nextAddr := 1 }

/-! ## `DecLib::decode` (DecLib.cpp 1498–1695) -/

/-- Case labels of lines 1544–1567: the NAL unit types that `decode` passes to
`xDecodeSlice`. -/
def isSliceNalType (cfg : Config) (t : NalUnitType) : Bool :=
  if cfg.JVET_M0101_HLS then
    t == .NAL_UNIT_CODED_SLICE_TRAIL || t == .NAL_UNIT_CODED_SLICE_STSA ||
    t == .NAL_UNIT_CODED_SLICE_IDR_W_RADL || t == .NAL_UNIT_CODED_SLICE_IDR_N_LP ||
    t == .NAL_UNIT_CODED_SLICE_CRA || t == .NAL_UNIT_CODED_SLICE_RADL ||
    t == .NAL_UNIT_CODED_SLICE_RASL
  else
    t == .NAL_UNIT_CODED_SLICE_TRAIL_R || t == .NAL_UNIT_CODED_SLICE_TRAIL_N ||
    t == .NAL_UNIT_CODED_SLICE_TSA_R || t == .NAL_UNIT_CODED_SLICE_TSA_N ||
    t == .NAL_UNIT_CODED_SLICE_STSA_R || t == .NAL_UNIT_CODED_SLICE_STSA_N ||
    t == .NAL_UNIT_CODED_SLICE_BLA_W_LP || t == .NAL_UNIT_CODED_SLICE_BLA_W_RADL ||
    t == .NAL_UNIT_CODED_SLICE_BLA_N_LP || t == .NAL_UNIT_CODED_SLICE_IDR_W_RADL ||
    t == .NAL_UNIT_CODED_SLICE_IDR_N_LP || t == .NAL_UNIT_CODED_SLICE_CRA ||
    t == .NAL_UNIT_CODED_SLICE_RADL_N || t == .NAL_UNIT_CODED_SLICE_RADL_R ||
    t == .NAL_UNIT_CODED_SLICE_RASL_N || t == .NAL_UNIT_CODED_SLICE_RASL_R

/-- Case labels of lines 1610–1643: the reserved VCL types. `NAL_UNIT_RESERVED_32` and
`NAL_UNIT_RESERVED_VCL15` are labels when `HEVC_VPS` is off. -/
def isReservedVCL (cfg : Config) (t : NalUnitType) : Bool :=
  if cfg.JVET_M0101_HLS then
    t == .NAL_UNIT_RESERVED_VCL_4 || t == .NAL_UNIT_RESERVED_VCL_5 ||
    t == .NAL_UNIT_RESERVED_VCL_6 || t == .NAL_UNIT_RESERVED_VCL_7 ||
    t == .NAL_UNIT_RESERVED_IRAP_VCL11 || t == .NAL_UNIT_RESERVED_IRAP_VCL12 ||
    t == .NAL_UNIT_RESERVED_IRAP_VCL13 || t == .NAL_UNIT_RESERVED_VCL14 ||
    (!cfg.HEVC_VPS && t == .NAL_UNIT_RESERVED_VCL15)
  else
    t == .NAL_UNIT_RESERVED_VCL_N10 || t == .NAL_UNIT_RESERVED_VCL_R11 ||
    t == .NAL_UNIT_RESERVED_VCL_N12 || t == .NAL_UNIT_RESERVED_VCL_R13 ||
    t == .NAL_UNIT_RESERVED_VCL_N14 || t == .NAL_UNIT_RESERVED_VCL_R15 ||
    t == .NAL_UNIT_RESERVED_IRAP_VCL22 || t == .NAL_UNIT_RESERVED_IRAP_VCL23 ||
    t == .NAL_UNIT_RESERVED_VCL24 || t == .NAL_UNIT_RESERVED_VCL25 ||
    t == .NAL_UNIT_RESERVED_VCL26 || t == .NAL_UNIT_RESERVED_VCL27 ||
    t == .NAL_UNIT_RESERVED_VCL28 || t == .NAL_UNIT_RESERVED_VCL29 ||
    t == .NAL_UNIT_RESERVED_VCL30 || t == .NAL_UNIT_RESERVED_VCL31 ||
    (!cfg.HEVC_VPS && t == .NAL_UNIT_RESERVED_32)

/-- Case labels of lines 1650–1660: the reserved non-VCL types. -/
def isReservedNVCL (cfg : Config) (t : NalUnitType) : Bool :=
  if cfg.JVET_M0101_HLS then
    t == .NAL_UNIT_RESERVED_NVCL16 || t == .NAL_UNIT_RESERVED_NVCL26 ||
    t == .NAL_UNIT_RESERVED_NVCL27
  else
    t == .NAL_UNIT_RESERVED_NVCL41 || t == .NAL_UNIT_RESERVED_NVCL42 ||
    t == .NAL_UNIT_RESERVED_NVCL43 || t == .NAL_UNIT_RESERVED_NVCL44 ||
    t == .NAL_UNIT_RESERVED_NVCL45 || t == .NAL_UNIT_RESERVED_NVCL46 ||
    t == .NAL_UNIT_RESERVED_NVCL47

/-- Case labels of lines 1665–1685: the unspecified types. -/
def isUnspecified (cfg : Config) (t : NalUnitType) : Bool :=
  if cfg.JVET_M0101_HLS then
    t == .NAL_UNIT_UNSPECIFIED_28 || t == .NAL_UNIT_UNSPECIFIED_29 ||
    t == .NAL_UNIT_UNSPECIFIED_30 || t == .NAL_UNIT_UNSPECIFIED_31
  else
    t == .NAL_UNIT_UNSPECIFIED_48 || t == .NAL_UNIT_UNSPECIFIED_49 ||
    t == .NAL_UNIT_UNSPECIFIED_50 || t == .NAL_UNIT_UNSPECIFIED_51 ||
    t == .NAL_UNIT_UNSPECIFIED_52 || t == .NAL_UNIT_UNSPECIFIED_53 ||
    t == .NAL_UNIT_UNSPECIFIED_54 || t == .NAL_UNIT_UNSPECIFIED_55 ||
    t == .NAL_UNIT_UNSPECIFIED_56 || t == .NAL_UNIT_UNSPECIFIED_57 ||
    t == .NAL_UNIT_UNSPECIFIED_58 || t == .NAL_UNIT_UNSPECIFIED_59 ||
    t == .NAL_UNIT_UNSPECIFIED_60 || t == .NAL_UNIT_UNSPECIFIED_61 ||
    t == .NAL_UNIT_UNSPECIFIED_62 || t == .NAL_UNIT_UNSPECIFIED_63

/-- What the readers `HLSyntaxReader` and `SEIReader` (not under src/) parse from the
payload of the NAL unit that `decode` dispatches: the id of a VPS, an SPS, a PPS,
the id of an APS, a slice header, or the messages of an SEI NAL unit. -/
structure NalPayload where
  vpsId : Int := 0
  sps : SPS := {}
  pps : PPS := {}
  apsId : Int := 0
  slice : Slice := {}
  seis : List SEI := []
deriving DecidableEq, Repr

/-- Result of `decode`: the returned flag, the decoder, and the reference parameters
`iSkipFrame` and `iPOCLastDisplay` after the call. -/
structure DecodeResult where
  ret : Bool
  dec : DecLib
  iSkipFrame : Int
  iPOCLastDisplay : Int
deriving DecidableEq, Repr

/-- Embedding of `DecLib::xParsePrefixSEIsForUnknownVCLNal` (lines 989–998), run for
at most `fuel` iterations: the body of the loop writes a message and deletes the NAL
unit at the front of `m_prefixSEINALUs`, and removes no entry from the queue. `none`
when the loop is still running after `fuel` iterations. -/
def DecLib.xParsePrefixSEIsForUnknownVCLNal (s : DecLib) : Nat → Option DecLib
  | 0 => if s.m_prefixSEINALUs.isEmpty then some s else none
  | fuel + 1 =>
    if s.m_prefixSEINALUs.isEmpty then some s
    else DecLib.xParsePrefixSEIsForUnknownVCLNal s fuel

/-- The statement `return false` of `decode` with the decoder `s`: the reference
parameters are those of the call. -/
def DecLib.discard (s : DecLib) (iSkipFrame iPOCLastDisplay : Int) :
    Option (Except String DecodeResult) :=
  some (.ok { ret := false, dec := s, iSkipFrame := iSkipFrame,
              iPOCLastDisplay := iPOCLastDisplay })

/-- Lines 1580–1587: the members that the end-of-sequence case assigns. -/
def DecLib.endOfSequence (s : DecLib) : DecLib :=
  { s with m_associatedIRAPType := .NAL_UNIT_INVALID, m_pocCRA := 0,
           m_pocRandomAccess := MAX_INT, m_prevPOC := MAX_INT,
           m_prevSliceSkipped := false, m_skippedPOC := 0 }

/-- Lines 1532–1542: the messages of a suffix SEI NAL unit are appended to those of
the current picture, when there is one. -/
def DecLib.suffixSEI (s : DecLib) (seis : List SEI) : DecLib :=
  match s.m_pcPic with
  | some a => { s with m_cListPic := updateAt a (fun p => { p with SEIs := p.SEIs ++ seis })
                                       s.m_cListPic }
  | none => s

/-- Lines 1646–1648: the case of a reserved VCL type. -/
def DecLib.reservedVCL (s : DecLib) (fuel : Nat) (iSkipFrame iPOCLastDisplay : Int) :
    Option (Except String DecodeResult) :=
  match s.xParsePrefixSEIsForUnknownVCLNal fuel with
  | none => none
  | some s1 => s1.discard iSkipFrame iPOCLastDisplay

/-- Embedding of `DecLib::decode`. The `switch` over the NAL unit type is a chain of
tests of the case labels, which are pairwise distinct. `xDecodeVPS`, `xDecodeSPS`,
`xDecodePPS` and `xDecodeAPS` (lines 1460–1497) store what the reader parsed.
`fuel` bounds the loop of `xParsePrefixSEIsForUnknownVCLNal`; the result is `none`
when that loop or the loss-recovery loop of `xDecodeSlice` is still running when its
fuel is used up. `xDecodeSlice` takes `iPOCLastDisplay` by value. -/
def DecLib.decode (cfg : Config) (s : DecLib) (nalu : InputNALUnit) (payload : NalPayload)
    (env : SliceEnv) (fuel : Nat) (iSkipFrame iPOCLastDisplay : Int) :
    Option (Except String DecodeResult) :=
  let t := nalu.m_nalUnitType
  let m := s.m_parameterSetManager
  if nalu.m_nuhLayerId > 0 then s.discard iSkipFrame iPOCLastDisplay
  else if cfg.HEVC_VPS && t == .NAL_UNIT_VPS then
    DecLib.discard { s with m_parameterSetManager := m.storeVPS payload.vpsId } iSkipFrame
      iPOCLastDisplay
  else if t == .NAL_UNIT_SPS then
    DecLib.discard { s with m_parameterSetManager := m.storeSPS payload.sps } iSkipFrame
      iPOCLastDisplay
  else if t == .NAL_UNIT_PPS then
    DecLib.discard { s with m_parameterSetManager := m.storePPS payload.pps } iSkipFrame
      iPOCLastDisplay
  else if t == .NAL_UNIT_APS then
    DecLib.discard { s with m_parameterSetManager := m.storeAPS payload.apsId } iSkipFrame
      iPOCLastDisplay
  else if t == .NAL_UNIT_PREFIX_SEI then
    DecLib.discard { s with m_prefixSEINALUs := s.m_prefixSEINALUs ++ [(nalu, payload.seis)] }
      iSkipFrame iPOCLastDisplay
  else if t == .NAL_UNIT_SUFFIX_SEI then
    (s.suffixSEI payload.seis).discard iSkipFrame iPOCLastDisplay
  else if isSliceNalType cfg t then
    match s.xDecodeSlice cfg nalu payload.slice env iSkipFrame iPOCLastDisplay with
    | none => none
    | some (.error e) => some (.error e)
    | some (.ok r) =>
      some (.ok { ret := r.ret, dec := r.dec, iSkipFrame := r.iSkipFrame,
                  iPOCLastDisplay := iPOCLastDisplay })
  else if t == .NAL_UNIT_EOS then s.endOfSequence.discard iSkipFrame iPOCLastDisplay
  else if t == .NAL_UNIT_ACCESS_UNIT_DELIMITER || t == .NAL_UNIT_EOB ||
      t == .NAL_UNIT_FILLER_DATA then
    s.discard iSkipFrame iPOCLastDisplay
  else if isReservedVCL cfg t then s.reservedVCL fuel iSkipFrame iPOCLastDisplay
  else if isReservedNVCL cfg t || isUnspecified cfg t then s.discard iSkipFrame iPOCLastDisplay
  else some (.error "Invalid NAL unit type")

/-- The NAL unit type is a case label of the `switch` of `decode` (lines
1510–1688). -/
def isCaseLabel (cfg : Config) (t : NalUnitType) : Bool :=
  (cfg.HEVC_VPS && t == .NAL_UNIT_VPS) || t == .NAL_UNIT_SPS || t == .NAL_UNIT_PPS ||
  t == .NAL_UNIT_APS || t == .NAL_UNIT_PREFIX_SEI || t == .NAL_UNIT_SUFFIX_SEI ||
  isSliceNalType cfg t || t == .NAL_UNIT_EOS || t == .NAL_UNIT_ACCESS_UNIT_DELIMITER ||
  t == .NAL_UNIT_EOB || t == .NAL_UNIT_FILLER_DATA || isReservedVCL cfg t ||
  isReservedNVCL cfg t || isUnspecified cfg t

/-- The decoder after the picture of POC 8 with one prefix SEI NAL unit buffered in
`m_prefixSEINALUs`. -/
def stQueued : DecLib :=
  { stLeading with
    m_prefixSEINALUs := [({ m_nalUnitType := .NAL_UNIT_PREFIX_SEI }, [{ payloadType := .other 5 }])] }

/-- A frame picture that awaits output and is not referenced, as `picPending`, and
its field counterpart. -/
def picField (a : Nat) (poc : Int) : Picture := { picPending a poc with fieldPic := true }

/-! ## `DecLib::checkNoOutputPriorPics` (DecLib.cpp 663–680) -/

/-- Body of the loop of lines 672–679 on one picture. -/
def noOutputPrior (lastPOCNoOutputPriorPics : Int) (p : Picture) : Picture :=
  if lastPOCNoOutputPriorPics ≠ p.getPOC then { p with neededForOutput := false } else p

/-- Embedding of `DecLib::checkNoOutputPriorPics`. The argument is the list the
pointer `pcListPic` refers to, `none` for the null pointer; the result is that list
after the call. -/
def DecLib.checkNoOutputPriorPics (s : DecLib) (pcListPic : Option (List Picture)) :
    Option (List Picture) :=
  match pcListPic with
  | none => none
  | some l =>
    if !s.m_isNoOutputPriorPics then some l
    else some (l.map (noOutputPrior s.m_lastPOCNoOutputPriorPics))

/-! ## Reference lists of a slice (DecLib.cpp 1262–1381) -/

/-- Modelled from the spec: the members of `Slice` (Slice.h, not under src/) that
lines 1262–1381 of `xDecodeSlice` read and write once `setRefPicList` has built the
reference lists. `refPOC0` and `refPOC1` hold the POCs of the pictures
`getRefPic(REF_PIC_LIST_0, i)` and `getRefPic(REF_PIC_LIST_1, i)` for the indices
`i` below `getNumRefIdx` of the list; `useSMVD` is the flag of the SPS of the
slice. -/
structure RefSlice where
  poc : Int := 0
  isIntra : Bool := false
  isInterB : Bool := false
  dependentSliceSegmentFlag : Bool := false
  refPOC0 : List Int := []
  refPOC1 : List Int := []
  useSMVD : Bool := true
  mvdL1ZeroFlag : Bool := false
  checkLDC : Bool := false
  biDirPred : Bool := false
  symRefIdx0 : Int := -1
  symRefIdx1 : Int := -1
deriving DecidableEq, Repr

/-- Loops of lines 1275–1281 and 1284–1290: `bLowDelay` is cleared at the first
reference picture whose POC is above `iCurrPOC`; the loop stops once it is
cleared. -/
def lowDelayLoop (iCurrPOC : Int) : List Int → Bool → Bool
  | [], bLowDelay => bLowDelay
  | poc :: rest, bLowDelay =>
    if bLowDelay then lowDelayLoop iCurrPOC rest (if poc > iCurrPOC then false else bLowDelay)
    else bLowDelay

/-- Lines 1269–1294: the low-delay check of a slice that is not intra. -/
def RefSlice.lowDelayCheck (sl : RefSlice) : RefSlice :=
  if !sl.isIntra then
    let bLowDelay := lowDelayLoop sl.poc sl.refPOC0 true
    let bLowDelay := if sl.isInterB then lowDelayLoop sl.poc sl.refPOC1 bLowDelay else bLowDelay
    { sl with checkLDC := bLowDelay }
  else sl

/-- Loops of lines 1315–1323 and 1355–1363: search of the nearest POC below
`currPOC`. `ref` is the index of the head of the list; the state is the pair of
`forwardPOC` and the index found so far. -/
def nearestForward (currPOC : Int) : List Int → Int → Int × Int → Int × Int
  | [], _, st => st
  | poc :: rest, ref, st =>
    if decide (poc < currPOC) && (decide (poc > st.1) || st.2 == -1) then
      nearestForward currPOC rest (ref + 1) (poc, ref)
    else nearestForward currPOC rest (ref + 1) st

/-- Loops of lines 1326–1334 and 1344–1352: search of the nearest POC above
`currPOC`; the state is the pair of `backwardPOC` and the index found so far. -/
def nearestBackward (currPOC : Int) : List Int → Int → Int × Int → Int × Int
  | [], _, st => st
  | poc :: rest, ref, st =>
    if decide (poc > currPOC) && (decide (poc < st.1) || st.2 == -1) then
      nearestBackward currPOC rest (ref + 1) (poc, ref)
    else nearestBackward currPOC rest (ref + 1) st

/-- The arguments of a call of `setBiDirPred`. -/
structure BiDirPred where
  flag : Bool
  refIdx0 : Int
  refIdx1 : Int
deriving DecidableEq, Repr

/-- Lines 1306–1373: the search for a pair of reference pictures on opposite sides
of the current POC, first forward in list 0 and backward in list 1, then with the
orientation swapped. -/
def smvdSearch (currPOC : Int) (l0 l1 : List Int) : BiDirPred :=
  let f := nearestForward currPOC l0 0 (currPOC, -1)
  let b := nearestBackward currPOC l1 0 (currPOC, -1)
  if !(decide (f.1 < currPOC) && decide (b.1 > currPOC)) then
    let b2 := nearestBackward currPOC l0 0 (currPOC, -1)
    let f2 := nearestForward currPOC l1 0 (currPOC, -1)
    if decide (f2.1 < currPOC) && decide (b2.1 > currPOC) then
      { flag := true, refIdx0 := b2.2, refIdx1 := f2.2 }
    else { flag := false, refIdx0 := -1, refIdx1 := -1 }
  else if decide (f.1 < currPOC) && decide (b.1 > currPOC) then
    { flag := true, refIdx0 := f.2, refIdx1 := b.2 }
  else { flag := false, refIdx0 := -1, refIdx1 := -1 }

/-- Condition of lines 1296–1304 under which the search is made. -/
def smvdEnabled (cfg : Config) (sl : RefSlice) : Bool :=
  if cfg.JVET_N0235_SMVD_SPS then
    sl.useSMVD && sl.checkLDC == false && (cfg.JVET_N0470_SMVD_FIX || sl.mvdL1ZeroFlag == false)
  else sl.checkLDC == false && sl.mvdL1ZeroFlag == false

/-- Lines 1296–1378: the call of `setBiDirPred`. -/
def RefSlice.symmetricMvd (cfg : Config) (sl : RefSlice) : RefSlice :=
  let r := if smvdEnabled cfg sl then smvdSearch sl.poc sl.refPOC0 sl.refPOC1
           else { flag := false, refIdx0 := -1, refIdx1 := -1 }
  { sl with biDirPred := r.flag, symRefIdx0 := r.refIdx0, symRefIdx1 := r.refIdx1 }

/-- Lines 1262–1381: the low-delay check and the symmetric-MVD search, which a
dependent slice segment skips when `HEVC_DEPENDENT_SLICES` is on. `checkCRA`,
`setRefPicList` and `setRefPOCList` write no member of `RefSlice`. -/
def RefSlice.refListStage (cfg : Config) (sl : RefSlice) : RefSlice :=
  if cfg.HEVC_DEPENDENT_SLICES && sl.dependentSliceSegmentFlag then sl
  else sl.lowDelayCheck.symmetricMvd cfg

/-- State of a forward search after the entries `pre`: nothing found, or the index
of the first entry with the greatest POC below `cur`. -/
def FwdInv (cur : Int) (pre : List Int) (st : Int × Int) : Prop :=
  (st.2 = -1 ∧ st.1 = cur ∧ ∀ q ∈ pre, ¬ q < cur) ∨
  (∃ i : Nat, st.2 = (i : Int) ∧ pre.get? i = some st.1 ∧ st.1 < cur ∧
    ∀ q ∈ pre, q < cur → q ≤ st.1)

/-- State of a backward search after the entries `pre`: nothing found, or the index
of the first entry with the least POC above `cur`. -/
def BwdInv (cur : Int) (pre : List Int) (st : Int × Int) : Prop :=
  (st.2 = -1 ∧ st.1 = cur ∧ ∀ q ∈ pre, ¬ q > cur) ∨
  (∃ i : Nat, st.2 = (i : Int) ∧ pre.get? i = some st.1 ∧ st.1 > cur ∧
    ∀ q ∈ pre, q > cur → q ≥ st.1)

/-- The entry `idx` of the list has a POC strictly below `cur`, and no entry of the
list has a POC below `cur` that is nearer to `cur`. -/
def NearestBelow (cur : Int) (l : List Int) (idx : Int) : Prop :=
  ∃ i : Nat, idx = (i : Int) ∧ ∃ poc, l.get? i = some poc ∧ poc < cur ∧
    ∀ q ∈ l, q < cur → q ≤ poc

/-- The entry `idx` of the list has a POC strictly above `cur`, and no entry of the
list has a POC above `cur` that is nearer to `cur`. -/
def NearestAbove (cur : Int) (l : List Int) (idx : Int) : Prop :=
  ∃ i : Nat, idx = (i : Int) ∧ ∃ poc, l.get? i = some poc ∧ poc > cur ∧
    ∀ q ∈ l, q > cur → q ≥ poc

/-- A B slice of POC 4 that is not low delay, with the reference POCs 2, 0 in list 0
and 8, 6 in list 1. -/
def slB : RefSlice :=
  { poc := 4, isInterB := true, refPOC0 := [2, 0], refPOC1 := [8, 6] }

/-! ## `updateCandList` and `updateDoubleCandList` (UnitTools.h 259–377) -/

/-- Loop of lines 273–276 (and 338–341): `shift` counts the entries at the end of
the first `currSize` costs that are above `uiCost`. The argument is
`currSize - shift`, the number of entries not yet compared; at 0 the test
`shift < currSize` ends the loop. The costs are `double` values, taken here from
any linear order. -/
def candShift {C : Type} [LinearOrder C] (uiCost : C) (candCostList : List C)
    (uiFastCandNum currSize : Nat) : Nat → Nat
  | 0 => currSize
  | rest + 1 =>
    let shift := currSize - (rest + 1)
    match candCostList.get? (currSize - 1 - shift) with
    | some c =>
      if shift < uiFastCandNum ∧ uiCost < c then candShift uiCost candCostList uiFastCandNum currSize rest
      else shift
    | none => shift

/-- One iteration of the loop of lines 280–291 on one of the lists:
`list[currSize - i] = list[currSize - 1 - i]`. -/
def shiftEntry {α : Type} (currSize i : Nat) (l : List α) : List α :=
  match l.get? (currSize - 1 - i) with
  | some x => l.set (currSize - i) x
  | none => l

/-- Loop of lines 280–291 (and 345–350) on one of the lists, for `i` from 1 to
`shift - 1`; the argument is the number of iterations still to make. The body
assigns each list from its own entries only. -/
def shiftLoop {α : Type} (currSize shift : Nat) : Nat → List α → List α
  | 0, l => l
  | todo + 1, l => shiftLoop currSize shift todo (shiftEntry currSize (shift - (todo + 1)) l)

/-- Lines 280–298 on one of the lists: the entries are shifted and the new value is
written at `currSize - shift`. -/
def overwriteAt {α : Type} (currSize shift : Nat) (x : α) (l : List α) : List α :=
  (shiftLoop currSize shift (shift - 1) l).set (currSize - shift) x

/-- Lines 307–308 on one of the lists: `list.insert(list.end() - shift, x)`. -/
def insertFromEnd {α : Type} (shift : Nat) (x : α) (l : List α) : List α :=
  l.take (l.length - shift) ++ x :: l.drop (l.length - shift)

/-- Result of `updateCandList`: the returned value, the two lists after the call,
and the value written to `*iserttPos` when the pointer is not null. -/
structure CandUpdate (T C : Type) where
  ret : Nat
  candModeList : List T
  candCostList : List C
  pos : Int

/-- Embedding of `updateCandList` as compiled with `JVET_N0217_MATRIX_INTRAPRED`
(without the parameters `extendRefList` and `extendRef`). `N` is the capacity of
the two `static_vector`s. -/
def updateCandList {T C : Type} [LinearOrder C] (N : Nat) (uiMode : T) (uiCost : C)
    (candModeList : List T) (candCostList : List C) (uiFastCandNum : Nat) :
    Except String (CandUpdate T C) :=
  if min uiFastCandNum candModeList.length ≠ min uiFastCandNum candCostList.length then
    .error "Sizes do not match!"
  else if uiFastCandNum > N then .error "The vector is to small to hold all the candidates!"
  else
    let currSize := min uiFastCandNum candCostList.length
    let shift := candShift uiCost candCostList uiFastCandNum currSize currSize
    if candModeList.length ≥ uiFastCandNum ∧ shift ≠ 0 then
      .ok { ret := 1, candModeList := overwriteAt currSize shift uiMode candModeList,
            candCostList := overwriteAt currSize shift uiCost candCostList,
            pos := ((currSize - shift : Nat) : Int) }
    else if currSize < uiFastCandNum then
      .ok { ret := 1, candModeList := insertFromEnd shift uiMode candModeList,
            candCostList := insertFromEnd shift uiCost candCostList,
            pos := ((candModeList.length + 1 - shift - 1 : Nat) : Int) }
    else
      .ok { ret := 0, candModeList := candModeList, candCostList := candCostList, pos := -1 }

/-- Result of `updateDoubleCandList`: as `CandUpdate`, with the second mode list. -/
structure DoubleCandUpdate (T C : Type) where
  ret : Nat
  candModeList : List T
  candCostList : List C
  candModeList2 : List T
  pos : Int

/-- Embedding of `updateDoubleCandList`. -/
def updateDoubleCandList {T C : Type} [LinearOrder C] (N : Nat) (mode : T) (cost : C)
    (candModeList : List T) (candCostList : List C) (candModeList2 : List T) (mode2 : T)
    (fastCandNum : Nat) : Except String (DoubleCandUpdate T C) :=
  if min fastCandNum candModeList.length ≠ min fastCandNum candCostList.length then
    .error "Sizes do not match!"
  else if fastCandNum > N then .error "The vector is to small to hold all the candidates!"
  else
    let currSize := min fastCandNum candCostList.length
    let shift := candShift cost candCostList fastCandNum currSize currSize
    if candModeList.length ≥ fastCandNum ∧ shift ≠ 0 then
      .ok { ret := 1, candModeList := overwriteAt currSize shift mode candModeList,
            candCostList := overwriteAt currSize shift cost candCostList,
            candModeList2 := overwriteAt currSize shift mode2 candModeList2,
            pos := ((currSize - shift : Nat) : Int) }
    else if currSize < fastCandNum then
      .ok { ret := 1, candModeList := insertFromEnd shift mode candModeList,
            candCostList := insertFromEnd shift cost candCostList,
            candModeList2 := insertFromEnd shift mode2 candModeList2,
            pos := ((candModeList.length + 1 - shift - 1 : Nat) : Int) }
    else
      .ok { ret := 0, candModeList := candModeList, candCostList := candCostList,
            candModeList2 := candModeList2, pos := -1 }

/-- The list `l` after `m` iterations of the loop of lines 280–291 on `l0`: the
entries at the indices from `c - m` to `c - 1` are those of `l0` one index
below. -/
def ShiftInv {α : Type} (c : Nat) (l0 : List α) (m : Nat) (l : List α) : Prop :=
  l.length = l0.length ∧
  ∀ j, l[j]? = if c - m ≤ j ∧ j < c then l0[j - 1]? else l0[j]?

/-! ## Intra prediction: planar and DC (IntraPrediction.cpp 231–260, 432–531) -/

/-- `a << n` on an `int`. -/
def shlInt (a : Int) (n : Nat) : Int := wrapInt (a * 2 ^ n)

/-- Modelled from the spec: type `Pel` of TypeDef.h (not under src/) is `short`, and
`int` with `RExt__HIGH_BIT_DEPTH_SUPPORT`. This is the conversion of a value to
`Pel`. -/
def toPel (cfg : Config) (i : Int) : Int :=
  if cfg.RExt__HIGH_BIT_DEPTH_SUPPORT then wrapInt i else (i + 32768) % 65536 - 32768

/-- Modelled from the spec: constant `MAX_CU_SIZE` of CommonDef.h (not under src/),
the largest block size; line 304 of IntraPrediction.cpp refuses a block whose
width has a logarithm above 7. -/
def MAX_CU_SIZE : Nat := 128

/-- Modelled from the spec: constant `MAXIMUM_INTRA_FILTERED_WIDTH` of CommonDef.h
(not under src/). -/
def MAXIMUM_INTRA_FILTERED_WIDTH : Nat := 16

/-- Modelled from the spec: constant `MAXIMUM_INTRA_FILTERED_HEIGHT` of CommonDef.h
(not under src/). -/
def MAXIMUM_INTRA_FILTERED_HEIGHT : Nat := 16

/-- Largest `c` with `2 ^ c ≤ n`, by halving at most `fuel` times. -/
def floorLog2 : Nat → Nat → Nat
  | 0, _ => 0
  | fuel + 1, n => if n < 2 then 0 else floorLog2 fuel (n / 2) + 1

/-- Modelled from the spec: table `g_aucLog2` of Rom.cpp (not under src/), which
holds at index `n` the logarithm of `n` to base 2, rounded down. -/
def g_aucLog2 (n : Nat) : Nat := floorLog2 n n

/-- A sample buffer (`PelBuf`, `CPelBuf`), given by its samples `at(x, y)`. -/
abbrev PelBuf := Nat → Nat → Int

/-- Assignment `buf.at(x, y) = p`. -/
def setAt (buf : PelBuf) (x y : Nat) (p : Int) : PelBuf :=
  fun i j => if i = x ∧ j = y then p else buf i j

/-- The call `pDst.fill(p)` on a buffer of the given width and height. -/
def fill (pDst : PelBuf) (width height : Nat) (p : Int) : PelBuf :=
  fun i j => if i < width ∧ j < height then p else pDst i j

/-- Embedding of `IntraPrediction::xGetPredValDc` (lines 231–260). The sizes are the
`uint32_t` members of `dstSize`, converted to `int` in lines 237–238. -/
def xGetPredValDc (cfg : Config) (pSrc : PelBuf) (width height : Nat) : Except String Int :=
  if width = 0 ∨ height = 0 then .error "Empty area provided"
  else
    let w : Int := toInt32 width
    let h : Int := toInt32 height
    let denom : Int := if w = h then shlInt w 1 else max w h
    let divShift : Nat := g_aucLog2 denom.toNat
    let divOffset : Int := denom >>> (1 : Nat)
    let sum : Int := 0
    let sum : Int :=
      if w ≥ h then
        (List.range w.toNat).foldl (fun sum idx => wrapInt (sum + pSrc (1 + idx) 0)) sum
      else sum
    let sum : Int :=
      if w ≤ h then
        (List.range h.toNat).foldl (fun sum idx => wrapInt (sum + pSrc 0 (1 + idx))) sum
      else sum
    .ok (toPel cfg (wrapInt (sum + divOffset) >>> divShift))

/-- State of the loops of lines 457–467 of `xPredIntraPlanar`: the array that is
filled with differences and the array that is scaled. -/
structure PlanarEdge where
  diff : Nat → Int
  scaled : Nat → Int

/-- Body of the loops of lines 457–461 and 463–467:
`bottomRow[k] = bottomLeft - topRow[k]; topRow[k] = topRow[k] << log2H`. -/
def planarEdgeStep (corner : Int) (log2 : Nat) (st : PlanarEdge) (k : Nat) : PlanarEdge :=
  { diff := Function.update st.diff k (wrapInt (corner - st.scaled k)),
    scaled := Function.update st.scaled k (shlInt (st.scaled k) log2) }

/-- State of the loop of lines 476–483 of `xPredIntraPlanar`. -/
structure PlanarInner where
  horPred : Int
  topRow : Nat → Int
  pred : PelBuf

/-- Body of the loop of lines 476–483, for the sample `x` of row `y`. The sum of the
two `int`s is converted to `uint32_t` when `offset` is added, and shifted as
such. -/
def planarSample (cfg : Config) (log2W log2H offset finalShift : Nat) (bottomRow : Nat → Int)
    (rightColumnY : Int) (y : Nat) (st : PlanarInner) (x : Nat) : PlanarInner :=
  let horPred := wrapInt (st.horPred + rightColumnY)
  let topRow := Function.update st.topRow x (wrapInt (st.topRow x + bottomRow x))
  let vertPred := topRow x
  { horPred := horPred, topRow := topRow,
    pred := setAt st.pred x y (toPel cfg
      ((((toUInt32 (wrapInt (shlInt horPred log2H + shlInt vertPred log2W)) + offset)
          % 4294967296) >>> finalShift : Nat) : Int)) }

/-- State of the loop of lines 472–484 of `xPredIntraPlanar`. -/
structure PlanarOuter where
  topRow : Nat → Int
  pred : PelBuf

/-- Body of the loop of lines 472–484, for the row `y`. -/
def planarRow (cfg : Config) (log2W log2H offset finalShift width : Nat)
    (leftColumn rightColumn bottomRow : Nat → Int) (st : PlanarOuter) (y : Nat) : PlanarOuter :=
  let r := (List.range width).foldl
    (planarSample cfg log2W log2H offset finalShift bottomRow (rightColumn y) y)
    { horPred := leftColumn y, topRow := st.topRow, pred := st.pred }
  { topRow := r.topRow, pred := r.pred }

/-- Embedding of `IntraPrediction::xPredIntraPlanar` (lines 432–485): the buffer
`pDst` of the given width and height after the call. The four arrays have
`MAX_CU_SIZE + 1` and `MAX_CU_SIZE` entries, a wider or higher block writes past
them, which is `none` here. The arrays are not initialised; an entry that was
never written is 0 here, and is never read. -/
def xPredIntraPlanar (cfg : Config) (pSrc pDst : PelBuf) (width height : Nat) : Option PelBuf :=
  if width > MAX_CU_SIZE ∨ height > MAX_CU_SIZE then none
  else
    let log2W := g_aucLog2 (if width < 2 then 2 else width)
    let log2H := g_aucLog2 (if height < 2 then 2 else height)
    let offset : Nat := toUInt32 (shlInt 1 (log2W + log2H))
    let topRow : Nat → Int := (List.range (width + 1)).foldl
      (fun a k => Function.update a k (pSrc (k + 1) 0)) (fun _ => 0)
    let leftColumn : Nat → Int := (List.range (height + 1)).foldl
      (fun a k => Function.update a k (pSrc 0 (k + 1))) (fun _ => 0)
    let bottomLeft := leftColumn height
    let topRight := topRow width
    let top := (List.range width).foldl (planarEdgeStep bottomLeft log2H)
      { diff := fun _ => 0, scaled := topRow }
    let left := (List.range height).foldl (planarEdgeStep topRight log2W)
      { diff := fun _ => 0, scaled := leftColumn }
    let finalShift := 1 + log2W + log2H
    some ((List.range height).foldl
      (planarRow cfg log2W log2H offset finalShift width left.scaled left.diff top.diff)
      { topRow := top.scaled, pred := pDst }).pred

/-- Embedding of `IntraPrediction::xDCPredFiltering` (lines 506–531), compiled with
`HEVC_USE_DC_PREDFILTERING`. -/
def xDCPredFiltering (cfg : Config) (pSrc pDst : PelBuf) (width height : Nat) (isLuma : Bool) :
    PelBuf :=
  if isLuma = true ∧ width ≤ MAXIMUM_INTRA_FILTERED_WIDTH ∧
      height ≤ MAXIMUM_INTRA_FILTERED_HEIGHT then
    let pDst := setAt pDst 0 0 (toPel cfg
      (wrapInt (wrapInt (wrapInt (pSrc 1 0 + pSrc 0 1) + wrapInt (2 * pDst 0 0)) + 2) >>> (2 : Nat)))
    let pDst := (List.range (width - 1)).foldl
      (fun d i => setAt d (i + 1) 0 (toPel cfg
        (wrapInt (wrapInt (pSrc (i + 1 + 1) 0 + wrapInt (3 * d (i + 1) 0)) + 2) >>> (2 : Nat)))) pDst
    (List.range (height - 1)).foldl
      (fun d i => setAt d 0 (i + 1) (toPel cfg
        (wrapInt (wrapInt (pSrc 0 (i + 1 + 1) + wrapInt (3 * d 0 (i + 1))) + 2) >>> (2 : Nat)))) pDst
  else pDst

/-- Embedding of `IntraPrediction::xPredIntraDc` (lines 490–501). -/
def xPredIntraDc (cfg : Config) (pSrc pDst : PelBuf) (width height : Nat)
    (isLuma enableBoundaryFilter : Bool) : Except String PelBuf :=
  match xGetPredValDc cfg pSrc width height with
  | .error e => .error e
  | .ok dcval =>
    let pDst := fill pDst width height dcval
    if cfg.HEVC_USE_DC_PREDFILTERING = true ∧ enableBoundaryFilter = true then
      .ok (xDCPredFiltering cfg pSrc pDst width height isLuma)
    else .ok pDst

/-- A buffer whose samples are all `v`. -/
def flatBuf (v : Int) : PelBuf := fun _ _ => v

/-! ## Sessions of the pool -/

/-- A step of a session as far as the length of the pool is concerned: a call of
`xGetNewPicBuffer`, or another operation of the decoder on the pool (marking,
binding, finishing with `sortPicList`, an output pass), given by what it makes of
the pool. -/
inductive PoolStep where
  | acquire (sps : SPS) (temporalLayer : Nat) (rawPoc : Int) : PoolStep
  | other (g : List Picture → List Picture) : PoolStep

/-- The step neither adds nor removes a pool entry. In `DecLib.cpp` only the two
`push_back` of `xGetNewPicBuffer` (lines 493 and 525) change the length of
`m_cListPic`. -/
def PoolStep.keepsLength : PoolStep → Prop
  | .acquire _ _ _ => True
  | .other g => ∀ l, (g l).length = l.length

/-- The decoder of a session and the number of emergency extensions that have
occurred in it. -/
structure PoolRun where
  dec : DecLib := {}
  extensions : Nat := 0

/-- One step of a session; a call of `xGetNewPicBuffer` that takes the path of lines
518–528 counts as an emergency extension. -/
def PoolRun.step (st : PoolRun) : PoolStep → PoolRun
  | .acquire sps t rawPoc =>
    { dec := (st.dec.xGetNewPicBuffer sps t rawPoc).1,
      extensions := st.extensions +
        (if acquirePath st.dec.m_cListPic (sps.getMaxDecPicBuffering t) = .extension then 1
         else 0) }
  | .other g => { st with dec := { st.dec with m_cListPic := g st.dec.m_cListPic } }

/-- The state of a session after its steps. -/
def poolSession : List PoolStep → PoolRun → PoolRun
  | [], st => st
  | step :: rest, st => poolSession rest (st.step step)

/-- The largest value `maxDecPicBuffering(temporalLayer)` among the calls of
`xGetNewPicBuffer` of a session, 0 when there is no call. -/
def largestBound : List PoolStep → Nat
  | [] => 0
  | .acquire sps t _ :: rest => max (sps.getMaxDecPicBuffering t) (largestBound rest)
  | .other _ :: rest => largestBound rest

/-- Marks every pool entry as referenced and awaiting output, as pictures that the
following pictures keep as references. -/
def markBusy (pool : List Picture) : List Picture :=
  pool.map (fun p => { p with referenced := true, neededForOutput := true, reconstructed := true })

/-- A decoder at line 1238 of `xDecodeSlice`: the current picture, behind a decoded
picture of POC 4, owns the slice of POC 2 and is not yet bound to it. -/
def stBind : DecLib :=
  { m_cListPic := [picBusy 0 4,
      { addr := 1, poc := 0, slices := [{ poc := 2 }], csSlice := some 0, sps := sps2 }],
    m_pcPic := some 1, m_bFirstSliceInPicture := true, m_uiSliceSegmentIdx := 0, nextAddr := 2 }

/-- A full pool with a picture of POC 0 that was output and released and still owns
its slice, and a later picture of POC 0 that is referenced and awaits output (as
after two IDR pictures), while a slice of POC 5 whose reference picture set requires
the POC 3 is being decoded. -/
def stStale : DecLib :=
  { m_cListPic := [{ picIdle 0 0 with slices := [{ poc := 0 }], csSlice := some 0 },
      picBusy 1 0],
    m_apcSlicePilot := { poc := 5, rps := [0, 3] }, m_pocRandomAccess := 0, nextAddr := 2 }

/-- Lines 1234–1243 and 1454–1455 of `xDecodeSlice` on the decoder `s4` that the
activation of line 1232 returns: the two first-slice flags of the sequence and of
the bitstream are cleared, the current picture is bound to its slice, and the call
closes with `m_bFirstSliceInPicture = false` and the next slice index. -/
def DecLib.closeSlice (s4 : DecLib) (temporalId : Nat) : DecLib :=
  let s5 := { s4 with m_bFirstSliceInSequence := false, m_bFirstSliceInBitstream := false }
  let s6 := s5.bindPicture temporalId
  { s6 with m_bFirstSliceInPicture := false, m_uiSliceSegmentIdx := s6.m_uiSliceSegmentIdx + 1 }

/-- A decoder at the start of the bitstream after the SPS `spsB` and the PPS `ppsB`
were received. -/
def stStore : DecLib := { m_parameterSetManager := storeB }

/-- The environment of the scenarios with the embedded activation. -/
def envStore : SliceEnv := sliceEnvOf {} aenvB spsB (fun _ => 0) 8

/-- The run of the invalid-entry scenario on `stStore`: a trailing slice of POC 3
and a RASL slice of POC 2 are received before the first CRA slice. -/
def entryUnits : List (InputNALUnit × Slice) :=
  [(naluTrail {}, { poc := 3 }), (naluRASL {}, { poc := 2 })]

/-- The state of the run after the two slices of `entryUnits`. -/
def stSkipped : SliceRun :=
  match sliceRun {} envStore 5 entryUnits { dec := stStore } with
  | some (.ok st) => st
  | _ => { dec := {} }

/-- The decoder after the header stage of a CRA slice of POC 16 that follows the
two skipped slices. -/
def stHeaderCRA : DecLib :=
  match stSkipped.dec.sliceHeaderStage {} naluCRA { poc := 16 } with
  | .ok s1 => s1
  | .error _ => {}

/-! # Theorems -/

theorem toInt32_of_lt (n : Nat) (h : n < 2147483648) : toInt32 n = (n : Int) := by
  unfold toInt32
  have : n % 4294967296 = n := Nat.mod_eq_of_lt (by omega)
  rw [this]
  simp [h]

/-- An `int` operation whose result fits in 32 bits gives the exact result. -/
theorem wrapInt_of_range (x : Int) (h1 : -2147483648 ≤ x) (h2 : x < 2147483648) :
    wrapInt x = x := by
  unfold wrapInt toInt32 toUInt32
  have h3 : ((x % 4294967296).toNat : Int) = x % 4294967296 :=
    Int.toNat_of_nonneg (Int.emod_nonneg _ (by decide))
  have h4 : (((x % 4294967296).toNat % 4294967296 : Nat) : Int) = x % 4294967296 := by
    rw [Int.natCast_mod, h3]
    omega
  have h5 : ((x % 4294967296).toNat % 4294967296 < 2147483648)
      ↔ x % 4294967296 < 2147483648 := by
    rw [← h4]
    omega
  rw [h4]
  by_cases h6 : x % 4294967296 < 2147483648
  · rw [if_pos (h5.mpr h6)]
    omega
  · rw [if_neg (fun h => h6 (h5.mp h))]
    omega

/-! ## Machine integers -/

theorem toUInt32_toInt32 (n : Nat) : toUInt32 (toInt32 n) = n % 4294967296 := by
  unfold toUInt32 toInt32
  split <;> omega

theorem toUInt32_le_of_nonneg (i : Int) (h : 0 ≤ i) : (toUInt32 i : Int) ≤ i := by
  unfold toUInt32
  omega

theorem getMaxDecPicBuffering_lt (sps : SPS) (t : Nat) :
    sps.getMaxDecPicBuffering t < 4294967296 := by
  unfold SPS.getMaxDecPicBuffering
  omega

theorem toUInt32_toInt32_getMax (sps : SPS) (t : Nat) :
    toUInt32 (toInt32 (sps.getMaxDecPicBuffering t)) = sps.getMaxDecPicBuffering t := by
  rw [toUInt32_toInt32]
  exact Nat.mod_eq_of_lt (getMaxDecPicBuffering_lt sps t)

/-! ## The scan loop of `xGetNewPicBuffer` -/

theorem modify_append_cons (f : Picture → Picture) (pre : List Picture) (x : Picture)
    (post : List Picture) :
    (pre ++ x :: post).modify f pre.length = pre ++ f x :: post := by
  induction pre with
  | nil => simp [List.modify, List.modifyHead]
  | cons a pre ih => simpa [List.modify, List.modifyTailIdx] using ih

theorem scanForBuffer_cons (p : Picture) (ps : List Picture) :
    scanForBuffer (p :: ps) =
      if p.reusable then some (0, scanBody p :: ps)
      else (scanForBuffer ps).map (fun r => (r.1 + 1, p :: r.2)) := by
  rw [scanForBuffer]
  cases hr : p.reconstructed <;> cases hn : p.neededForOutput <;> cases hf : p.referenced <;>
    simp [scanBody, Picture.reusable, hr, hn, hf] <;>
    cases scanForBuffer ps <;> rfl

theorem scanForBuffer_eq_none (l : List Picture) :
    scanForBuffer l = none ↔ ∀ p ∈ l, p.reusable = false := by
  induction l with
  | nil => simp [scanForBuffer]
  | cons p ps ih =>
    rw [scanForBuffer_cons]
    cases hp : p.reusable with
    | true => simp [hp]
    | false => simp [hp, ih]

/-- Result of a successful scan: the pool splits at the first reusable entry. -/
theorem scanForBuffer_eq_some (l : List Picture) (i : Nat) (l' : List Picture)
    (h : scanForBuffer l = some (i, l')) :
    ∃ pre p post, l = pre ++ p :: post ∧ pre.length = i ∧
      (∀ q ∈ pre, q.reusable = false) ∧ p.reusable = true ∧
      l' = pre ++ scanBody p :: post := by
  induction l generalizing i l' with
  | nil => simp [scanForBuffer] at h
  | cons p ps ih =>
    rw [scanForBuffer_cons] at h
    cases hp : p.reusable with
    | true =>
      simp only [hp, if_true, Option.some.injEq, Prod.mk.injEq] at h
      exact ⟨[], p, ps, rfl, by simpa using h.1, by simp, hp, by simp [← h.2]⟩
    | false =>
      simp only [hp, Bool.false_eq_true, if_false] at h
      cases hs : scanForBuffer ps with
      | none => simp [hs] at h
      | some r =>
        obtain ⟨j, ps'⟩ := r
        simp only [hs, Option.map_some', Option.some.injEq, Prod.mk.injEq] at h
        obtain ⟨pre, q, post, hl, hlen, hpre, hq, hl'⟩ := ih j ps' hs
        refine ⟨p :: pre, q, post, by simp [hl], by simp [hlen, h.1], ?_, hq, ?_⟩
        · intro x hx
          rcases List.mem_cons.mp hx with rfl | hx
          · exact hp
          · exact hpre x hx
        · simp [← h.2, hl']

theorem scanForBuffer_split (pre : List Picture) (p : Picture) (post : List Picture)
    (hpre : ∀ q ∈ pre, q.reusable = false) (hp : p.reusable = true) :
    scanForBuffer (pre ++ p :: post) = some (pre.length, pre ++ scanBody p :: post) := by
  induction pre with
  | nil => simp [scanForBuffer_cons, hp]
  | cons a pre ih =>
    have ha : a.reusable = false := hpre a (List.mem_cons_self _ _)
    rw [List.cons_append, scanForBuffer_cons, ih (fun q hq => hpre q (List.mem_cons_of_mem _ hq))]
    simp [ha]

theorem find_reusable_split (pre : List Picture) (p : Picture) (post : List Picture)
    (hpre : ∀ q ∈ pre, q.reusable = false) (hp : p.reusable = true) :
    (pre ++ p :: post).find? Picture.reusable = some p := by
  induction pre with
  | nil => simp [List.find?, hp]
  | cons a pre ih =>
    have ha : a.reusable = false := hpre a (List.mem_cons_self _ _)
    simp only [List.cons_append, List.find?, ha]
    exact ih (fun q hq => hpre q (List.mem_cons_of_mem _ hq))

/-! ## The three paths of `xGetNewPicBuffer` -/

theorem xGetNewPicBuffer_fresh (s : DecLib) (sps : SPS) (t : Nat) (rawPoc : Int)
    (h : s.m_cListPic.length < sps.getMaxDecPicBuffering t) :
    s.xGetNewPicBuffer sps t rawPoc =
      ({ s with m_iMaxRefPicNum := toInt32 (sps.getMaxDecPicBuffering t),
                m_cListPic := s.m_cListPic ++ [(Picture.new s.nextAddr rawPoc).create sps],
                nextAddr := s.nextAddr + 1 }, s.nextAddr) := by
  simp [DecLib.xGetNewPicBuffer, toUInt32_toInt32_getMax, h, Picture.create, Picture.new]

theorem xGetNewPicBuffer_extension (s : DecLib) (sps : SPS) (t : Nat) (rawPoc : Int)
    (h : ¬ s.m_cListPic.length < sps.getMaxDecPicBuffering t)
    (hnone : ∀ p ∈ s.m_cListPic, p.reusable = false) :
    s.xGetNewPicBuffer sps t rawPoc =
      ({ s with m_iMaxRefPicNum := wrapInt (toInt32 (sps.getMaxDecPicBuffering t) + 1),
                m_cListPic := s.m_cListPic ++ [(Picture.new s.nextAddr rawPoc).create sps],
                nextAddr := s.nextAddr + 1 }, s.nextAddr) := by
  have hs : scanForBuffer s.m_cListPic = none := (scanForBuffer_eq_none _).mpr hnone
  simp [DecLib.xGetNewPicBuffer, toUInt32_toInt32_getMax, h, hs, Picture.create, Picture.new]

theorem xGetNewPicBuffer_reuse (s : DecLib) (sps : SPS) (t : Nat) (rawPoc : Int)
    (pre : List Picture) (p : Picture) (post : List Picture)
    (h : ¬ s.m_cListPic.length < sps.getMaxDecPicBuffering t)
    (hl : s.m_cListPic = pre ++ p :: post)
    (hpre : ∀ q ∈ pre, q.reusable = false) (hp : p.reusable = true) :
    s.xGetNewPicBuffer sps t rawPoc =
      ({ s with m_iMaxRefPicNum := toInt32 (sps.getMaxDecPicBuffering t),
                m_cListPic := pre ++ prepareReused sps (scanBody p) :: post }, p.addr) := by
  have hs := scanForBuffer_split pre p post hpre hp
  rw [← hl] at hs
  have hmod : List.modify (prepareReused sps) pre.length (pre ++ scanBody p :: post) =
      pre ++ prepareReused sps (scanBody p) :: post := modify_append_cons _ _ _ _
  have hget : (((pre ++ scanBody p :: post).get? pre.length).map Picture.addr).getD 0
      = p.addr := by
    have : (scanBody p).addr = p.addr := by
      unfold scanBody
      split <;> rfl
    have hg : (pre ++ scanBody p :: post).get? pre.length = some (scanBody p) := by
      rw [List.get?_eq_getElem?, List.getElem?_append_right (Nat.le_refl _)]
      simp
    rw [hg]
    simpa using this
  simp only [DecLib.xGetNewPicBuffer, toUInt32_toInt32_getMax, h, if_false, hs, hmod, hget]

/-! ## Dereferencing in a well-formed heap -/

theorem find_addr_split (pre : List Picture) (p : Picture) (post : List Picture)
    (hnd : ((pre ++ p :: post).map Picture.addr).Nodup) :
    (pre ++ p :: post).find? (fun q => q.addr == p.addr) = some p := by
  induction pre with
  | nil => simp [List.find?]
  | cons a pre ih =>
    simp only [List.cons_append, List.map_cons, List.nodup_cons] at hnd
    have hne : (a.addr == p.addr) = false := by
      apply beq_false_of_ne
      intro heq
      apply hnd.1
      rw [heq]
      simp
    simp only [List.cons_append, List.find?, hne]
    exact ih hnd.2

theorem find_addr_append_new (l : List Picture) (x : Picture)
    (hl : ∀ q ∈ l, q.addr < x.addr) :
    (l ++ [x]).find? (fun q => q.addr == x.addr) = some x := by
  induction l with
  | nil => simp [List.find?]
  | cons a l ih =>
    have hne : (a.addr == x.addr) = false := by
      apply beq_false_of_ne
      have := hl a (List.mem_cons_self _ _)
      omega
    simp only [List.cons_append, List.find?, hne]
    exact ih (fun q hq => hl q (List.mem_cons_of_mem _ hq))

theorem addr_ne_of_nodup_split (pre : List Picture) (p : Picture) (post : List Picture)
    (hnd : ((pre ++ p :: post).map Picture.addr).Nodup) (q : Picture)
    (hq : q ∈ pre ++ p :: post) (hne : q ≠ p) : q.addr ≠ p.addr := by
  simp only [List.map_append, List.map_cons] at hnd
  have h := List.nodup_append.mp hnd
  have hp := List.nodup_cons.mp h.2.1
  rcases List.mem_append.mp hq with hq | hq
  · intro heq
    exact h.2.2 (List.mem_map_of_mem _ hq) (by rw [heq]; simp)
  · rcases List.mem_cons.mp hq with rfl | hq
    · exact absurd rfl hne
    · intro heq
      exact hp.1 (by rw [← heq]; exact List.mem_map_of_mem _ hq)

theorem prepareReused_flags (sps : SPS) (p : Picture) :
    (prepareReused sps p).neededForOutput = false ∧
    (prepareReused sps p).reconstructed = false ∧
    (prepareReused sps p).addr = p.addr ∧
    (prepareReused sps p).referenced = p.referenced ∧
    (prepareReused sps p).poc = p.poc := by
  unfold prepareReused
  split <;> simp [Picture.create, Picture.destroy]

theorem scanBody_fields (p : Picture) :
    (scanBody p).addr = p.addr ∧ (scanBody p).referenced = p.referenced ∧
    (scanBody p).poc = p.poc := by
  unfold scanBody
  split <;> simp

theorem reusable_false_of_busy (q : Picture)
    (h : q.neededForOutput = true ∨ (q.referenced = true ∧ q.reconstructed = true)) :
    q.reusable = false := by
  unfold Picture.reusable
  rcases h with h | ⟨h1, h2⟩
  · simp [h]
  · simp [h1, h2]

/-! ## Claims on `xGetNewPicBuffer` -/

/-- C5. Reuse rule of `xGetNewPicBuffer`: when the pool length is not below
`maxDecPicBuffering(temporalLayer)` and `p` is the first entry in pool order that
satisfies the reuse condition, the call returns `p` and leaves the pool length
unchanged; and a picture of the pool whose `neededForOutput` flag is set, or that
is both referenced and reconstructed, is never the returned picture. -/
theorem xGetNewPicBuffer_reuse_rule (s : DecLib) (sps : SPS) (t : Nat) (rawPoc : Int)
    (hwf : s.WF) :
    (∀ p, ¬ s.m_cListPic.length < sps.getMaxDecPicBuffering t →
        s.m_cListPic.find? Picture.reusable = some p →
        (s.xGetNewPicBuffer sps t rawPoc).2 = p.addr ∧
        (s.xGetNewPicBuffer sps t rawPoc).1.m_cListPic.length = s.m_cListPic.length) ∧
    (∀ q ∈ s.m_cListPic,
        (q.neededForOutput = true ∨ (q.referenced = true ∧ q.reconstructed = true)) →
        (s.xGetNewPicBuffer sps t rawPoc).2 ≠ q.addr) := by
  constructor
  · intro p hfull hfirst
    obtain ⟨hp, pre, post, hl, hpre⟩ := List.find?_eq_some.mp hfirst
    have hpre' : ∀ q ∈ pre, q.reusable = false := fun q hq => by simpa using hpre q hq
    rw [xGetNewPicBuffer_reuse s sps t rawPoc pre p post hfull hl hpre' hp]
    simp [hl]
  · intro q hq hbusy
    have hqr := reusable_false_of_busy q hbusy
    by_cases hlen : s.m_cListPic.length < sps.getMaxDecPicBuffering t
    · rw [xGetNewPicBuffer_fresh s sps t rawPoc hlen]
      have := hwf.2 q hq
      simp only
      omega
    · cases hf : s.m_cListPic.find? Picture.reusable with
      | none =>
        have hnone : ∀ p ∈ s.m_cListPic, p.reusable = false := fun p hp => by
          simpa using (List.find?_eq_none.mp hf) p hp
        rw [xGetNewPicBuffer_extension s sps t rawPoc hlen hnone]
        have := hwf.2 q hq
        simp only
        omega
      | some p =>
        obtain ⟨hp, pre, post, hl, hpre⟩ := List.find?_eq_some.mp hf
        have hpre' : ∀ q ∈ pre, q.reusable = false := fun q hq => by simpa using hpre q hq
        rw [xGetNewPicBuffer_reuse s sps t rawPoc pre p post hlen hl hpre' hp]
        have hne : q ≠ p := by
          intro heq
          rw [heq, hp] at hqr
          cases hqr
        have hnd := hwf.1
        rw [hl] at hnd hq
        exact fun h => addr_ne_of_nodup_split pre p post hnd q hq hne h.symm

/-- Witness of C5 on a full pool whose second entry is the first reusable one. -/
theorem xGetNewPicBuffer_reuse_rule_witness :
    stReuse.WF ∧ (stReuse.xGetNewPicBuffer sps2 0 0).2 = 1 ∧
    (stReuse.xGetNewPicBuffer sps2 0 0).1.m_cListPic.length = 3 ∧
    (stReuse.xGetNewPicBuffer sps2 0 0).2 ≠ 0 :=
  ⟨by decide,
   ((xGetNewPicBuffer_reuse_rule stReuse sps2 0 0 (by decide)).1 (picIdle 1 2)
      (by decide) (by decide)).1,
   ((xGetNewPicBuffer_reuse_rule stReuse sps2 0 0 (by decide)).1 (picIdle 1 2)
      (by decide) (by decide)).2,
   (xGetNewPicBuffer_reuse_rule stReuse sps2 0 0 (by decide)).2 (picBusy 0 4)
      (by decide) (by decide)⟩

/-- C6. For every well-formed decoder state, SPS and temporal layer, the picture
returned by `xGetNewPicBuffer` has `neededForOutput = false` and
`reconstructed = false`, whichever path the call takes. -/
theorem xGetNewPicBuffer_returns_cleared (s : DecLib) (sps : SPS) (t : Nat) (rawPoc : Int)
    (hwf : s.WF) :
    ∃ pic, (s.xGetNewPicBuffer sps t rawPoc).1.pic? (s.xGetNewPicBuffer sps t rawPoc).2
        = some pic ∧
      pic.neededForOutput = false ∧ pic.reconstructed = false := by
  by_cases hlen : s.m_cListPic.length < sps.getMaxDecPicBuffering t
  · rw [xGetNewPicBuffer_fresh s sps t rawPoc hlen]
    refine ⟨(Picture.new s.nextAddr rawPoc).create sps, ?_, rfl, rfl⟩
    exact find_addr_append_new s.m_cListPic ((Picture.new s.nextAddr rawPoc).create sps) hwf.2
  · cases hf : s.m_cListPic.find? Picture.reusable with
    | none =>
      have hnone : ∀ p ∈ s.m_cListPic, p.reusable = false := fun p hp => by
        simpa using (List.find?_eq_none.mp hf) p hp
      rw [xGetNewPicBuffer_extension s sps t rawPoc hlen hnone]
      refine ⟨(Picture.new s.nextAddr rawPoc).create sps, ?_, rfl, rfl⟩
      exact find_addr_append_new s.m_cListPic ((Picture.new s.nextAddr rawPoc).create sps) hwf.2
    | some p =>
      obtain ⟨hp, pre, post, hl, hpre⟩ := List.find?_eq_some.mp hf
      have hpre' : ∀ q ∈ pre, q.reusable = false := fun q hq => by simpa using hpre q hq
      rw [xGetNewPicBuffer_reuse s sps t rawPoc pre p post hlen hl hpre' hp]
      have hfl := prepareReused_flags sps (scanBody p)
      have hsb := scanBody_fields p
      refine ⟨prepareReused sps (scanBody p), ?_, hfl.1, hfl.2.1⟩
      have haddr : (prepareReused sps (scanBody p)).addr = p.addr := by
        rw [hfl.2.2.1, hsb.1]
      have hnd : ((pre ++ prepareReused sps (scanBody p) :: post).map Picture.addr).Nodup := by
        have := hwf.1
        rw [hl] at this
        simpa [haddr] using this
      have := find_addr_split pre (prepareReused sps (scanBody p)) post hnd
      rw [haddr] at this
      exact this

/-- Witness of C6 on a full pool with a reusable entry. -/
theorem xGetNewPicBuffer_returns_cleared_witness :
    stReuse.WF ∧ ∃ pic, (stReuse.xGetNewPicBuffer sps2 0 0).1.pic?
        (stReuse.xGetNewPicBuffer sps2 0 0).2 = some pic ∧
      pic.neededForOutput = false ∧ pic.reconstructed = false :=
  ⟨by decide, xGetNewPicBuffer_returns_cleared stReuse sps2 0 0 (by decide)⟩

/-- C7. Fresh allocation: whenever the pool length is strictly less than
`sps.getMaxDecPicBuffering(temporalLayer)`, `xGetNewPicBuffer` creates a new picture,
appends it as the last pool entry and returns it; the pool length grows by exactly
1, the old entries are unchanged and none of them is the returned picture. -/
theorem xGetNewPicBuffer_fresh_allocation (s : DecLib) (sps : SPS) (t : Nat) (rawPoc : Int)
    (hlen : s.m_cListPic.length < sps.getMaxDecPicBuffering t) :
    (s.xGetNewPicBuffer sps t rawPoc).1.m_cListPic
        = s.m_cListPic ++ [(Picture.new s.nextAddr rawPoc).create sps] ∧
    (s.xGetNewPicBuffer sps t rawPoc).2 = ((Picture.new s.nextAddr rawPoc).create sps).addr ∧
    (s.xGetNewPicBuffer sps t rawPoc).1.m_cListPic.length = s.m_cListPic.length + 1 ∧
    (s.WF → ∀ q ∈ s.m_cListPic, q.addr ≠ (s.xGetNewPicBuffer sps t rawPoc).2) := by
  rw [xGetNewPicBuffer_fresh s sps t rawPoc hlen]
  refine ⟨rfl, rfl, by simp, ?_⟩
  intro hwf q hq
  have := hwf.2 q hq
  simp only
  omega

/-- Witness of C7 on a pool with one entry and bound 2. -/
theorem xGetNewPicBuffer_fresh_allocation_witness :
    stRoom.m_cListPic.length < sps2.getMaxDecPicBuffering 0 ∧
    (stRoom.xGetNewPicBuffer sps2 0 7).1.m_cListPic.length = stRoom.m_cListPic.length + 1 :=
  ⟨by decide, (xGetNewPicBuffer_fresh_allocation stRoom sps2 0 7 (by decide)).2.2.1⟩

/-- C8, counterexample. After two pictures with `maxDecPicBuffering = 1`, each
staying referenced, `m_iMaxRefPicNum` is 2 (the second call extended the pool); the
pool is full and has no reusable entry, so the third call makes an emergency
extension, and `m_iMaxRefPicNum` is 2 after it as it was before it: it is not
increased by 1. -/
theorem emergency_extension_counterexample :
    ∃ ss, runPictures spsOne [(0, [0, 1, 2]), (1, [0, 1, 2])] {} = some ss ∧
      ss.dec.m_iMaxRefPicNum = 2 ∧
      ¬ ss.dec.m_cListPic.length < spsOne.getMaxDecPicBuffering 0 ∧
      (∀ p ∈ ss.dec.m_cListPic, p.reusable = false) ∧
      (ss.dec.xGetNewPicBuffer spsOne 0 0).1.m_iMaxRefPicNum = 2 ∧
      (ss.dec.xGetNewPicBuffer spsOne 0 0).1.m_iMaxRefPicNum ≠ ss.dec.m_iMaxRefPicNum + 1 := by
  refine ⟨_, rfl, ?_, ?_, ?_, ?_, ?_⟩ <;> decide

/-- C8, amended. Emergency extension: when the pool length is not below
`maxDecPicBuffering(temporalLayer)` (a value below `MAX_INT`) and no entry is
reusable, `m_iMaxRefPicNum` ends at `maxDecPicBuffering(temporalLayer) + 1`, one
above the value that the call assigned to it on entry, whatever its value before the
call was; exactly one new picture is appended to the pool and returned, and the call
returns normally (the function has no error exit). -/
theorem xGetNewPicBuffer_emergency_extension (s : DecLib) (sps : SPS) (t : Nat)
    (rawPoc : Int)
    (hfull : ¬ s.m_cListPic.length < sps.getMaxDecPicBuffering t)
    (hnone : ∀ p ∈ s.m_cListPic, p.reusable = false)
    (hsmall : sps.getMaxDecPicBuffering t < 2147483647) :
    (s.xGetNewPicBuffer sps t rawPoc).1.m_iMaxRefPicNum
        = (sps.getMaxDecPicBuffering t : Int) + 1 ∧
    (s.xGetNewPicBuffer sps t rawPoc).1.m_cListPic
        = s.m_cListPic ++ [(Picture.new s.nextAddr rawPoc).create sps] ∧
    (s.xGetNewPicBuffer sps t rawPoc).2 = ((Picture.new s.nextAddr rawPoc).create sps).addr ∧
    (s.xGetNewPicBuffer sps t rawPoc).1.m_cListPic.length = s.m_cListPic.length + 1 := by
  rw [xGetNewPicBuffer_extension s sps t rawPoc hfull hnone]
  have hcast := toInt32_of_lt _ (show sps.getMaxDecPicBuffering t < 2147483648 by omega)
  refine ⟨?_, rfl, rfl, by simp⟩
  show wrapInt (toInt32 (sps.getMaxDecPicBuffering t) + 1) = _
  rw [hcast, wrapInt_of_range _ (by omega) (by omega)]

/-- Witness of the amended C8 on a full pool of two busy pictures with bound 2. -/
theorem xGetNewPicBuffer_emergency_extension_witness :
    (stFull.xGetNewPicBuffer sps2 0 7).1.m_iMaxRefPicNum = 3 ∧
    (stFull.xGetNewPicBuffer sps2 0 7).1.m_cListPic.length = 3 :=
  ⟨(xGetNewPicBuffer_emergency_extension stFull sps2 0 7 (by decide) (by decide)
      (by decide)).1,
   (xGetNewPicBuffer_emergency_extension stFull sps2 0 7 (by decide) (by decide)
      (by decide)).2.2.2⟩

/-! ## The counting loop -/

theorem countLoop_acc (last : Int) (pool : List Picture) (c : Counters) :
    (countLoop last pool c).numPicsNotYetDisplayed
        = c.numPicsNotYetDisplayed + (pool.countP (awaitsOutput last) : Nat) ∧
    (countLoop last pool c).dpbFullness
        = c.dpbFullness + (pool.countP (awaitsOutput last) : Nat)
          + (pool.countP (fun p => !awaitsOutput last p && p.referenced) : Nat) := by
  induction pool generalizing c with
  | nil => simp [countLoop]
  | cons p ps ih =>
    rw [countLoop]
    cases ha : awaitsOutput last p with
    | true =>
      have ha' : (p.neededForOutput && decide (p.getPOC > last)) = true := ha
      rw [if_pos ha']
      obtain ⟨h1, h2⟩ := ih { numPicsNotYetDisplayed := c.numPicsNotYetDisplayed + 1,
                               dpbFullness := c.dpbFullness + 1 }
      rw [h1, h2]
      simp only [List.countP_cons, ha, Bool.not_true, Bool.false_and, if_true]
      constructor <;> (push_cast; ring)
    | false =>
      have ha' : ¬ (p.neededForOutput && decide (p.getPOC > last)) = true := by
        intro h
        have : awaitsOutput last p = true := h
        rw [ha] at this
        cases this
      rw [if_neg ha']
      cases hr : p.referenced with
      | true =>
        rw [if_pos rfl]
        obtain ⟨h1, h2⟩ := ih { c with dpbFullness := c.dpbFullness + 1 }
        rw [h1, h2]
        simp only [List.countP_cons, ha, hr, Bool.not_false, Bool.and_self, if_true]
        constructor <;> (push_cast; ring)
      | false =>
        rw [if_neg (by simp)]
        obtain ⟨h1, h2⟩ := ih c
        rw [h1, h2]
        simp [List.countP_cons, ha, hr]

/-- C9. Output-pass counters: for every pool and every `iPOCLastDisplay`, the
counting loop computes `numPicsNotYetDisplayed` = number of pool entries with
`neededForOutput && POC > iPOCLastDisplay`, and `dpbFullness` = that number plus
the number of the remaining entries that are referenced. -/
theorem countLoop_counts (pool : List Picture) (iPOCLastDisplay : Int) :
    (countLoop iPOCLastDisplay pool {}).numPicsNotYetDisplayed
        = (pool.countP (fun p => p.neededForOutput && decide (p.getPOC > iPOCLastDisplay))
            : Nat) ∧
    (countLoop iPOCLastDisplay pool {}).dpbFullness
        = (countLoop iPOCLastDisplay pool {}).numPicsNotYetDisplayed
          + (pool.countP (fun p =>
              !(p.neededForOutput && decide (p.getPOC > iPOCLastDisplay)) && p.referenced)
              : Nat) := by
  have hfun : awaitsOutput iPOCLastDisplay
      = fun p => p.neededForOutput && decide (p.getPOC > iPOCLastDisplay) := rfl
  obtain ⟨h1, h2⟩ := countLoop_acc iPOCLastDisplay pool {}
  rw [h1, h2, hfun]
  simp

/-! ## The emitting loop -/

theorem emitCond_awaits (r m : Nat) (p : Picture) (st : OutputState)
    (h : emitCond r m p st = true) :
    awaitsOutput st.iPOCLastDisplay p = true ∧
    (toUInt32 st.numPicsNotYetDisplayed > r ∨ toUInt32 st.dpbFullness > m) := by
  unfold emitCond at h
  simp only [Bool.and_eq_true, Bool.or_eq_true, decide_eq_true_eq] at h
  refine ⟨?_, h.2⟩
  simp [awaitsOutput, h.1.1, h.1.2]

theorem emitState_emitInv (lo : Int) (p : Picture) (st : OutputState)
    (hinv : EmitInv lo st) (hp : st.iPOCLastDisplay < p.getPOC) :
    EmitInv lo (emitState p st) := by
  obtain ⟨h1, h2, h3⟩ := hinv
  refine ⟨?_, ?_, ?_⟩
  · simp only [emitState]
    omega
  · simp only [emitState, List.map_append, List.map_cons, List.map_nil]
    rw [List.pairwise_append]
    refine ⟨h2, List.pairwise_singleton _ _, ?_⟩
    intro a ha b hb
    obtain ⟨e, he, rfl⟩ := List.mem_map.mp ha
    have := (h3 e he).2.2
    simp only [List.mem_singleton] at hb
    subst hb
    omega
  · intro e he
    simp only [emitState, List.mem_append, List.mem_singleton] at he
    rcases he with he | rfl
    · obtain ⟨a, b, c⟩ := h3 e he
      exact ⟨a, b, by simp only [emitState]; omega⟩
    · exact ⟨h1, hp, by simp [emitState]⟩

theorem emitLoop_emitInv (r m : Nat) (lo : Int) (ps : List Picture) (st : OutputState)
    (hinv : EmitInv lo st) : EmitInv lo (emitLoop r m ps st).2 := by
  induction ps generalizing st with
  | nil => simpa [emitLoop] using hinv
  | cons p ps ih =>
    rw [emitLoop]
    split
    · rename_i hc
      have hp : st.iPOCLastDisplay < p.getPOC := by
        have := (emitCond_awaits r m p st hc).1
        simp only [awaitsOutput, Bool.and_eq_true, decide_eq_true_eq] at this
        exact this.2
      exact ih _ (emitState_emitInv lo p st hinv hp)
    · exact ih _ hinv

theorem emitLoop_length (r m : Nat) (ps : List Picture) (st : OutputState) :
    (emitLoop r m ps st).1.length = ps.length := by
  induction ps generalizing st with
  | nil => simp [emitLoop]
  | cons p ps ih =>
    rw [emitLoop]
    split <;> simp [ih]

theorem awaitsOutput_mono (a b : Int) (hab : a ≤ b) (q : Picture)
    (h : awaitsOutput b q = true) : awaitsOutput a q = true := by
  simp only [awaitsOutput, Bool.and_eq_true, decide_eq_true_eq] at h ⊢
  exact ⟨h.1, by omega⟩

theorem countP_le_of_imp (f g : Picture → Bool) (l : List Picture)
    (h : ∀ q, f q = true → g q = true) : l.countP f ≤ l.countP g := by
  induction l with
  | nil => simp
  | cons a l ih =>
    simp only [List.countP_cons]
    by_cases hf : f a = true
    · simp [hf, h a hf, ih]
    · have hf' : f a = false := by simpa using hf
      by_cases hg : g a = true
      · simp only [hf', hg, Bool.false_eq_true, if_false, if_true]
        omega
      · have hg' : g a = false := by simpa using hg
        simp only [hf', hg', Bool.false_eq_true, if_false]
        omega

theorem emitState_cntInv (r m : Nat) (p : Picture) (ps : List Picture) (st : OutputState)
    (hc : emitCond r m p st = true) (hcnt : CntInv (p :: ps) st) :
    CntInv ps (emitState p st) := by
  obtain ⟨ha, _⟩ := emitCond_awaits r m p st hc
  have hlt : st.iPOCLastDisplay ≤ p.getPOC := by
    simp only [awaitsOutput, Bool.and_eq_true, decide_eq_true_eq] at ha
    omega
  obtain ⟨h1, h2⟩ := hcnt
  simp only [List.countP_cons, ha, Bool.true_or, if_true] at h1 h2
  have m1 := countP_le_of_imp (awaitsOutput p.getPOC) (awaitsOutput st.iPOCLastDisplay) ps
    (awaitsOutput_mono _ _ hlt)
  have m2 := countP_le_of_imp (fun q => awaitsOutput p.getPOC q || q.referenced)
    (fun q => awaitsOutput st.iPOCLastDisplay q || q.referenced) ps (by
      intro q hq
      simp only [Bool.or_eq_true] at hq ⊢
      rcases hq with hq | hq
      · exact Or.inl (awaitsOutput_mono _ _ hlt q hq)
      · exact Or.inr hq)
  constructor
  · simp only [emitState]
    push_cast at h1
    omega
  · simp only [emitState]
    push_cast at h2
    split <;> omega

theorem cntInv_tail (p : Picture) (ps : List Picture) (st : OutputState)
    (hcnt : CntInv (p :: ps) st) : CntInv ps st := by
  obtain ⟨h1, h2⟩ := hcnt
  simp only [List.countP_cons] at h1 h2
  push_cast at h1 h2
  constructor
  · split at h1 <;> omega
  · split at h2 <;> omega

/-- Every emission of the loop was made with a counter above its bound. -/
theorem emitLoop_cond (r m : Nat) (ps : List Picture) (st : OutputState)
    (hcnt : CntInv ps st)
    (hold : ∀ e ∈ st.emitted, e.numBefore > (r : Int) ∨ e.fullBefore > (m : Int)) :
    ∀ e ∈ (emitLoop r m ps st).2.emitted, e.numBefore > (r : Int) ∨ e.fullBefore > (m : Int) := by
  induction ps generalizing st with
  | nil => simpa [emitLoop] using hold
  | cons p ps ih =>
    rw [emitLoop]
    split
    · rename_i hc
      apply ih _ (emitState_cntInv r m p ps st hc hcnt)
      intro e he
      simp only [emitState, List.mem_append, List.mem_singleton] at he
      rcases he with he | rfl
      · exact hold e he
      · obtain ⟨ha, hcond⟩ := emitCond_awaits r m p st hc
        obtain ⟨h1, h2⟩ := hcnt
        simp only [List.countP_cons, ha, Bool.true_or, if_true] at h1 h2
        push_cast at h1 h2
        have n1 := toUInt32_le_of_nonneg st.numPicsNotYetDisplayed (by omega)
        have n2 := toUInt32_le_of_nonneg st.dpbFullness (by omega)
        simp only
        rcases hcond with hcond | hcond
        · left; omega
        · right; omega
    · exact ih _ (cntInv_tail p ps st hcnt) hold

/-- With both counters within their bounds the loop emits nothing. -/
theorem emitLoop_idle (r m : Nat) (ps : List Picture) (st : OutputState)
    (hn : toUInt32 st.numPicsNotYetDisplayed ≤ r) (hf : toUInt32 st.dpbFullness ≤ m) :
    emitLoop r m ps st = (ps, st) := by
  induction ps with
  | nil => simp [emitLoop]
  | cons p ps ih =>
    rw [emitLoop]
    have hc : emitCond r m p st = false := by
      unfold emitCond
      have h1 : decide (toUInt32 st.numPicsNotYetDisplayed > r) = false := by
        simp only [decide_eq_false_iff_not]; omega
      have h2 : decide (toUInt32 st.dpbFullness > m) = false := by
        simp only [decide_eq_false_iff_not]; omega
      simp [h1, h2]
    simp [hc, ih]

/-! ## One output pass -/

theorem outputPass_cons (front : Picture) (rest : List Picture) (last : Int) :
    outputPass (front :: rest) last =
      if (decide ((countLoop last (front :: rest) {}).numPicsNotYetDisplayed > 2) &&
          (inspectedPic front rest
            (countLoop last (front :: rest) {}).numPicsNotYetDisplayed).fieldPic) = true then
        .error "no field coding support "
      else if (!(inspectedPic front rest
            (countLoop last (front :: rest) {}).numPicsNotYetDisplayed).fieldPic) = true then
        .ok (emitLoop (frontNumReorderPics (front :: rest))
          (frontMaxDecPicBuffering (front :: rest)) (front :: rest)
          (passStart (front :: rest) last))
      else .ok (front :: rest, passStart (front :: rest) last) := rfl

theorem outputPass_ok_cases (pool : List Picture) (last : Int) (pool' : List Picture)
    (st : OutputState) (h : outputPass pool last = .ok (pool', st)) :
    (pool', st) = emitLoop (frontNumReorderPics pool) (frontMaxDecPicBuffering pool) pool
        (passStart pool last) ∨
    (pool' = pool ∧ st = passStart pool last) := by
  cases pool with
  | nil =>
    right
    simp only [outputPass, Except.ok.injEq, Prod.mk.injEq] at h
    simp [passStart, countLoop, ← h.1, ← h.2]
  | cons front rest =>
    rw [outputPass_cons] at h
    split at h
    · cases h
    · split at h
      · left
        simp only [Except.ok.injEq] at h
        rw [← h]
      · right
        simp only [Except.ok.injEq, Prod.mk.injEq] at h
        exact ⟨h.1.symm, h.2.symm⟩

theorem passStart_emitInv (pool : List Picture) (last : Int) :
    EmitInv last (passStart pool last) := by
  refine ⟨le_refl _, ?_, ?_⟩ <;> simp [passStart]

theorem passStart_cntInv (pool : List Picture) (last : Int) :
    CntInv pool (passStart pool last) := by
  obtain ⟨h1, h2⟩ := countLoop_acc last pool {}
  have hsum : pool.countP (fun p => awaitsOutput last p || p.referenced)
      = pool.countP (awaitsOutput last)
        + pool.countP (fun p => !awaitsOutput last p && p.referenced) := by
    induction pool with
    | nil => simp
    | cons a l ih =>
      simp only [List.countP_cons]
      rw [ih (countLoop_acc last l {}).1 (countLoop_acc last l {}).2]
      cases awaitsOutput last a <;> cases a.referenced <;> simp <;> omega
  constructor
  · simp only [passStart, h1]
    simp
  · simp only [passStart, h2, hsum]
    push_cast
    simp

theorem outputPass_emitInv (pool : List Picture) (last : Int) (pool' : List Picture)
    (st : OutputState) (h : outputPass pool last = .ok (pool', st)) :
    EmitInv last st := by
  rcases outputPass_ok_cases pool last pool' st h with h | h
  · have := emitLoop_emitInv (frontNumReorderPics pool) (frontMaxDecPicBuffering pool) last
      pool (passStart pool last) (passStart_emitInv pool last)
    rw [← h] at this
    exact this
  · rw [h.2]
    exact passStart_emitInv pool last

/-- C10. Output-pass loop condition: every picture emitted by a pass was emitted
while `numPicsNotYetDisplayed > numReorderPics` or `dpbFullness > maxDecPicBuffering`
(values of the highest temporal sub-layer); if at the start of the pass both
counters are within these bounds, the pass emits nothing and leaves
`iPOCLastDisplay` and the whole pool unchanged; and the POCs emitted within one
pass are in strictly ascending order (for every pool, a POC-sorted one included). -/
theorem outputPass_loop_condition (pool : List Picture) (last : Int)
    (pool' : List Picture) (st : OutputState)
    (h : outputPass pool last = .ok (pool', st)) :
    (∀ e ∈ st.emitted, e.numBefore > (frontNumReorderPics pool : Int) ∨
        e.fullBefore > (frontMaxDecPicBuffering pool : Int)) ∧
    ((countLoop last pool {}).numPicsNotYetDisplayed ≤ (frontNumReorderPics pool : Int) →
      (countLoop last pool {}).dpbFullness ≤ (frontMaxDecPicBuffering pool : Int) →
      st.emitted = [] ∧ st.iPOCLastDisplay = last ∧ pool' = pool) ∧
    (emittedPOCs st).Pairwise (· < ·) := by
  refine ⟨?_, ?_, (outputPass_emitInv pool last pool' st h).2.1⟩
  · rcases outputPass_ok_cases pool last pool' st h with h | h
    · have := emitLoop_cond (frontNumReorderPics pool) (frontMaxDecPicBuffering pool) pool
        (passStart pool last) (passStart_cntInv pool last) (by simp [passStart])
      rw [← h] at this
      exact this
    · rw [h.2]
      simp [passStart]
  · intro hn hf
    rcases outputPass_ok_cases pool last pool' st h with h | h
    · have hc := passStart_cntInv pool last
      have n1 := toUInt32_le_of_nonneg (passStart pool last).numPicsNotYetDisplayed
        (le_trans (Int.natCast_nonneg _) hc.1)
      have n2 := toUInt32_le_of_nonneg (passStart pool last).dpbFullness
        (le_trans (Int.natCast_nonneg _) hc.2)
      have hidle := emitLoop_idle (frontNumReorderPics pool) (frontMaxDecPicBuffering pool)
        pool (passStart pool last)
        (by simp only [passStart] at n1 ⊢; omega) (by simp only [passStart] at n2 ⊢; omega)
      rw [hidle] at h
      simp only [Prod.mk.injEq] at h
      rw [h.1, h.2]
      simp [passStart]
    · rw [h.1, h.2]
      simp [passStart]

/-- Witness of C10: a pass over three pending pictures emits the first two. -/
theorem outputPass_loop_condition_witness :
    ∃ pool' st, outputPass poolThree (-MAX_INT) = .ok (pool', st) ∧
      emittedPOCs st = [2, 4] ∧
      (∀ e ∈ st.emitted, e.numBefore > (frontNumReorderPics poolThree : Int) ∨
        e.fullBefore > (frontMaxDecPicBuffering poolThree : Int)) ∧
      (emittedPOCs st).Pairwise (· < ·) :=
  ⟨(emitLoop 1 2 poolThree (passStart poolThree (-MAX_INT))).1,
   (emitLoop 1 2 poolThree (passStart poolThree (-MAX_INT))).2,
   rfl, by decide,
   (outputPass_loop_condition poolThree (-MAX_INT) _ _ rfl).1,
   (outputPass_loop_condition poolThree (-MAX_INT) _ _ rfl).2.2⟩

/-! ## Sessions -/

theorem runSession_inv (steps : List SessionStep) (last : Int) :
    ((runSession steps last).map Emission.poc).Pairwise (· < ·) ∧
    ∀ e ∈ runSession steps last, last ≤ e.lastBefore ∧ e.lastBefore < e.poc := by
  induction steps generalizing last with
  | nil => simp [runSession]
  | cons step rest ih =>
    cases step with
    | skipped =>
      rw [runSession]
      obtain ⟨h1, h2⟩ := ih (last + 1)
      refine ⟨h1, fun e he => ?_⟩
      have := h2 e he
      omega
    | pass pool =>
      rw [runSession]
      cases hp : outputPass pool last with
      | error msg => simp
      | ok r =>
        obtain ⟨pool', st⟩ := r
        obtain ⟨e1, e2, e3⟩ := outputPass_emitInv pool last pool' st hp
        obtain ⟨h1, h2⟩ := ih st.iPOCLastDisplay
        simp only
        constructor
        · rw [List.map_append, List.pairwise_append]
          refine ⟨e2, h1, ?_⟩
          intro a ha b hb
          obtain ⟨x, hx, rfl⟩ := List.mem_map.mp ha
          obtain ⟨y, hy, rfl⟩ := List.mem_map.mp hb
          have := (e3 x hx).2.2
          have := h2 y hy
          omega
        · intro e he
          rcases List.mem_append.mp he with he | he
          · have := e3 e he
            exact ⟨this.1, this.2.1⟩
          · have := h2 e he
            omega

/-- C1. Monotonic output: over any session, that is any sequence of skipped
pictures and of output passes on arbitrary pools, starting from
`iPOCLastDisplay = -MAX_INT`, the sequence of POCs emitted by the output loop is
non-decreasing, and each emitted picture has a POC greater than the value of
`iPOCLastDisplay` at the moment it is emitted. -/
theorem session_output_monotone (steps : List SessionStep) :
    ((runSession steps (-MAX_INT)).map Emission.poc).Pairwise (· ≤ ·) ∧
    ∀ e ∈ runSession steps (-MAX_INT), e.lastBefore < e.poc := by
  obtain ⟨h1, h2⟩ := runSession_inv steps (-MAX_INT)
  exact ⟨h1.imp (fun h => le_of_lt h), fun e he => (h2 e he).2⟩

/-! ## Bounded pool -/

/-- C3, counterexample. Three pictures are decoded with `maxDecPicBuffering = 1`,
each staying referenced: the second and the third call of `xGetNewPicBuffer` both
extend the pool, and after the third call the pool holds 3 pictures while
`m_iMaxRefPicNum` is 2. And after three calls with `maxDecPicBuffering = 3` a call
with an SPS of `maxDecPicBuffering = 1` reuses a buffer: the pool holds 3 pictures,
above the value 1 of the SPS of this call, without any emergency extension. -/
theorem bounded_pool_counterexample :
    (∃ ss, runPictures spsOne [(0, [0, 1, 2]), (1, [0, 1, 2])] {} = some ss ∧
      (ss.dec.xGetNewPicBuffer spsOne 0 0).1.m_cListPic.length = 3 ∧
      (ss.dec.xGetNewPicBuffer spsOne 0 0).1.m_iMaxRefPicNum = 2 ∧
      ¬ (((ss.dec.xGetNewPicBuffer spsOne 0 0).1.m_cListPic.length : Int)
          ≤ (ss.dec.xGetNewPicBuffer spsOne 0 0).1.m_iMaxRefPicNum)) ∧
    ((poolSession [.acquire sps3 0 0, .acquire sps3 0 0, .acquire sps3 0 0,
        .acquire spsOne 0 0] {}).dec.m_cListPic.length = 3 ∧
      (poolSession [.acquire sps3 0 0, .acquire sps3 0 0, .acquire sps3 0 0,
        .acquire spsOne 0 0] {}).extensions = 0 ∧
      (poolSession [.acquire sps3 0 0, .acquire sps3 0 0, .acquire sps3 0 0,
        .acquire spsOne 0 0] {}).dec.m_iMaxRefPicNum = 1 ∧
      spsOne.getMaxDecPicBuffering 0 = 1) := by
  refine ⟨⟨_, rfl, ?_, ?_, ?_⟩, ?_, ?_, ?_, ?_⟩ <;> decide

/-- The three paths of `xGetNewPicBuffer` and the length of the pool. -/
theorem xGetNewPicBuffer_length (s : DecLib) (sps : SPS) (t : Nat) (rawPoc : Int) :
    (acquirePath s.m_cListPic (sps.getMaxDecPicBuffering t) = .fresh ∧
      s.m_cListPic.length < sps.getMaxDecPicBuffering t ∧
      (s.xGetNewPicBuffer sps t rawPoc).1.m_cListPic.length = s.m_cListPic.length + 1 ∧
      (s.xGetNewPicBuffer sps t rawPoc).1.m_iMaxRefPicNum
        = toInt32 (sps.getMaxDecPicBuffering t)) ∨
    (acquirePath s.m_cListPic (sps.getMaxDecPicBuffering t) = .reuse ∧
      (s.xGetNewPicBuffer sps t rawPoc).1.m_cListPic.length = s.m_cListPic.length ∧
      (s.xGetNewPicBuffer sps t rawPoc).1.m_iMaxRefPicNum
        = toInt32 (sps.getMaxDecPicBuffering t)) ∨
    (acquirePath s.m_cListPic (sps.getMaxDecPicBuffering t) = .extension ∧
      (s.xGetNewPicBuffer sps t rawPoc).1.m_cListPic.length = s.m_cListPic.length + 1 ∧
      (s.xGetNewPicBuffer sps t rawPoc).1.m_iMaxRefPicNum
        = wrapInt (toInt32 (sps.getMaxDecPicBuffering t) + 1)) := by
  by_cases hlen : s.m_cListPic.length < sps.getMaxDecPicBuffering t
  · rw [xGetNewPicBuffer_fresh s sps t rawPoc hlen]
    have hp : acquirePath s.m_cListPic (sps.getMaxDecPicBuffering t) = .fresh := by
      simp [acquirePath, toUInt32_toInt32_getMax, hlen]
    exact Or.inl ⟨hp, hlen, by simp, rfl⟩
  · cases hf : s.m_cListPic.find? Picture.reusable with
    | none =>
      have hnone : ∀ p ∈ s.m_cListPic, p.reusable = false := fun p hp => by
        simpa using (List.find?_eq_none.mp hf) p hp
      rw [xGetNewPicBuffer_extension s sps t rawPoc hlen hnone]
      have hp : acquirePath s.m_cListPic (sps.getMaxDecPicBuffering t) = .extension := by
        simp [acquirePath, toUInt32_toInt32_getMax, hlen,
          (scanForBuffer_eq_none _).mpr hnone]
      exact Or.inr (Or.inr ⟨hp, by simp, rfl⟩)
    | some p =>
      obtain ⟨hp, pre, post, hl, hpre⟩ := List.find?_eq_some.mp hf
      have hpre' : ∀ q ∈ pre, q.reusable = false := fun q hq => by simpa using hpre q hq
      rw [xGetNewPicBuffer_reuse s sps t rawPoc pre p post hlen hl hpre' hp]
      have hpath : acquirePath s.m_cListPic (sps.getMaxDecPicBuffering t) = .reuse := by
        have := scanForBuffer_split pre p post hpre' hp
        rw [← hl] at this
        simp [acquirePath, toUInt32_toInt32_getMax, hlen, this]
      exact Or.inr (Or.inl ⟨hpath, by simp [hl], rfl⟩)

/-- The pool length of a session stays within the largest bound of its calls plus
the number of its emergency extensions. -/
theorem poolSession_inv (steps : List PoolStep) (st0 : PoolRun) (b0 : Nat)
    (hkeep : ∀ step ∈ steps, step.keepsLength)
    (h0 : st0.dec.m_cListPic.length ≤ b0 + st0.extensions) :
    (poolSession steps st0).dec.m_cListPic.length
      ≤ max b0 (largestBound steps) + (poolSession steps st0).extensions := by
  induction steps generalizing st0 b0 with
  | nil =>
    show st0.dec.m_cListPic.length ≤ max b0 0 + st0.extensions
    rw [Nat.max_zero]
    exact h0
  | cons step rest ih =>
    have hrest : ∀ x ∈ rest, x.keepsLength := fun x hx => hkeep x (List.mem_cons_of_mem _ hx)
    cases step with
    | acquire sps t rawPoc =>
      have h := ih (st0.step (.acquire sps t rawPoc)) (max b0 (sps.getMaxDecPicBuffering t))
        hrest (by
          show (st0.dec.xGetNewPicBuffer sps t rawPoc).1.m_cListPic.length
            ≤ max b0 (sps.getMaxDecPicBuffering t) + (st0.extensions +
              (if acquirePath st0.dec.m_cListPic (sps.getMaxDecPicBuffering t) = .extension
                then 1 else 0))
          rcases xGetNewPicBuffer_length st0.dec sps t rawPoc with h | h | h
          · rw [h.2.2.1, h.1]
            simp only [reduceCtorEq, if_false]
            omega
          · rw [h.2.1, h.1]
            simp only [reduceCtorEq, if_false]
            omega
          · rw [h.2.1, h.1]
            simp only [if_true]
            omega)
      show (poolSession rest (st0.step (.acquire sps t rawPoc))).dec.m_cListPic.length
        ≤ max b0 (max (sps.getMaxDecPicBuffering t) (largestBound rest))
          + (poolSession rest (st0.step (.acquire sps t rawPoc))).extensions
      rw [← Nat.max_assoc]
      exact h
    | other g =>
      have hg : ∀ l, (g l).length = l.length := hkeep (.other g) (List.mem_cons_self _ _)
      exact ih (st0.step (.other g)) b0 hrest (by
        show (g st0.dec.m_cListPic).length ≤ b0 + st0.extensions
        rw [hg]
        exact h0)

/-- The largest bound of a session whose calls all have the bound `M`. -/
theorem largestBound_le (steps : List PoolStep) (M : Nat)
    (h : ∀ sps t rawPoc, PoolStep.acquire sps t rawPoc ∈ steps →
      sps.getMaxDecPicBuffering t = M) : largestBound steps ≤ M := by
  induction steps with
  | nil => exact Nat.zero_le _
  | cons step rest ih =>
    have hrest := ih (fun sps t rawPoc hm => h sps t rawPoc (List.mem_cons_of_mem _ hm))
    cases step with
    | acquire sps t rawPoc =>
      show max (sps.getMaxDecPicBuffering t) (largestBound rest) ≤ M
      rw [h sps t rawPoc (List.mem_cons_self _ _)]
      exact Nat.max_le.mpr ⟨le_refl _, hrest⟩
    | other g => exact hrest

/-- C3, amended. Bounded pool: in every state that a session reaches from the
initial decoder by calls of `xGetNewPicBuffer` and operations that neither add nor
remove a pool entry, the pool length is at most the largest
`maxDecPicBuffering(temporalLayer)` of the calls made so far, increased by 1 for
each emergency extension that has occurred; when all calls have the same value
`maxDecPicBuffering(temporalLayer)`, this is that value plus the number of
extensions. The variable `m_iMaxRefPicNum` is not this bound: every call assigns
it `maxDecPicBuffering(temporalLayer)` anew, plus 1 exactly when this call makes an
extension. -/
theorem poolSession_bounded (steps : List PoolStep)
    (hkeep : ∀ step ∈ steps, step.keepsLength) :
    (poolSession steps {}).dec.m_cListPic.length
      ≤ largestBound steps + (poolSession steps {}).extensions ∧
    (∀ M, (∀ sps t rawPoc, PoolStep.acquire sps t rawPoc ∈ steps →
        sps.getMaxDecPicBuffering t = M) →
      (poolSession steps {}).dec.m_cListPic.length ≤ M + (poolSession steps {}).extensions) ∧
    (∀ (s : DecLib) (sps : SPS) (t : Nat) (rawPoc : Int),
      sps.getMaxDecPicBuffering t < 2147483647 →
      (s.xGetNewPicBuffer sps t rawPoc).1.m_iMaxRefPicNum
        = (sps.getMaxDecPicBuffering t : Int)
          + (if acquirePath s.m_cListPic (sps.getMaxDecPicBuffering t) = .extension
              then 1 else 0)) := by
  have h := poolSession_inv steps {} 0 hkeep (Nat.zero_le _)
  rw [Nat.zero_max] at h
  refine ⟨h, ?_, ?_⟩
  · intro M hM
    have := largestBound_le steps M hM
    omega
  · intro s sps t rawPoc hsmall
    have hcast := toInt32_of_lt _ (show sps.getMaxDecPicBuffering t < 2147483648 by omega)
    rcases xGetNewPicBuffer_length s sps t rawPoc with h | h | h
    · rw [h.2.2.2, h.1, hcast]
      simp only [reduceCtorEq, if_false, add_zero]
    · rw [h.2.2, h.1, hcast]
      simp only [reduceCtorEq, if_false, add_zero]
    · rw [h.2.2, h.1, hcast, wrapInt_of_range _ (by omega) (by omega)]
      simp only [if_true]

/-- Witness of the amended C3: three calls with `maxDecPicBuffering = 1`, each
picture staying referenced, leave 3 pictures after 2 emergency extensions. -/
theorem poolSession_bounded_witness :
    (poolSession [.acquire spsOne 0 0, .other markBusy, .acquire spsOne 0 0, .other markBusy,
        .acquire spsOne 0 0] {}).dec.m_cListPic.length
      ≤ 1 + (poolSession [.acquire spsOne 0 0, .other markBusy, .acquire spsOne 0 0,
        .other markBusy, .acquire spsOne 0 0] {}).extensions ∧
    (poolSession [.acquire spsOne 0 0, .other markBusy, .acquire spsOne 0 0, .other markBusy,
        .acquire spsOne 0 0] {}).dec.m_cListPic.length = 3 ∧
    (poolSession [.acquire spsOne 0 0, .other markBusy, .acquire spsOne 0 0, .other markBusy,
        .acquire spsOne 0 0] {}).extensions = 2 :=
  ⟨(poolSession_bounded [.acquire spsOne 0 0, .other markBusy, .acquire spsOne 0 0,
      .other markBusy, .acquire spsOne 0 0]
      (fun step hstep => by
        simp only [List.mem_cons, List.mem_singleton, List.not_mem_nil, or_false] at hstep
        rcases hstep with h | h | h | h | h <;> subst h
        · trivial
        · exact fun l => List.length_map _ _
        · trivial
        · exact fun l => List.length_map _ _
        · trivial)).1,
    by decide, by decide⟩

/-! ## POC uniqueness -/

theorem forall2_mem_right (R : Picture → Picture → Prop) (l l' : List Picture)
    (h : List.Forall₂ R l l') : ∀ q' ∈ l', ∃ q ∈ l, R q q' := by
  induction h with
  | nil => simp
  | cons hab _ ih =>
    intro q' hq'
    rcases List.mem_cons.mp hq' with rfl | hq'
    · exact ⟨_, List.mem_cons_self _ _, hab⟩
    · obtain ⟨q, hq, hr⟩ := ih q' hq'
      exact ⟨q, List.mem_cons_of_mem _ hq, hr⟩

theorem pocUnique_forall2 (l l' : List Picture) (h : List.Forall₂ Harmless l l')
    (hu : PocUnique l) : PocUnique l' := by
  unfold PocUnique at hu ⊢
  induction h with
  | nil => exact List.Pairwise.nil
  | @cons p p' l l' hpp hll ih =>
    rw [List.pairwise_cons] at hu ⊢
    refine ⟨?_, ih hu.2⟩
    intro q' hq' hl1 hl2
    obtain ⟨q, hq, hqq⟩ := forall2_mem_right _ _ _ hll q' hq'
    rw [hpp.1, hqq.1]
    exact hu.1 q hq (hpp.2.2 hl1) (hqq.2.2 hl2)

theorem harmless_refl (p : Picture) : Harmless p p := ⟨rfl, rfl, id⟩

theorem forall2_harmless_refl (l : List Picture) : List.Forall₂ Harmless l l :=
  List.forall₂_same.mpr (fun p _ => harmless_refl p)

theorem pocUnique_append_dead (l : List Picture) (x : Picture) (hx : x.live = false)
    (hu : PocUnique l) : PocUnique (l ++ [x]) := by
  unfold PocUnique at hu ⊢
  rw [List.pairwise_append]
  refine ⟨hu, List.pairwise_singleton _ _, ?_⟩
  intro a _ b hb _ hlb
  simp only [List.mem_singleton] at hb
  subst hb
  rw [hx] at hlb
  cases hlb

theorem new_not_live (a : Nat) (rawPoc : Int) (sps : SPS) :
    ((Picture.new a rawPoc).create sps).live = false := rfl

theorem harmless_reuse (sps : SPS) (p : Picture) :
    Harmless p (prepareReused sps (scanBody p)) := by
  have h1 := prepareReused_flags sps (scanBody p)
  have h2 := scanBody_fields p
  refine ⟨?_, ?_, ?_⟩
  · simp only [Picture.getPOC]
    rw [h1.2.2.2.2, h2.2.2]
  · rw [h1.2.2.1, h2.1]
  · intro hl
    simp only [Picture.live, h1.1, h1.2.2.2.1, h2.2.1, Bool.or_false] at hl
    simp [Picture.live, hl]

theorem xGetNewPicBuffer_pool_cases (s : DecLib) (sps : SPS) (t : Nat) (rawPoc : Int) :
    ((s.xGetNewPicBuffer sps t rawPoc).1.m_cListPic
        = s.m_cListPic ++ [(Picture.new s.nextAddr rawPoc).create sps] ∧
      (s.xGetNewPicBuffer sps t rawPoc).1.nextAddr = s.nextAddr + 1 ∧
      (s.xGetNewPicBuffer sps t rawPoc).2 = s.nextAddr) ∨
    (List.Forall₂ Harmless s.m_cListPic (s.xGetNewPicBuffer sps t rawPoc).1.m_cListPic ∧
      (s.xGetNewPicBuffer sps t rawPoc).1.nextAddr = s.nextAddr ∧
      ∃ p ∈ s.m_cListPic, (s.xGetNewPicBuffer sps t rawPoc).2 = p.addr) := by
  by_cases hlen : s.m_cListPic.length < sps.getMaxDecPicBuffering t
  · left
    rw [xGetNewPicBuffer_fresh s sps t rawPoc hlen]
    exact ⟨rfl, rfl, rfl⟩
  · cases hf : s.m_cListPic.find? Picture.reusable with
    | none =>
      left
      have hnone : ∀ p ∈ s.m_cListPic, p.reusable = false := fun p hp => by
        simpa using (List.find?_eq_none.mp hf) p hp
      rw [xGetNewPicBuffer_extension s sps t rawPoc hlen hnone]
      exact ⟨rfl, rfl, rfl⟩
    | some p =>
      right
      obtain ⟨hp, pre, post, hl, hpre⟩ := List.find?_eq_some.mp hf
      have hpre' : ∀ q ∈ pre, q.reusable = false := fun q hq => by simpa using hpre q hq
      rw [xGetNewPicBuffer_reuse s sps t rawPoc pre p post hlen hl hpre' hp]
      refine ⟨?_, rfl, p, by simp [hl], rfl⟩
      simp only
      rw [hl]
      exact List.rel_append (forall2_harmless_refl pre)
        (List.Forall₂.cons (harmless_reuse sps p) (forall2_harmless_refl post))

theorem forall2_harmless_addr (l l' : List Picture) (h : List.Forall₂ Harmless l l') :
    l'.map Picture.addr = l.map Picture.addr := by
  induction h with
  | nil => rfl
  | cons hab _ ih => simp [hab.2.1, ih]

theorem xGetNewPicBuffer_wf (s : DecLib) (sps : SPS) (t : Nat) (rawPoc : Int)
    (hwf : s.WF) : (s.xGetNewPicBuffer sps t rawPoc).1.WF := by
  rcases xGetNewPicBuffer_pool_cases s sps t rawPoc with ⟨h1, h2, _⟩ | ⟨h1, h2, _⟩
  · unfold DecLib.WF
    rw [h1, h2]
    constructor
    · rw [List.map_append, List.nodup_append]
      refine ⟨hwf.1, by simp, ?_⟩
      intro a ha hb
      simp only [List.map_cons, List.map_nil, List.mem_singleton] at hb
      obtain ⟨q, hq, rfl⟩ := List.mem_map.mp ha
      have := hwf.2 q hq
      have hn : ((Picture.new s.nextAddr rawPoc).create sps).addr = s.nextAddr := rfl
      rw [hn] at hb
      omega
    · intro p hp
      rcases List.mem_append.mp hp with hp | hp
      · have := hwf.2 p hp
        omega
      · simp only [List.mem_singleton] at hp
        subst hp
        show s.nextAddr < s.nextAddr + 1
        omega
  · have haddr := forall2_harmless_addr _ _ h1
    unfold DecLib.WF
    rw [haddr, h2]
    refine ⟨hwf.1, ?_⟩
    intro p hp
    have : p.addr ∈ (s.xGetNewPicBuffer sps t rawPoc).1.m_cListPic.map Picture.addr :=
      List.mem_map_of_mem _ hp
    rw [haddr] at this
    obtain ⟨q, hq, hqa⟩ := List.mem_map.mp this
    rw [← hqa]
    exact hwf.2 q hq

theorem xGetNewPicBuffer_pocUnique (s : DecLib) (sps : SPS) (t : Nat) (rawPoc : Int)
    (hu : PocUnique s.m_cListPic) :
    PocUnique (s.xGetNewPicBuffer sps t rawPoc).1.m_cListPic := by
  rcases xGetNewPicBuffer_pool_cases s sps t rawPoc with ⟨h1, _, _⟩ | ⟨h1, _, _⟩
  · rw [h1]
    exact pocUnique_append_dead _ _ (new_not_live _ _ _) hu
  · exact pocUnique_forall2 _ _ h1 hu

theorem harmless_emit (p : Picture) : Harmless p (emitPicture p) := by
  unfold emitPicture
  refine ⟨?_, ?_, ?_⟩
  · simp only [Picture.getPOC]
    split <;> rfl
  · split <;> rfl
  · intro hl
    simp only [Picture.live, Bool.or_false] at hl
    have : p.referenced = true := by
      split at hl <;> exact hl
    simp [Picture.live, this]

theorem emitLoop_harmless (r m : Nat) (ps : List Picture) (st : OutputState) :
    List.Forall₂ Harmless ps (emitLoop r m ps st).1 := by
  induction ps generalizing st with
  | nil => simp [emitLoop]
  | cons p ps ih =>
    rw [emitLoop]
    split
    · exact List.Forall₂.cons (harmless_emit p) (ih _)
    · exact List.Forall₂.cons (harmless_refl p) (ih _)

theorem outputPass_harmless (pool : List Picture) (last : Int) (pool' : List Picture)
    (st : OutputState) (h : outputPass pool last = .ok (pool', st)) :
    List.Forall₂ Harmless pool pool' := by
  rcases outputPass_ok_cases pool last pool' st h with h | h
  · have := emitLoop_harmless (frontNumReorderPics pool) (frontMaxDecPicBuffering pool) pool
      (passStart pool last)
    rw [← h] at this
    exact this
  · rw [h.1]
    exact forall2_harmless_refl pool

theorem pocUnique_updateAt (a : Nat) (g : Picture → Picture) (pool : List Picture)
    (hnd : (pool.map Picture.addr).Nodup) (hu : PocUnique pool)
    (hcond : ∀ p ∈ pool, p.addr = a → ∀ q ∈ pool, q.addr ≠ a → q.live = true →
      (g p).getPOC ≠ q.getPOC) :
    PocUnique (updateAt a g pool) := by
  unfold PocUnique updateAt at *
  rw [List.pairwise_map]
  have hnd' : pool.Pairwise (fun p q => p.addr ≠ q.addr) := List.pairwise_map.mp hnd
  refine List.Pairwise.imp_of_mem ?_ (hnd'.and hu)
  intro p q hp hq hpq
  obtain ⟨hne, huq⟩ := hpq
  by_cases hpa : p.addr = a
  · have hqa : q.addr ≠ a := fun h => hne (hpa.trans h.symm)
    simp only [hpa, hqa, if_true, if_false]
    intro _ hlq
    exact hcond p hp hpa q hq hqa hlq
  · by_cases hqa : q.addr = a
    · simp only [hpa, hqa, if_true, if_false]
      intro hlp _
      exact fun h => hcond q hq hqa p hp hpa hlp h.symm
    · simp only [hpa, hqa, if_false]
      exact huq

/-- C4, counterexample. After one picture with POC 0 the pool satisfies POC
uniqueness; decoding the first slice of a second picture with POC 0 (as the next
IDR picture has) leaves two live entries with POC 0. Loss recovery breaks the
property as well: in a pool that satisfies it, `xCreateLostPicture(3)` reuses a
released buffer of POC 0, whose `poc` it does not set, and leaves two live entries
with POC 0. -/
theorem poc_uniqueness_counterexample :
    (∃ ss, runPictures spsB [(0, [])] {} = some ss ∧ ss.dec.WF ∧
      PocUnique ss.dec.m_cListPic ∧
      ¬ PocUnique
        (ss.dec.decodeFirstSlice { poc := 0 } 0 spsB (fun _ => false) false 0).m_cListPic) ∧
    (stStale.WF ∧ PocUnique stStale.m_cListPic ∧
      ∃ s', stStale.xCreateLostPicture 3 sps2 0 = .ok s' ∧ ¬ PocUnique s'.m_cListPic) := by
  refine ⟨⟨_, rfl, ?_, ?_, ?_⟩, ?_, ?_, _, rfl, ?_⟩ <;> decide

/-- An update through a pointer is not seen among the other pool entries. -/
theorem filter_updateAt (a : Nat) (f : Picture → Picture) (l : List Picture)
    (hf : ∀ p, (f p).addr = p.addr) :
    (updateAt a f l).filter (fun p => decide (p.addr ≠ a))
      = l.filter (fun p => decide (p.addr ≠ a)) := by
  unfold updateAt
  induction l with
  | nil => rfl
  | cons p l ih =>
    rw [List.map_cons]
    by_cases hp : p.addr = a
    · rw [if_pos hp, List.filter_cons_of_neg (by simp [hf, hp]),
        List.filter_cons_of_neg (by simp [hp])]
      exact ih
    · rw [if_neg hp, List.filter_cons_of_pos (by simp [hp]),
        List.filter_cons_of_pos (by simp [hp]), ih]

/-- C4, amended. In a well-formed state whose pool satisfies POC uniqueness:
buffer acquisition (`xGetNewPicBuffer`) and an output pass keep POC uniqueness; the
binding of the current picture in `xDecodeSlice` (lines 1238–1243) keeps it
provided no other live pool entry has the POC of the slice; and after loss recovery
(`xCreateLostPicture`) the property holds among the pool entries other than the
substitute picture. -/
theorem pocUnique_preserved (s : DecLib) (hwf : s.WF) (hu : PocUnique s.m_cListPic) :
    (∀ sps t rawPoc, PocUnique (s.xGetNewPicBuffer sps t rawPoc).1.m_cListPic) ∧
    (∀ last pool' st, outputPass s.m_cListPic last = .ok (pool', st) → PocUnique pool') ∧
    (∀ temporalId,
      (∀ a pcSlice, s.m_pcPic = some a →
        (s.pic? a).bind (fun p => p.slices.get? s.m_uiSliceSegmentIdx) = some pcSlice →
        ∀ q ∈ s.m_cListPic, q.addr ≠ a → q.live = true → q.getPOC ≠ pcSlice.poc) →
      PocUnique (s.bindPicture temporalId).m_cListPic) ∧
    (∀ iLostPoc firstSPS rawPoc s',
      s.xCreateLostPicture iLostPoc firstSPS rawPoc = .ok s' →
      PocUnique (s'.m_cListPic.filter
        (fun p => decide (p.addr ≠ (s.xGetNewPicBuffer firstSPS 0 rawPoc).2)))) := by
  refine ⟨fun sps t rawPoc => xGetNewPicBuffer_pocUnique s sps t rawPoc hu, ?_, ?_, ?_⟩
  · intro last pool' st h
    exact pocUnique_forall2 _ _ (outputPass_harmless _ _ _ _ h) hu
  · intro temporalId hcond
    unfold DecLib.bindPicture
    cases ha : s.m_pcPic with
    | none => exact hu
    | some a =>
      simp only
      cases hs : (s.pic? a).bind (fun p => p.slices.get? s.m_uiSliceSegmentIdx) with
      | none => exact hu
      | some pcSlice =>
        simp only
        apply pocUnique_updateAt a _ s.m_cListPic hwf.1 hu
        intro p _ _ q hq hqa hlq
        exact fun h => hcond a pcSlice ha hs q hq hqa hlq h.symm
  · intro iLostPoc firstSPS rawPoc s' h
    have hu' := xGetNewPicBuffer_pocUnique s firstSPS 0 rawPoc hu
    unfold DecLib.xCreateLostPicture at h
    simp only at h
    split at h
    · cases h
    · split at h
      · cases h
      · simp only [Except.ok.injEq] at h
        rw [← h]
        simp only
        rw [filter_updateAt]
        · unfold PocUnique at hu' ⊢
          exact hu'.sublist (List.filter_sublist _)
        · intro p
          rfl

/-- Witness of the amended C4: acquisition on a full pool with a reusable entry, the
binding of a current picture to its slice of POC 2 beside a live picture of POC 4,
and loss recovery into a reusable buffer. -/
theorem pocUnique_preserved_witness :
    stReuse.WF ∧ PocUnique stReuse.m_cListPic ∧
    PocUnique (stReuse.xGetNewPicBuffer sps2 0 0).1.m_cListPic ∧
    (stBind.bindPicture 0).m_cListPic.map Picture.getPOC = [4, 2] ∧
    (stBind.bindPicture 0).m_cListPic.map Picture.live = [true, true] ∧
    PocUnique (stBind.bindPicture 0).m_cListPic ∧
    ∃ s', stStale.xCreateLostPicture 3 sps2 0 = .ok s' ∧
      PocUnique (s'.m_cListPic.filter
        (fun p => decide (p.addr ≠ (stStale.xGetNewPicBuffer sps2 0 0).2))) :=
  ⟨by decide, by decide,
   (pocUnique_preserved stReuse (by decide) (by decide)).1 sps2 0 0,
   by decide, by decide,
   (pocUnique_preserved stBind (by decide) (by decide)).2.2.1 0
     (fun a pcSlice ha hs q hq hqa hlq => by
       have ha' : a = 1 := (Option.some.inj ha).symm
       subst ha'
       have hs' : pcSlice = { poc := 2 } := (Option.some.inj hs).symm
       subst hs'
       simp only [stBind, List.mem_cons, List.mem_singleton, List.not_mem_nil, or_false] at hq
       rcases hq with h | h
       · subst h
         decide
       · subst h
         exact absurd rfl hqa),
   _, rfl,
   (pocUnique_preserved stStale (by decide) (by decide)).2.2.2 3 sps2 0 _ rfl⟩

/-! ## Pictures awaiting output across the decoding of a slice -/

theorem pendingPOCs_append (l₁ l₂ : List Picture) :
    pendingPOCs (l₁ ++ l₂) = pendingPOCs l₁ ++ pendingPOCs l₂ := by
  simp [pendingPOCs]

theorem pendingPOCs_cons_idle (p : Picture) (l : List Picture)
    (hp : p.neededForOutput = false) : pendingPOCs (p :: l) = pendingPOCs l := by
  simp [pendingPOCs, hp]

theorem pendingPOCs_cons_pending (p : Picture) (l : List Picture)
    (hp : p.neededForOutput = true) : pendingPOCs (p :: l) = p.getPOC :: pendingPOCs l := by
  simp [pendingPOCs, hp]

theorem pendingPOCs_split_idle (pre : List Picture) (y : Picture) (post : List Picture)
    (hy : y.neededForOutput = false) :
    pendingPOCs (pre ++ y :: post) = pendingPOCs (pre ++ post) := by
  rw [pendingPOCs_append, pendingPOCs_cons_idle y post hy, pendingPOCs_append]

theorem reusable_idle (p : Picture) (hp : p.reusable = true) : p.neededForOutput = false := by
  unfold Picture.reusable at hp
  cases h : p.neededForOutput
  · rfl
  · simp [h] at hp

/-- The pool after `xGetNewPicBuffer` splits at the returned picture; the other
entries are entries of the old pool, with the same pictures awaiting output. -/
theorem xGetNewPicBuffer_split (s : DecLib) (sps : SPS) (t : Nat) (rawPoc : Int) :
    ∃ pre y post,
      (s.xGetNewPicBuffer sps t rawPoc).1.m_cListPic = pre ++ y :: post ∧
      y.addr = (s.xGetNewPicBuffer sps t rawPoc).2 ∧
      y.neededForOutput = false ∧
      (∀ q ∈ pre ++ post, q ∈ s.m_cListPic) ∧
      pendingPOCs (pre ++ post) = pendingPOCs s.m_cListPic := by
  by_cases hlen : s.m_cListPic.length < sps.getMaxDecPicBuffering t
  · rw [xGetNewPicBuffer_fresh s sps t rawPoc hlen]
    exact ⟨s.m_cListPic, (Picture.new s.nextAddr rawPoc).create sps, [], rfl, rfl, rfl,
      by simp, by simp⟩
  · cases hf : s.m_cListPic.find? Picture.reusable with
    | none =>
      have hnone : ∀ p ∈ s.m_cListPic, p.reusable = false := fun p hp => by
        simpa using (List.find?_eq_none.mp hf) p hp
      rw [xGetNewPicBuffer_extension s sps t rawPoc hlen hnone]
      exact ⟨s.m_cListPic, (Picture.new s.nextAddr rawPoc).create sps, [], rfl, rfl, rfl,
        by simp, by simp⟩
    | some p =>
      obtain ⟨hp, pre, post, hl, hpre⟩ := List.find?_eq_some.mp hf
      have hpre' : ∀ q ∈ pre, q.reusable = false := fun q hq => by simpa using hpre q hq
      rw [xGetNewPicBuffer_reuse s sps t rawPoc pre p post hlen hl hpre' hp]
      have hfl := prepareReused_flags sps (scanBody p)
      refine ⟨pre, prepareReused sps (scanBody p), post, rfl, ?_, hfl.1, ?_, ?_⟩
      · rw [hfl.2.2.1, (scanBody_fields p).1]
      · intro q hq
        rw [hl]
        rcases List.mem_append.mp hq with hq | hq
        · exact List.mem_append_left _ hq
        · exact List.mem_append_right _ (List.mem_cons_of_mem _ hq)
      · rw [hl, pendingPOCs_split_idle pre p post (reusable_idle p hp)]

theorem updateAt_of_ne (a : Nat) (f : Picture → Picture) (l : List Picture)
    (h : ∀ q ∈ l, q.addr ≠ a) : updateAt a f l = l := by
  unfold updateAt
  induction l with
  | nil => rfl
  | cons q l ih =>
    have hq : q.addr ≠ a := h q (List.mem_cons_self _ _)
    simp only [List.map_cons, hq, if_false]
    rw [ih (fun x hx => h x (List.mem_cons_of_mem _ hx))]

theorem updateAt_split (a : Nat) (f : Picture → Picture) (pre : List Picture) (y : Picture)
    (post : List Picture) (hy : y.addr = a)
    (hnd : ((pre ++ y :: post).map Picture.addr).Nodup) :
    updateAt a f (pre ++ y :: post) = pre ++ f y :: post := by
  have hne : ∀ q ∈ pre ++ post, q.addr ≠ a := by
    intro q hq
    rw [← hy]
    apply addr_ne_of_nodup_split pre y post hnd q
    · rcases List.mem_append.mp hq with hq | hq
      · exact List.mem_append_left _ hq
      · exact List.mem_append_right _ (List.mem_cons_of_mem _ hq)
    · intro heq
      subst heq
      simp only [List.map_append, List.map_cons] at hnd
      have h := List.nodup_append.mp hnd
      rcases List.mem_append.mp hq with hq | hq
      · exact h.2.2 (List.mem_map_of_mem _ hq) (by simp)
      · exact (List.nodup_cons.mp h.2.1).1 (List.mem_map_of_mem _ hq)
  have h1 := updateAt_of_ne a f pre (fun q hq => hne q (List.mem_append_left _ hq))
  have h2 := updateAt_of_ne a f post (fun q hq => hne q (List.mem_append_right _ hq))
  unfold updateAt at *
  rw [List.map_append, List.map_cons, h1, h2]
  simp [hy]

theorem xGetNewPicBuffer_fields (s : DecLib) (sps : SPS) (t : Nat) (rawPoc : Int) :
    (s.xGetNewPicBuffer sps t rawPoc).1.m_uiSliceSegmentIdx = s.m_uiSliceSegmentIdx ∧
    (s.xGetNewPicBuffer sps t rawPoc).1.m_apcSlicePilot = s.m_apcSlicePilot ∧
    (s.xGetNewPicBuffer sps t rawPoc).1.m_pcPic = s.m_pcPic ∧
    (s.xGetNewPicBuffer sps t rawPoc).1.m_pocRandomAccess = s.m_pocRandomAccess := by
  unfold DecLib.xGetNewPicBuffer
  simp only
  split
  · exact ⟨rfl, rfl, rfl, rfl⟩
  · split <;> exact ⟨rfl, rfl, rfl, rfl⟩

theorem markUnused_fields (keep : Picture → Bool) (p : Picture) :
    (markUnused keep p).addr = p.addr ∧
    (markUnused keep p).neededForOutput = p.neededForOutput ∧
    (markUnused keep p).getPOC = p.getPOC ∧
    (markUnused keep p).fieldPic = p.fieldPic ∧
    (markUnused keep p).sps = p.sps := by
  unfold markUnused
  split <;> exact ⟨rfl, rfl, rfl, rfl, rfl⟩

theorem pendingPOCs_map (f : Picture → Picture) (l : List Picture)
    (hf : ∀ p, (f p).neededForOutput = p.neededForOutput ∧ (f p).getPOC = p.getPOC) :
    pendingPOCs (l.map f) = pendingPOCs l := by
  induction l with
  | nil => rfl
  | cons p l ih =>
    rw [List.map_cons]
    rcases Bool.eq_false_or_eq_true p.neededForOutput with hn | hn
    · rw [pendingPOCs_cons_pending p l hn,
        pendingPOCs_cons_pending _ _ ((hf p).1.trans hn), ih, (hf p).2]
    · rw [pendingPOCs_cons_idle p l hn, pendingPOCs_cons_idle _ _ ((hf p).1.trans hn), ih]

theorem applyReferencePictureSet_frame (keep : Picture → Bool) (l : List Picture) :
    (applyReferencePictureSet keep l).map Picture.addr = l.map Picture.addr ∧
    pendingPOCs (applyReferencePictureSet keep l) = pendingPOCs l ∧
    ∀ sps, AllFrames sps l → AllFrames sps (applyReferencePictureSet keep l) := by
  refine ⟨?_, ?_, ?_⟩
  · unfold applyReferencePictureSet
    rw [List.map_map]
    apply List.map_congr_left
    intro p _
    exact (markUnused_fields keep p).1
  · exact pendingPOCs_map _ l (fun p =>
      ⟨(markUnused_fields keep p).2.1, (markUnused_fields keep p).2.2.1⟩)
  · intro sps hall q hq
    unfold applyReferencePictureSet at hq
    obtain ⟨p, hp, rfl⟩ := List.mem_map.mp hq
    have := hall p hp
    obtain ⟨_, _, _, f4, f5⟩ := markUnused_fields keep p
    exact ⟨f4.trans this.1, f5.trans this.2⟩

theorem applyReferencePictureSet_split (keep : Picture → Bool) (pre : List Picture)
    (y : Picture) (post : List Picture) :
    ∃ y', applyReferencePictureSet keep (pre ++ y :: post)
        = applyReferencePictureSet keep pre ++ y' :: applyReferencePictureSet keep post ∧
      y'.addr = y.addr ∧ y'.neededForOutput = y.neededForOutput := by
  obtain ⟨f1, f2, _⟩ := markUnused_fields keep y
  exact ⟨markUnused keep y, by simp [applyReferencePictureSet], f1, f2⟩

theorem allFrames_append (sps : SPS) (l₁ l₂ : List Picture) :
    AllFrames sps (l₁ ++ l₂) ↔ AllFrames sps l₁ ∧ AllFrames sps l₂ := by
  unfold AllFrames
  constructor
  · intro h
    exact ⟨fun p hp => h p (List.mem_append_left _ hp),
      fun p hp => h p (List.mem_append_right _ hp)⟩
  · intro h p hp
    rcases List.mem_append.mp hp with hp | hp
    · exact h.1 p hp
    · exact h.2 p hp

/-- The pool after the first-slice activation: it splits at the acquired picture,
which owns the slice pilot; the other entries await output as before. -/
theorem activateFirstSlice_split (s : DecLib) (sps : SPS) (keep : Picture → Bool)
    (rawPoc : Int) (hwf : s.WF) (hall : AllFrames sps s.m_cListPic) :
    ∃ pre x post,
      (s.activateFirstSlice sps keep false rawPoc).m_cListPic = pre ++ x :: post ∧
      (s.activateFirstSlice sps keep false rawPoc).m_pcPic = some x.addr ∧
      (s.activateFirstSlice sps keep false rawPoc).m_uiSliceSegmentIdx
        = s.m_uiSliceSegmentIdx ∧
      (s.activateFirstSlice sps keep false rawPoc).WF ∧
      x.neededForOutput = false ∧ x.slices = [s.m_apcSlicePilot] ∧ x.csSlice = some 0 ∧
      x.fieldPic = false ∧ x.sps = sps ∧
      pendingPOCs (pre ++ post) = pendingPOCs s.m_cListPic ∧
      AllFrames sps (pre ++ post) := by
  obtain ⟨pre, y, post, hl, hya, hyn, hmem, hpend⟩ :=
    xGetNewPicBuffer_split s sps s.m_apcSlicePilot.tLayer rawPoc
  have hwf1 := xGetNewPicBuffer_wf s sps s.m_apcSlicePilot.tLayer rawPoc hwf
  obtain ⟨hidx, _, _, _⟩ := xGetNewPicBuffer_fields s sps s.m_apcSlicePilot.tLayer rawPoc
  obtain ⟨y', hrps, hyc, hym⟩ := applyReferencePictureSet_split keep pre y post
  have hA1 := applyReferencePictureSet_frame keep pre
  have hA2 := applyReferencePictureSet_frame keep post
  have hnd : ((applyReferencePictureSet keep pre ++ y' ::
      applyReferencePictureSet keep post).map Picture.addr).Nodup := by
    have := hwf1.1
    rw [hl] at this
    simpa [List.map_append, hA1.1, hA2.1, hyc] using this
  have hyb : y'.addr = (s.xGetNewPicBuffer sps s.m_apcSlicePilot.tLayer rawPoc).2 :=
    hyc.trans hya
  have hpool : (s.activateFirstSlice sps keep false rawPoc).m_cListPic
      = applyReferencePictureSet keep pre
        ++ attachFirstSlice s.m_apcSlicePilot sps false y'
        :: applyReferencePictureSet keep post := by
    show updateAt _ _ (applyReferencePictureSet keep
      (s.xGetNewPicBuffer sps s.m_apcSlicePilot.tLayer rawPoc).1.m_cListPic) = _
    rw [hl, hrps]
    exact updateAt_split _ _ _ y' _ hyb hnd
  have hMem : ∀ q ∈ pre ++ post, q ∈ s.m_cListPic := hmem
  have hallpp : AllFrames sps (pre ++ post) := fun q hq => hall q (hMem q hq)
  refine ⟨applyReferencePictureSet keep pre, attachFirstSlice s.m_apcSlicePilot sps false y',
    applyReferencePictureSet keep post, hpool, ?_, hidx, ?_, hym.trans hyn, rfl, rfl, rfl, rfl,
    ?_, ?_⟩
  · show some (s.xGetNewPicBuffer sps s.m_apcSlicePilot.tLayer rawPoc).2 = some y'.addr
    rw [hyb]
  · unfold DecLib.WF
    rw [hpool]
    refine ⟨by simpa [attachFirstSlice] using hnd, ?_⟩
    intro q hq
    have hq' : q.addr ∈ (s.xGetNewPicBuffer sps s.m_apcSlicePilot.tLayer rawPoc).1.m_cListPic.map
        Picture.addr := by
      rw [hl]
      have : q.addr ∈ (applyReferencePictureSet keep pre
          ++ attachFirstSlice s.m_apcSlicePilot sps false y'
          :: applyReferencePictureSet keep post).map Picture.addr := List.mem_map_of_mem _ hq
      simpa [List.map_append, hA1.1, hA2.1, attachFirstSlice, hyc] using this
    obtain ⟨q0, hq0, hq0a⟩ := List.mem_map.mp hq'
    have := hwf1.2 q0 hq0
    rw [hq0a] at this
    exact this
  · rw [pendingPOCs_append, hA1.2.1, hA2.2.1, ← pendingPOCs_append, hpend]
  · rw [allFrames_append] at hallpp ⊢
    exact ⟨hA1.2.2 sps hallpp.1, hA2.2.2 sps hallpp.2⟩

theorem bindPicture_split (s : DecLib) (tid : Nat) (pre : List Picture) (x : Picture)
    (post : List Picture) (sl : Slice)
    (hl : s.m_cListPic = pre ++ x :: post) (hpc : s.m_pcPic = some x.addr)
    (hnd : (s.m_cListPic.map Picture.addr).Nodup)
    (hsl : x.slices.get? s.m_uiSliceSegmentIdx = some sl) :
    s.bindPicture tid = { s with m_cListPic := pre ++ bindFields sl tid x :: post } := by
  have hfind : s.pic? x.addr = some x := by
    unfold DecLib.pic?
    rw [hl]
    rw [hl] at hnd
    exact find_addr_split pre x post hnd
  unfold DecLib.bindPicture
  rw [hpc]
  simp only [hfind, Option.bind, hsl]
  rw [hl, updateAt_split x.addr _ pre x post rfl (by rw [← hl]; exact hnd)]

/-- The pool after the first slice of a picture has been decoded: it splits at the
current picture, which carries the POC of the slice and does not yet await output;
the other entries await output as before. -/
theorem decodeFirstSlice_split (s : DecLib) (pilot : Slice) (tid : Nat) (sps : SPS)
    (keep : Picture → Bool) (rawPoc : Int) (hwf : s.WF) (hall : AllFrames sps s.m_cListPic) :
    ∃ pre x post,
      (s.decodeFirstSlice pilot tid sps keep false rawPoc).m_cListPic = pre ++ x :: post ∧
      (s.decodeFirstSlice pilot tid sps keep false rawPoc).m_pcPic = some x.addr ∧
      (s.decodeFirstSlice pilot tid sps keep false rawPoc).WF ∧
      x.neededForOutput = false ∧ x.poc = pilot.poc ∧ x.csSlice? = some pilot ∧
      x.fieldPic = false ∧ x.sps = sps ∧
      pendingPOCs (pre ++ post) = pendingPOCs s.m_cListPic ∧
      AllFrames sps (pre ++ post) := by
  obtain ⟨pre, x1, post, hl, hpc, hidx, hwf1, hn, hsl, hcs, hfp, hsps, hpend, hallpp⟩ :=
    activateFirstSlice_split { s with m_apcSlicePilot := pilot, m_uiSliceSegmentIdx := 0 }
      sps keep rawPoc hwf hall
  have hget : x1.slices.get? (DecLib.activateFirstSlice
      { s with m_apcSlicePilot := pilot, m_uiSliceSegmentIdx := 0 } sps keep false
      rawPoc).m_uiSliceSegmentIdx = some pilot := by
    rw [hidx, hsl]
    rfl
  have hbind := bindPicture_split _ tid pre x1 post pilot hl hpc hwf1.1 hget
  refine ⟨pre, bindFields pilot tid x1, post, ?_, ?_, ?_, hn, rfl, ?_, hfp, hsps, hpend,
    hallpp⟩
  · simp only [DecLib.decodeFirstSlice, hbind]
  · simp only [DecLib.decodeFirstSlice, hbind]
    exact hpc
  · have hw : (DecLib.bindPicture (DecLib.activateFirstSlice
        { s with m_apcSlicePilot := pilot, m_uiSliceSegmentIdx := 0 } sps keep false rawPoc)
        tid).WF := by
      rw [hbind]
      unfold DecLib.WF at hwf1 ⊢
      rw [hl] at hwf1
      refine ⟨by simpa [bindFields] using hwf1.1, ?_⟩
      intro q hq
      simp only [List.mem_append, List.mem_cons] at hq
      rcases hq with hq | rfl | hq
      · exact hwf1.2 q (by simp [hq])
      · exact hwf1.2 x1 (by simp)
      · exact hwf1.2 q (by simp [hq])
    exact hw
  · simp [Picture.csSlice?, bindFields, hcs, hsl]

/-! ## Finishing a picture -/

theorem sortPicList_perm (l : List Picture) : (sortPicList l).Perm l :=
  List.perm_insertionSort _ l

theorem sortPicList_sorted (l : List Picture) :
    (sortPicList l).Sorted (fun p q => p.getPOC ≤ q.getPOC) :=
  List.sorted_insertionSort _ l

theorem sortPicList_of_sorted (l : List Picture)
    (h : l.Sorted (fun p q => p.getPOC ≤ q.getPOC)) : sortPicList l = l :=
  List.Sorted.insertionSort_eq h

theorem pendingPOCs_sorted (l : List Picture)
    (h : l.Sorted (fun p q => p.getPOC ≤ q.getPOC)) : (pendingPOCs l).Sorted (· ≤ ·) := by
  unfold pendingPOCs
  exact List.Pairwise.map _ (fun _ _ hab => hab) (List.Pairwise.filter _ h)

theorem pendingPOCs_perm (l l' : List Picture) (h : l.Perm l') :
    (pendingPOCs l).Perm (pendingPOCs l') := by
  unfold pendingPOCs
  exact (h.filter _).map _

theorem find_addr_of_mem (l : List Picture) (x : Picture) (hx : x ∈ l)
    (hnd : (l.map Picture.addr).Nodup) : l.find? (fun q => q.addr == x.addr) = some x := by
  obtain ⟨pre, post, rfl⟩ := List.append_of_mem hx
  exact find_addr_split pre x post hnd

theorem updateAt_id (a : Nat) (f : Picture → Picture) (l : List Picture)
    (h : ∀ p ∈ l, p.addr = a → f p = p) : updateAt a f l = l := by
  unfold updateAt
  induction l with
  | nil => rfl
  | cons q l ih =>
    rw [List.map_cons, ih (fun p hp => h p (List.mem_cons_of_mem _ hp))]
    by_cases hq : q.addr = a
    · simp [hq, h q (List.mem_cons_self _ _) hq]
    · simp [hq]

theorem eq_of_mem_of_addr (l : List Picture) (hnd : (l.map Picture.addr).Nodup)
    (p q : Picture) (hp : p ∈ l) (hq : q ∈ l) (h : p.addr = q.addr) : p = q := by
  obtain ⟨pre, post, rfl⟩ := List.append_of_mem hq
  by_contra hne
  exact addr_ne_of_nodup_split pre q post hnd p hp hne h

/-- `finishPictureLight` followed by `finishPicture` (lines 149 and 252): the
current picture gets its two flags and the pool is sorted by POC. -/
theorem finish_twice (s : DecLib) (pre : List Picture) (x : Picture) (post : List Picture)
    (sl : Slice) (hl : s.m_cListPic = pre ++ x :: post) (hpc : s.m_pcPic = some x.addr)
    (hnd : (s.m_cListPic.map Picture.addr).Nodup) (hcs : x.csSlice? = some sl) :
    ∃ s2 s3, s.finishPictureLight = some (s2, sl.poc) ∧
      s2.finishPicture = some (s3, sl.poc) ∧
      s3.m_cListPic = sortPicList (pre ++ finishFields sl x :: post) ∧
      s3.nextAddr = s.nextAddr := by
  have hfind : s.pic? x.addr = some x := by
    unfold DecLib.pic?
    rw [hl]
    rw [hl] at hnd
    exact find_addr_split pre x post hnd
  have hupd : updateAt x.addr (finishFields sl) s.m_cListPic
      = pre ++ finishFields sl x :: post := by
    rw [hl]
    exact updateAt_split x.addr _ pre x post rfl (by rw [← hl]; exact hnd)
  have h1 : s.finishPictureLight
      = some ({ s with m_cListPic := sortPicList (pre ++ finishFields sl x :: post) },
          sl.poc) := by
    unfold DecLib.finishPictureLight
    rw [hpc]
    simp only [hfind, Option.bind, hcs, hupd]
  -- the second call finds the same picture in the sorted pool
  have hperm := sortPicList_perm (pre ++ finishFields sl x :: post)
  have hnd2 : ((sortPicList (pre ++ finishFields sl x :: post)).map Picture.addr).Nodup := by
    have hn0 : ((pre ++ finishFields sl x :: post).map Picture.addr).Nodup := by
      rw [hl] at hnd
      simpa [finishFields] using hnd
    exact ((hperm.map Picture.addr).nodup_iff).mpr hn0
  have hmem : finishFields sl x ∈ sortPicList (pre ++ finishFields sl x :: post) :=
    (hperm.mem_iff).mpr (by simp)
  have hfind2 : (sortPicList (pre ++ finishFields sl x :: post)).find?
      (fun q => q.addr == x.addr) = some (finishFields sl x) :=
    find_addr_of_mem _ (finishFields sl x) hmem hnd2
  have hcs2 : (finishFields sl x).csSlice? = some sl := hcs
  have hid : updateAt x.addr (finishFields sl)
      (sortPicList (pre ++ finishFields sl x :: post))
      = sortPicList (pre ++ finishFields sl x :: post) := by
    apply updateAt_id
    intro p hp hpa
    have : p = finishFields sl x :=
      eq_of_mem_of_addr _ hnd2 p (finishFields sl x) hp hmem hpa
    rw [this]
    rfl
  refine ⟨_, { s with m_cListPic := sortPicList (pre ++ finishFields sl x :: post),
                      m_bFirstSliceInPicture := true }, h1, ?_, rfl, rfl⟩
  unfold DecLib.finishPicture
  simp only [hpc, DecLib.pic?, hfind2, Option.bind, hcs2, hid]
  rw [sortPicList_of_sorted _ (sortPicList_sorted _)]

/-! ## The emitting loop on a pool whose pending pictures are in POC order -/

theorem getLast?_cons_getD (a d : Int) (l : List Int) :
    ((a :: l).getLast?).getD d = (l.getLast?).getD a := by
  cases l with
  | nil => rfl
  | cons b l =>
    have hx : (b :: l).getLast? = some ((b :: l).getLast (by simp)) :=
      List.getLast?_eq_getLast _ (by simp)
    rw [List.getLast?_cons_cons, hx]
    rfl

theorem toUInt32_of_range (i : Int) (h0 : 0 ≤ i) (h1 : i < 4294967296) :
    (toUInt32 i : Int) = i := by
  unfold toUInt32
  omega

/-- When `dpbFullness` is within its bound and the pictures awaiting output stand in
strictly ascending POC order above `iPOCLastDisplay`, the loop emits the first
`numPicsNotYetDisplayed - numReorderPics` of them and leaves the others pending. -/
theorem emitLoop_pending (r m : Nat) (ps : List Picture) (st : OutputState)
    (hcnt : CntInv ps st) (hfull : st.dpbFullness ≤ (m : Int))
    (hnum : st.numPicsNotYetDisplayed < 4294967296)
    (hP : (pendingPOCs ps).Pairwise (· < ·))
    (hlast : ∀ k ∈ pendingPOCs ps, st.iPOCLastDisplay < k) :
    emittedPOCs (emitLoop r m ps st).2
      = emittedPOCs st ++ (pendingPOCs ps).take (st.numPicsNotYetDisplayed - r).toNat ∧
    pendingPOCs (emitLoop r m ps st).1
      = (pendingPOCs ps).drop (st.numPicsNotYetDisplayed - r).toNat ∧
    (emitLoop r m ps st).2.iPOCLastDisplay
      = (((pendingPOCs ps).take (st.numPicsNotYetDisplayed - r).toNat).getLast?).getD
          st.iPOCLastDisplay := by
  induction ps generalizing st with
  | nil => simp [emitLoop, pendingPOCs]
  | cons p ps ih =>
    rw [emitLoop]
    rcases Bool.eq_false_or_eq_true p.neededForOutput with hn | hn
    · -- the picture awaits output
      have hpend : pendingPOCs (p :: ps) = p.getPOC :: pendingPOCs ps :=
        pendingPOCs_cons_pending p ps hn
      rw [hpend] at hP hlast ⊢
      have hlt : st.iPOCLastDisplay < p.getPOC := hlast _ (List.mem_cons_self _ _)
      have haw : awaitsOutput st.iPOCLastDisplay p = true := by
        simp [awaitsOutput, hn, hlt]
      obtain ⟨c1, c2⟩ := hcnt
      simp only [List.countP_cons, haw, Bool.true_or, if_true] at c1 c2
      push_cast at c1 c2
      have hf0 : (toUInt32 st.dpbFullness : Int) ≤ m :=
        le_trans (toUInt32_le_of_nonneg _ (by omega)) hfull
      have hn0 := toUInt32_of_range st.numPicsNotYetDisplayed (by omega) hnum
      by_cases hgt : st.numPicsNotYetDisplayed > (r : Int)
      · have hc : emitCond r m p st = true := by
          unfold emitCond
          have : toUInt32 st.numPicsNotYetDisplayed > r := by omega
          simp [hn, hlt, this]
        rw [if_pos hc]
        have hcnt' := emitState_cntInv r m p ps st hc ⟨by
          simp only [List.countP_cons, haw, if_true]; push_cast; omega, by
          simp only [List.countP_cons, haw, Bool.true_or, if_true]; push_cast; omega⟩
        have hfull' : (emitState p st).dpbFullness ≤ (m : Int) := by
          simp only [emitState]
          split <;> omega
        have hnum' : (emitState p st).numPicsNotYetDisplayed < 4294967296 := by
          simp only [emitState]
          omega
        have hP' := (List.pairwise_cons.mp hP).2
        have hlast' : ∀ k ∈ pendingPOCs ps, (emitState p st).iPOCLastDisplay < k :=
          fun k hk => (List.pairwise_cons.mp hP).1 k hk
        obtain ⟨i1, i2, i3⟩ := ih (emitState p st) hcnt' hfull' hnum' hP' hlast'
        have hidx : (st.numPicsNotYetDisplayed - r).toNat
            = ((emitState p st).numPicsNotYetDisplayed - r).toNat + 1 := by
          simp only [emitState]
          omega
        have hem : emittedPOCs (emitState p st) = emittedPOCs st ++ [p.getPOC] := by
          simp [emittedPOCs, emitState]
        have hidle : (emitPicture p).neededForOutput = false := by
          unfold emitPicture
          rfl
        refine ⟨?_, ?_, ?_⟩
        · simp only
          rw [i1, hem, hidx, List.take_succ_cons]
          simp
        · simp only
          rw [pendingPOCs_cons_idle _ _ hidle, i2, hidx]
          rfl
        · simp only
          rw [i3, hidx, List.take_succ_cons, getLast?_cons_getD]
          rfl
      · have hc : emitCond r m p st = false := by
          unfold emitCond
          have h1 : ¬ toUInt32 st.numPicsNotYetDisplayed > r := by omega
          have h2 : ¬ toUInt32 st.dpbFullness > m := by omega
          simp [h1, h2]
        rw [if_neg (by simp [hc])]
        have hzero : (st.numPicsNotYetDisplayed - r).toNat = 0 := by omega
        have hcnt' : CntInv ps st := cntInv_tail p ps st ⟨by
          simp only [List.countP_cons, haw, if_true]; push_cast; omega, by
          simp only [List.countP_cons, haw, Bool.true_or, if_true]; push_cast; omega⟩
        obtain ⟨i1, i2, i3⟩ := ih st hcnt' hfull hnum (List.pairwise_cons.mp hP).2
          (fun k hk => hlast k (List.mem_cons_of_mem _ hk))
        rw [hzero] at i1 i2 i3 ⊢
        refine ⟨?_, ?_, ?_⟩
        · simpa using i1
        · simp only
          rw [pendingPOCs_cons_pending _ _ hn, i2]
          rfl
        · simpa using i3
    · -- the picture does not await output
      have hpend : pendingPOCs (p :: ps) = pendingPOCs ps := pendingPOCs_cons_idle p ps hn
      rw [hpend] at hP hlast ⊢
      have hc : emitCond r m p st = false := by
        unfold emitCond
        simp [hn]
      rw [if_neg (by simp [hc])]
      obtain ⟨i1, i2, i3⟩ := ih st (cntInv_tail p ps st hcnt) hfull hnum hP hlast
      refine ⟨i1, ?_, i3⟩
      simp only
      rw [pendingPOCs_cons_idle _ _ hn, i2]

/-! ## One picture through the main loop -/

theorem emitLoop_allFrames (sps : SPS) (r m : Nat) (ps : List Picture) (st : OutputState)
    (hall : AllFrames sps ps) : AllFrames sps (emitLoop r m ps st).1 := by
  induction ps generalizing st with
  | nil => simpa [emitLoop] using hall
  | cons p ps ih =>
    have hp := hall p (List.mem_cons_self _ _)
    have hps : AllFrames sps ps := fun q hq => hall q (List.mem_cons_of_mem _ hq)
    have hem : (emitPicture p).fieldPic = p.fieldPic ∧ (emitPicture p).sps = p.sps := by
      unfold emitPicture
      constructor <;> (simp only; split <;> rfl)
    rw [emitLoop]
    split
    · intro q hq
      rcases List.mem_cons.mp hq with rfl | hq
      · exact ⟨hem.1.trans hp.1, hem.2.trans hp.2⟩
      · exact ih _ hps q hq
    · intro q hq
      rcases List.mem_cons.mp hq with rfl | hq
      · exact hp
      · exact ih _ hps q hq

/-- On a pool of frame pictures that all carry the SPS `sps` the block "write
output" does not throw: it runs the emitting loop with the bounds of `sps`. -/
theorem outputPass_frames (sps : SPS) (pool : List Picture) (last : Int)
    (hall : AllFrames sps pool) :
    outputPass pool last = .ok (emitLoop (sps.getNumReorderPics (highestTid sps))
      (sps.getMaxDecPicBuffering (highestTid sps)) pool (passStart pool last)) := by
  cases pool with
  | nil => simp [outputPass, emitLoop, passStart, countLoop]
  | cons front rest =>
    have hfront := hall front (List.mem_cons_self _ _)
    have hinsp : (inspectedPic front rest
        (countLoop last (front :: rest) {}).numPicsNotYetDisplayed).fieldPic = false := by
      unfold inspectedPic
      split
      · cases rest with
        | nil => exact hfront.1
        | cons q rest => exact (hall q (by simp)).1
      · exact hfront.1
    rw [outputPass_cons, hinsp]
    simp [frontNumReorderPics, frontMaxDecPicBuffering, hfront.2]

theorem countP_awaits_eq (pool : List Picture) (last : Int)
    (h : ∀ k ∈ pendingPOCs pool, last < k) :
    pool.countP (awaitsOutput last) = (pendingPOCs pool).length := by
  induction pool with
  | nil => rfl
  | cons p ps ih =>
    rcases Bool.eq_false_or_eq_true p.neededForOutput with hn | hn
    · rw [pendingPOCs_cons_pending p ps hn] at h ⊢
      have hlt : last < p.getPOC := h _ (List.mem_cons_self _ _)
      have haw : awaitsOutput last p = true := by simp [awaitsOutput, hn, hlt]
      rw [List.countP_cons, ih (fun k hk => h k (List.mem_cons_of_mem _ hk))]
      simp [haw]
    · rw [pendingPOCs_cons_idle p ps hn] at h ⊢
      have haw : awaitsOutput last p = false := by simp [awaitsOutput, hn]
      rw [List.countP_cons, ih h]
      simp [haw]

/-- One picture with its output flag set through the main loop, in a session whose
pool holds frame pictures of one SPS. The iteration does not fail. If `dpbFullness`
as computed by the counting loop is within `maxDecPicBuffering`, and the pending
POCs with the new one inserted are strictly ascending and above `iPOCLastDisplay`,
the pass emits all but the last `numReorderPics` of them, in ascending order. -/
theorem decodePicture_step (ss : Session) (sps : SPS) (k : Int) (keep : Picture → Bool)
    (hwf : ss.dec.WF) (hall : AllFrames sps ss.dec.m_cListPic) :
    ∃ ss' f, ss.decodePicture sps { poc := k, picOutputFlag := true, tLayer := 0 } keep 0
        = some ss' ∧
      ss'.dec.WF ∧ AllFrames sps ss'.dec.m_cListPic ∧
      ss'.passFullness = ss.passFullness ++ [f] ∧
      (f ≤ (sps.getMaxDecPicBuffering (highestTid sps) : Int) →
        ∀ P : List Int, P = (k :: pendingPOCs ss.dec.m_cListPic).insertionSort (· ≤ ·) →
        P.Pairwise (· < ·) → (∀ x ∈ P, ss.iPOCLastDisplay < x) → P.length < 4294967296 →
        ss'.emitted = ss.emitted
          ++ P.take (P.length - sps.getNumReorderPics (highestTid sps)) ∧
        pendingPOCs ss'.dec.m_cListPic
          = P.drop (P.length - sps.getNumReorderPics (highestTid sps)) ∧
        ss'.iPOCLastDisplay
          = ((P.take (P.length - sps.getNumReorderPics (highestTid sps))).getLast?).getD
              ss.iPOCLastDisplay) := by
  obtain ⟨pre, x, post, hl, hpc, hwf1, hxn, hxp, hxc, hxf, hxs, hpend, hallpp⟩ :=
    decodeFirstSlice_split ss.dec { poc := k, picOutputFlag := true, tLayer := 0 } 0 sps keep 0
      hwf hall
  obtain ⟨s2, s3, h1, h2, hpool3, hnext3⟩ := finish_twice _ pre x post _ hl hpc hwf1.1 hxc
  set l := pre ++ finishFields { poc := k, picOutputFlag := true, tLayer := 0 } x :: post
    with hldef
  have hperm : s3.m_cListPic.Perm l := by
    rw [hpool3]
    exact sortPicList_perm l
  have hxfin : (finishFields { poc := k, picOutputFlag := true, tLayer := 0 } x).fieldPic
      = false ∧ (finishFields { poc := k, picOutputFlag := true, tLayer := 0 } x).sps = sps :=
    ⟨hxf, hxs⟩
  have hall3 : AllFrames sps s3.m_cListPic := by
    intro q hq
    have hq' : q ∈ l := (hperm.mem_iff).mp hq
    rw [allFrames_append] at hallpp
    rcases List.mem_append.mp hq' with hq' | hq'
    · exact hallpp.1 q hq'
    · rcases List.mem_cons.mp hq' with rfl | hq'
      · exact hxfin
      · exact hallpp.2 q hq'
  have hpass := outputPass_frames sps s3.m_cListPic ss.iPOCLastDisplay hall3
  set r := sps.getNumReorderPics (highestTid sps) with hr
  set m := sps.getMaxDecPicBuffering (highestTid sps) with hm
  set res := emitLoop r m s3.m_cListPic (passStart s3.m_cListPic ss.iPOCLastDisplay) with hres
  have hdec : ss.decodePicture sps { poc := k, picOutputFlag := true, tLayer := 0 } keep 0
      = some { dec := { s3 with m_cListPic := res.1 },
               iPOCLastDisplay := res.2.iPOCLastDisplay,
               emitted := ss.emitted ++ emittedPOCs res.2,
               passFullness := ss.passFullness ++
                 [(passStart s3.m_cListPic ss.iPOCLastDisplay).dpbFullness] } := by
    simp only [Session.decodePicture, h1, h2, hpass]
  -- well-formedness of the heap after the pass
  have haddr3 : (s3.m_cListPic.map Picture.addr).Perm (l.map Picture.addr) := hperm.map _
  have hladdr : l.map Picture.addr = (pre ++ x :: post).map Picture.addr := by
    simp [hldef, finishFields]
  have hharm : List.Forall₂ Harmless s3.m_cListPic res.1 := emitLoop_harmless r m _ _
  have hresaddr := forall2_harmless_addr _ _ hharm
  have hwf' : DecLib.WF { s3 with m_cListPic := res.1 } := by
    unfold DecLib.WF
    simp only
    rw [hresaddr, hnext3]
    constructor
    · rw [haddr3.nodup_iff, hladdr, ← hl]
      exact hwf1.1
    · intro q hq
      have hq1 : q.addr ∈ res.1.map Picture.addr := List.mem_map_of_mem _ hq
      rw [hresaddr] at hq1
      have hq2 : q.addr ∈ (pre ++ x :: post).map Picture.addr := by
        rw [← hladdr]
        exact (haddr3.mem_iff).mp hq1
      rw [← hl] at hq2
      obtain ⟨q0, hq0, hq0a⟩ := List.mem_map.mp hq2
      have := hwf1.2 q0 hq0
      rw [hq0a] at this
      exact this
  refine ⟨_, _, hdec, hwf', emitLoop_allFrames sps r m _ _ hall3, rfl, ?_⟩
  intro hf P hPdef hPlt hPlast hPlen
  -- the pending POCs of the sorted pool
  have hpend3 : pendingPOCs s3.m_cListPic = P := by
    have hs : (pendingPOCs s3.m_cListPic).Sorted (· ≤ ·) := by
      rw [hpool3]
      exact pendingPOCs_sorted _ (sortPicList_sorted _)
    have hp1 : (pendingPOCs s3.m_cListPic).Perm (k :: pendingPOCs ss.dec.m_cListPic) := by
      have := pendingPOCs_perm _ _ hperm
      refine this.trans ?_
      have hfin : (finishFields ({ poc := k, picOutputFlag := true, tLayer := 0 } : Slice)
          x).neededForOutput = true := rfl
      have hfp : (finishFields ({ poc := k, picOutputFlag := true, tLayer := 0 } : Slice)
          x).getPOC = k := hxp
      rw [hldef, pendingPOCs_append, pendingPOCs_cons_pending _ _ hfin, hfp, ← hpend,
        pendingPOCs_append]
      exact List.perm_middle
    have hp2 : P.Perm (k :: pendingPOCs ss.dec.m_cListPic) := by
      rw [hPdef]
      exact List.perm_insertionSort _ _
    have hs2 : P.Sorted (· ≤ ·) := by
      rw [hPdef]
      exact List.sorted_insertionSort _ _
    exact List.eq_of_perm_of_sorted (hp1.trans hp2.symm) hs hs2
  have hcnt := passStart_cntInv s3.m_cListPic ss.iPOCLastDisplay
  have hnumeq : (passStart s3.m_cListPic ss.iPOCLastDisplay).numPicsNotYetDisplayed
      = (P.length : Int) := by
    have h1 := (countLoop_acc ss.iPOCLastDisplay s3.m_cListPic {}).1
    have h2 := countP_awaits_eq s3.m_cListPic ss.iPOCLastDisplay (by rw [hpend3]; exact hPlast)
    simp only [passStart, h1, h2, hpend3]
    simp
  obtain ⟨e1, e2, e3⟩ := emitLoop_pending r m s3.m_cListPic
    (passStart s3.m_cListPic ss.iPOCLastDisplay) hcnt hf (by rw [hnumeq]; exact_mod_cast hPlen)
    (by rw [hpend3]; exact hPlt) (by rw [hpend3]; exact hPlast)
  have hidx : ((passStart s3.m_cListPic ss.iPOCLastDisplay).numPicsNotYetDisplayed
      - (r : Int)).toNat = P.length - r := by
    rw [hnumeq]
    omega
  rw [hidx, hpend3] at e1 e2 e3
  refine ⟨?_, e2, e3⟩
  simp only
  rw [e1]
  simp [emittedPOCs, passStart]

/-! ## The hierarchical-B scenario -/

theorem runKeeps_cons (sps : SPS) (k : Int) (keep : Picture → Bool)
    (rest : List (Int × (Picture → Bool))) (ss ss' : Session)
    (h : ss.decodePicture sps { poc := k, picOutputFlag := true, tLayer := 0 } keep 0
      = some ss') :
    runKeeps sps ((k, keep) :: rest) ss = runKeeps sps rest ss' := by
  simp [runKeeps, h]

/-- One picture of the scenario: from a state with emitted POCs `E` and pending POCs
`P` the next state has the pending POCs with the new POC inserted, all but the
last three of them emitted. -/
theorem hierB_step (ss : Session) (k : Int) (keep : Picture → Bool) (E P : List Int)
    (d : Int) (E' P' : List Int) (d' : Int) (hr : Reached ss E P d)
    (hlt : ((k :: P).insertionSort (· ≤ ·)).Pairwise (· < ·))
    (hd : ∀ x ∈ (k :: P).insertionSort (· ≤ ·), d < x)
    (hlen : ((k :: P).insertionSort (· ≤ ·)).length < 4294967296)
    (hE : E' = E ++ ((k :: P).insertionSort (· ≤ ·)).take
      (((k :: P).insertionSort (· ≤ ·)).length - 3))
    (hP : P' = ((k :: P).insertionSort (· ≤ ·)).drop
      (((k :: P).insertionSort (· ≤ ·)).length - 3))
    (hd' : d' = ((((k :: P).insertionSort (· ≤ ·)).take
      (((k :: P).insertionSort (· ≤ ·)).length - 3)).getLast?).getD d) :
    ∃ ss', ss.decodePicture spsB { poc := k, picOutputFlag := true, tLayer := 0 } keep 0
        = some ss' ∧ Reached ss' E' P' d' := by
  obtain ⟨hwf, hall, hcond⟩ := hr
  obtain ⟨ss', f, hdec, hwf', hall', hfull, hstep⟩ := decodePicture_step ss spsB k keep hwf hall
  refine ⟨ss', hdec, hwf', hall', ?_⟩
  intro hf
  rw [hfull] at hf
  obtain ⟨hE0, hP0, hd0⟩ := hcond (fun g hg => hf g (List.mem_append_left _ hg))
  have hf6 : f ≤ 6 := hf f (by simp)
  have hm : (spsB.getMaxDecPicBuffering (highestTid spsB) : Int) = 6 := by decide
  have hr3 : spsB.getNumReorderPics (highestTid spsB) = 3 := by decide
  have := hstep (by rw [hm]; exact hf6) ((k :: P).insertionSort (· ≤ ·)) (by rw [hP0]) hlt
    (by rw [hd0]; exact hd) hlen
  rw [hr3, hE0, hd0] at this
  rw [hE, hP, hd']
  exact this

/-- C2, counterexample. In the hierarchical-B scenario (decode order
`[0, 8, 4, 2, 1, 3, 6, 5, 7]`, `numReorderPics = 3`, `maxDecPicBuffering = 6`, every
picture flagged for output, no lost reference, nothing skipped), with the reference
picture sets of the usual GOP-8 structure, the output loop does not emit
`[0, 1, 2, 3, 4, 5, 6, 7, 8]`. -/
theorem hierB_output_counterexample :
    (runPictures spsB hierB {}).map Session.emitted ≠ some [0, 1, 2, 3, 4, 5, 6, 7, 8] := by
  decide

/-- C2, amended. In the hierarchical-B scenario, for every reference marking: the
nine pictures are decoded, finished and passed through the output loop without a
failure; and if `dpbFullness` as computed by the counting loop never exceeds
`maxDecPicBuffering = 6` at the start of a pass, the output loop emits exactly
`[0, 1, 2, 3, 4, 5]`, the pictures with POC 6, 7 and 8 are still in the pool with
`neededForOutput` set, and `iPOCLastDisplay` is 5. -/
theorem hierB_output (keep : Nat → Picture → Bool) :
    ∃ ss, runKeeps spsB (hierBKeeps keep) {} = some ss ∧
      ((∀ f ∈ ss.passFullness, f ≤ 6) →
        ss.emitted = [0, 1, 2, 3, 4, 5] ∧
        pendingPOCs ss.dec.m_cListPic = [6, 7, 8] ∧
        ss.iPOCLastDisplay = 5) := by
  have h0 : Reached {} [] [] (-MAX_INT) := by
    refine ⟨by decide, ?_, fun _ => ⟨rfl, rfl, rfl⟩⟩
    intro p hp
    cases hp
  obtain ⟨s1, e1, r1⟩ := hierB_step {} 0 (keep 0) [] [] (-MAX_INT) [] [0] (-MAX_INT) h0
    (by decide) (by decide) (by decide) (by decide) (by decide) (by decide)
  obtain ⟨s2, e2, r2⟩ := hierB_step s1 8 (keep 1) [] [0] (-MAX_INT) [] [0, 8] (-MAX_INT) r1
    (by decide) (by decide) (by decide) (by decide) (by decide) (by decide)
  obtain ⟨s3, e3, r3⟩ := hierB_step s2 4 (keep 2) [] [0, 8] (-MAX_INT) [] [0, 4, 8]
    (-MAX_INT) r2 (by decide) (by decide) (by decide) (by decide) (by decide) (by decide)
  obtain ⟨s4, e4, r4⟩ := hierB_step s3 2 (keep 3) [] [0, 4, 8] (-MAX_INT) [0] [2, 4, 8] 0 r3
    (by decide) (by decide) (by decide) (by decide) (by decide) (by decide)
  obtain ⟨s5, e5, r5⟩ := hierB_step s4 1 (keep 4) [0] [2, 4, 8] 0 [0, 1] [2, 4, 8] 1 r4
    (by decide) (by decide) (by decide) (by decide) (by decide) (by decide)
  obtain ⟨s6, e6, r6⟩ := hierB_step s5 3 (keep 5) [0, 1] [2, 4, 8] 1 [0, 1, 2] [3, 4, 8] 2 r5
    (by decide) (by decide) (by decide) (by decide) (by decide) (by decide)
  obtain ⟨s7, e7, r7⟩ := hierB_step s6 6 (keep 6) [0, 1, 2] [3, 4, 8] 2 [0, 1, 2, 3]
    [4, 6, 8] 3 r6 (by decide) (by decide) (by decide) (by decide) (by decide) (by decide)
  obtain ⟨s8, e8, r8⟩ := hierB_step s7 5 (keep 7) [0, 1, 2, 3] [4, 6, 8] 3 [0, 1, 2, 3, 4]
    [5, 6, 8] 4 r7 (by decide) (by decide) (by decide) (by decide) (by decide) (by decide)
  obtain ⟨s9, e9, r9⟩ := hierB_step s8 7 (keep 8) [0, 1, 2, 3, 4] [5, 6, 8] 4
    [0, 1, 2, 3, 4, 5] [6, 7, 8] 5 r8
    (by decide) (by decide) (by decide) (by decide) (by decide) (by decide)
  refine ⟨s9, ?_, r9.2.2⟩
  unfold hierBKeeps
  rw [runKeeps_cons _ _ _ _ _ _ e1, runKeeps_cons _ _ _ _ _ _ e2, runKeeps_cons _ _ _ _ _ _ e3,
    runKeeps_cons _ _ _ _ _ _ e4, runKeeps_cons _ _ _ _ _ _ e5, runKeeps_cons _ _ _ _ _ _ e6,
    runKeeps_cons _ _ _ _ _ _ e7, runKeeps_cons _ _ _ _ _ _ e8, runKeeps_cons _ _ _ _ _ _ e9]
  rfl

/-- Witness of the amended C2: with the usual GOP-8 reference picture sets the
value of `dpbFullness` never exceeds 6, and the output is `[0, 1, 2, 3, 4, 5]`. -/
theorem hierB_output_witness :
    ∃ ss, runPictures spsB hierB {} = some ss ∧
      (∀ f ∈ ss.passFullness, f ≤ 6) ∧
      ss.emitted = [0, 1, 2, 3, 4, 5] ∧
      pendingPOCs ss.dec.m_cListPic = [6, 7, 8] ∧
      ss.iPOCLastDisplay = 5 := by
  obtain ⟨ss, hrun, h⟩ := hierB_output hierBMarking
  have hsame : runKeeps spsB (hierBKeeps hierBMarking) {} = runPictures spsB hierB {} := rfl
  rw [hsame] at hrun
  have hfull : (runPictures spsB hierB {}).map Session.passFullness
      = some [1, 2, 3, 4, 5, 5, 6, 5, 6] := by decide
  rw [hrun] at hfull
  have hf : ∀ f ∈ ss.passFullness, f ≤ 6 := by
    simp only [Option.map_some', Option.some.injEq] at hfull
    rw [hfull]
    decide
  exact ⟨ss, hrun, hf, h hf⟩

/-! ## Effect of emitting a picture -/

theorem emitPicture_eq (p : Picture) :
    emitPicture p =
      { p with neededForOutput := false, reconstructed := p.referenced && p.reconstructed } := by
  unfold emitPicture
  rcases Bool.eq_false_or_eq_true p.referenced with hr | hr <;>
    rcases Bool.eq_false_or_eq_true p.reconstructed with hc | hc <;>
    simp [hr, hc]

theorem changedPOCs_self (l : List Picture) : changedPOCs l l = [] := by
  unfold changedPOCs
  induction l with
  | nil => rfl
  | cons a l ih => simpa using ih

theorem emitLoop_effect (r m : Nat) (ps : List Picture) (st : OutputState) :
    List.Forall₂ EmitEffect ps (emitLoop r m ps st).1 ∧
    emittedPOCs (emitLoop r m ps st).2
      = emittedPOCs st ++ changedPOCs ps (emitLoop r m ps st).1 ∧
    (emitLoop r m ps st).2.iPOCLastDisplay
      = ((changedPOCs ps (emitLoop r m ps st).1).getLast?).getD st.iPOCLastDisplay := by
  induction ps generalizing st with
  | nil => simp [emitLoop, changedPOCs]
  | cons p ps ih =>
    by_cases hc : emitCond r m p st = true
    · have hn : p.neededForOutput = true := by
        unfold emitCond at hc
        simp only [Bool.and_eq_true] at hc
        exact hc.1.1
      have hne : p ≠ emitPicture p := by
        intro h
        have h2 : p.neededForOutput = (emitPicture p).neededForOutput := by rw [← h]
        rw [emitPicture_eq, hn] at h2
        cases h2
      obtain ⟨h1, h2, h3⟩ := ih (emitState p st)
      have hch : changedPOCs (p :: ps) (emitPicture p :: (emitLoop r m ps (emitState p st)).1)
          = p.getPOC :: changedPOCs ps (emitLoop r m ps (emitState p st)).1 := by
        unfold changedPOCs
        simp [hne]
      simp only [emitLoop, hc, if_true]
      refine ⟨List.Forall₂.cons (Or.inr ⟨hn, emitPicture_eq p⟩) h1, ?_, ?_⟩
      · rw [h2, hch]
        simp [emittedPOCs, emitState]
      · rw [h3, hch, getLast?_cons_getD]
        rfl
    · have hch : changedPOCs (p :: ps) (p :: (emitLoop r m ps st).1)
          = changedPOCs ps (emitLoop r m ps st).1 := by
        unfold changedPOCs
        simp
      obtain ⟨h1, h2, h3⟩ := ih st
      have hcf : emitCond r m p st = false := by simpa using hc
      simp only [emitLoop, hcf, Bool.false_eq_true, if_false]
      exact ⟨List.Forall₂.cons (Or.inl rfl) h1, by rw [hch]; exact h2, by rw [hch]; exact h3⟩

theorem forall2_emitEffect_refl (l : List Picture) : List.Forall₂ EmitEffect l l := by
  induction l with
  | nil => exact List.Forall₂.nil
  | cons a l ih => exact List.Forall₂.cons (Or.inl rfl) ih

theorem emitEffect_fields (l l' : List Picture) (h : List.Forall₂ EmitEffect l l') :
    l'.map Picture.referenced = l.map Picture.referenced ∧
    l'.map Picture.getPOC = l.map Picture.getPOC := by
  induction h with
  | nil => exact ⟨rfl, rfl⟩
  | cons hab _ ih =>
    rcases hab with rfl | ⟨_, rfl⟩
    · simp [ih.1, ih.2]
    · simp [ih.1, ih.2, Picture.getPOC]

/-- Claim C11. Effect of emitting a picture in the output pass: the body of the `if`
sets `iPOCLastDisplay` to the POC of the emitted picture; after a pass that does not
throw, every pool entry is unchanged or was emitted (`EmitEffect`: `neededForOutput`
is cleared, `reconstructed` is cleared when the picture is not referenced and kept
when it is, no other member is written); the emitted POCs are exactly the POCs of
the changed entries, in pool order; `iPOCLastDisplay` ends as the POC emitted last
(or as it was when nothing was emitted); and no `referenced` flag and no POC of the
pool differs from before. -/
theorem outputPass_emission_effect (pool : List Picture) (last : Int) (pool' : List Picture)
    (st : OutputState) (h : outputPass pool last = .ok (pool', st)) :
    (∀ p st0, (emitState p st0).iPOCLastDisplay = p.getPOC) ∧
    List.Forall₂ EmitEffect pool pool' ∧
    emittedPOCs st = changedPOCs pool pool' ∧
    st.iPOCLastDisplay = ((emittedPOCs st).getLast?).getD last ∧
    pool'.map Picture.referenced = pool.map Picture.referenced ∧
    pool'.map Picture.getPOC = pool.map Picture.getPOC := by
  have key : List.Forall₂ EmitEffect pool pool' ∧ emittedPOCs st = changedPOCs pool pool' ∧
      st.iPOCLastDisplay = ((emittedPOCs st).getLast?).getD last := by
    rcases outputPass_ok_cases pool last pool' st h with he | ⟨hp, hs⟩
    · obtain ⟨h1, h2, h3⟩ := emitLoop_effect (frontNumReorderPics pool)
        (frontMaxDecPicBuffering pool) pool (passStart pool last)
      rw [← he] at h1 h2 h3
      have h2' : emittedPOCs st = changedPOCs pool pool' := by
        simpa [emittedPOCs, passStart] using h2
      refine ⟨h1, h2', ?_⟩
      rw [h2']
      simpa [passStart] using h3
    · subst hp hs
      refine ⟨forall2_emitEffect_refl _, ?_, ?_⟩
      · simp [changedPOCs_self, emittedPOCs, passStart]
      · simp [emittedPOCs, passStart]
  exact ⟨fun _ _ => rfl, key.1, key.2.1, key.2.2, emitEffect_fields _ _ key.1⟩

/-- Witness of C11: a pass over three pending, unreferenced pictures emits the first
two, which lose both flags, and leaves the third as it is. -/
theorem outputPass_emission_effect_witness :
    ∃ pool' st, outputPass poolThree (-MAX_INT) = .ok (pool', st) ∧
      pool' = [{ picPending 0 2 with neededForOutput := false, reconstructed := false },
               { picPending 1 4 with neededForOutput := false, reconstructed := false },
               picPending 2 8] ∧
      emittedPOCs st = [2, 4] ∧ st.iPOCLastDisplay = 4 ∧
      List.Forall₂ EmitEffect poolThree pool' ∧
      emittedPOCs st = changedPOCs poolThree pool' :=
  ⟨(emitLoop 1 2 poolThree (passStart poolThree (-MAX_INT))).1,
   (emitLoop 1 2 poolThree (passStart poolThree (-MAX_INT))).2,
   rfl, by decide, by decide, by decide,
   (outputPass_emission_effect poolThree (-MAX_INT) _ _ rfl).2.1,
   (outputPass_emission_effect poolThree (-MAX_INT) _ _ rfl).2.2.1⟩

/-! ## Claim on finishing a picture -/

theorem pic?_some (s : DecLib) (a : Nat) (p : Picture) (h : s.pic? a = some p) :
    p ∈ s.m_cListPic ∧ p.addr = a := by
  unfold DecLib.pic? at h
  refine ⟨List.mem_of_find?_eq_some h, ?_⟩
  have := List.find?_some h
  simpa using this

theorem finish_pool (s : DecLib) (a : Nat) (p : Picture) (sl : Slice)
    (hnd : (s.m_cListPic.map Picture.addr).Nodup) (hp : s.pic? a = some p) :
    (sortPicList (updateAt a (finishFields sl) s.m_cListPic)).find? (fun q => q.addr == a)
      = some (finishFields sl p) ∧
    (sortPicList (updateAt a (finishFields sl) s.m_cListPic)).Sorted
      (fun x y => x.getPOC ≤ y.getPOC) ∧
    ∃ pre post, s.m_cListPic = pre ++ p :: post ∧
      (sortPicList (updateAt a (finishFields sl) s.m_cListPic)).Perm
        (pre ++ finishFields sl p :: post) := by
  obtain ⟨hmem, ha⟩ := pic?_some s a p hp
  obtain ⟨pre, post, hl⟩ := List.append_of_mem hmem
  have hupd : updateAt a (finishFields sl) s.m_cListPic = pre ++ finishFields sl p :: post := by
    rw [hl]
    exact updateAt_split a _ pre p post ha (by rw [← hl]; exact hnd)
  have hperm := sortPicList_perm (pre ++ finishFields sl p :: post)
  have hnd2 : ((sortPicList (pre ++ finishFields sl p :: post)).map Picture.addr).Nodup := by
    have hn0 : ((pre ++ finishFields sl p :: post).map Picture.addr).Nodup := by
      rw [hl] at hnd
      simpa [finishFields] using hnd
    exact ((hperm.map Picture.addr).nodup_iff).mpr hn0
  have hmem2 : finishFields sl p ∈ sortPicList (pre ++ finishFields sl p :: post) :=
    (hperm.mem_iff).mpr (by simp)
  have hfind := find_addr_of_mem _ (finishFields sl p) hmem2 hnd2
  have ha2 : (finishFields sl p).addr = a := ha
  rw [ha2] at hfind
  rw [hupd]
  exact ⟨hfind, sortPicList_sorted _, pre, post, hl, hperm⟩

/-- Claim C12. Finishing a picture: when `m_pcPic` points to the pool entry `p` whose
slice is `sl`, `finishPictureLight` and `finishPicture` both return, report `sl.poc`
through the out-parameter `poc`, and leave the same pool, which is the list handed
back through `rpcListPic`: in it the current picture has `reconstructed = true` and
`neededForOutput` equal to the picture-output flag of `sl`, with no other member
written; the list is sorted by POC and is a rearrangement of the old pool with the
current picture updated. -/
theorem finishPicture_effect (s : DecLib) (a : Nat) (p : Picture) (sl : Slice)
    (hnd : (s.m_cListPic.map Picture.addr).Nodup) (hpc : s.m_pcPic = some a)
    (hp : s.pic? a = some p) (hcs : p.csSlice? = some sl) :
    ∃ sL sF q, s.finishPictureLight = some (sL, sl.poc) ∧
      s.finishPicture = some (sF, sl.poc) ∧
      sF.m_cListPic = sL.m_cListPic ∧
      sF.pic? a = some q ∧ sL.pic? a = some q ∧
      q.reconstructed = true ∧ q.neededForOutput = sl.picOutputFlag ∧
      q = { p with reconstructed := true, neededForOutput := sl.picOutputFlag } ∧
      sF.m_cListPic.Sorted (fun x y => x.getPOC ≤ y.getPOC) ∧
      ∃ pre post, s.m_cListPic = pre ++ p :: post ∧ sF.m_cListPic.Perm (pre ++ q :: post) := by
  obtain ⟨h1, h2, pre, post, h3, h4⟩ := finish_pool s a p sl hnd hp
  refine ⟨{ s with m_cListPic := sortPicList (updateAt a (finishFields sl) s.m_cListPic) },
    { s with m_cListPic := sortPicList (updateAt a (finishFields sl) s.m_cListPic),
             m_bFirstSliceInPicture := true },
    finishFields sl p, ?_, ?_, rfl, h1, h1, rfl, rfl, rfl, h2, pre, post, h3, h4⟩
  · unfold DecLib.finishPictureLight
    simp only [hpc, hp, Option.bind, hcs]
  · unfold DecLib.finishPicture
    simp only [hpc, hp, Option.bind, hcs]

/-- Witness of C12: the current picture of POC 2 is finished and sorted in front of
the picture of POC 4. -/
theorem finishPicture_effect_witness :
    stCurrent.finishPicture =
      some ({ stCurrent with
                m_cListPic := [{ picCurrent 1 2 true with reconstructed := true,
                                                          neededForOutput := true },
                               picBusy 0 4],
                m_bFirstSliceInPicture := true }, 2) ∧
    ∃ sL sF q, stCurrent.finishPictureLight = some (sL, 2) ∧
      stCurrent.finishPicture = some (sF, 2) ∧
      sF.m_cListPic = sL.m_cListPic ∧
      sF.pic? 1 = some q ∧ sL.pic? 1 = some q ∧
      q.reconstructed = true ∧ q.neededForOutput = true ∧
      q = { picCurrent 1 2 true with reconstructed := true, neededForOutput := true } ∧
      sF.m_cListPic.Sorted (fun x y => x.getPOC ≤ y.getPOC) ∧
      ∃ pre post, stCurrent.m_cListPic = pre ++ picCurrent 1 2 true :: post ∧
        sF.m_cListPic.Perm (pre ++ q :: post) :=
  ⟨by decide,
   finishPicture_effect stCurrent 1 (picCurrent 1 2 true) { poc := 2, picOutputFlag := true }
     (by decide) rfl (by decide) (by decide)⟩

/-! ## Loss recovery -/

theorem find_updateAt (a : Nat) (f : Picture → Picture) (hf : ∀ p, (f p).addr = p.addr)
    (l : List Picture) :
    (updateAt a f l).find? (fun p => p.addr == a) = (l.find? (fun p => p.addr == a)).map f := by
  unfold updateAt
  induction l with
  | nil => rfl
  | cons p l ih =>
    by_cases hp : p.addr = a
    · simp [hp, hf]
    · simp only [List.map_cons, hp, if_false]
      rw [List.find?_cons_of_neg _ (by simpa using hp), List.find?_cons_of_neg _ (by simpa using hp)]
      exact ih

theorem xGetNewPicBuffer_pic (s : DecLib) (sps : SPS) (t : Nat) (rawPoc : Int) :
    ∃ y, (s.xGetNewPicBuffer sps t rawPoc).1.pic? (s.xGetNewPicBuffer sps t rawPoc).2 = some y := by
  obtain ⟨pre, y, post, hl, hy, _⟩ := xGetNewPicBuffer_split s sps t rawPoc
  have : ((s.xGetNewPicBuffer sps t rawPoc).1.pic? (s.xGetNewPicBuffer sps t rawPoc).2).isSome
      = true := by
    unfold DecLib.pic?
    rw [List.find?_isSome]
    exact ⟨y, by rw [hl]; simp, by simp [hy]⟩
  exact Option.isSome_iff_exists.mp this

theorem xCreateLostPicture_eq (s : DecLib) (iLostPoc : Int) (firstSPS : SPS) (rawPoc : Int)
    (fill0 : Picture)
    (h0 : (s.xGetNewPicBuffer firstSPS 0 rawPoc).1.pic? (s.xGetNewPicBuffer firstSPS 0 rawPoc).2
      = some fill0) :
    s.xCreateLostPicture iLostPoc firstSPS rawPoc =
      if fill0.slices.length = 0 then .error "No slices in picture"
      else .ok { (s.xGetNewPicBuffer firstSPS 0 rawPoc).1 with
        m_cListPic := updateAt (s.xGetNewPicBuffer firstSPS 0 rawPoc).2
          (fillFields iLostPoc (s.lostPictureSource iLostPoc firstSPS rawPoc))
          (s.xGetNewPicBuffer firstSPS 0 rawPoc).1.m_cListPic,
        m_pocRandomAccess := if s.m_pocRandomAccess = MAX_INT then iLostPoc
                             else s.m_pocRandomAccess } := by
  unfold DecLib.xCreateLostPicture
  simp only [h0, (xGetNewPicBuffer_fields s firstSPS 0 rawPoc).2.2.2]
  rfl

theorem xCreateLostPicture_ok (s : DecLib) (iLostPoc : Int) (firstSPS : SPS) (rawPoc : Int)
    (s' : DecLib) (h : s.xCreateLostPicture iLostPoc firstSPS rawPoc = .ok s') :
    ∃ fill0,
      (s.xGetNewPicBuffer firstSPS 0 rawPoc).1.pic? (s.xGetNewPicBuffer firstSPS 0 rawPoc).2
        = some fill0 ∧ fill0.slices.length ≠ 0 ∧
      s'.m_cListPic = updateAt (s.xGetNewPicBuffer firstSPS 0 rawPoc).2
          (fillFields iLostPoc (s.lostPictureSource iLostPoc firstSPS rawPoc))
          (s.xGetNewPicBuffer firstSPS 0 rawPoc).1.m_cListPic ∧
      s'.m_pocRandomAccess = (if s.m_pocRandomAccess = MAX_INT then iLostPoc
                             else s.m_pocRandomAccess) ∧
      s'.pic? (s.xGetNewPicBuffer firstSPS 0 rawPoc).2
        = some (fillFields iLostPoc (s.lostPictureSource iLostPoc firstSPS rawPoc) fill0) := by
  obtain ⟨fill0, h0⟩ := xGetNewPicBuffer_pic s firstSPS 0 rawPoc
  rw [xCreateLostPicture_eq s iLostPoc firstSPS rawPoc fill0 h0] at h
  split at h
  · cases h
  · rename_i hs
    simp only [Except.ok.injEq] at h
    refine ⟨fill0, h0, hs, by rw [← h], by rw [← h], ?_⟩
    rw [← h]
    unfold DecLib.pic? at h0 ⊢
    simp only
    rw [find_updateAt _ (fillFields iLostPoc (s.lostPictureSource iLostPoc firstSPS rawPoc))
      (fun _ => rfl), h0]
    rfl

/-- `xCreateLostPicture` writes no `poc` member: the POCs that pool lookups see are
those of the pool after the acquisition of the buffer. -/
theorem xCreateLostPicture_pocs (s : DecLib) (iLostPoc : Int) (firstSPS : SPS) (rawPoc : Int)
    (s' : DecLib) (h : s.xCreateLostPicture iLostPoc firstSPS rawPoc = .ok s') :
    s'.m_cListPic.map Picture.getPOC
      = (s.xGetNewPicBuffer firstSPS 0 rawPoc).1.m_cListPic.map Picture.getPOC := by
  obtain ⟨_, _, _, hl, _⟩ := xCreateLostPicture_ok s iLostPoc firstSPS rawPoc s' h
  rw [hl]
  unfold updateAt
  rw [List.map_map]
  apply List.map_congr_left
  intro p _
  simp only [Function.comp]
  split <;> rfl

/-- Claim C13, the code at the failing input. In a full pool `[POC 4, POC 2]` whose
second entry is reusable, `xCreateLostPicture(3)` completes and sets the three flags
of the substitute and the POC of its slice 0 to 3, but the member `poc` that
`Picture::getPOC` reads keeps the value 2 of the previous use of the buffer: no
pool entry has POC 3 afterwards. -/
theorem xCreateLostPicture_stale_poc :
    ∃ s', stLost.xCreateLostPicture 3 sps2 0 = .ok s' ∧
      s'.m_cListPic.map Picture.getPOC = [4, 2] ∧
      (∀ q ∈ s'.m_cListPic, q.getPOC ≠ 3) ∧
      (s'.pic? 1).map (fun q => (q.getPOC, q.slices.map Slice.poc, q.referenced,
        q.reconstructed, q.neededForOutput)) = some (2, [3], true, true, true) :=
  ⟨_, rfl, by decide, by decide, by decide⟩

/-! ## Source selection of the loss recovery -/

theorem closestPocLoop_le (iLostPoc pilotPoc : Int) (l : List Picture) (c : Int) :
    closestPocLoop iLostPoc pilotPoc l c ≤ c := by
  induction l generalizing c with
  | nil => exact le_refl _
  | cons p l ih =>
    unfold closestPocLoop
    split
    · rename_i h
      exact le_trans (ih _) (le_of_lt h.1)
    · exact ih c

theorem closestPocLoop_pos (iLostPoc pilotPoc : Int) (l : List Picture) (c : Int)
    (hc : 0 < c) : 0 < closestPocLoop iLostPoc pilotPoc l c := by
  induction l generalizing c with
  | nil => exact hc
  | cons p l ih =>
    unfold closestPocLoop
    split
    · rename_i h
      apply ih
      have := h.2.1
      omega
    · exact ih c hc

theorem closestPocLoop_le_candidate (iLostPoc pilotPoc : Int) (l : List Picture) (c : Int)
    (q : Picture) (hq : q ∈ l) (hcand : q.candidate iLostPoc pilotPoc) :
    closestPocLoop iLostPoc pilotPoc l c ≤ pocDistance iLostPoc q := by
  induction l generalizing c with
  | nil => cases hq
  | cons p l ih =>
    unfold closestPocLoop
    rcases List.mem_cons.mp hq with rfl | hq
    · split
      · exact closestPocLoop_le _ _ _ _
      · rename_i h
        have hlt : ¬ (pocDistance iLostPoc q < c) := fun hlt => h ⟨hlt, hcand.1, hcand.2⟩
        exact le_trans (closestPocLoop_le _ _ _ _) (not_lt.mp hlt)
    · split
      · exact ih _ hq
      · exact ih _ hq

theorem closestPocLoop_attained (iLostPoc pilotPoc : Int) (l : List Picture) (c : Int) :
    closestPocLoop iLostPoc pilotPoc l c = c ∨
    ∃ q ∈ l, q.candidate iLostPoc pilotPoc ∧
      pocDistance iLostPoc q = closestPocLoop iLostPoc pilotPoc l c := by
  induction l generalizing c with
  | nil => exact Or.inl rfl
  | cons p l ih =>
    unfold closestPocLoop
    split
    · rename_i h
      rcases ih ((p.getPOC - iLostPoc).natAbs : Int) with h1 | ⟨q, hq, hc, hd⟩
      · exact Or.inr ⟨p, List.mem_cons_self _ _, ⟨h.2.1, h.2.2⟩, h1.symm⟩
      · exact Or.inr ⟨q, List.mem_cons_of_mem _ hq, hc, hd⟩
    · rcases ih c with h1 | ⟨q, hq, hc, hd⟩
      · exact Or.inl h1
      · exact Or.inr ⟨q, List.mem_cons_of_mem _ hq, hc, hd⟩

theorem copySource_some (iLostPoc pilotPoc : Int) (pool : List Picture) (src : Picture)
    (h : copySource iLostPoc pilotPoc (closestPocLoop iLostPoc pilotPoc pool 1000000) pool
      = some src) :
    src ∈ pool ∧ src.candidate iLostPoc pilotPoc ∧
    (∀ q ∈ pool, q.candidate iLostPoc pilotPoc →
      pocDistance iLostPoc src ≤ pocDistance iLostPoc q) ∧
    ∃ pre post, pool = pre ++ src :: post ∧
      ∀ q ∈ pre, ¬ (pocDistance iLostPoc q = pocDistance iLostPoc src ∧ q.getPOC ≠ pilotPoc) := by
  unfold copySource at h
  have hmem := List.mem_of_find?_eq_some h
  have hp := List.find?_some h
  simp only [Bool.and_eq_true, decide_eq_true_eq] at hp
  have hd : pocDistance iLostPoc src = closestPocLoop iLostPoc pilotPoc pool 1000000 := hp.1
  have hpos := closestPocLoop_pos iLostPoc pilotPoc pool 1000000 (by norm_num)
  refine ⟨hmem, ⟨by rw [hd]; omega, hp.2⟩, ?_, ?_⟩
  · intro q hq hc
    rw [hd]
    exact closestPocLoop_le_candidate _ _ _ _ q hq hc
  · obtain ⟨pre, post, hl, hpre⟩ := List.find?_eq_some.mp h |>.2
    refine ⟨pre, post, hl, fun q hq hcon => ?_⟩
    have := hpre q hq
    simp only [Bool.and_eq_true, decide_eq_true_eq, Bool.not_eq_true', Bool.not_eq_true,
      Bool.and_eq_false_imp] at this
    rw [← hd] at this
    have hx := this hcon.1
    simp at hx
    exact hcon.2 hx

theorem copySource_isSome (iLostPoc pilotPoc : Int) (pool : List Picture) (q : Picture)
    (hq : q ∈ pool) (hc : q.candidate iLostPoc pilotPoc)
    (hd : pocDistance iLostPoc q ≤ 1000000) :
    (copySource iLostPoc pilotPoc (closestPocLoop iLostPoc pilotPoc pool 1000000) pool).isSome
      = true := by
  unfold copySource
  rw [List.find?_isSome]
  rcases closestPocLoop_attained iLostPoc pilotPoc pool 1000000 with h1 | ⟨x, hx, hxc, hxd⟩
  · refine ⟨q, hq, ?_⟩
    have hle := closestPocLoop_le_candidate iLostPoc pilotPoc pool 1000000 q hq hc
    rw [h1] at hle ⊢
    have : pocDistance iLostPoc q = 1000000 := le_antisymm hd hle
    simp only [Bool.and_eq_true, decide_eq_true_eq]
    exact ⟨this, hc.2⟩
  · refine ⟨x, hx, ?_⟩
    simp only [Bool.and_eq_true, decide_eq_true_eq]
    exact ⟨hxd, hxc.2⟩

/-- C14, counterexample. In a pool holding POC 4 (referenced), POC 3 (awaiting
output, not referenced) and a reusable buffer, while a slice of POC 7 that
references the POCs 4 and 3 is decoded, POC 3 is reported as lost and
`xCreateLostPicture(3)` copies the reconstruction of POC 4, at distance 1, although
the pool entry of POC 3, which is not the picture being activated, is at distance
0. -/
theorem lostPictureSource_counterexample :
    checkThatAllRefPicsAreAvailable stNear.m_cListPic stNear.m_apcSlicePilot.rps = 3 + 1 ∧
    ∃ s' src, stNear.xCreateLostPicture 3 sps3 0 = .ok s' ∧
      stNear.lostPictureSource 3 sps3 0 = some src ∧ src.getPOC = 4 ∧
      (s'.pic? 2).map Picture.recoBuf = some 40 ∧
      ∃ q ∈ (stNear.xGetNewPicBuffer sps3 0 0).1.m_cListPic,
        q.getPOC ≠ stNear.m_apcSlicePilot.poc ∧ pocDistance 3 q < pocDistance 3 src :=
  ⟨by decide, _, _, rfl, rfl, by decide, by decide, { picPending 1 3 with recoBuf := 30 },
    by decide, by decide, by decide⟩

/-- Claim C14, amended. When `xCreateLostPicture(p)` completes, the reconstruction
of the substitute is that of the source picture when there is one and is left as it
was otherwise. The source is an entry of the pool as it stands after the buffer was
acquired (the substitute included); its POC differs from `p` and from the POC of
the slice pilot; among the pool entries whose POC differs from `p` and from the POC
of the slice pilot none is closer to `p`; it is the first entry in pool order at
its distance whose POC differs from the pilot POC; and there is a source whenever
such an entry exists within distance 1000000. -/
theorem lostPictureSource_nearest (s : DecLib) (iLostPoc : Int) (firstSPS : SPS)
    (rawPoc : Int) (s' : DecLib)
    (h : s.xCreateLostPicture iLostPoc firstSPS rawPoc = .ok s') :
    (∃ fill0 fill,
      (s.xGetNewPicBuffer firstSPS 0 rawPoc).1.pic? (s.xGetNewPicBuffer firstSPS 0 rawPoc).2
        = some fill0 ∧
      s'.pic? (s.xGetNewPicBuffer firstSPS 0 rawPoc).2 = some fill ∧
      fill.recoBuf = (match s.lostPictureSource iLostPoc firstSPS rawPoc with
                      | some src => src.recoBuf
                      | none => fill0.recoBuf)) ∧
    (∀ src, s.lostPictureSource iLostPoc firstSPS rawPoc = some src →
      src ∈ (s.xGetNewPicBuffer firstSPS 0 rawPoc).1.m_cListPic ∧
      src.getPOC ≠ iLostPoc ∧ src.getPOC ≠ s.m_apcSlicePilot.poc ∧
      (∀ q ∈ (s.xGetNewPicBuffer firstSPS 0 rawPoc).1.m_cListPic,
        q.getPOC ≠ iLostPoc → q.getPOC ≠ s.m_apcSlicePilot.poc →
        pocDistance iLostPoc src ≤ pocDistance iLostPoc q) ∧
      ∃ pre post, (s.xGetNewPicBuffer firstSPS 0 rawPoc).1.m_cListPic = pre ++ src :: post ∧
        ∀ q ∈ pre, ¬ (pocDistance iLostPoc q = pocDistance iLostPoc src ∧
          q.getPOC ≠ s.m_apcSlicePilot.poc)) ∧
    (∀ q ∈ (s.xGetNewPicBuffer firstSPS 0 rawPoc).1.m_cListPic,
      q.getPOC ≠ iLostPoc → q.getPOC ≠ s.m_apcSlicePilot.poc →
      pocDistance iLostPoc q ≤ 1000000 →
      (s.lostPictureSource iLostPoc firstSPS rawPoc).isSome = true) := by
  have hdist : ∀ q : Picture, q.getPOC ≠ iLostPoc → pocDistance iLostPoc q ≠ 0 := by
    intro q hq
    unfold pocDistance
    omega
  have hdist' : ∀ q : Picture, pocDistance iLostPoc q ≠ 0 → q.getPOC ≠ iLostPoc := by
    intro q hq heq
    apply hq
    unfold pocDistance
    omega
  refine ⟨?_, ?_, ?_⟩
  · obtain ⟨fill0, h0, _, _, _, hpic⟩ := xCreateLostPicture_ok s iLostPoc firstSPS rawPoc s' h
    exact ⟨fill0, _, h0, hpic, rfl⟩
  · intro src hsrc
    obtain ⟨h1, h2, h3, h4⟩ := copySource_some iLostPoc s.m_apcSlicePilot.poc _ src hsrc
    exact ⟨h1, hdist' src h2.1, h2.2, fun q hq hq1 hq2 => h3 q hq ⟨hdist q hq1, hq2⟩, h4⟩
  · intro q hq hq1 hq2 hd
    exact copySource_isSome iLostPoc s.m_apcSlicePilot.poc _ q hq ⟨hdist q hq1, hq2⟩ hd

/-- Witness of the amended C14: in `stNear` the source for the lost POC 3 is the
picture of POC 4, the nearest entry whose POC is neither 3 nor 7, and its
reconstruction 40 ends in the substitute. -/
theorem lostPictureSource_nearest_witness :
    ∃ s', stNear.xCreateLostPicture 3 sps3 0 = .ok s' ∧
      stNear.lostPictureSource 3 sps3 0 = some { picBusy 0 4 with recoBuf := 40 } ∧
      (∃ fill0 fill,
        (stNear.xGetNewPicBuffer sps3 0 0).1.pic? (stNear.xGetNewPicBuffer sps3 0 0).2
          = some fill0 ∧
        s'.pic? (stNear.xGetNewPicBuffer sps3 0 0).2 = some fill ∧
        fill.recoBuf = (match stNear.lostPictureSource 3 sps3 0 with
                        | some src => src.recoBuf
                        | none => fill0.recoBuf)) :=
  ⟨_, rfl, rfl, (lostPictureSource_nearest stNear 3 sps3 0 _ rfl).1⟩

/-! ## The `CHECK` of the loss recovery -/

theorem isRandomAccessSkipPicture_not_skipped (cfg : Config) (s : DecLib)
    (iSkipFrame iPOCLastDisplay : Int)
    (h : (s.isRandomAccessSkipPicture cfg iSkipFrame iPOCLastDisplay).ret = false) :
    iSkipFrame = 0 ∧
    (s.isRandomAccessSkipPicture cfg iSkipFrame iPOCLastDisplay).iSkipFrame = iSkipFrame ∧
    (s.isRandomAccessSkipPicture cfg iSkipFrame iPOCLastDisplay).iPOCLastDisplay
      = iPOCLastDisplay := by
  unfold DecLib.isRandomAccessSkipPicture at h ⊢
  split_ifs at h ⊢ <;> simp_all

theorem xDecodeSlice_of_stateAtRecovery (cfg : Config) (s : DecLib) (nalu : InputNALUnit)
    (parsed : Slice) (env : SliceEnv) (iSkipFrame iPOCLastDisplay : Int) (s3 : DecLib)
    (h : s.stateAtRecovery cfg nalu parsed iSkipFrame iPOCLastDisplay = some s3) :
    s.xDecodeSlice cfg nalu parsed env iSkipFrame iPOCLastDisplay
      = DecLib.decodeSlice cfg s3 nalu env iSkipFrame := by
  unfold DecLib.stateAtRecovery at h
  unfold DecLib.xDecodeSlice
  cases hh : s.sliceHeaderStage cfg nalu parsed with
  | error e => rw [hh] at h; cases h
  | ok s1 =>
    rw [hh] at h
    simp only at h ⊢
    cases hr : (s1.isRandomAccessSkipPicture cfg iSkipFrame iPOCLastDisplay).ret with
    | true => simp [hr] at h
    | false =>
      have hi := (isRandomAccessSkipPicture_not_skipped cfg s1 iSkipFrame iPOCLastDisplay hr).2.1
      simp only [hr, Bool.false_eq_true, if_false] at h ⊢
      split_ifs at h ⊢ <;> simp only [Option.some.injEq] at h <;> rw [← h, hi]

theorem recoverLostPictures_error (s : DecLib) (firstSPS : SPS) (raw : Nat → Int) (fuel : Nat)
    (e : String)
    (hlost : checkThatAllRefPicsAreAvailable s.m_cListPic s.m_apcSlicePilot.rps > 0)
    (he : s.xCreateLostPicture
      (checkThatAllRefPicsAreAvailable s.m_cListPic s.m_apcSlicePilot.rps - 1) firstSPS (raw 0)
      = .error e) :
    s.recoverLostPictures firstSPS raw (fuel + 1) 0
      = some ([checkThatAllRefPicsAreAvailable s.m_cListPic s.m_apcSlicePilot.rps - 1],
          .error e) := by
  unfold DecLib.recoverLostPictures
  simp only [hlost, if_true, he]

theorem decodeSlice_error (cfg : Config) (s : DecLib) (nalu : InputNALUnit) (env : SliceEnv)
    (iSkipFrame : Int) (calls : List Int) (e : String)
    (h : s.recoverLostPictures env.firstSPS env.raw env.fuel 0 = some (calls, .error e)) :
    DecLib.decodeSlice cfg s nalu env iSkipFrame = some (.error e) := by
  unfold DecLib.decodeSlice
  rw [h]

theorem xCreateLostPicture_new (s : DecLib) (hwf : s.WF) (iLostPoc : Int) (firstSPS : SPS)
    (rawPoc : Int)
    (h : s.m_cListPic.length < firstSPS.getMaxDecPicBuffering 0 ∨
      ∀ p ∈ s.m_cListPic, p.reusable = false) :
    s.xCreateLostPicture iLostPoc firstSPS rawPoc = .error "No slices in picture" := by
  have key : (s.xGetNewPicBuffer firstSPS 0 rawPoc).1.pic? (s.xGetNewPicBuffer firstSPS 0 rawPoc).2
      = some ((Picture.new s.nextAddr rawPoc).create firstSPS) := by
    have hfind := find_addr_append_new s.m_cListPic ((Picture.new s.nextAddr rawPoc).create firstSPS)
      hwf.2
    by_cases hlen : s.m_cListPic.length < firstSPS.getMaxDecPicBuffering 0
    · rw [xGetNewPicBuffer_fresh s firstSPS 0 rawPoc hlen]
      exact hfind
    · rcases h with h | h
      · exact absurd h hlen
      · rw [xGetNewPicBuffer_extension s firstSPS 0 rawPoc hlen h]
        exact hfind
  rw [xCreateLostPicture_eq s iLostPoc firstSPS rawPoc _ key]
  rfl

/-- `xCreateLostPicture` completes exactly when the buffer that `xGetNewPicBuffer`
returns owns at least one slice; otherwise the `CHECK` of line 701 fires with
"No slices in picture". A newly created buffer owns no slice, so the `CHECK` fires
whenever the pool is below the bound or has no reusable entry. The error of a call
ends the loop of lines 1211–1214, and `xDecodeSlice` passes it on to its caller. -/
theorem xCreateLostPicture_check (s : DecLib) (hwf : s.WF) (iLostPoc : Int) (firstSPS : SPS)
    (rawPoc : Int) :
    (∃ fill0,
      (s.xGetNewPicBuffer firstSPS 0 rawPoc).1.pic? (s.xGetNewPicBuffer firstSPS 0 rawPoc).2
        = some fill0 ∧
      ((∃ s', s.xCreateLostPicture iLostPoc firstSPS rawPoc = .ok s') ↔ fill0.slices ≠ []) ∧
      (fill0.slices = [] →
        s.xCreateLostPicture iLostPoc firstSPS rawPoc = .error "No slices in picture")) ∧
    ((s.m_cListPic.length < firstSPS.getMaxDecPicBuffering 0 ∨
        ∀ p ∈ s.m_cListPic, p.reusable = false) →
      s.xCreateLostPicture iLostPoc firstSPS rawPoc = .error "No slices in picture") ∧
    (∀ (raw : Nat → Int) (fuel : Nat) (e : String),
      checkThatAllRefPicsAreAvailable s.m_cListPic s.m_apcSlicePilot.rps > 0 →
      s.xCreateLostPicture
        (checkThatAllRefPicsAreAvailable s.m_cListPic s.m_apcSlicePilot.rps - 1) firstSPS (raw 0)
        = .error e →
      s.recoverLostPictures firstSPS raw (fuel + 1) 0
        = some ([checkThatAllRefPicsAreAvailable s.m_cListPic s.m_apcSlicePilot.rps - 1],
            .error e)) ∧
    (∀ (cfg : Config) (d : DecLib) (nalu : InputNALUnit) (parsed : Slice) (env : SliceEnv)
      (iSkipFrame iPOCLastDisplay : Int) (calls : List Int) (e : String),
      d.stateAtRecovery cfg nalu parsed iSkipFrame iPOCLastDisplay = some s →
      s.recoverLostPictures env.firstSPS env.raw env.fuel 0 = some (calls, .error e) →
      d.xDecodeSlice cfg nalu parsed env iSkipFrame iPOCLastDisplay = some (.error e)) := by
  refine ⟨?_, xCreateLostPicture_new s hwf iLostPoc firstSPS rawPoc,
    fun raw fuel e h1 h2 => recoverLostPictures_error s firstSPS raw fuel e h1 h2, ?_⟩
  · obtain ⟨fill0, h0⟩ := xGetNewPicBuffer_pic s firstSPS 0 rawPoc
    refine ⟨fill0, h0, ?_, ?_⟩
    · rw [xCreateLostPicture_eq s iLostPoc firstSPS rawPoc fill0 h0]
      constructor
      · rintro ⟨s', hs'⟩
        split at hs'
        · cases hs'
        · rename_i hl
          exact fun hnil => hl (by rw [hnil]; rfl)
      · intro hne
        have : ¬ fill0.slices.length = 0 := fun hl => hne (List.length_eq_zero.mp hl)
        simp only [this, if_false]
        exact ⟨_, rfl⟩
    · intro hnil
      rw [xCreateLostPicture_eq s iLostPoc firstSPS rawPoc fill0 h0, hnil]
      rfl
  · intro cfg d nalu parsed env iSkipFrame iPOCLastDisplay calls e h1 h2
    rw [xDecodeSlice_of_stateAtRecovery cfg d nalu parsed env iSkipFrame iPOCLastDisplay s h1]
    exact decodeSlice_error cfg s nalu env iSkipFrame calls e h2

/-- The statement above in the lost-reference scenario, where the pool is below the
bound, the call for POC 1 throws and so does `xDecodeSlice`; in `stLost` the reused
buffer owns a slice and the call completes. -/
theorem xCreateLostPicture_check_witness :
    stAtLoss.WF ∧
    stAfterIDR.stateAtRecovery {} (naluTrail {}) { poc := 2, rps := [0, 1] } 0 (-MAX_INT)
      = some stAtLoss ∧
    stAtLoss.xCreateLostPicture 1 spsB 0 = .error "No slices in picture" ∧
    stAfterIDR.xDecodeSlice {} (naluTrail {}) { poc := 2, rps := [0, 1] } envB 0 (-MAX_INT)
      = some (.error "No slices in picture") ∧
    (∃ s', stLost.xCreateLostPicture 3 sps2 0 = .ok s') :=
  ⟨by decide, by decide,
   (xCreateLostPicture_check stAtLoss (by decide) 1 spsB 0).2.1 (Or.inl (by decide)),
   (xCreateLostPicture_check stAtLoss (by decide) 1 spsB 0).2.2.2 {} stAfterIDR (naluTrail {})
     { poc := 2, rps := [0, 1] } envB 0 (-MAX_INT) [1] "No slices in picture" (by decide) rfl,
   ⟨_, rfl⟩⟩

/-- Claim C15, the code at the failing input. The lost-reference scenario: an IDR
picture of POC 0 is decoded and finished, POC 1 never arrives, and the slice of POC
2 references the POCs 0 and 1. The pool holds one picture and is below the bound 6,
so the substitute for POC 1 is a newly created picture, which owns no slice: the
`CHECK` of line 701 fires and `xDecodeSlice` ends with this error, for either
setting of `JVET_M0101_HLS`. -/
theorem lost_reference_scenario_throws :
    (∃ r1, ({} : DecLib).xDecodeSlice {} naluIDR { poc := 0 } envB 0 (-MAX_INT) = some (.ok r1) ∧
      r1.ret = false ∧ r1.dec.finishPicture = some (stAfterIDR, 0) ∧
      checkThatAllRefPicsAreAvailable stAfterIDR.m_cListPic [0, 1] = 1 + 1 ∧
      stAfterIDR.xCreateLostPicture 1 spsB 0 = .error "No slices in picture" ∧
      stAfterIDR.xDecodeSlice {} (naluTrail {}) { poc := 2, rps := [0, 1] } envB 0 (-MAX_INT)
        = some (.error "No slices in picture")) ∧
    (∃ r1, ({} : DecLib).xDecodeSlice { JVET_M0101_HLS := false } naluIDR { poc := 0 } envB 0
        (-MAX_INT) = some (.ok r1) ∧
      r1.ret = false ∧ r1.dec.finishPicture = some (stAfterIDRWith true, 0) ∧
      (stAfterIDRWith true).xDecodeSlice { JVET_M0101_HLS := false }
        (naluTrail { JVET_M0101_HLS := false }) { poc := 2, rps := [0, 1] } envB 0 (-MAX_INT)
        = some (.error "No slices in picture")) :=
  ⟨⟨_, rfl, rfl, rfl, by decide, rfl, rfl⟩, ⟨_, rfl, rfl, rfl, rfl⟩⟩

/-! ## Repetition in the loss-recovery loop -/

/-- Claim C16, the code at the failing input. In `stLost2` the reference picture
set requires POC 3, which no pool entry has. `xCreateLostPicture(3)` completes, but
no pool entry has POC 3 afterwards (the substitute keeps the POC 2 of the reused
buffer), so the lookup reports POC 3 as missing again: the loop calls
`xCreateLostPicture(3)` three times, until no reusable buffer is left and the call
throws on a newly created picture. -/
theorem recoverLostPictures_repeats :
    stLost2.recoverLostPictures sps2 (fun _ => 0) 8 0
      = some ([3, 3, 3], .error "No slices in picture") ∧
    ∃ s1, stLost2.xCreateLostPicture 3 sps2 0 = .ok s1 ∧
      s1.m_cListPic.map Picture.getPOC = [4, 2, 1] ∧
      (∀ q ∈ s1.m_cListPic, q.getPOC ≠ 3) ∧
      checkThatAllRefPicsAreAvailable stLost2.m_cListPic stLost2.m_apcSlicePilot.rps = 3 + 1 ∧
      checkThatAllRefPicsAreAvailable s1.m_cListPic s1.m_apcSlicePilot.rps = 3 + 1 :=
  ⟨rfl, _, rfl, by decide, by decide, by decide, by decide⟩

/-! ## Loss recovery and the random-access anchor -/

/-- Claim C17. When `xCreateLostPicture(p)` completes, `m_pocRandomAccess` is `p` if
the anchor was unset (`MAX_INT`) before the call, and is unchanged if it was set. -/
theorem xCreateLostPicture_anchor (s : DecLib) (iLostPoc : Int) (firstSPS : SPS)
    (rawPoc : Int) (s' : DecLib)
    (h : s.xCreateLostPicture iLostPoc firstSPS rawPoc = .ok s') :
    (s.m_pocRandomAccess = MAX_INT → s'.m_pocRandomAccess = iLostPoc) ∧
    (s.m_pocRandomAccess ≠ MAX_INT → s'.m_pocRandomAccess = s.m_pocRandomAccess) := by
  obtain ⟨_, _, _, _, ha, _⟩ := xCreateLostPicture_ok s iLostPoc firstSPS rawPoc s' h
  rw [ha]
  constructor
  · intro hu
    simp [hu]
  · intro hs
    simp [hs]

/-- Witness of C17: in `stLost` the anchor is unset and becomes 3; in `stLost2` the
anchor is 0 and stays 0. -/
theorem xCreateLostPicture_anchor_witness :
    (∃ s', stLost.xCreateLostPicture 3 sps2 0 = .ok s' ∧ stLost.m_pocRandomAccess = MAX_INT ∧
      s'.m_pocRandomAccess = 3) ∧
    (∃ s', stLost2.xCreateLostPicture 3 sps2 0 = .ok s' ∧ stLost2.m_pocRandomAccess = 0 ∧
      s'.m_pocRandomAccess = 0) :=
  ⟨⟨_, rfl, rfl, (xCreateLostPicture_anchor stLost 3 sps2 0 _ rfl).1 rfl⟩,
   ⟨_, rfl, rfl, (xCreateLostPicture_anchor stLost2 3 sps2 0 _ rfl).2 (by decide)⟩⟩

/-! ## The header stage of `xDecodeSlice` -/

theorem readSliceHeader_fields (s : DecLib) (nalu : InputNALUnit) (parsed : Slice) :
    (s.readSliceHeader nalu parsed).m_cListPic = s.m_cListPic ∧
    (s.readSliceHeader nalu parsed).m_pcPic = s.m_pcPic ∧
    (s.readSliceHeader nalu parsed).m_pocRandomAccess = s.m_pocRandomAccess ∧
    (s.readSliceHeader nalu parsed).m_bFirstSliceInPicture = s.m_bFirstSliceInPicture ∧
    (s.readSliceHeader nalu parsed).m_prevPOC = s.m_prevPOC ∧
    (s.readSliceHeader nalu parsed).nextAddr = s.nextAddr ∧
    (s.readSliceHeader nalu parsed).m_apcSlicePilot.nalUnitType = nalu.m_nalUnitType := by
  unfold DecLib.readSliceHeader
  split <;> exact ⟨rfl, rfl, rfl, rfl, rfl, rfl, rfl⟩

theorem setSkippedPOC_fields (cfg : Config) (s : DecLib) :
    (s.setSkippedPOC cfg).m_cListPic = s.m_cListPic ∧
    (s.setSkippedPOC cfg).m_pcPic = s.m_pcPic ∧
    (s.setSkippedPOC cfg).m_pocRandomAccess = s.m_pocRandomAccess ∧
    (s.setSkippedPOC cfg).m_bFirstSliceInPicture = s.m_bFirstSliceInPicture ∧
    (s.setSkippedPOC cfg).m_prevPOC = s.m_prevPOC ∧
    (s.setSkippedPOC cfg).nextAddr = s.nextAddr ∧
    (s.setSkippedPOC cfg).m_apcSlicePilot.nalUnitType = s.m_apcSlicePilot.nalUnitType := by
  unfold DecLib.setSkippedPOC
  split <;> exact ⟨rfl, rfl, rfl, rfl, rfl, rfl, rfl⟩

theorem inferPilotFlags_fields (cfg : Config) (s : DecLib) :
    (s.inferPilotFlags cfg).nalUnitType = s.m_apcSlicePilot.nalUnitType ∧
    (s.inferPilotFlags cfg).poc = s.m_apcSlicePilot.poc ∧
    (s.inferPilotFlags cfg).rps = s.m_apcSlicePilot.rps ∧
    (s.inferPilotFlags cfg).sliceCurStartCtuTsAddr = s.m_apcSlicePilot.sliceCurStartCtuTsAddr ∧
    (s.inferPilotFlags cfg).dependentSliceSegmentFlag
      = s.m_apcSlicePilot.dependentSliceSegmentFlag := by
  unfold DecLib.inferPilotFlags
  simp only
  split_ifs <;> exact ⟨rfl, rfl, rfl, rfl, rfl⟩

theorem inferNoOutputPriorPics_fields (cfg : Config) (s : DecLib) :
    (s.inferNoOutputPriorPics cfg).m_cListPic = s.m_cListPic ∧
    (s.inferNoOutputPriorPics cfg).m_pcPic = s.m_pcPic ∧
    (s.inferNoOutputPriorPics cfg).m_pocRandomAccess = s.m_pocRandomAccess ∧
    (s.inferNoOutputPriorPics cfg).m_bFirstSliceInPicture = s.m_bFirstSliceInPicture ∧
    (s.inferNoOutputPriorPics cfg).m_prevPOC = s.m_prevPOC ∧
    (s.inferNoOutputPriorPics cfg).nextAddr = s.nextAddr ∧
    (s.inferNoOutputPriorPics cfg).m_apcSlicePilot = s.inferPilotFlags cfg := by
  unfold DecLib.inferNoOutputPriorPics
  simp only
  split <;> exact ⟨rfl, rfl, rfl, rfl, rfl, rfl, rfl⟩

theorem inferPicOutputFlag_fields (cfg : Config) (s : DecLib) :
    (s.inferPicOutputFlag cfg).m_cListPic = s.m_cListPic ∧
    (s.inferPicOutputFlag cfg).m_pcPic = s.m_pcPic ∧
    (s.inferPicOutputFlag cfg).m_pocRandomAccess = s.m_pocRandomAccess ∧
    (s.inferPicOutputFlag cfg).m_bFirstSliceInPicture = s.m_bFirstSliceInPicture ∧
    (s.inferPicOutputFlag cfg).m_prevPOC = s.m_prevPOC ∧
    (s.inferPicOutputFlag cfg).nextAddr = s.nextAddr ∧
    (s.inferPicOutputFlag cfg).m_apcSlicePilot.nalUnitType = s.m_apcSlicePilot.nalUnitType ∧
    (s.inferPicOutputFlag cfg).m_apcSlicePilot.poc = s.m_apcSlicePilot.poc := by
  unfold DecLib.inferPicOutputFlag
  split <;> exact ⟨rfl, rfl, rfl, rfl, rfl, rfl, rfl, rfl⟩

theorem resetPocMsb_fields (cfg : Config) (s s1 : DecLib) (h : s.resetPocMsb cfg = .ok s1) :
    s1.m_cListPic = s.m_cListPic ∧
    s1.m_pcPic = s.m_pcPic ∧
    s1.m_pocRandomAccess = s.m_pocRandomAccess ∧
    s1.m_bFirstSliceInPicture = s.m_bFirstSliceInPicture ∧
    s1.m_prevPOC = s.m_prevPOC ∧
    s1.nextAddr = s.nextAddr ∧
    s1.m_apcSlicePilot.nalUnitType = s.m_apcSlicePilot.nalUnitType := by
  unfold DecLib.resetPocMsb at h
  split at h
  · split at h
    · cases h
    · split at h
      · cases h
      · simp only at h
        split at h
        · cases h
        · simp only [Except.ok.injEq] at h
          rw [← h]
          exact ⟨rfl, rfl, rfl, rfl, rfl, rfl, rfl⟩
  · simp only [Except.ok.injEq] at h
    rw [← h]
    exact ⟨rfl, rfl, rfl, rfl, rfl, rfl, rfl⟩

/-- The header stage of `xDecodeSlice` writes neither the pool nor `m_pcPic`, the
anchor, `m_bFirstSliceInPicture`, `m_prevPOC`; the pilot has the type of the NAL
unit. -/
theorem sliceHeaderStage_fields (cfg : Config) (s : DecLib) (nalu : InputNALUnit)
    (parsed : Slice) (s1 : DecLib) (h : s.sliceHeaderStage cfg nalu parsed = .ok s1) :
    s1.m_cListPic = s.m_cListPic ∧
    s1.m_pcPic = s.m_pcPic ∧
    s1.m_pocRandomAccess = s.m_pocRandomAccess ∧
    s1.m_bFirstSliceInPicture = s.m_bFirstSliceInPicture ∧
    s1.m_prevPOC = s.m_prevPOC ∧
    s1.nextAddr = s.nextAddr ∧
    s1.m_apcSlicePilot.nalUnitType = nalu.m_nalUnitType := by
  unfold DecLib.sliceHeaderStage at h
  obtain ⟨a1, a2, a3, a4, a5, a6, a7⟩ := resetPocMsb_fields cfg _ s1 h
  obtain ⟨b1, b2, b3, b4, b5, b6, b7, _⟩ := inferPicOutputFlag_fields cfg
    (((s.readSliceHeader nalu parsed).setSkippedPOC cfg).inferNoOutputPriorPics cfg)
  obtain ⟨c1, c2, c3, c4, c5, c6, c7⟩ := inferNoOutputPriorPics_fields cfg
    ((s.readSliceHeader nalu parsed).setSkippedPOC cfg)
  obtain ⟨d1, d2, d3, d4, d5, d6, d7⟩ := setSkippedPOC_fields cfg (s.readSliceHeader nalu parsed)
  obtain ⟨e1, e2, e3, e4, e5, e6, e7⟩ := readSliceHeader_fields s nalu parsed
  refine ⟨by rw [a1, b1, c1, d1, e1], by rw [a2, b2, c2, d2, e2], by rw [a3, b3, c3, d3, e3],
    by rw [a4, b4, c4, d4, e4], by rw [a5, b5, c5, d5, e5], by rw [a6, b6, c6, d6, e6], ?_⟩
  rw [a7, b7, c7, (inferPilotFlags_fields cfg _).1, d7, e7]

theorem isRASL_not_cra (cfg : Config) (t : NalUnitType) (h : isRASL cfg t = true) :
    t ≠ .NAL_UNIT_CODED_SLICE_CRA := by
  intro ht
  subst ht
  unfold isRASL at h
  split at h <;> simp at h

/-- The header stage for a slice that is not a CRA slice: no `CHECK` is reached and
the POC of the pilot is the POC set in lines 1042 and 1075. -/
theorem sliceHeaderStage_not_cra (cfg : Config) (s : DecLib) (nalu : InputNALUnit)
    (parsed : Slice) (ht : nalu.m_nalUnitType ≠ .NAL_UNIT_CODED_SLICE_CRA) :
    ∃ s1, s.sliceHeaderStage cfg nalu parsed = .ok s1 ∧
      s1.m_apcSlicePilot.poc
        = ((s.readSliceHeader nalu parsed).setSkippedPOC cfg).m_apcSlicePilot.poc := by
  refine ⟨(((s.readSliceHeader nalu parsed).setSkippedPOC cfg).inferNoOutputPriorPics
    cfg).inferPicOutputFlag cfg, ?_, ?_⟩
  · unfold DecLib.sliceHeaderStage DecLib.resetPocMsb
    have hty : ((((s.readSliceHeader nalu parsed).setSkippedPOC cfg).inferNoOutputPriorPics
        cfg).inferPicOutputFlag cfg).m_apcSlicePilot.nalUnitType = nalu.m_nalUnitType := by
      rw [(inferPicOutputFlag_fields cfg _).2.2.2.2.2.2.1,
        (inferNoOutputPriorPics_fields cfg _).2.2.2.2.2.2, (inferPilotFlags_fields cfg _).1,
        (setSkippedPOC_fields cfg _).2.2.2.2.2.2, (readSliceHeader_fields s nalu parsed).2.2.2.2.2.2]
    rw [hty]
    simp [ht]
  · rw [(inferPicOutputFlag_fields cfg _).2.2.2.2.2.2.2,
      (inferNoOutputPriorPics_fields cfg _).2.2.2.2.2.2, (inferPilotFlags_fields cfg _).2.1]

/-! ## Claims on the skip controller -/

/-- Claim C18. Anchor rule: with `iSkipFrame = 0` and the anchor set, a slice whose
POC is not below the anchor is not skipped, whatever the NAL unit type in the slice
pilot: the call returns false and leaves the decoder (the anchor included),
`iSkipFrame` and `iPOCLastDisplay` as they are. A RASL slice whose POC is below the
anchor is skipped: the call returns true. -/
theorem isRandomAccessSkipPicture_anchor_rule (cfg : Config) (s : DecLib)
    (iPOCLastDisplay : Int) (hset : s.m_pocRandomAccess ≠ MAX_INT) :
    (s.m_apcSlicePilot.poc ≥ s.m_pocRandomAccess →
      s.isRandomAccessSkipPicture cfg 0 iPOCLastDisplay
        = { ret := false, dec := s, iSkipFrame := 0, iPOCLastDisplay := iPOCLastDisplay }) ∧
    (s.m_apcSlicePilot.poc < s.m_pocRandomAccess →
      isRASL cfg s.m_apcSlicePilot.nalUnitType = true →
      (s.isRandomAccessSkipPicture cfg 0 iPOCLastDisplay).ret = true) := by
  unfold DecLib.isRandomAccessSkipPicture
  simp only [ne_eq, not_true_eq_false, if_false, hset]
  constructor
  · intro hge
    have : ¬ s.m_apcSlicePilot.poc < s.m_pocRandomAccess := not_lt.mpr hge
    simp [this]
  · intro hlt hr
    simp [hlt, hr]

/-- Witness of C18 with the anchor at 8: a slice of POC 8 is not skipped for any
type, a RASL slice of POC 7 is skipped. -/
theorem isRandomAccessSkipPicture_anchor_rule_witness :
    (∀ t, (stAnchor 8 t).isRandomAccessSkipPicture {} 0 5
      = { ret := false, dec := stAnchor 8 t, iSkipFrame := 0, iPOCLastDisplay := 5 }) ∧
    ((stAnchor 7 .NAL_UNIT_CODED_SLICE_RASL).isRandomAccessSkipPicture {} 0 5).ret = true :=
  ⟨fun t => (isRandomAccessSkipPicture_anchor_rule {} (stAnchor 8 t) 5
      (by simp [stAnchor, MAX_INT])).1 (le_refl _),
   (isRandomAccessSkipPicture_anchor_rule {} (stAnchor 7 .NAL_UNIT_CODED_SLICE_RASL) 5
      (by decide)).2 (by decide) (by decide)⟩

/-- A slice NAL unit of a RASL type in layer 0 is dispatched by `decode` to
`xDecodeSlice` (line 1569), which receives `iPOCLastDisplay` by value: the reference
parameter `iPOCLastDisplay` of `decode` is returned as it was passed. -/
theorem decode_rasl (cfg : Config) (s : DecLib) (nalu : InputNALUnit) (payload : NalPayload)
    (env : SliceEnv) (fuel : Nat) (iSkipFrame iPOCLastDisplay : Int) (r : SliceResult)
    (hlayer : nalu.m_nuhLayerId = 0) (hr : isRASL cfg nalu.m_nalUnitType = true)
    (h : s.xDecodeSlice cfg nalu payload.slice env iSkipFrame iPOCLastDisplay = some (.ok r)) :
    s.decode cfg nalu payload env fuel iSkipFrame iPOCLastDisplay
      = some (.ok { ret := r.ret, dec := r.dec, iSkipFrame := r.iSkipFrame,
                    iPOCLastDisplay := iPOCLastDisplay }) := by
  unfold isRASL at hr
  unfold DecLib.decode
  cases hm : cfg.JVET_M0101_HLS
  · rw [hm] at hr
    simp only [Bool.false_eq_true, if_false, Bool.or_eq_true, beq_iff_eq] at hr
    rcases hr with ht | ht <;>
      simp [hlayer, ht, isSliceNalType, hm, h]
  · rw [hm] at hr
    simp only [if_true, beq_iff_eq] at hr
    simp [hlayer, hr, isSliceNalType, hm, h]

/-- Claim C19. Leading-picture skip, with `iSkipFrame = 0` and the anchor set, and
with an `iPOCLastDisplay` (an `int`) below `MAX_INT`, so that the increment does not
overflow. For a RASL slice in the slice pilot whose POC is below the anchor,
`isRandomAccessSkipPicture` returns true, its reference parameter `iPOCLastDisplay`
is one more than before, and the decoder (the anchor included) and `iSkipFrame` are
as before. For a RASL NAL unit whose slice POC (the parsed POC, or the POC of the
skipped picture for a dependent slice, lines 1071–1077) is below the anchor,
`xDecodeSlice` returns false with the pool, `m_pcPic` and the anchor as before,
`m_prevSliceSkipped = true` and `m_skippedPOC` equal to the slice POC. The
increment is made on the copy of `iPOCLastDisplay` that `xDecodeSlice` receives by
value (line 1013): `decode`, which dispatches the NAL unit to `xDecodeSlice`,
returns false with its own reference parameter `iPOCLastDisplay` as it was. -/
theorem rasl_slice_skipped (cfg : Config) (s : DecLib) (nalu : InputNALUnit) (parsed : Slice)
    (env : SliceEnv) (iPOCLastDisplay : Int) (hset : s.m_pocRandomAccess ≠ MAX_INT)
    (hmin : -2147483648 ≤ iPOCLastDisplay) (hmax : iPOCLastDisplay < 2147483647) :
    (s.m_apcSlicePilot.poc < s.m_pocRandomAccess →
      isRASL cfg s.m_apcSlicePilot.nalUnitType = true →
      s.isRandomAccessSkipPicture cfg 0 iPOCLastDisplay
        = { ret := true, dec := s, iSkipFrame := 0, iPOCLastDisplay := iPOCLastDisplay + 1 }) ∧
    (isRASL cfg nalu.m_nalUnitType = true →
      ((s.readSliceHeader nalu parsed).setSkippedPOC cfg).m_apcSlicePilot.poc
        < s.m_pocRandomAccess →
      ∃ r, s.xDecodeSlice cfg nalu parsed env 0 iPOCLastDisplay = some (.ok r) ∧
        r.ret = false ∧ r.iSkipFrame = 0 ∧
        r.dec.m_cListPic = s.m_cListPic ∧ r.dec.m_pcPic = s.m_pcPic ∧
        r.dec.m_pocRandomAccess = s.m_pocRandomAccess ∧
        r.dec.m_prevSliceSkipped = true ∧
        r.dec.m_skippedPOC
          = ((s.readSliceHeader nalu parsed).setSkippedPOC cfg).m_apcSlicePilot.poc ∧
        (nalu.m_nuhLayerId = 0 → ∀ (payload : NalPayload) (fuel : Nat),
          payload.slice = parsed →
          s.decode cfg nalu payload env fuel 0 iPOCLastDisplay
            = some (.ok { ret := false, dec := r.dec, iSkipFrame := 0,
                          iPOCLastDisplay := iPOCLastDisplay }))) := by
  have hskip : ∀ d : DecLib, d.m_pocRandomAccess ≠ MAX_INT →
      d.m_apcSlicePilot.poc < d.m_pocRandomAccess →
      isRASL cfg d.m_apcSlicePilot.nalUnitType = true →
      d.isRandomAccessSkipPicture cfg 0 iPOCLastDisplay
        = { ret := true, dec := d, iSkipFrame := 0, iPOCLastDisplay := iPOCLastDisplay + 1 } := by
    intro d hd hlt hr
    unfold DecLib.isRandomAccessSkipPicture
    rw [wrapInt_of_range (iPOCLastDisplay + 1) (by omega) (by omega)]
    simp [hd, hlt, hr]
  refine ⟨hskip s hset, ?_⟩
  intro hr hlt
  obtain ⟨s1, h1, hpoc⟩ := sliceHeaderStage_not_cra cfg s nalu parsed (isRASL_not_cra cfg _ hr)
  obtain ⟨f1, f2, f3, _, _, _, f7⟩ := sliceHeaderStage_fields cfg s nalu parsed s1 h1
  have hs1 := hskip s1 (by rw [f3]; exact hset) (by rw [hpoc, f3]; exact hlt)
    (by rw [f7]; exact hr)
  have hx : s.xDecodeSlice cfg nalu parsed env 0 iPOCLastDisplay
      = some (.ok (SliceResult.mk false
          { s1 with m_prevSliceSkipped := true, m_skippedPOC := s1.m_apcSlicePilot.poc } 0)) := by
    unfold DecLib.xDecodeSlice
    rw [h1]
    simp only [hs1, if_true]
  refine ⟨_, hx, rfl, rfl, f1, f2, f3, rfl, hpoc, ?_⟩
  intro hlayer payload fuel hpay
  rw [← hpay] at hx
  exact decode_rasl cfg s nalu payload env fuel 0 iPOCLastDisplay _ hlayer hr hx

/-- Witness of C19 with the anchor at 8: a RASL slice of POC 7 makes
`isRandomAccessSkipPicture` return true and `iPOCLastDisplay` go from 5 to 6, and a
RASL NAL unit of POC 6 makes `xDecodeSlice` return false with the skip recorded;
`decode` returns false for this NAL unit with `iPOCLastDisplay` still 5. -/
theorem rasl_slice_skipped_witness :
    (stAnchor 7 .NAL_UNIT_CODED_SLICE_RASL).isRandomAccessSkipPicture {} 0 5
      = { ret := true, dec := stAnchor 7 .NAL_UNIT_CODED_SLICE_RASL, iSkipFrame := 0,
          iPOCLastDisplay := 6 } ∧
    ∃ r, stLeading.xDecodeSlice {} (naluRASL {}) { poc := 6 } envB 0 5 = some (.ok r) ∧
      r.ret = false ∧ r.iSkipFrame = 0 ∧
      r.dec.m_cListPic = stLeading.m_cListPic ∧ r.dec.m_pcPic = stLeading.m_pcPic ∧
      r.dec.m_pocRandomAccess = 8 ∧ r.dec.m_prevSliceSkipped = true ∧ r.dec.m_skippedPOC = 6 ∧
      stLeading.decode {} (naluRASL {}) { slice := { poc := 6 } } envB 0 0 5
        = some (.ok { ret := false, dec := r.dec, iSkipFrame := 0, iPOCLastDisplay := 5 }) :=
  ⟨(rasl_slice_skipped {} (stAnchor 7 .NAL_UNIT_CODED_SLICE_RASL) (naluRASL {}) {} envB 5
      (by decide) (by decide) (by decide)).1 (by decide) (by decide),
   ((rasl_slice_skipped {} stLeading (naluRASL {}) { poc := 6 } envB 5 (by decide) (by decide)
      (by decide)).2 (by decide) (by decide)).imp fun _ h =>
        ⟨h.1, h.2.1, h.2.2.1, h.2.2.2.1, h.2.2.2.2.1, h.2.2.2.2.2.1, h.2.2.2.2.2.2.1,
          h.2.2.2.2.2.2.2.1, h.2.2.2.2.2.2.2.2 rfl { slice := { poc := 6 } } 0 rfl⟩⟩

/-- Claim C20. Establishing the anchor, with `iSkipFrame = 0` and the anchor unset
(`m_pocRandomAccess = MAX_INT`): for a CRA slice the call returns false and the
anchor is the POC of the slice; for an IDR slice (either IDR type) the call returns
false and the anchor is `-MAX_INT`; nothing else changes. -/
theorem isRandomAccessSkipPicture_sets_anchor (cfg : Config) (s : DecLib)
    (iPOCLastDisplay : Int) (hunset : s.m_pocRandomAccess = MAX_INT) :
    (s.m_apcSlicePilot.nalUnitType = .NAL_UNIT_CODED_SLICE_CRA →
      s.isRandomAccessSkipPicture cfg 0 iPOCLastDisplay
        = { ret := false, dec := { s with m_pocRandomAccess := s.m_apcSlicePilot.poc },
            iSkipFrame := 0, iPOCLastDisplay := iPOCLastDisplay }) ∧
    (s.m_apcSlicePilot.nalUnitType = .NAL_UNIT_CODED_SLICE_IDR_W_RADL ∨
      s.m_apcSlicePilot.nalUnitType = .NAL_UNIT_CODED_SLICE_IDR_N_LP →
      s.isRandomAccessSkipPicture cfg 0 iPOCLastDisplay
        = { ret := false, dec := { s with m_pocRandomAccess := -MAX_INT },
            iSkipFrame := 0, iPOCLastDisplay := iPOCLastDisplay }) := by
  unfold DecLib.isRandomAccessSkipPicture
  simp only [ne_eq, not_true_eq_false, if_false, hunset, if_true]
  constructor
  · intro ht
    have : startsRandomAccess cfg s.m_apcSlicePilot.nalUnitType = true := by
      rw [ht]
      unfold startsRandomAccess
      split <;> rfl
    simp [this]
  · intro ht
    have h1 : startsRandomAccess cfg s.m_apcSlicePilot.nalUnitType = false := by
      unfold startsRandomAccess
      rcases ht with ht | ht <;> rw [ht] <;> split <;> rfl
    have h2 : isIDR s.m_apcSlicePilot.nalUnitType = true := by
      unfold isIDR
      rcases ht with ht | ht <;> rw [ht] <;> rfl
    simp [h1, h2]

/-- Witness of C20 at the start of the bitstream: a CRA slice of POC 16 sets the
anchor to 16, an IDR slice sets it to `-MAX_INT`; neither is skipped. -/
theorem isRandomAccessSkipPicture_sets_anchor_witness :
    (stStart 16 .NAL_UNIT_CODED_SLICE_CRA).isRandomAccessSkipPicture {} 0 5
      = { ret := false,
          dec := { stStart 16 .NAL_UNIT_CODED_SLICE_CRA with m_pocRandomAccess := 16 },
          iSkipFrame := 0, iPOCLastDisplay := 5 } ∧
    (stStart 16 .NAL_UNIT_CODED_SLICE_IDR_N_LP).isRandomAccessSkipPicture {} 0 5
      = { ret := false,
          dec := { stStart 16 .NAL_UNIT_CODED_SLICE_IDR_N_LP with m_pocRandomAccess := -MAX_INT },
          iSkipFrame := 0, iPOCLastDisplay := 5 } :=
  ⟨(isRandomAccessSkipPicture_sets_anchor {} (stStart 16 .NAL_UNIT_CODED_SLICE_CRA) 5 rfl).1 rfl,
   (isRandomAccessSkipPicture_sets_anchor {} (stStart 16 .NAL_UNIT_CODED_SLICE_IDR_N_LP) 5
      rfl).2 (Or.inr rfl)⟩

/-! ## Slices of an invalid entry type -/

theorem readSliceHeader_more (s : DecLib) (nalu : InputNALUnit) (parsed : Slice) :
    (s.readSliceHeader nalu parsed).m_warningMessageSkipPicture = s.m_warningMessageSkipPicture ∧
    (s.readSliceHeader nalu parsed).m_uiSliceSegmentIdx
      = (if s.m_bFirstSliceInPicture then 0 else s.m_uiSliceSegmentIdx) ∧
    (s.readSliceHeader nalu parsed).m_parameterSetManager = s.m_parameterSetManager ∧
    (s.readSliceHeader nalu parsed).m_SEIs = s.m_SEIs ∧
    (s.readSliceHeader nalu parsed).m_prefixSEINALUs = s.m_prefixSEINALUs := by
  unfold DecLib.readSliceHeader
  split <;> simp [*]

theorem setSkippedPOC_more (cfg : Config) (s : DecLib) :
    (s.setSkippedPOC cfg).m_warningMessageSkipPicture = s.m_warningMessageSkipPicture ∧
    (s.setSkippedPOC cfg).m_uiSliceSegmentIdx = s.m_uiSliceSegmentIdx ∧
    (s.setSkippedPOC cfg).m_parameterSetManager = s.m_parameterSetManager ∧
    (s.setSkippedPOC cfg).m_SEIs = s.m_SEIs ∧
    (s.setSkippedPOC cfg).m_prefixSEINALUs = s.m_prefixSEINALUs := by
  unfold DecLib.setSkippedPOC
  split <;> exact ⟨rfl, rfl, rfl, rfl, rfl⟩

theorem inferNoOutputPriorPics_more (cfg : Config) (s : DecLib) :
    (s.inferNoOutputPriorPics cfg).m_warningMessageSkipPicture = s.m_warningMessageSkipPicture ∧
    (s.inferNoOutputPriorPics cfg).m_uiSliceSegmentIdx = s.m_uiSliceSegmentIdx ∧
    (s.inferNoOutputPriorPics cfg).m_parameterSetManager = s.m_parameterSetManager ∧
    (s.inferNoOutputPriorPics cfg).m_SEIs = s.m_SEIs ∧
    (s.inferNoOutputPriorPics cfg).m_prefixSEINALUs = s.m_prefixSEINALUs := by
  unfold DecLib.inferNoOutputPriorPics
  simp only
  split <;> exact ⟨rfl, rfl, rfl, rfl, rfl⟩

theorem inferPicOutputFlag_more (cfg : Config) (s : DecLib) :
    (s.inferPicOutputFlag cfg).m_warningMessageSkipPicture = s.m_warningMessageSkipPicture ∧
    (s.inferPicOutputFlag cfg).m_uiSliceSegmentIdx = s.m_uiSliceSegmentIdx ∧
    (s.inferPicOutputFlag cfg).m_parameterSetManager = s.m_parameterSetManager ∧
    (s.inferPicOutputFlag cfg).m_SEIs = s.m_SEIs ∧
    (s.inferPicOutputFlag cfg).m_prefixSEINALUs = s.m_prefixSEINALUs := by
  unfold DecLib.inferPicOutputFlag
  split <;> exact ⟨rfl, rfl, rfl, rfl, rfl⟩

theorem resetPocMsb_more (cfg : Config) (s s1 : DecLib) (h : s.resetPocMsb cfg = .ok s1) :
    s1.m_warningMessageSkipPicture = s.m_warningMessageSkipPicture ∧
    s1.m_uiSliceSegmentIdx = s.m_uiSliceSegmentIdx ∧
    s1.m_parameterSetManager = s.m_parameterSetManager ∧
    s1.m_SEIs = s.m_SEIs ∧
    s1.m_prefixSEINALUs = s.m_prefixSEINALUs := by
  unfold DecLib.resetPocMsb at h
  split at h
  · split at h
    · cases h
    · split at h
      · cases h
      · simp only at h
        split at h
        · cases h
        · simp only [Except.ok.injEq] at h
          rw [← h]
          exact ⟨rfl, rfl, rfl, rfl, rfl⟩
  · simp only [Except.ok.injEq] at h
    rw [← h]
    exact ⟨rfl, rfl, rfl, rfl, rfl⟩

/-- The header stage of `xDecodeSlice` writes neither the warning flag nor the
parameter-set store nor the SEI lists, and resets `m_uiSliceSegmentIdx` exactly for
the first slice of a picture. -/
theorem sliceHeaderStage_more (cfg : Config) (s : DecLib) (nalu : InputNALUnit)
    (parsed : Slice) (s1 : DecLib) (h : s.sliceHeaderStage cfg nalu parsed = .ok s1) :
    s1.m_warningMessageSkipPicture = s.m_warningMessageSkipPicture ∧
    s1.m_uiSliceSegmentIdx = (if s.m_bFirstSliceInPicture then 0 else s.m_uiSliceSegmentIdx) ∧
    s1.m_parameterSetManager = s.m_parameterSetManager ∧
    s1.m_SEIs = s.m_SEIs ∧
    s1.m_prefixSEINALUs = s.m_prefixSEINALUs := by
  unfold DecLib.sliceHeaderStage at h
  obtain ⟨a1, a2, a3, a4, a5⟩ := resetPocMsb_more cfg _ s1 h
  obtain ⟨b1, b2, b3, b4, b5⟩ := inferPicOutputFlag_more cfg
    (((s.readSliceHeader nalu parsed).setSkippedPOC cfg).inferNoOutputPriorPics cfg)
  obtain ⟨c1, c2, c3, c4, c5⟩ := inferNoOutputPriorPics_more cfg
    ((s.readSliceHeader nalu parsed).setSkippedPOC cfg)
  obtain ⟨d1, d2, d3, d4, d5⟩ := setSkippedPOC_more cfg (s.readSliceHeader nalu parsed)
  obtain ⟨e1, e2, e3, e4, e5⟩ := readSliceHeader_more s nalu parsed
  exact ⟨by rw [a1, b1, c1, d1, e1], by rw [a2, b2, c2, d2, e2], by rw [a3, b3, c3, d3, e3],
    by rw [a4, b4, c4, d4, e4], by rw [a5, b5, c5, d5, e5]⟩

theorem isInvalidEntryType_spec (cfg : Config) (t : NalUnitType)
    (h : isInvalidEntryType t = true) :
    t ≠ .NAL_UNIT_CODED_SLICE_CRA ∧ startsRandomAccess cfg t = false ∧ isIDR t = false := by
  unfold isInvalidEntryType at h
  simp only [Bool.not_eq_true', Bool.or_eq_false_iff, beq_eq_false_iff_ne, ne_eq] at h
  obtain ⟨⟨⟨⟨⟨h1, h2⟩, h3⟩, h4⟩, h5⟩, h6⟩ := h
  refine ⟨h1, ?_, ?_⟩
  · unfold startsRandomAccess
    split <;> simp [h1, h2, h3, h4]
  · unfold isIDR
    simp [h5, h6]

/-- One slice of an invalid entry type while the anchor is unset. -/
theorem xDecodeSlice_invalid_entry (cfg : Config) (s : DecLib) (nalu : InputNALUnit)
    (parsed : Slice) (env : SliceEnv) (iPOCLastDisplay : Int)
    (hunset : s.m_pocRandomAccess = MAX_INT)
    (hty : isInvalidEntryType nalu.m_nalUnitType = true) :
    ∃ r, s.xDecodeSlice cfg nalu parsed env 0 iPOCLastDisplay = some (.ok r) ∧
      r.ret = false ∧ r.iSkipFrame = 0 ∧
      r.dec.m_pocRandomAccess = MAX_INT ∧
      r.dec.m_cListPic = s.m_cListPic ∧ r.dec.m_pcPic = s.m_pcPic ∧
      r.dec.m_bFirstSliceInPicture = s.m_bFirstSliceInPicture ∧
      r.dec.m_warningMessageSkipPicture = true := by
  obtain ⟨h1, h2, h3⟩ := isInvalidEntryType_spec cfg _ hty
  obtain ⟨s1, hs1, _⟩ := sliceHeaderStage_not_cra cfg s nalu parsed h1
  obtain ⟨f1, f2, f3, f4, _, _, f7⟩ := sliceHeaderStage_fields cfg s nalu parsed s1 hs1
  have hskip : s1.isRandomAccessSkipPicture cfg 0 iPOCLastDisplay
      = { ret := true, dec := { s1 with m_warningMessageSkipPicture := true },
          iSkipFrame := 0, iPOCLastDisplay := iPOCLastDisplay } := by
    unfold DecLib.isRandomAccessSkipPicture
    rw [f7]
    simp [f3, hunset, h2, h3]
  refine ⟨{ ret := false,
            dec := { s1 with m_warningMessageSkipPicture := true, m_prevSliceSkipped := true,
                             m_skippedPOC := s1.m_apcSlicePilot.poc },
            iSkipFrame := 0 }, ?_, rfl, rfl, ?_, f1, f2, f4, rfl⟩
  · unfold DecLib.xDecodeSlice
    rw [hs1]
    simp only [hskip, if_true]
  · show s1.m_pocRandomAccess = MAX_INT
    rw [f3, hunset]

theorem sliceRun_invalid_entry (cfg : Config) (env : SliceEnv) (iPOCLastDisplay : Int)
    (units : List (InputNALUnit × Slice)) (st0 : SliceRun)
    (hunset : st0.dec.m_pocRandomAccess = MAX_INT) (hskip : st0.iSkipFrame = 0)
    (hty : ∀ u ∈ units, isInvalidEntryType u.1.m_nalUnitType = true) :
    ∃ st, sliceRun cfg env iPOCLastDisplay units st0 = some (.ok st) ∧
      st.rets = st0.rets ++ List.replicate units.length false ∧
      st.iSkipFrame = 0 ∧
      st.dec.m_pocRandomAccess = MAX_INT ∧
      st.dec.m_cListPic = st0.dec.m_cListPic ∧ st.dec.m_pcPic = st0.dec.m_pcPic ∧
      st.dec.m_bFirstSliceInPicture = st0.dec.m_bFirstSliceInPicture ∧
      st.dec.m_warningMessageSkipPicture
        = (st0.dec.m_warningMessageSkipPicture || !units.isEmpty) ∧
      st.warnings = st0.warnings +
        (if st0.dec.m_warningMessageSkipPicture = false ∧ units ≠ [] then 1 else 0) := by
  induction units generalizing st0 with
  | nil =>
    refine ⟨st0, rfl, by simp, hskip, hunset, rfl, rfl, rfl, by simp, by simp⟩
  | cons u rest ih =>
    obtain ⟨nalu, parsed⟩ := u
    obtain ⟨r, hr, r1, r2, r3, r4, r5, r6, r7⟩ := xDecodeSlice_invalid_entry cfg st0.dec nalu
      parsed env iPOCLastDisplay hunset (hty (nalu, parsed) (List.mem_cons_self _ _))
    obtain ⟨st, hst, t1, t2, t3, t4, t5, t6, t7, t8⟩ := ih
      { dec := r.dec, iSkipFrame := r.iSkipFrame, rets := st0.rets ++ [r.ret],
        warnings := st0.warnings + (if st0.dec.warned r.dec then 1 else 0) }
      r3 r2 (fun u hu => hty u (List.mem_cons_of_mem _ hu))
    refine ⟨st, ?_, ?_, t2, t3, by rw [t4, r4], by rw [t5, r5], by rw [t6, r6], ?_, ?_⟩
    · rw [sliceRun, hskip, hr]
      exact hst
    · rw [t1, r1]
      simp [List.replicate_succ]
    · rw [t7, r7]
      simp
    · rw [t8]
      simp only [DecLib.warned, r7]
      cases hw : st0.dec.m_warningMessageSkipPicture <;> simp

/-! ## Claims on the invalid entry point and the skip count -/

/-- Claim C22. Explicit skip count: when `iSkipFrame` is not 0 on entry (an `int`
above `INT_MIN`, so that the decrement does not overflow),
`isRandomAccessSkipPicture` returns true with `iSkipFrame` one less, whatever the
slice pilot and the anchor are; the decoder (the anchor and the warning flag
included) and `iPOCLastDisplay` are unchanged. -/
theorem isRandomAccessSkipPicture_skip_count (cfg : Config) (s : DecLib)
    (iSkipFrame iPOCLastDisplay : Int) (hactive : iSkipFrame ≠ 0)
    (hmin : -2147483648 < iSkipFrame) (hmax : iSkipFrame ≤ 2147483647) :
    s.isRandomAccessSkipPicture cfg iSkipFrame iPOCLastDisplay
      = { ret := true, dec := s, iSkipFrame := iSkipFrame - 1,
          iPOCLastDisplay := iPOCLastDisplay } := by
  unfold DecLib.isRandomAccessSkipPicture
  rw [if_pos hactive, wrapInt_of_range _ (by omega) (by omega)]

/-- Witness of C22: a skip count of 2 becomes 1 for a CRA slice with the anchor
unset, and a skip count of -1 becomes -2 for an IDR slice with the anchor set. -/
theorem isRandomAccessSkipPicture_skip_count_witness :
    (stStart 16 .NAL_UNIT_CODED_SLICE_CRA).isRandomAccessSkipPicture {} 2 5
      = { ret := true, dec := stStart 16 .NAL_UNIT_CODED_SLICE_CRA, iSkipFrame := 1,
          iPOCLastDisplay := 5 } ∧
    (stAnchor 9 .NAL_UNIT_CODED_SLICE_IDR_N_LP).isRandomAccessSkipPicture {} (-1) 5
      = { ret := true, dec := stAnchor 9 .NAL_UNIT_CODED_SLICE_IDR_N_LP, iSkipFrame := -2,
          iPOCLastDisplay := 5 } :=
  ⟨isRandomAccessSkipPicture_skip_count {} (stStart 16 .NAL_UNIT_CODED_SLICE_CRA) 2 5
      (by decide) (by decide) (by decide),
   isRandomAccessSkipPicture_skip_count {} (stAnchor 9 .NAL_UNIT_CODED_SLICE_IDR_N_LP) (-1) 5
      (by decide) (by decide) (by decide)⟩

theorem decodeSlice_ret (cfg : Config) (s : DecLib) (nalu : InputNALUnit) (env : SliceEnv)
    (iSkipFrame : Int) (res : SliceResult)
    (h : DecLib.decodeSlice cfg s nalu env iSkipFrame = some (.ok res)) : res.ret = false := by
  unfold DecLib.decodeSlice at h
  split at h
  · cases h
  · cases h
  · simp only at h
    split at h
    · cases h
    · simp only [Option.some.injEq, Except.ok.injEq] at h
      rw [← h]

/-- The three ways in which `xDecodeSlice` continues after the header stage. -/
theorem xDecodeSlice_cases (cfg : Config) (s : DecLib) (nalu : InputNALUnit) (parsed : Slice)
    (env : SliceEnv) (iSkipFrame iPOCLastDisplay : Int) (s1 : DecLib)
    (hh : s.sliceHeaderStage cfg nalu parsed = .ok s1) :
    (s1.sliceSkipped cfg iSkipFrame iPOCLastDisplay = true →
      s.xDecodeSlice cfg nalu parsed env iSkipFrame iPOCLastDisplay
        = some (.ok (s1.skippedResult cfg iSkipFrame iPOCLastDisplay))) ∧
    (s1.sliceSkipped cfg iSkipFrame iPOCLastDisplay = false →
      s1.boundaryReached cfg iSkipFrame iPOCLastDisplay = true →
      s.xDecodeSlice cfg nalu parsed env iSkipFrame iPOCLastDisplay
        = some (.ok (s1.boundaryResult cfg iSkipFrame iPOCLastDisplay))) ∧
    (s1.sliceSkipped cfg iSkipFrame iPOCLastDisplay = false →
      s1.boundaryReached cfg iSkipFrame iPOCLastDisplay = false →
      ∃ s3, s.stateAtRecovery cfg nalu parsed iSkipFrame iPOCLastDisplay = some s3 ∧
        s.xDecodeSlice cfg nalu parsed env iSkipFrame iPOCLastDisplay
          = DecLib.decodeSlice cfg s3 nalu env iSkipFrame) := by
  refine ⟨?_, ?_, ?_⟩
  · intro hs
    unfold DecLib.sliceSkipped at hs
    simp only [Bool.or_eq_true] at hs
    unfold DecLib.xDecodeSlice DecLib.skippedResult
    rw [hh]
    simp only
    rcases hs with hs | hs
    · simp only [hs, if_true]
    · split
      · rfl
      · simp only [hs, if_true]
  · intro hs hb
    unfold DecLib.sliceSkipped at hs
    simp only [Bool.or_eq_false_iff] at hs
    unfold DecLib.boundaryReached DecLib.afterSkipTests at hb
    simp only [Bool.and_eq_true, decide_eq_true_eq] at hb
    unfold DecLib.xDecodeSlice DecLib.boundaryResult DecLib.afterSkipTests
    rw [hh]
    simp only [hs.1, hs.2, Bool.false_eq_true, if_false, hb.1, hb.2, if_true]
  · intro hs hb
    have hs' := hs
    unfold DecLib.sliceSkipped at hs
    simp only [Bool.or_eq_false_iff] at hs
    unfold DecLib.boundaryReached DecLib.afterSkipTests at hb
    have hst : ∃ s3, s.stateAtRecovery cfg nalu parsed iSkipFrame iPOCLastDisplay = some s3 := by
      unfold DecLib.stateAtRecovery
      rw [hh]
      simp only [hs.1, hs.2, Bool.false_eq_true, if_false]
      split
      · rename_i hn
        simp only [hn, Bool.true_and, decide_eq_false_iff_not] at hb
        simp only [hb, if_false]
        exact ⟨_, rfl⟩
      · exact ⟨_, rfl⟩
    obtain ⟨s3, h3⟩ := hst
    exact ⟨s3, h3, xDecodeSlice_of_stateAtRecovery cfg s nalu parsed env iSkipFrame
      iPOCLastDisplay s3 h3⟩

theorem xDecodeSlice_header_error (cfg : Config) (s : DecLib) (nalu : InputNALUnit)
    (parsed : Slice) (env : SliceEnv) (iSkipFrame iPOCLastDisplay : Int) (e : String)
    (hh : s.sliceHeaderStage cfg nalu parsed = .error e) :
    s.xDecodeSlice cfg nalu parsed env iSkipFrame iPOCLastDisplay = some (.error e) := by
  unfold DecLib.xDecodeSlice
  rw [hh]

/-- The skip test writes the anchor and the warning flag only. -/
theorem isRandomAccessSkipPicture_frame (cfg : Config) (s : DecLib)
    (iSkipFrame iPOCLastDisplay : Int) :
    (s.isRandomAccessSkipPicture cfg iSkipFrame iPOCLastDisplay).dec.m_cListPic = s.m_cListPic ∧
    (s.isRandomAccessSkipPicture cfg iSkipFrame iPOCLastDisplay).dec.m_pcPic = s.m_pcPic ∧
    (s.isRandomAccessSkipPicture cfg iSkipFrame iPOCLastDisplay).dec.m_uiSliceSegmentIdx
      = s.m_uiSliceSegmentIdx ∧
    (s.isRandomAccessSkipPicture cfg iSkipFrame iPOCLastDisplay).dec.m_bFirstSliceInPicture
      = s.m_bFirstSliceInPicture ∧
    (s.isRandomAccessSkipPicture cfg iSkipFrame iPOCLastDisplay).dec.m_prevPOC = s.m_prevPOC ∧
    (s.isRandomAccessSkipPicture cfg iSkipFrame iPOCLastDisplay).dec.nextAddr = s.nextAddr ∧
    (s.isRandomAccessSkipPicture cfg iSkipFrame iPOCLastDisplay).dec.m_apcSlicePilot
      = s.m_apcSlicePilot ∧
    (s.isRandomAccessSkipPicture cfg iSkipFrame iPOCLastDisplay).dec.m_parameterSetManager
      = s.m_parameterSetManager ∧
    (s.isRandomAccessSkipPicture cfg iSkipFrame iPOCLastDisplay).dec.m_SEIs = s.m_SEIs ∧
    (s.isRandomAccessSkipPicture cfg iSkipFrame iPOCLastDisplay).dec.m_prefixSEINALUs
      = s.m_prefixSEINALUs := by
  unfold DecLib.isRandomAccessSkipPicture
  split
  · simp
  · split
    · split
      · simp
      · split <;> simp
    · split <;> simp

/-- When the loss-recovery loop ends and the activation succeeds, the decode path of
`xDecodeSlice` returns false. -/
theorem decodeSlice_returns (cfg : Config) (s : DecLib) (nalu : InputNALUnit) (env : SliceEnv)
    (iSkipFrame : Int) (lost : List Int) (s4 s5 : DecLib)
    (hr : s.recoverLostPictures env.firstSPS env.raw env.fuel 0 = some (lost, .ok s4))
    (ha : env.xActivateParameterSets (s4.beforeActivation cfg) = .ok s5) :
    ∃ res, DecLib.decodeSlice cfg s nalu env iSkipFrame = some (.ok res) ∧ res.ret = false := by
  unfold DecLib.beforeActivation at ha
  unfold DecLib.decodeSlice
  rw [hr]
  simp only
  rw [ha]
  exact ⟨_, rfl, rfl⟩

/-- The boundary condition of lines 1190–1195 in terms of the header stage. -/
theorem boundaryReached_iff (cfg : Config) (s : DecLib) (nalu : InputNALUnit) (parsed : Slice)
    (iSkipFrame iPOCLastDisplay : Int) (s1 : DecLib)
    (hh : s.sliceHeaderStage cfg nalu parsed = .ok s1) :
    s1.boundaryReached cfg iSkipFrame iPOCLastDisplay = true ↔
      ((s1.afterSkipTests cfg iSkipFrame iPOCLastDisplay).m_apcSlicePilot.sliceCurStartCtuTsAddr = 0 ∧
        s.m_bFirstSliceInPicture = false ∧
        ¬ (cfg.HEVC_DEPENDENT_SLICES = true ∧
            (s1.afterSkipTests cfg iSkipFrame iPOCLastDisplay).m_apcSlicePilot.dependentSliceSegmentFlag
              = true) ∧
        s.m_prevPOC ≥ (s1.afterSkipTests cfg iSkipFrame iPOCLastDisplay).m_pocRandomAccess) := by
  have hf := sliceHeaderStage_fields cfg s nalu parsed s1 hh
  have hk := isRandomAccessSkipPicture_frame cfg s1 iSkipFrame iPOCLastDisplay
  unfold DecLib.boundaryReached DecLib.startsNewPicture DecLib.independentSlice
  unfold DecLib.afterSkipTests
  simp only [Bool.and_eq_true, decide_eq_true_eq, Bool.not_eq_true', Bool.and_eq_false_imp,
    beq_iff_eq, hk.2.2.2.1, hk.2.2.2.2.1, hf.2.2.2.1, hf.2.2.2.2.1, not_and, Bool.not_eq_true]
  tauto

/-- Claim C23. New-picture boundary signal: after a header stage that raises no
error, `xDecodeSlice` returns true if and only if the slice is not skipped, its start
CTU address is 0, `m_bFirstSliceInPicture` is false, it is not a dependent slice
segment, and `m_prevPOC` is at or after the anchor that the skip test leaves. Every
other call that returns, returns false: a skipped slice always returns false, and a
slice that is decoded returns false once the loss-recovery loop has ended and the
activation has raised no error. -/
theorem xDecodeSlice_boundary_signal (cfg : Config) (s : DecLib) (nalu : InputNALUnit)
    (parsed : Slice) (env : SliceEnv) (iSkipFrame iPOCLastDisplay : Int) (s1 : DecLib)
    (hh : s.sliceHeaderStage cfg nalu parsed = .ok s1) :
    let s2 := s1.afterSkipTests cfg iSkipFrame iPOCLastDisplay
    let out := s.xDecodeSlice cfg nalu parsed env iSkipFrame iPOCLastDisplay
    let boundary := s1.sliceSkipped cfg iSkipFrame iPOCLastDisplay = false ∧
      s2.m_apcSlicePilot.sliceCurStartCtuTsAddr = 0 ∧ s.m_bFirstSliceInPicture = false ∧
      ¬ (cfg.HEVC_DEPENDENT_SLICES = true ∧ s2.m_apcSlicePilot.dependentSliceSegmentFlag = true) ∧
      s.m_prevPOC ≥ s2.m_pocRandomAccess
    ((∃ res, out = some (.ok res) ∧ res.ret = true) ↔ boundary) ∧
    (∀ res, out = some (.ok res) → ¬ boundary → res.ret = false) ∧
    (s1.sliceSkipped cfg iSkipFrame iPOCLastDisplay = true →
      ∃ res, out = some (.ok res) ∧ res.ret = false) ∧
    (s1.sliceSkipped cfg iSkipFrame iPOCLastDisplay = false → ¬ boundary →
      ∃ s3, s.stateAtRecovery cfg nalu parsed iSkipFrame iPOCLastDisplay = some s3 ∧
        ∀ lost s4 s5,
          s3.recoverLostPictures env.firstSPS env.raw env.fuel 0 = some (lost, .ok s4) →
          env.xActivateParameterSets (s4.beforeActivation cfg) = .ok s5 →
          ∃ res, out = some (.ok res) ∧ res.ret = false) := by
  intro s2 out boundary
  have hc := xDecodeSlice_cases cfg s nalu parsed env iSkipFrame iPOCLastDisplay s1 hh
  have hb := boundaryReached_iff cfg s nalu parsed iSkipFrame iPOCLastDisplay s1 hh
  have hiff : (∃ res, out = some (.ok res) ∧ res.ret = true) ↔ boundary := by
    constructor
    · rintro ⟨res, ho, ht⟩
      cases hs : s1.sliceSkipped cfg iSkipFrame iPOCLastDisplay
      · cases hbr : s1.boundaryReached cfg iSkipFrame iPOCLastDisplay
        · obtain ⟨s3, -, h3⟩ := hc.2.2 hs hbr
          have := decodeSlice_ret cfg s3 nalu env iSkipFrame res (h3 ▸ ho)
          rw [this] at ht
          cases ht
        · exact ⟨hs, hb.1 hbr⟩
      · have := hc.1 hs
        rw [show s.xDecodeSlice cfg nalu parsed env iSkipFrame iPOCLastDisplay = out from rfl,
          ho] at this
        simp only [Option.some.injEq, Except.ok.injEq] at this
        rw [this] at ht
        cases ht
    · rintro ⟨hs, hrest⟩
      exact ⟨_, hc.2.1 hs (hb.2 hrest), rfl⟩
  refine ⟨hiff, ?_, ?_, ?_⟩
  · intro res ho hnb
    cases hr : res.ret
    · rfl
    · exact absurd (hiff.1 ⟨res, ho, hr⟩) hnb
  · intro hs
    exact ⟨_, hc.1 hs, rfl⟩
  · intro hs hnb
    have hbr : s1.boundaryReached cfg iSkipFrame iPOCLastDisplay = false := by
      cases hbr : s1.boundaryReached cfg iSkipFrame iPOCLastDisplay
      · rfl
      · exact absurd ⟨hs, hb.1 hbr⟩ hnb
    obtain ⟨s3, h3, h3d⟩ := hc.2.2 hs hbr
    refine ⟨s3, h3, ?_⟩
    intro lost s4 s5 hrec hact
    have := decodeSlice_returns cfg s3 nalu env iSkipFrame lost s4 s5 hrec hact
    rw [← h3d] at this
    exact this

/-- Witness of C23: at the second slice of the picture of POC 0, a slice of POC 1
with start address 0 makes `xDecodeSlice` return true, and a slice of POC 0 with
start address 4 is decoded (later-slice activation) and returns false. -/
theorem xDecodeSlice_boundary_signal_witness :
    (∃ res, (stSecondSlice storeB).xDecodeSlice {} (naluTrail {}) { poc := 1 }
        (sliceEnvOf {} aenvB spsB (fun _ => 0) 8) 0 0 = some (.ok res) ∧ res.ret = true) ∧
    (∃ res, (stSecondSlice storeB).xDecodeSlice {} naluIDR
        { poc := 0, sliceCurStartCtuTsAddr := 4 }
        (sliceEnvOf {} aenvB spsB (fun _ => 0) 8) 0 0 = some (.ok res) ∧ res.ret = false) := by
  refine ⟨(xDecodeSlice_boundary_signal {} (stSecondSlice storeB) (naluTrail {}) { poc := 1 }
    (sliceEnvOf {} aenvB spsB (fun _ => 0) 8) 0 0 _ rfl).1.2 (by decide), ?_⟩
  obtain ⟨s3, h3, h⟩ := (xDecodeSlice_boundary_signal {} (stSecondSlice storeB) naluIDR
    { poc := 0, sliceCurStartCtuTsAddr := 4 } (sliceEnvOf {} aenvB spsB (fun _ => 0) 8) 0 0 _
    rfl).2.2.2 (by decide) (by decide)
  have e : some _ = some s3 := h3
  cases e
  exact h [] _ _ rfl rfl

/-- Claim C24. Boundary returns before processing: whenever `xDecodeSlice` returns
true, `m_prevPOC` is the POC of the new slice, and the pool, the current picture
`m_pcPic`, `m_uiSliceSegmentIdx`, `m_bFirstSliceInPicture`, the allocation counter,
the parameter-set store and `iSkipFrame` are those before the call. -/
theorem xDecodeSlice_boundary_frame (cfg : Config) (s : DecLib) (nalu : InputNALUnit)
    (parsed : Slice) (env : SliceEnv) (iSkipFrame iPOCLastDisplay : Int) (res : SliceResult)
    (h : s.xDecodeSlice cfg nalu parsed env iSkipFrame iPOCLastDisplay = some (.ok res))
    (ht : res.ret = true) :
    res.dec.m_prevPOC = res.dec.m_apcSlicePilot.poc ∧
    res.dec.m_cListPic = s.m_cListPic ∧ res.dec.m_pcPic = s.m_pcPic ∧
    res.dec.m_uiSliceSegmentIdx = s.m_uiSliceSegmentIdx ∧
    res.dec.m_bFirstSliceInPicture = s.m_bFirstSliceInPicture ∧
    res.dec.nextAddr = s.nextAddr ∧
    res.dec.m_parameterSetManager = s.m_parameterSetManager ∧
    res.iSkipFrame = iSkipFrame := by
  cases hh : s.sliceHeaderStage cfg nalu parsed with
  | error e =>
    rw [xDecodeSlice_header_error cfg s nalu parsed env iSkipFrame iPOCLastDisplay e hh] at h
    cases h
  | ok s1 =>
    have hc := xDecodeSlice_cases cfg s nalu parsed env iSkipFrame iPOCLastDisplay s1 hh
    have hb := boundaryReached_iff cfg s nalu parsed iSkipFrame iPOCLastDisplay s1 hh
    have hf := sliceHeaderStage_fields cfg s nalu parsed s1 hh
    have hm := sliceHeaderStage_more cfg s nalu parsed s1 hh
    have hk := isRandomAccessSkipPicture_frame cfg s1 iSkipFrame iPOCLastDisplay
    cases hs : s1.sliceSkipped cfg iSkipFrame iPOCLastDisplay
    · cases hbr : s1.boundaryReached cfg iSkipFrame iPOCLastDisplay
      · obtain ⟨s3, -, h3⟩ := hc.2.2 hs hbr
        have := decodeSlice_ret cfg s3 nalu env iSkipFrame res (h3 ▸ h)
        rw [this] at ht
        cases ht
      · have hres := hc.2.1 hs hbr
        rw [h] at hres
        simp only [Option.some.injEq, Except.ok.injEq] at hres
        have hfirst := (hb.1 hbr).2.1
        have hret : (s1.isRandomAccessSkipPicture cfg iSkipFrame iPOCLastDisplay).ret = false := by
          unfold DecLib.sliceSkipped at hs
          simp only [Bool.or_eq_false_iff] at hs
          exact hs.1
        have hns := isRandomAccessSkipPicture_not_skipped cfg s1 iSkipFrame iPOCLastDisplay hret
        rw [hres]
        unfold DecLib.boundaryResult DecLib.afterSkipTests
        simp only [hk.1, hk.2.1, hk.2.2.1, hk.2.2.2.1, hk.2.2.2.2.2.1, hk.2.2.2.2.2.2.2.1,
          hf.1, hf.2.1, hf.2.2.2.1, hf.2.2.2.2.2.1, hm.2.1, hm.2.2.1, hfirst, hns.2.1,
          Bool.false_eq_true, if_false, and_self]
    · have hres := hc.1 hs
      rw [h] at hres
      simp only [Option.some.injEq, Except.ok.injEq] at hres
      rw [hres] at ht
      cases ht

/-- Witness of C24: at the second slice of the picture of POC 0, a slice of POC 1
with start address 0 returns true; `m_prevPOC` becomes 1 and the pool, `m_pcPic`,
the slice index and `m_bFirstSliceInPicture` are those of the picture of POC 0. -/
theorem xDecodeSlice_boundary_frame_witness :
    ∃ res, (stSecondSlice storeB).xDecodeSlice {} (naluTrail {}) { poc := 1 }
        (sliceEnvOf {} aenvB spsB (fun _ => 0) 8) 0 0 = some (.ok res) ∧
      res.ret = true ∧ res.dec.m_prevPOC = 1 ∧
      res.dec.m_cListPic = (stSecondSlice storeB).m_cListPic ∧
      res.dec.m_pcPic = some 0 ∧ res.dec.m_uiSliceSegmentIdx = 1 ∧
      res.dec.m_bFirstSliceInPicture = false :=
  ⟨_, rfl, rfl,
    (xDecodeSlice_boundary_frame {} (stSecondSlice storeB) (naluTrail {}) { poc := 1 }
      (sliceEnvOf {} aenvB spsB (fun _ => 0) 8) 0 0 _ rfl rfl).1,
    (xDecodeSlice_boundary_frame {} (stSecondSlice storeB) (naluTrail {}) { poc := 1 }
      (sliceEnvOf {} aenvB spsB (fun _ => 0) 8) 0 0 _ rfl rfl).2.1,
    (xDecodeSlice_boundary_frame {} (stSecondSlice storeB) (naluTrail {}) { poc := 1 }
      (sliceEnvOf {} aenvB spsB (fun _ => 0) 8) 0 0 _ rfl rfl).2.2.1,
    (xDecodeSlice_boundary_frame {} (stSecondSlice storeB) (naluTrail {}) { poc := 1 }
      (sliceEnvOf {} aenvB spsB (fun _ => 0) 8) 0 0 _ rfl rfl).2.2.2.1,
    (xDecodeSlice_boundary_frame {} (stSecondSlice storeB) (naluTrail {}) { poc := 1 }
      (sliceEnvOf {} aenvB spsB (fun _ => 0) 8) 0 0 _ rfl rfl).2.2.2.2.1⟩

theorem find_map_addr (a : Nat) (f : Picture → Picture) (hf : ∀ p, (f p).addr = p.addr)
    (l : List Picture) :
    (l.map f).find? (fun p => p.addr == a) = (l.find? (fun p => p.addr == a)).map f := by
  induction l with
  | nil => rfl
  | cons p l ih =>
    by_cases hp : p.addr = a
    · simp [hp, hf]
    · simp only [List.map_cons]
      rw [List.find?_cons_of_neg _ (by simpa [hf] using hp),
        List.find?_cons_of_neg _ (by simpa using hp)]
      exact ih

theorem pic_addr (s : DecLib) (a : Nat) (p : Picture) (h : s.pic? a = some p) : p.addr = a := by
  unfold DecLib.pic? at h
  simpa using List.find?_some h

theorem xGetNewPicBuffer_more (s : DecLib) (sps : SPS) (t : Nat) (rawPoc : Int) :
    (s.xGetNewPicBuffer sps t rawPoc).1.m_parameterSetManager = s.m_parameterSetManager ∧
    (s.xGetNewPicBuffer sps t rawPoc).1.m_SEIs = s.m_SEIs ∧
    (s.xGetNewPicBuffer sps t rawPoc).1.m_prefixSEINALUs = s.m_prefixSEINALUs ∧
    (s.xGetNewPicBuffer sps t rawPoc).1.m_bFirstSliceInPicture = s.m_bFirstSliceInPicture := by
  unfold DecLib.xGetNewPicBuffer
  simp only
  split
  · exact ⟨rfl, rfl, rfl, rfl⟩
  · split <;> exact ⟨rfl, rfl, rfl, rfl⟩

theorem activateApsIds_fields (aenv : ActivationEnv) (ids : List Int) (m : ParameterSetManager) :
    (activateApsIds aenv ids m).1.spsMap = m.spsMap ∧
    (activateApsIds aenv ids m).1.ppsMap = m.ppsMap ∧
    (activateApsIds aenv ids m).1.apsMap = m.apsMap ∧
    (activateApsIds aenv ids m).1.spsChanged = m.spsChanged ∧
    (activateApsIds aenv ids m).1.ppsChanged = m.ppsChanged := by
  induction ids generalizing m with
  | nil => exact ⟨rfl, rfl, rfl, rfl, rfl⟩
  | cons id rest ih =>
    unfold activateApsIds
    split
    · exact ih m
    · simp only
      split
      · exact ih _
      · exact ⟨rfl, rfl, rfl, rfl, rfl⟩

theorem activateAPSs_fields (cfg : Config) (aenv : ActivationEnv) (pilot : Slice)
    (m : ParameterSetManager) :
    (activateAPSs cfg aenv pilot m).1.spsMap = m.spsMap ∧
    (activateAPSs cfg aenv pilot m).1.ppsMap = m.ppsMap ∧
    (activateAPSs cfg aenv pilot m).1.apsMap = m.apsMap ∧
    (activateAPSs cfg aenv pilot m).1.spsChanged = m.spsChanged ∧
    (activateAPSs cfg aenv pilot m).1.ppsChanged = m.ppsChanged := by
  unfold activateAPSs
  split
  · exact activateApsIds_fields aenv _ m
  · split <;> exact ⟨rfl, rfl, rfl, rfl, rfl⟩

/-- The later-slice branch in closed form, for a current picture `p` that owns
`m_uiSliceSegmentIdx` slices. -/
theorem laterSliceActivation_error (cfg : Config) (s : DecLib) (p : Picture)
    (hp : s.m_pcPic.bind s.pic? = some p) (hlen : p.slices.length = s.m_uiSliceSegmentIdx) :
    (s.laterSliceActivation cfg).error =
      if s.m_parameterSetManager.getSPSChangedFlag p.sps.spsId then
        some "Error - a new SPS has been decoded while processing a picture"
      else if s.m_parameterSetManager.getPPSChangedFlag p.pps.ppsId then
        some "Error - a new PPS has been decoded while processing a picture"
      else if apsChangedMidPicture cfg s.m_parameterSetManager p then
        some "Error - a new APS has been decoded while processing a picture"
      else none := by
  unfold DecLib.laterSliceActivation
  rw [hp]
  simp only [hlen, ne_eq, not_true_eq_false, if_false]
  split
  · rfl
  · split
    · rfl
    · split
      · rfl
      · split <;> rfl

/-- The later-slice branch acquires no picture and keeps the pool entries in place. -/
theorem laterSliceActivation_frame (cfg : Config) (s : DecLib) :
    (s.laterSliceActivation cfg).acquired = [] ∧
    (s.laterSliceActivation cfg).dec.m_cListPic.map Picture.addr = s.m_cListPic.map Picture.addr ∧
    (s.laterSliceActivation cfg).dec.m_pcPic = s.m_pcPic ∧
    (s.laterSliceActivation cfg).dec.nextAddr = s.nextAddr ∧
    (s.laterSliceActivation cfg).dec.m_parameterSetManager = s.m_parameterSetManager := by
  have hmap : ∀ (a : Nat) (f : Picture → Picture) (l : List Picture),
      (∀ q, (f q).addr = q.addr) → (updateAt a f l).map Picture.addr = l.map Picture.addr := by
    intro a f l hf
    unfold updateAt
    rw [List.map_map]
    apply List.map_congr_left
    intro q _
    simp only [Function.comp]
    split
    · exact hf q
    · rfl
  unfold DecLib.laterSliceActivation
  split
  · exact ⟨rfl, rfl, rfl, rfl, rfl⟩
  · split
    · exact ⟨rfl, hmap _ _ _ (fun _ => rfl), rfl, rfl, rfl⟩
    · simp only
      split
      · exact ⟨rfl, hmap _ _ _ (fun _ => rfl), rfl, rfl, rfl⟩
      · split
        · exact ⟨rfl, hmap _ _ _ (fun _ => rfl), rfl, rfl, rfl⟩
        · split
          · exact ⟨rfl, hmap _ _ _ (fun _ => rfl), rfl, rfl, rfl⟩
          · split
            · exact ⟨rfl, hmap _ _ _ (fun _ => rfl), rfl, rfl, rfl⟩
            · refine ⟨rfl, ?_, rfl, rfl, rfl⟩
              simp only [DecLib.xParsePrefixSEImessages]
              rw [hmap _ reorderDecodingUnitInfo _ (fun _ => rfl),
                hmap _ (attachLaterSlice _ _) _ (fun _ => rfl)]

/-- The current picture after a later-slice activation that raises no error. -/
theorem laterSliceActivation_attach (cfg : Config) (s : DecLib)
    (hok : (s.laterSliceActivation cfg).error = none) :
    ∃ a p q, s.m_pcPic = some a ∧ s.pic? a = some p ∧
      p.slices.length = s.m_uiSliceSegmentIdx ∧
      (s.laterSliceActivation cfg).dec.pic? a = some q ∧
      q.slices = p.slices ++ [s.m_apcSlicePilot] ∧
      q.csSlice = some s.m_uiSliceSegmentIdx ∧ q.sps = p.sps ∧ q.pps = p.pps ∧
      q.poc = p.poc := by
  cases hp : s.m_pcPic.bind s.pic? with
  | none =>
    unfold DecLib.laterSliceActivation at hok
    rw [hp] at hok
    cases hok
  | some p =>
    obtain ⟨a, ha, hpa⟩ := Option.bind_eq_some.mp hp
    have hadd := pic_addr s a p hpa
    have hfacts : p.slices.length = s.m_uiSliceSegmentIdx ∧
        s.m_parameterSetManager.getSPSChangedFlag p.sps.spsId = false ∧
        s.m_parameterSetManager.getPPSChangedFlag p.pps.ppsId = false ∧
        apsChangedMidPicture cfg s.m_parameterSetManager p = false := by
      unfold DecLib.laterSliceActivation at hok
      rw [hp] at hok
      simp only at hok
      split at hok
      · cases hok
      · rename_i hlen
        simp only [ne_eq, add_left_inj, not_not] at hlen
        split at hok
        · cases hok
        · split at hok
          · cases hok
          · split at hok
            · cases hok
            · rename_i h1 h2 h3
              exact ⟨hlen, by simpa using h1, by simpa using h2, by simpa using h3⟩
    obtain ⟨hlen, h1, h2, h3⟩ := hfacts
    have hfind : s.m_cListPic.find? (fun p => p.addr == a) = some p := hpa
    by_cases he : (parsePrefixLoop s.m_prefixSEINALUs s.m_SEIs).isEmpty = true
    · refine ⟨a, p, attachLaterSlice s.m_apcSlicePilot s.m_uiSliceSegmentIdx p, ha, hpa, hlen, ?_,
        rfl, rfl, rfl, rfl, rfl⟩
      unfold DecLib.laterSliceActivation
      rw [hp]
      simp only [hlen, ne_eq, not_true_eq_false, if_false, h1, h2, h3, Bool.false_eq_true,
        DecLib.xParsePrefixSEImessages, he, if_true, DecLib.pic?, hadd]
      rw [find_updateAt a (attachLaterSlice _ _) (fun _ => rfl), hfind]
      rfl
    · refine ⟨a, p, reorderDecodingUnitInfo
        (attachLaterSlice s.m_apcSlicePilot s.m_uiSliceSegmentIdx p), ha, hpa, hlen, ?_,
        rfl, rfl, rfl, rfl, rfl⟩
      unfold DecLib.laterSliceActivation
      rw [hp]
      simp only [hlen, ne_eq, not_true_eq_false, if_false, h1, h2, h3, Bool.false_eq_true,
        DecLib.xParsePrefixSEImessages, he, DecLib.pic?, hadd]
      rw [find_updateAt a reorderDecodingUnitInfo (fun _ => rfl),
        find_updateAt a (attachLaterSlice _ _) (fun _ => rfl), hfind]
      rfl

theorem resetApss_fields (cfg : Config) (m : ParameterSetManager) :
    (resetApss cfg m).getPPS = m.getPPS ∧ (resetApss cfg m).getSPS = m.getSPS ∧
    (resetApss cfg m).getAPS = m.getAPS ∧ (resetApss cfg m).spsChanged = m.spsChanged ∧
    (resetApss cfg m).ppsChanged = m.ppsChanged ∧ (resetApss cfg m).apsChanged = m.apsChanged := by
  unfold resetApss
  split <;> exact ⟨rfl, rfl, rfl, rfl, rfl, rfl⟩

/-- The first-slice branch up to the lookup of the SPS. -/
theorem firstSliceActivation_lookup (cfg : Config) (aenv : ActivationEnv) (s : DecLib) :
    (s.apsMissing cfg = true →
      s.firstSliceActivation cfg aenv
        = { dec := { s with m_parameterSetManager := resetApss cfg s.m_parameterSetManager },
            error := some "No APS present" }) ∧
    (s.apsMissing cfg = false →
      s.m_parameterSetManager.getPPS s.m_apcSlicePilot.ppsId = none →
      s.firstSliceActivation cfg aenv
        = { dec := { s with m_parameterSetManager := resetApss cfg s.m_parameterSetManager },
            error := some "No PPS present" }) ∧
    (s.apsMissing cfg = false →
      ∀ pps, s.m_parameterSetManager.getPPS s.m_apcSlicePilot.ppsId = some pps →
      s.m_parameterSetManager.getSPS pps.spsId = none →
      s.firstSliceActivation cfg aenv
        = { dec := { s with m_parameterSetManager := resetApss cfg s.m_parameterSetManager },
            error := some "No SPS present" }) := by
  have hr := resetApss_fields cfg s.m_parameterSetManager
  refine ⟨?_, ?_, ?_⟩
  · intro ha
    unfold DecLib.firstSliceActivation
    simp only [ha, if_true]
  · intro ha hp
    unfold DecLib.firstSliceActivation
    simp only [hr.1, ha, hp, Bool.false_eq_true, if_false]
  · intro ha pps hp hs
    unfold DecLib.firstSliceActivation
    simp only [hr.1, hr.2.1, ha, hp, hs, Bool.false_eq_true, if_false]

/-- Lines 823–886 always call `xGetNewPicBuffer` once. -/
theorem acquireAndAttach_acquired (cfg : Config) (aenv : ActivationEnv) (s : DecLib) (sps : SPS)
    (pps : PPS) :
    (s.acquireAndAttach cfg aenv sps pps).acquired
      = [(s.xGetNewPicBuffer sps s.m_apcSlicePilot.tLayer aenv.rawPoc).2] := by
  unfold DecLib.acquireAndAttach
  simp only
  split <;> rfl

/-- Lines 823–886 when the `CHECK` of line 837 passes. -/
theorem acquireAndAttach_ok (cfg : Config) (aenv : ActivationEnv) (s : DecLib) (sps : SPS)
    (pps : PPS) (hok : (s.acquireAndAttach cfg aenv sps pps).error = none) :
    s.m_uiSliceSegmentIdx = 0 ∧
    ∃ a q, (s.acquireAndAttach cfg aenv sps pps).acquired = [a] ∧
      (s.acquireAndAttach cfg aenv sps pps).dec.m_pcPic = some a ∧
      (s.acquireAndAttach cfg aenv sps pps).dec.pic? a = some q ∧
      q.slices = [s.m_apcSlicePilot] ∧ q.csSlice = some 0 ∧ q.sps = sps ∧ q.pps = pps ∧
      q.SEIs = s.m_SEIs ∧
      (s.acquireAndAttach cfg aenv sps pps).dec.m_parameterSetManager = s.m_parameterSetManager ∧
      (s.acquireAndAttach cfg aenv sps pps).dec.m_SEIs = [] ∧
      (s.acquireAndAttach cfg aenv sps pps).dec.m_prefixSEINALUs = s.m_prefixSEINALUs := by
  have hidx : s.m_uiSliceSegmentIdx = 0 := by
    unfold DecLib.acquireAndAttach at hok
    simp only at hok
    split at hok
    · cases hok
    · rename_i h
      simpa using h
  refine ⟨hidx, ?_⟩
  obtain ⟨y, hy⟩ := xGetNewPicBuffer_pic s sps s.m_apcSlicePilot.tLayer aenv.rawPoc
  have hm := xGetNewPicBuffer_more s sps s.m_apcSlicePilot.tLayer aenv.rawPoc
  unfold DecLib.pic? at hy
  refine ⟨(s.xGetNewPicBuffer sps s.m_apcSlicePilot.tLayer aenv.rawPoc).2,
    attachParameterSets cfg pps
      ((s.m_parameterSetManager.getAPS s.m_apcSlicePilot.apsId).map
        (fun _ => s.m_apcSlicePilot.apsId)) s.m_SEIs
      (attachFirstSlice s.m_apcSlicePilot sps (fieldFlag s.m_SEIs)
        (markUnused (aenv.keep s.m_apcSlicePilot) y)), ?_⟩
  have heq : s.acquireAndAttach cfg aenv sps pps =
      { dec := { s.activateFirstSlice sps (aenv.keep s.m_apcSlicePilot) (fieldFlag s.m_SEIs)
                   aenv.rawPoc with
                 m_cListPic := updateAt (s.xGetNewPicBuffer sps s.m_apcSlicePilot.tLayer aenv.rawPoc).2
                   (attachParameterSets cfg pps
                     ((s.m_parameterSetManager.getAPS s.m_apcSlicePilot.apsId).map
                       (fun _ => s.m_apcSlicePilot.apsId)) s.m_SEIs)
                   (s.activateFirstSlice sps (aenv.keep s.m_apcSlicePilot) (fieldFlag s.m_SEIs)
                     aenv.rawPoc).m_cListPic,
                 m_SEIs := [] },
        acquired := [(s.xGetNewPicBuffer sps s.m_apcSlicePilot.tLayer aenv.rawPoc).2] } := by
    unfold DecLib.acquireAndAttach
    simp only [hidx, ne_eq, not_true_eq_false, if_false]
  rw [heq]
  refine ⟨rfl, rfl, ?_, rfl, rfl, rfl, rfl, rfl, hm.1, rfl, hm.2.2.1⟩
  simp only [DecLib.activateFirstSlice, DecLib.pic?, applyReferencePictureSet]
  rw [find_updateAt _ (attachParameterSets _ _ _ _) (fun _ => rfl),
    find_updateAt _ (attachFirstSlice _ _ _) (fun _ => rfl),
    find_map_addr _ (markUnused _) (fun p => (markUnused_fields _ p).1), hy]
  rfl

theorem activateAPSs_flags (cfg : Config) (aenv : ActivationEnv) (pilot : Slice)
    (m : ParameterSetManager) (sid pid : Int) :
    (activateAPSs cfg aenv pilot
      ((m.clearSPSChangedFlag sid).clearPPSChangedFlag pid)).1.getSPSChangedFlag sid = false ∧
    (activateAPSs cfg aenv pilot
      ((m.clearSPSChangedFlag sid).clearPPSChangedFlag pid)).1.getPPSChangedFlag pid = false := by
  have h := activateAPSs_fields cfg aenv pilot ((m.clearSPSChangedFlag sid).clearPPSChangedFlag pid)
  unfold ParameterSetManager.getSPSChangedFlag ParameterSetManager.getPPSChangedFlag
  rw [h.2.2.2.1, h.2.2.2.2]
  simp [ParameterSetManager.clearSPSChangedFlag, ParameterSetManager.clearPPSChangedFlag]

/-- The first-slice branch when it raises no error. -/
theorem firstSliceActivation_ok (cfg : Config) (aenv : ActivationEnv) (s : DecLib)
    (hok : (s.firstSliceActivation cfg aenv).error = none) :
    ∃ pps sps a q, s.m_parameterSetManager.getPPS s.m_apcSlicePilot.ppsId = some pps ∧
      s.m_parameterSetManager.getSPS pps.spsId = some sps ∧
      s.m_uiSliceSegmentIdx = 0 ∧
      (s.firstSliceActivation cfg aenv).acquired = [a] ∧
      (s.firstSliceActivation cfg aenv).dec.m_pcPic = some a ∧
      (s.firstSliceActivation cfg aenv).dec.pic? a = some q ∧
      q.slices = [s.m_apcSlicePilot] ∧ q.csSlice = some 0 ∧ q.sps = sps ∧ q.pps = pps ∧
      (s.firstSliceActivation cfg aenv).dec.m_parameterSetManager.getSPSChangedFlag sps.spsId
        = false ∧
      (s.firstSliceActivation cfg aenv).dec.m_parameterSetManager.getPPSChangedFlag pps.ppsId
        = false ∧
      (s.firstSliceActivation cfg aenv).dec.m_SEIs = [] ∧
      (s.firstSliceActivation cfg aenv).dec.m_prefixSEINALUs = [] := by
  have hr := resetApss_fields cfg s.m_parameterSetManager
  have hl := firstSliceActivation_lookup cfg aenv s
  cases ha : s.apsMissing cfg with
  | true => rw [hl.1 ha] at hok; cases hok
  | false =>
    cases hp : s.m_parameterSetManager.getPPS s.m_apcSlicePilot.ppsId with
    | none => rw [hl.2.1 ha hp] at hok; cases hok
    | some pps =>
      cases hs : s.m_parameterSetManager.getSPS pps.spsId with
      | none => rw [hl.2.2 ha pps hp hs] at hok; cases hok
      | some sps =>
        have hfl := activateAPSs_flags cfg aenv s.m_apcSlicePilot
          (resetApss cfg s.m_parameterSetManager) sps.spsId pps.ppsId
        have hconds : aenv.activatePPS s.m_apcSlicePilot.ppsId s.m_apcSlicePilot.isIRAP = true ∧
            (activateAPSs cfg aenv s.m_apcSlicePilot
              (((resetApss cfg s.m_parameterSetManager).clearSPSChangedFlag
                sps.spsId).clearPPSChangedFlag pps.ppsId)).2 = true ∧
            needsHighBitDepth cfg sps = false := by
          unfold DecLib.firstSliceActivation at hok
          simp only [hr.1, hr.2.1, ha, hp, hs, Bool.false_eq_true, if_false] at hok
          split at hok
          · cases hok
          · rename_i h1
            split at hok
            · cases hok
            · rename_i h2
              split at hok
              · cases hok
              · rename_i h3
                exact ⟨by simpa using h1, by simpa using h2, by simpa using h3⟩
        have heq : s.firstSliceActivation cfg aenv =
            (DecLib.xParsePrefixSEImessages { s with m_parameterSetManager :=
              (activateAPSs cfg aenv s.m_apcSlicePilot
                (((resetApss cfg s.m_parameterSetManager).clearSPSChangedFlag
                  sps.spsId).clearPPSChangedFlag pps.ppsId)).1 }).acquireAndAttach cfg aenv
              sps pps := by
          unfold DecLib.firstSliceActivation
          simp only [hr.1, hr.2.1, ha, hp, hs, hconds.1, hconds.2.1, hconds.2.2,
            Bool.false_eq_true, if_false, Bool.not_true]
        rw [heq] at hok ⊢
        obtain ⟨hidx, a, q, h4, h5, h6, h7, h8, h9, h10, -, h11, h12, h13⟩ :=
          acquireAndAttach_ok cfg aenv _ sps pps hok
        refine ⟨pps, sps, a, q, rfl, hs, hidx, h4, h5, h6, h7, h8, h9, h10, ?_, ?_, h12, ?_⟩
        · rw [h11]; exact hfl.1
        · rw [h11]; exact hfl.2
        · rw [h13]; rfl

/-- Claim C25. Missing parameter set is fatal: on the first slice of a picture, when
the store has no PPS for the PPS id of the slice, or no SPS for the id that PPS
refers to, `xActivateParameterSets` aborts with an error (`No PPS present` or
`No SPS present`, unless the APS test made without `JVET_N0415_CTB_ALF` has failed
before), and it does so before a picture is acquired: no call of `xGetNewPicBuffer`
was made, and the pool, `m_pcPic` and the allocation counter are unchanged. -/
theorem xActivateParameterSets_missing (cfg : Config) (aenv : ActivationEnv) (s : DecLib)
    (hfirst : s.m_bFirstSliceInPicture = true)
    (hmissing : s.m_parameterSetManager.getPPS s.m_apcSlicePilot.ppsId = none ∨
      ∃ pps, s.m_parameterSetManager.getPPS s.m_apcSlicePilot.ppsId = some pps ∧
        s.m_parameterSetManager.getSPS pps.spsId = none) :
    (∃ e, (s.xActivateParameterSets cfg aenv).error = some e ∧
      (s.xActivateParameterSets cfg aenv).toExcept = .error e ∧
      (s.apsMissing cfg = false →
        e = if (s.m_parameterSetManager.getPPS s.m_apcSlicePilot.ppsId).isNone
            then "No PPS present" else "No SPS present")) ∧
    (s.xActivateParameterSets cfg aenv).acquired = [] ∧
    (s.xActivateParameterSets cfg aenv).dec.m_cListPic = s.m_cListPic ∧
    (s.xActivateParameterSets cfg aenv).dec.m_pcPic = s.m_pcPic ∧
    (s.xActivateParameterSets cfg aenv).dec.nextAddr = s.nextAddr := by
  have hl := firstSliceActivation_lookup cfg aenv s
  unfold DecLib.xActivateParameterSets
  simp only [hfirst, if_true]
  cases ha : s.apsMissing cfg with
  | true =>
    rw [hl.1 ha]
    exact ⟨⟨_, rfl, rfl, fun h => by cases h⟩, rfl, rfl, rfl, rfl⟩
  | false =>
    rcases hmissing with hp | ⟨pps, hp, hs⟩
    · rw [hl.2.1 ha hp]
      exact ⟨⟨_, rfl, rfl, fun _ => by simp [hp]⟩, rfl, rfl, rfl, rfl⟩
    · rw [hl.2.2 ha pps hp hs]
      exact ⟨⟨_, rfl, rfl, fun _ => by simp [hp]⟩, rfl, rfl, rfl, rfl⟩

/-- Witness of C25: with an empty store the activation of a first slice aborts with
`No PPS present`, and with a store that holds only `ppsB` it aborts with
`No SPS present`; in both cases the pool stays empty and `m_pcPic` stays null. -/
theorem xActivateParameterSets_missing_witness :
    (((stFirstSlice {}).xActivateParameterSets {} aenvB).error = some "No PPS present" ∧
      ((stFirstSlice {}).xActivateParameterSets {} aenvB).dec.m_cListPic = [] ∧
      ((stFirstSlice {}).xActivateParameterSets {} aenvB).dec.m_pcPic = none) ∧
    (((stFirstSlice (({} : ParameterSetManager).storePPS ppsB)).xActivateParameterSets {}
        aenvB).error = some "No SPS present" ∧
      ((stFirstSlice (({} : ParameterSetManager).storePPS ppsB)).xActivateParameterSets {}
        aenvB).dec.m_cListPic = [] ∧
      ((stFirstSlice (({} : ParameterSetManager).storePPS ppsB)).xActivateParameterSets {}
        aenvB).dec.m_pcPic = none) :=
  ⟨⟨by decide,
      (xActivateParameterSets_missing {} aenvB (stFirstSlice {}) rfl (Or.inl rfl)).2.2.1,
      (xActivateParameterSets_missing {} aenvB (stFirstSlice {}) rfl (Or.inl rfl)).2.2.2.1⟩,
    ⟨by decide,
      (xActivateParameterSets_missing {} aenvB
        (stFirstSlice (({} : ParameterSetManager).storePPS ppsB)) rfl
        (Or.inr ⟨ppsB, rfl, rfl⟩)).2.2.1,
      (xActivateParameterSets_missing {} aenvB
        (stFirstSlice (({} : ParameterSetManager).storePPS ppsB)) rfl
        (Or.inr ⟨ppsB, rfl, rfl⟩)).2.2.2.1⟩⟩

/-- Claim C26. Mid-picture parameter-set immutability: a first-slice activation that
raises no error clears the changed flags of the SPS id and the PPS id it activates
and attaches this SPS and PPS to the current picture; the activation of a later
slice of a picture `p` aborts when the changed flag of the SPS id of `p`, of the PPS
id of `p`, or of a present APS is set, and raises no error when none of them is
set. -/
theorem xActivateParameterSets_mid_picture (cfg : Config) (aenv : ActivationEnv) (s : DecLib) :
    (s.m_bFirstSliceInPicture = true → (s.xActivateParameterSets cfg aenv).error = none →
      ∃ pps sps a q, s.m_parameterSetManager.getPPS s.m_apcSlicePilot.ppsId = some pps ∧
        s.m_parameterSetManager.getSPS pps.spsId = some sps ∧
        (s.xActivateParameterSets cfg aenv).dec.m_parameterSetManager.getSPSChangedFlag
          sps.spsId = false ∧
        (s.xActivateParameterSets cfg aenv).dec.m_parameterSetManager.getPPSChangedFlag
          pps.ppsId = false ∧
        (s.xActivateParameterSets cfg aenv).dec.m_pcPic = some a ∧
        (s.xActivateParameterSets cfg aenv).dec.pic? a = some q ∧ q.sps = sps ∧ q.pps = pps) ∧
    (s.m_bFirstSliceInPicture = false →
      ∀ p, s.m_pcPic.bind s.pic? = some p → p.slices.length = s.m_uiSliceSegmentIdx →
        (s.xActivateParameterSets cfg aenv).error =
          if s.m_parameterSetManager.getSPSChangedFlag p.sps.spsId then
            some "Error - a new SPS has been decoded while processing a picture"
          else if s.m_parameterSetManager.getPPSChangedFlag p.pps.ppsId then
            some "Error - a new PPS has been decoded while processing a picture"
          else if apsChangedMidPicture cfg s.m_parameterSetManager p then
            some "Error - a new APS has been decoded while processing a picture"
          else none) := by
  constructor
  · intro hfirst hok
    unfold DecLib.xActivateParameterSets at hok ⊢
    simp only [hfirst, if_true] at hok ⊢
    obtain ⟨pps, sps, a, q, h1, h2, -, -, h5, h6, -, -, h9, h10, h11, h12, -, -⟩ :=
      firstSliceActivation_ok cfg aenv s hok
    exact ⟨pps, sps, a, q, h1, h2, h11, h12, h5, h6, h9, h10⟩
  · intro hfirst p hp hlen
    unfold DecLib.xActivateParameterSets
    simp only [hfirst, Bool.false_eq_true, if_false]
    exact laterSliceActivation_error cfg s p hp hlen

/-- Witness of C26: the first-slice activation under a store in which `spsB` was
redefined clears the changed flag of SPS id 0; the activation of the second slice of
the picture aborts when `spsB` or `ppsB` was stored again in between, and raises no
error under the unchanged store. -/
theorem xActivateParameterSets_mid_picture_witness :
    (storeB.storeSPS spsB).getSPSChangedFlag 0 = true ∧
    ((stFirstSlice (storeB.storeSPS spsB)).xActivateParameterSets {}
      aenvB).dec.m_parameterSetManager.getSPSChangedFlag 0 = false ∧
    ((stSecondSlice (storeB.storeSPS spsB)).xActivateParameterSets {} aenvB).error
      = some "Error - a new SPS has been decoded while processing a picture" ∧
    ((stSecondSlice (storeB.storePPS ppsB)).xActivateParameterSets {} aenvB).error
      = some "Error - a new PPS has been decoded while processing a picture" ∧
    ((stSecondSlice storeB).xActivateParameterSets {} aenvB).error = none :=
  ⟨by decide,
   by
    obtain ⟨pps, sps, a, q, h1, h2, h3, -⟩ := (xActivateParameterSets_mid_picture {} aenvB
      (stFirstSlice (storeB.storeSPS spsB))).1 rfl (by decide)
    have e1 : some _ = some pps := h1
    cases e1
    have e2 : some _ = some sps := h2
    cases e2
    exact h3,
   (xActivateParameterSets_mid_picture {} aenvB (stSecondSlice (storeB.storeSPS spsB))).2 rfl
     _ rfl rfl,
   (xActivateParameterSets_mid_picture {} aenvB (stSecondSlice (storeB.storePPS ppsB))).2 rfl
     _ rfl rfl,
   (xActivateParameterSets_mid_picture {} aenvB (stSecondSlice storeB)).2 rfl _ rfl rfl⟩

/-- Claim C27. Activation acquires once per picture: `xActivateParameterSets` calls
`xGetNewPicBuffer` at most once and only when `m_bFirstSliceInPicture` is true; a
first-slice activation that raises no error has made exactly one call, whose result
is `m_pcPic` and owns the slice pilot as its one slice; for a later slice no call is
made, the pool keeps its length and its entries their places, `m_pcPic` and the
allocation counter are unchanged, and when no error is raised the slice pilot is
attached to the existing current picture after the slices it owns. -/
theorem xActivateParameterSets_acquires_once (cfg : Config) (aenv : ActivationEnv)
    (s : DecLib) :
    (s.xActivateParameterSets cfg aenv).acquired.length ≤ 1 ∧
    ((s.xActivateParameterSets cfg aenv).acquired ≠ [] → s.m_bFirstSliceInPicture = true) ∧
    (s.m_bFirstSliceInPicture = true → (s.xActivateParameterSets cfg aenv).error = none →
      ∃ a q, (s.xActivateParameterSets cfg aenv).acquired = [a] ∧
        (s.xActivateParameterSets cfg aenv).dec.m_pcPic = some a ∧
        (s.xActivateParameterSets cfg aenv).dec.pic? a = some q ∧
        q.slices = [s.m_apcSlicePilot] ∧ q.csSlice = some 0) ∧
    (s.m_bFirstSliceInPicture = false →
      (s.xActivateParameterSets cfg aenv).acquired = [] ∧
      (s.xActivateParameterSets cfg aenv).dec.m_cListPic.length = s.m_cListPic.length ∧
      (s.xActivateParameterSets cfg aenv).dec.m_cListPic.map Picture.addr
        = s.m_cListPic.map Picture.addr ∧
      (s.xActivateParameterSets cfg aenv).dec.m_pcPic = s.m_pcPic ∧
      (s.xActivateParameterSets cfg aenv).dec.nextAddr = s.nextAddr ∧
      ((s.xActivateParameterSets cfg aenv).error = none →
        ∃ a p q, s.m_pcPic = some a ∧ s.pic? a = some p ∧
          (s.xActivateParameterSets cfg aenv).dec.pic? a = some q ∧
          q.slices = p.slices ++ [s.m_apcSlicePilot] ∧
          q.csSlice = some s.m_uiSliceSegmentIdx ∧ q.sps = p.sps ∧ q.pps = p.pps)) := by
  have hlater := laterSliceActivation_frame cfg s
  have hacq : s.m_bFirstSliceInPicture = true →
      (s.firstSliceActivation cfg aenv).acquired.length ≤ 1 := by
    intro _
    unfold DecLib.firstSliceActivation
    simp only
    split
    · simp
    · split
      · simp
      · split
        · simp
        · split
          · simp
          · split
            · simp
            · split
              · simp
              · rw [acquireAndAttach_acquired]
                simp
  cases hfirst : s.m_bFirstSliceInPicture with
  | true =>
    have hx : s.xActivateParameterSets cfg aenv = s.firstSliceActivation cfg aenv := by
      unfold DecLib.xActivateParameterSets
      simp only [hfirst, if_true]
    rw [hx]
    refine ⟨hacq hfirst, fun _ => rfl, ?_, fun h => by cases h⟩
    intro _ hok
    obtain ⟨pps, sps, a, q, -, -, -, h4, h5, h6, h7, h8, -⟩ :=
      firstSliceActivation_ok cfg aenv s hok
    exact ⟨a, q, h4, h5, h6, h7, h8⟩
  | false =>
    have hx : s.xActivateParameterSets cfg aenv = s.laterSliceActivation cfg := by
      unfold DecLib.xActivateParameterSets
      simp only [hfirst, Bool.false_eq_true, if_false]
    rw [hx]
    refine ⟨by rw [hlater.1]; simp, fun h => absurd hlater.1 h, fun h => Bool.noConfusion h, ?_⟩
    intro _
    refine ⟨hlater.1, ?_, hlater.2.1, hlater.2.2.1, hlater.2.2.2.1, ?_⟩
    · have := congrArg List.length hlater.2.1
      simpa using this
    · intro hok
      obtain ⟨a, p, q, h1, h2, -, h4, h5, h6, h7, h8, -⟩ :=
        laterSliceActivation_attach cfg s hok
      exact ⟨a, p, q, h1, h2, h4, h5, h6, h7, h8⟩

/-- Witness of C27: the activation of the first slice of the IDR picture acquires
the picture at address 0 of a pool that was empty; the activation of the second
slice acquires nothing, and the picture then owns two slices. -/
theorem xActivateParameterSets_acquires_once_witness :
    ((stFirstSlice storeB).xActivateParameterSets {} aenvB).acquired = [0] ∧
    ((stFirstSlice storeB).xActivateParameterSets {} aenvB).dec.m_pcPic = some 0 ∧
    ((stSecondSlice storeB).xActivateParameterSets {} aenvB).acquired = [] ∧
    ((stSecondSlice storeB).xActivateParameterSets {} aenvB).dec.m_cListPic.length = 1 ∧
    ((stSecondSlice storeB).xActivateParameterSets {} aenvB).dec.m_pcPic = some 0 ∧
    (((stSecondSlice storeB).xActivateParameterSets {} aenvB).dec.m_cListPic.map
      (fun p => p.slices.length)) = [2] :=
  ⟨by decide, by decide,
   ((xActivateParameterSets_acquires_once {} aenvB (stSecondSlice storeB)).2.2.2 rfl).1,
   ((xActivateParameterSets_acquires_once {} aenvB (stSecondSlice storeB)).2.2.2 rfl).2.1,
   ((xActivateParameterSets_acquires_once {} aenvB (stSecondSlice storeB)).2.2.2 rfl).2.2.2.1,
   by decide⟩

set_option maxHeartbeats 1000000 in
/-- The branches of `decode` for the reserved and unspecified types and for a type
that is no case label. -/
theorem decode_by_label (cfg : Config) (s : DecLib) (nalu : InputNALUnit)
    (payload : NalPayload) (env : SliceEnv) (fuel : Nat) (iSkipFrame iPOCLastDisplay : Int)
    (hlayer : nalu.m_nuhLayerId = 0) :
    ((isReservedNVCL cfg nalu.m_nalUnitType || isUnspecified cfg nalu.m_nalUnitType) = true →
      s.decode cfg nalu payload env fuel iSkipFrame iPOCLastDisplay
        = s.discard iSkipFrame iPOCLastDisplay) ∧
    (isReservedVCL cfg nalu.m_nalUnitType = true →
      s.decode cfg nalu payload env fuel iSkipFrame iPOCLastDisplay
        = s.reservedVCL fuel iSkipFrame iPOCLastDisplay) ∧
    (isCaseLabel cfg nalu.m_nalUnitType = false →
      s.decode cfg nalu payload env fuel iSkipFrame iPOCLastDisplay
        = some (.error "Invalid NAL unit type")) := by
  unfold DecLib.decode
  simp only [hlayer, gt_iff_lt, lt_self_iff_false, if_false]
  generalize nalu.m_nalUnitType = t
  rcases cfg with ⟨m, d, n, v, r, k, x1, x2, x3⟩
  cases m <;> cases v <;> cases t <;>
    exact ⟨fun h => by first | exact (Bool.false_ne_true h).elim | rfl,
           fun h => by first | exact (Bool.false_ne_true h).elim | rfl,
           fun h => by first | exact (Bool.false_ne_true h.symm).elim | rfl⟩

theorem decode_eos_eq (cfg : Config) (s : DecLib) (nalu : InputNALUnit)
    (payload : NalPayload) (env : SliceEnv) (fuel : Nat) (iSkipFrame iPOCLastDisplay : Int)
    (hlayer : nalu.m_nuhLayerId = 0) (hty : nalu.m_nalUnitType = .NAL_UNIT_EOS) :
    s.decode cfg nalu payload env fuel iSkipFrame iPOCLastDisplay
      = some (.ok { ret := false, dec := s.endOfSequence, iSkipFrame := iSkipFrame,
                    iPOCLastDisplay := iPOCLastDisplay }) := by
  unfold DecLib.decode
  have hs : isSliceNalType cfg .NAL_UNIT_EOS = false := by
    unfold isSliceNalType
    split <;> rfl
  simp [hlayer, hty, hs, DecLib.discard]

theorem xParsePrefixSEIsForUnknownVCLNal_empty (s : DecLib) (fuel : Nat)
    (h : s.m_prefixSEINALUs = []) : s.xParsePrefixSEIsForUnknownVCLNal fuel = some s := by
  cases fuel <;> simp [DecLib.xParsePrefixSEIsForUnknownVCLNal, h]

/-- Claim C28. Out-of-layer units are discarded: for every NAL unit whose
`nuh_layer_id` is greater than 0, whatever its type and payload, `decode` returns
false, and the decoder (pool, parameter-set store, anchor, `m_prevPOC`, prefix-SEI
queue and every other member), `iSkipFrame` and `iPOCLastDisplay` are unchanged. -/
theorem decode_out_of_layer (cfg : Config) (s : DecLib) (nalu : InputNALUnit)
    (payload : NalPayload) (env : SliceEnv) (fuel : Nat) (iSkipFrame iPOCLastDisplay : Int)
    (hlayer : nalu.m_nuhLayerId > 0) :
    s.decode cfg nalu payload env fuel iSkipFrame iPOCLastDisplay
      = some (.ok { ret := false, dec := s, iSkipFrame := iSkipFrame,
                    iPOCLastDisplay := iPOCLastDisplay }) := by
  unfold DecLib.decode
  simp only [hlayer, if_true, DecLib.discard]

/-- Witness of C28: an IDR slice, an SPS and an end-of-sequence unit of layer 1
leave the decoder `stLeading`, a skip count of 2 and `iPOCLastDisplay = 5` as they
are. -/
theorem decode_out_of_layer_witness :
    stLeading.decode {} { naluIDR with m_nuhLayerId := 1 } {} envB 0 2 5
      = some (.ok { ret := false, dec := stLeading, iSkipFrame := 2, iPOCLastDisplay := 5 }) ∧
    stLeading.decode {} { m_nalUnitType := .NAL_UNIT_SPS, m_nuhLayerId := 1 } { sps := sps3 }
        envB 0 2 5
      = some (.ok { ret := false, dec := stLeading, iSkipFrame := 2, iPOCLastDisplay := 5 }) ∧
    stLeading.decode {} { m_nalUnitType := .NAL_UNIT_EOS, m_nuhLayerId := 1 } {} envB 0 2 5
      = some (.ok { ret := false, dec := stLeading, iSkipFrame := 2, iPOCLastDisplay := 5 }) :=
  ⟨decode_out_of_layer {} stLeading { naluIDR with m_nuhLayerId := 1 } {} envB 0 2 5
      (by decide),
   decode_out_of_layer {} stLeading { m_nalUnitType := .NAL_UNIT_SPS, m_nuhLayerId := 1 }
      { sps := sps3 } envB 0 2 5 (by decide),
   decode_out_of_layer {} stLeading { m_nalUnitType := .NAL_UNIT_EOS, m_nuhLayerId := 1 } {}
      envB 0 2 5 (by decide)⟩

/-- Counterexample to C29: an end-of-sequence unit of layer 0 dispatched with a skip
count of 2 leaves the skip count at 2. -/
theorem decode_eos_keeps_skip_count :
    stLeading.decode {} { m_nalUnitType := .NAL_UNIT_EOS } {} envB 0 2 5
      = some (.ok { ret := false, dec := stLeading.endOfSequence, iSkipFrame := 2,
                    iPOCLastDisplay := 5 }) := by
  rfl

/-- Claim C29, amended. End of sequence: dispatching an end-of-sequence unit of
layer 0 returns false and sets `m_pocRandomAccess` and `m_prevPOC` to `MAX_INT`,
`m_prevSliceSkipped` to false and `m_skippedPOC` to 0 (and `m_associatedIRAPType`
to `NAL_UNIT_INVALID`, `m_pocCRA` to 0); the skip count `iSkipFrame`,
`iPOCLastDisplay`, the pool and the current picture are unchanged. -/
theorem decode_end_of_sequence (cfg : Config) (s : DecLib) (nalu : InputNALUnit)
    (payload : NalPayload) (env : SliceEnv) (fuel : Nat) (iSkipFrame iPOCLastDisplay : Int)
    (hlayer : nalu.m_nuhLayerId = 0) (hty : nalu.m_nalUnitType = .NAL_UNIT_EOS) :
    ∃ r, s.decode cfg nalu payload env fuel iSkipFrame iPOCLastDisplay = some (.ok r) ∧
      r.ret = false ∧ r.dec.m_pocRandomAccess = MAX_INT ∧ r.dec.m_prevPOC = MAX_INT ∧
      r.dec.m_prevSliceSkipped = false ∧ r.dec.m_skippedPOC = 0 ∧
      r.dec.m_associatedIRAPType = .NAL_UNIT_INVALID ∧ r.dec.m_pocCRA = 0 ∧
      r.iSkipFrame = iSkipFrame ∧ r.iPOCLastDisplay = iPOCLastDisplay ∧
      r.dec.m_cListPic = s.m_cListPic ∧ r.dec.m_pcPic = s.m_pcPic ∧
      r.dec.m_parameterSetManager = s.m_parameterSetManager ∧
      r.dec.m_prefixSEINALUs = s.m_prefixSEINALUs :=
  ⟨_, decode_eos_eq cfg s nalu payload env fuel iSkipFrame iPOCLastDisplay hlayer hty,
    rfl, rfl, rfl, rfl, rfl, rfl, rfl, rfl, rfl, rfl, rfl, rfl, rfl⟩

/-- Witness of the amended C29: after the picture of POC 8 (anchor 8, `m_prevPOC`
8), an end-of-sequence unit unsets the anchor and `m_prevPOC` and keeps the pool. -/
theorem decode_end_of_sequence_witness :
    ∃ r, stLeading.decode {} { m_nalUnitType := .NAL_UNIT_EOS } {} envB 0 0 5 = some (.ok r) ∧
      r.ret = false ∧ r.dec.m_pocRandomAccess = MAX_INT ∧ r.dec.m_prevPOC = MAX_INT ∧
      r.iSkipFrame = 0 ∧ r.dec.m_cListPic = [picBusy 0 8] :=
  (decode_end_of_sequence {} stLeading { m_nalUnitType := .NAL_UNIT_EOS } {} envB 0 0 5 rfl
    rfl).imp fun _ h => ⟨h.1, h.2.1, h.2.2.1, h.2.2.2.1, h.2.2.2.2.2.2.2.2.1,
      h.2.2.2.2.2.2.2.2.2.2.1⟩

/-- Counterexample to C30: a NAL unit of layer 0 whose type `NAL_UNIT_INVALID` is no
case label of `decode` raises the error of the `default` branch. -/
theorem decode_invalid_type_throws :
    ({} : DecLib).decode {} { m_nalUnitType := .NAL_UNIT_INVALID } {} envB 0 0 0
      = some (.error "Invalid NAL unit type") := by
  rfl

/-- Claim C30, amended. Reserved and unspecified unit types are not fatal: for every
NAL unit of layer 0 whose type is a reserved non-VCL type or an unspecified type,
and for every reserved VCL type when no prefix SEI NAL unit is buffered, `decode`
discards the unit: it returns false without an error and leaves the decoder,
`iSkipFrame` and `iPOCLastDisplay` unchanged. A type that is no case label of
`decode` raises the error `Invalid NAL unit type`. -/
theorem decode_reserved_unspecified (cfg : Config) (s : DecLib) (nalu : InputNALUnit)
    (payload : NalPayload) (env : SliceEnv) (fuel : Nat) (iSkipFrame iPOCLastDisplay : Int)
    (hlayer : nalu.m_nuhLayerId = 0) :
    ((isReservedNVCL cfg nalu.m_nalUnitType = true ∨ isUnspecified cfg nalu.m_nalUnitType = true ∨
        (isReservedVCL cfg nalu.m_nalUnitType = true ∧ s.m_prefixSEINALUs = [])) →
      s.decode cfg nalu payload env fuel iSkipFrame iPOCLastDisplay
        = some (.ok { ret := false, dec := s, iSkipFrame := iSkipFrame,
                      iPOCLastDisplay := iPOCLastDisplay })) ∧
    (isCaseLabel cfg nalu.m_nalUnitType = false →
      s.decode cfg nalu payload env fuel iSkipFrame iPOCLastDisplay
        = some (.error "Invalid NAL unit type")) := by
  have h := decode_by_label cfg s nalu payload env fuel iSkipFrame iPOCLastDisplay hlayer
  refine ⟨?_, h.2.2⟩
  rintro (hn | hu | ⟨hv, hq⟩)
  · rw [h.1 (by simp [hn])]
    rfl
  · rw [h.1 (by simp [hu])]
    rfl
  · rw [h.2.1 hv]
    unfold DecLib.reservedVCL
    rw [xParsePrefixSEIsForUnknownVCLNal_empty s fuel hq]
    rfl

/-- Witness of the amended C30: after the picture of POC 8, a unit of the
unspecified type 28, of the reserved non-VCL type 16 and of the reserved VCL type 4
is discarded, and the decoder is unchanged. -/
theorem decode_reserved_unspecified_witness :
    stLeading.decode {} { m_nalUnitType := .NAL_UNIT_UNSPECIFIED_28 } {} envB 0 0 5
      = some (.ok { ret := false, dec := stLeading, iSkipFrame := 0, iPOCLastDisplay := 5 }) ∧
    stLeading.decode {} { m_nalUnitType := .NAL_UNIT_RESERVED_NVCL16 } {} envB 0 0 5
      = some (.ok { ret := false, dec := stLeading, iSkipFrame := 0, iPOCLastDisplay := 5 }) ∧
    stLeading.decode {} { m_nalUnitType := .NAL_UNIT_RESERVED_VCL_4 } {} envB 0 0 5
      = some (.ok { ret := false, dec := stLeading, iSkipFrame := 0, iPOCLastDisplay := 5 }) :=
  ⟨(decode_reserved_unspecified {} stLeading { m_nalUnitType := .NAL_UNIT_UNSPECIFIED_28 } {}
      envB 0 0 5 rfl).1 (Or.inr (Or.inl rfl)),
   (decode_reserved_unspecified {} stLeading { m_nalUnitType := .NAL_UNIT_RESERVED_NVCL16 } {}
      envB 0 0 5 rfl).1 (Or.inl rfl),
   (decode_reserved_unspecified {} stLeading { m_nalUnitType := .NAL_UNIT_RESERVED_VCL_4 } {}
      envB 0 0 5 rfl).1 (Or.inr (Or.inr ⟨rfl, rfl⟩))⟩

/-! ## Claims on the output pass, the prefix SEI queue and the pool frame -/

theorem emitLoop_last_mono (r m : Nat) (ps : List Picture) (st : OutputState) :
    st.iPOCLastDisplay ≤ (emitLoop r m ps st).2.iPOCLastDisplay := by
  induction ps generalizing st with
  | nil => simp [emitLoop]
  | cons p ps ih =>
    rw [emitLoop]
    split
    · rename_i hc
      have hp := (emitCond_awaits r m p st hc).1
      simp only [awaitsOutput, Bool.and_eq_true, decide_eq_true_eq] at hp
      have hle : p.getPOC ≤ (emitLoop r m ps (emitState p st)).2.iPOCLastDisplay :=
        ih (emitState p st)
      show st.iPOCLastDisplay ≤ (emitLoop r m ps (emitState p st)).2.iPOCLastDisplay
      omega
    · exact ih st

/-- After the emitting loop, at most `r` entries await output. -/
theorem emitLoop_bound (r m : Nat) (ps : List Picture) (st : OutputState)
    (hcnt : CntInv ps st) (hnum : st.numPicsNotYetDisplayed < 4294967296) :
    (emitLoop r m ps st).1.countP (awaitsOutput (emitLoop r m ps st).2.iPOCLastDisplay) ≤ r := by
  induction ps generalizing st with
  | nil => simp [emitLoop]
  | cons p ps ih =>
    by_cases hc : emitCond r m p st = true
    · have hcnt2 := emitState_cntInv r m p ps st hc hcnt
      have hnum2 : (emitState p st).numPicsNotYetDisplayed < 4294967296 := by
        simp only [emitState]
        omega
      have := ih (emitState p st) hcnt2 hnum2
      rw [emitLoop]
      simp only [hc, if_true, List.countP_cons]
      have hno : awaitsOutput (emitLoop r m ps (emitState p st)).2.iPOCLastDisplay
          (emitPicture p) = false := by
        simp [awaitsOutput, emitPicture]
      simp only [hno, Bool.false_eq_true, if_false]
      omega
    · by_cases ha : awaitsOutput st.iPOCLastDisplay p = true
      · have hnn : 0 ≤ st.numPicsNotYetDisplayed := by
          have := hcnt.1
          omega
        have hidle : toUInt32 st.numPicsNotYetDisplayed ≤ r ∧ toUInt32 st.dpbFullness ≤ m := by
          unfold emitCond at hc
          unfold awaitsOutput at ha
          simp only [ha, Bool.true_and, Bool.or_eq_true, decide_eq_true_eq, not_or, not_lt] at hc
          exact hc
        rw [emitLoop_idle r m (p :: ps) st hidle.1 hidle.2]
        have h1 := hcnt.1
        have h2 := toUInt32_of_range st.numPicsNotYetDisplayed hnn hnum
        have h3 : (toUInt32 st.numPicsNotYetDisplayed : Int) ≤ r := by exact_mod_cast hidle.1
        simp only
        omega
      · have hcnt2 := cntInv_tail p ps st hcnt
        have := ih st hcnt2 hnum
        have hmono := emitLoop_last_mono r m ps st
        rw [emitLoop]
        simp only [hc, Bool.false_eq_true, if_false, List.countP_cons]
        have hno : awaitsOutput (emitLoop r m ps st).2.iPOCLastDisplay p = false := by
          cases h : awaitsOutput (emitLoop r m ps st).2.iPOCLastDisplay p
          · rfl
          · exact absurd (awaitsOutput_mono _ _ hmono p h) ha
        simp only [hno, Bool.false_eq_true, if_false]
        omega

theorem passStart_num (pool : List Picture) (last : Int) :
    (passStart pool last).numPicsNotYetDisplayed ≤ pool.length := by
  have h := (countLoop_counts pool last).1
  simp only [passStart, h]
  exact_mod_cast List.countP_le_length _

/-- Claim C31. Reorder bound after an output pass: on a pool of fewer than 2^31
entries (the counters are `int`) whose inspected entry is a frame picture, the
block "write output" of `tryDecodePicture` raises no error, and afterwards the
number of pool entries with `neededForOutput && POC > iPOCLastDisplay` is at most
`numReorderPics` of the highest temporal sub-layer. The bound holds for every
order of the pool, in particular for a pool sorted by ascending POC with pairwise
distinct POCs. -/
theorem outputPass_reorder_bound (front : Picture) (rest : List Picture) (last : Int)
    (hlen : (front :: rest).length < 2147483648)
    (hframe : (inspectedPic front rest
      (countLoop last (front :: rest) {}).numPicsNotYetDisplayed).fieldPic = false) :
    ∃ pool st, outputPass (front :: rest) last = .ok (pool, st) ∧
      pool.countP (fun p => p.neededForOutput && decide (p.getPOC > st.iPOCLastDisplay))
        ≤ front.sps.getNumReorderPics (highestTid front.sps) := by
  have hok : outputPass (front :: rest) last
      = .ok (emitLoop (frontNumReorderPics (front :: rest))
          (frontMaxDecPicBuffering (front :: rest)) (front :: rest)
          (passStart (front :: rest) last)) := by
    rw [outputPass_cons]
    simp only [hframe, Bool.and_false, Bool.false_eq_true, if_false, Bool.not_false, if_true]
  have hnum := passStart_num (front :: rest) last
  exact ⟨_, _, hok, emitLoop_bound _ _ (front :: rest) (passStart (front :: rest) last)
    (passStart_cntInv (front :: rest) last) (by omega)⟩

/-- Witness of C31: on three pictures of POC 2, 4 and 8 that await output, with
`numReorderPics = 1`, the pass leaves at most one picture that awaits output. -/
theorem outputPass_reorder_bound_witness :
    ∃ pool st, outputPass [picPending 0 2, picPending 1 4, picPending 2 8] (-1)
        = .ok (pool, st) ∧
      pool.countP (fun p => p.neededForOutput && decide (p.getPOC > st.iPOCLastDisplay)) ≤ 1 :=
  outputPass_reorder_bound (picPending 0 2) [picPending 1 4, picPending 2 8] (-1) (by decide)
    (by decide)

/-- With a buffered prefix SEI NAL unit the loop of
`xParsePrefixSEIsForUnknownVCLNal` is still running after any number of
iterations. -/
theorem xParsePrefixSEIsForUnknownVCLNal_queued (s : DecLib) (fuel : Nat)
    (h : s.m_prefixSEINALUs ≠ []) : s.xParsePrefixSEIsForUnknownVCLNal fuel = none := by
  have he : s.m_prefixSEINALUs.isEmpty = false := by
    cases hq : s.m_prefixSEINALUs with
    | nil => exact absurd hq h
    | cons a l => rfl
  induction fuel with
  | zero => simp [DecLib.xParsePrefixSEIsForUnknownVCLNal, he]
  | succ n ih => simp [DecLib.xParsePrefixSEIsForUnknownVCLNal, he, ih]

/-- Claim C32, failing input. A prefix SEI NAL unit dispatched after the picture of
POC 8 is buffered in `m_prefixSEINALUs`; a reserved VCL NAL unit dispatched next
does not return: the loop of `xParsePrefixSEIsForUnknownVCLNal` is still running
after every number of iterations, and the queue is never emptied. -/
theorem decode_reserved_vcl_never_returns :
    stLeading.decode {} { m_nalUnitType := .NAL_UNIT_PREFIX_SEI }
        { seis := [{ payloadType := .other 5 }] } envB 0 0 5
      = some (.ok { ret := false, dec := stQueued, iSkipFrame := 0, iPOCLastDisplay := 5 }) ∧
    ∀ fuel, stQueued.decode {} { m_nalUnitType := .NAL_UNIT_RESERVED_VCL_4 } {} envB fuel 0 5
      = none := by
  refine ⟨rfl, fun fuel => ?_⟩
  have h := (decode_by_label {} stQueued { m_nalUnitType := .NAL_UNIT_RESERVED_VCL_4 } {} envB
    fuel 0 5 rfl).2.1 rfl
  rw [h]
  unfold DecLib.reservedVCL
  rw [xParsePrefixSEIsForUnknownVCLNal_queued stQueued fuel (by decide)]

/-- Claim C33. Field-picture guard of the output pass: the pass inspects the second
pool entry when more than 2 pictures await output and the first entry otherwise; when
more than 2 pictures await output and the inspected entry is a field picture the
pass raises the error of line 292; when the inspected entry is a field picture and
at most 2 pictures await output, nothing is emitted and the pool, the counters and
`iPOCLastDisplay` are unchanged; pictures are emitted only when the inspected entry
is a frame picture. -/
theorem outputPass_field_guard (front : Picture) (rest : List Picture) (last : Int) :
    let n := (countLoop last (front :: rest) {}).numPicsNotYetDisplayed
    let pcCurPic := inspectedPic front rest n
    (n = ((front :: rest).countP
        (fun p => p.neededForOutput && decide (p.getPOC > last)) : Nat)) ∧
    (n > 2 → ∃ second tail, rest = second :: tail ∧ pcCurPic = second) ∧
    (n ≤ 2 → pcCurPic = front) ∧
    (n > 2 → pcCurPic.fieldPic = true →
      outputPass (front :: rest) last = .error "no field coding support ") ∧
    (n ≤ 2 → pcCurPic.fieldPic = true →
      outputPass (front :: rest) last
        = .ok (front :: rest, passStart (front :: rest) last)) ∧
    (∀ pool st, outputPass (front :: rest) last = .ok (pool, st) → st.emitted ≠ [] →
      pcCurPic.fieldPic = false) := by
  intro n pcCurPic
  have hn := (countLoop_counts (front :: rest) last).1
  refine ⟨hn, ?_, ?_, ?_, ?_, ?_⟩
  · intro h
    cases rest with
    | nil =>
      exfalso
      have hle : (([front] : List Picture).countP
          (fun p => p.neededForOutput && decide (p.getPOC > last))) ≤ 1 :=
        List.countP_le_length _
      have h2 : n = _ := hn
      omega
    | cons second tail =>
      refine ⟨second, tail, rfl, ?_⟩
      show inspectedPic front (second :: tail) n = second
      simp [inspectedPic, h]
  · intro h
    show inspectedPic front rest n = front
    have : ¬ n > 2 := by omega
    simp [inspectedPic, this]
  · intro h hf
    rw [outputPass_cons]
    have hf2 : (inspectedPic front rest
      (countLoop last (front :: rest) {}).numPicsNotYetDisplayed).fieldPic = true := hf
    have h2 : (countLoop last (front :: rest) {}).numPicsNotYetDisplayed > 2 := h
    simp [hf2, h2]
  · intro h hf
    rw [outputPass_cons]
    have hf2 : (inspectedPic front rest
      (countLoop last (front :: rest) {}).numPicsNotYetDisplayed).fieldPic = true := hf
    have h2 : ¬ (countLoop last (front :: rest) {}).numPicsNotYetDisplayed > 2 := by
      have : n ≤ 2 := h
      exact not_lt.mpr this
    simp only [hf2, h2, decide_False, Bool.false_and, Bool.false_eq_true, if_false,
      Bool.not_true]
  · intro pool st hok hem
    rw [outputPass_cons] at hok
    show (inspectedPic front rest
      (countLoop last (front :: rest) {}).numPicsNotYetDisplayed).fieldPic = false
    cases hf : (inspectedPic front rest
      (countLoop last (front :: rest) {}).numPicsNotYetDisplayed).fieldPic
    · rfl
    · exfalso
      simp only [hf, Bool.and_true, decide_eq_true_eq, Bool.not_true, Bool.false_eq_true,
        if_false] at hok
      split at hok
      · cases hok
      · simp only [Except.ok.injEq, Prod.mk.injEq] at hok
        apply hem
        rw [← hok.2]
        rfl

/-- Witness of C33: with three pictures awaiting output the second entry is
inspected, and a field picture there raises the error; with two pictures awaiting
output the first entry is inspected, and a field picture there leaves the pool as it
is. -/
theorem outputPass_field_guard_witness :
    outputPass [picPending 0 2, picField 1 4, picPending 2 8] (-1)
      = .error "no field coding support " ∧
    outputPass [picField 0 2, picPending 1 4] (-1)
      = .ok ([picField 0 2, picPending 1 4],
          { iPOCLastDisplay := -1, numPicsNotYetDisplayed := 2, dpbFullness := 2 }) :=
  ⟨(outputPass_field_guard (picPending 0 2) [picField 1 4, picPending 2 8] (-1)).2.2.2.1
      (by decide) rfl,
   (outputPass_field_guard (picField 0 2) [picPending 1 4] (-1)).2.2.2.2.1 (by decide) rfl⟩

/-- Claim C34. Frame condition of `xGetNewPicBuffer`: the call removes and reorders
no pool entry. Either one picture, the returned one, is appended at the end of the
pool and every entry of the old pool is unchanged, or the pool keeps its length and
differs from the old pool only at the position of the returned picture, which keeps
its address, its `referenced` flag and its POC. In both cases the returned picture
is an element of the resulting pool, and every entry of the old pool other than the
returned picture is unchanged, with its `referenced`, `reconstructed` and
`neededForOutput` flags and its POC. -/
theorem xGetNewPicBuffer_frame (s : DecLib) (sps : SPS) (t : Nat) (rawPoc : Int) :
    ((∃ pcPic, (s.xGetNewPicBuffer sps t rawPoc).1.m_cListPic = s.m_cListPic ++ [pcPic] ∧
        pcPic.addr = (s.xGetNewPicBuffer sps t rawPoc).2 ∧ pcPic.addr = s.nextAddr) ∨
      (∃ pre p q post, s.m_cListPic = pre ++ p :: post ∧
        (s.xGetNewPicBuffer sps t rawPoc).1.m_cListPic = pre ++ q :: post ∧
        q.addr = p.addr ∧ q.addr = (s.xGetNewPicBuffer sps t rawPoc).2 ∧
        q.referenced = p.referenced ∧ q.getPOC = p.getPOC)) ∧
    (∃ y ∈ (s.xGetNewPicBuffer sps t rawPoc).1.m_cListPic,
      y.addr = (s.xGetNewPicBuffer sps t rawPoc).2) ∧
    List.Forall₂
      (fun p q => q.addr = p.addr ∧ (q.addr ≠ (s.xGetNewPicBuffer sps t rawPoc).2 →
        q = p ∧ q.referenced = p.referenced ∧ q.reconstructed = p.reconstructed ∧
        q.neededForOutput = p.neededForOutput ∧ q.getPOC = p.getPOC))
      s.m_cListPic ((s.xGetNewPicBuffer sps t rawPoc).1.m_cListPic.take s.m_cListPic.length) := by
  have hrefl : ∀ (a : Nat) (l : List Picture), List.Forall₂
      (fun p q => q.addr = p.addr ∧ (q.addr ≠ a →
        q = p ∧ q.referenced = p.referenced ∧ q.reconstructed = p.reconstructed ∧
        q.neededForOutput = p.neededForOutput ∧ q.getPOC = p.getPOC)) l l := by
    intro a l
    induction l with
    | nil => exact List.Forall₂.nil
    | cons x l ih => exact List.Forall₂.cons ⟨rfl, fun _ => ⟨rfl, rfl, rfl, rfl, rfl⟩⟩ ih
  by_cases hlen : s.m_cListPic.length < sps.getMaxDecPicBuffering t
  · rw [xGetNewPicBuffer_fresh s sps t rawPoc hlen]
    refine ⟨Or.inl ⟨_, rfl, rfl, rfl⟩,
      ⟨(Picture.new s.nextAddr rawPoc).create sps, by simp, rfl⟩, ?_⟩
    simp only [List.take_left']
    exact hrefl _ _
  · cases hf : s.m_cListPic.find? Picture.reusable with
    | none =>
      have hnone : ∀ p ∈ s.m_cListPic, p.reusable = false := fun p hp => by
        simpa using (List.find?_eq_none.mp hf) p hp
      rw [xGetNewPicBuffer_extension s sps t rawPoc hlen hnone]
      refine ⟨Or.inl ⟨_, rfl, rfl, rfl⟩,
      ⟨(Picture.new s.nextAddr rawPoc).create sps, by simp, rfl⟩, ?_⟩
      simp only [List.take_left']
      exact hrefl _ _
    | some p =>
      obtain ⟨hp, pre, post, hl, hpre⟩ := List.find?_eq_some.mp hf
      have hpre2 : ∀ q ∈ pre, q.reusable = false := fun q hq => by simpa using hpre q hq
      rw [xGetNewPicBuffer_reuse s sps t rawPoc pre p post hlen hl hpre2 hp]
      have hfl := prepareReused_flags sps (scanBody p)
      have hsb := scanBody_fields p
      have haddr : (prepareReused sps (scanBody p)).addr = p.addr := by rw [hfl.2.2.1, hsb.1]
      refine ⟨Or.inr ⟨pre, p, _, post, hl, rfl, haddr, haddr, ?_, ?_⟩, ⟨prepareReused sps (scanBody p), by simp, haddr⟩, ?_⟩
      · rw [hfl.2.2.2.1, hsb.2.1]
      · show (prepareReused sps (scanBody p)).poc = p.poc
        rw [hfl.2.2.2.2, hsb.2.2]
      · have hlen2 : s.m_cListPic.length = (pre ++ prepareReused sps (scanBody p) :: post).length := by
          rw [hl]
          simp
        simp only
        rw [hlen2, List.take_length, hl]
        exact List.rel_append (hrefl _ pre)
          (List.Forall₂.cons ⟨haddr, fun hne => absurd haddr hne⟩ (hrefl _ post))

/-! ## Claims on the reference lists and on pictures not to be output -/

theorem lowDelayLoop_false (cur : Int) (l : List Int) : lowDelayLoop cur l false = false := by
  cases l <;> simp [lowDelayLoop]

theorem lowDelayLoop_true (cur : Int) (l : List Int) :
    lowDelayLoop cur l true = true ↔ ∀ poc ∈ l, ¬ poc > cur := by
  induction l with
  | nil => simp [lowDelayLoop]
  | cons poc rest ih =>
    rw [lowDelayLoop]
    by_cases h : poc > cur
    · simp [h, lowDelayLoop_false]
    · simp only [h, if_true, if_false, ih, List.mem_cons, forall_eq_or_imp, not_false_eq_true,
        true_and]

/-- The value of `CheckLDC` after lines 1269–1294 for a slice that is not intra. -/
theorem lowDelayCheck_checkLDC (sl : RefSlice) (hinter : sl.isIntra = false) :
    sl.lowDelayCheck.checkLDC = true ↔
      ((∀ poc ∈ sl.refPOC0, ¬ poc > sl.poc) ∧
       (sl.isInterB = true → ∀ poc ∈ sl.refPOC1, ¬ poc > sl.poc)) := by
  unfold RefSlice.lowDelayCheck
  simp only [hinter, Bool.not_false, if_true]
  cases hb : sl.isInterB
  · simp only [Bool.false_eq_true, if_false, lowDelayLoop_true, false_imp_iff, and_true]
  · simp only [if_true, true_imp_iff]
    cases h0 : lowDelayLoop sl.poc sl.refPOC0 true
    · rw [lowDelayLoop_false]
      have := (lowDelayLoop_true sl.poc sl.refPOC0).not.mp (by simp [h0])
      constructor
      · intro h
        cases h
      · intro h
        exact absurd h.1 this
    · rw [lowDelayLoop_true]
      have := (lowDelayLoop_true sl.poc sl.refPOC0).mp h0
      constructor
      · intro h
        exact ⟨this, h⟩
      · intro h
        exact h.2

/-- Claim C36. Low-delay check: for a slice that is not intra (and that is no
dependent slice segment in a build with `HEVC_DEPENDENT_SLICES`, where lines
1262–1381 are skipped for such a segment), `xDecodeSlice` sets `CheckLDC` to true if
and only if no reference picture of list 0, among the indices below
`NumRefIdx(L0)`, and for a B slice no reference picture of list 1 either, has a POC
greater than the POC of the slice. -/
theorem lowDelayCheck_iff (cfg : Config) (sl : RefSlice) (hinter : sl.isIntra = false)
    (hseg : (cfg.HEVC_DEPENDENT_SLICES && sl.dependentSliceSegmentFlag) = false) :
    (sl.refListStage cfg).checkLDC = true ↔
      ((∀ poc ∈ sl.refPOC0, ¬ poc > sl.poc) ∧
       (sl.isInterB = true → ∀ poc ∈ sl.refPOC1, ¬ poc > sl.poc)) := by
  have h : (sl.refListStage cfg).checkLDC = sl.lowDelayCheck.checkLDC := by
    unfold RefSlice.refListStage
    rw [hseg]
    rfl
  rw [h]
  exact lowDelayCheck_checkLDC sl hinter

/-- Witness of C36: a B slice of POC 4 with the reference POCs 2 and 0 in list 0 and
8 in list 1 is not low delay; the P slice with the same list 0 is. -/
theorem lowDelayCheck_iff_witness :
    ((({ poc := 4, isInterB := true, refPOC0 := [2, 0], refPOC1 := [8] } :
        RefSlice).refListStage {}).checkLDC = true ↔
      ((∀ poc ∈ [(2 : Int), 0], ¬ poc > 4) ∧ (true = true → ∀ poc ∈ [(8 : Int)], ¬ poc > 4))) ∧
    (({ poc := 4, isInterB := true, refPOC0 := [2, 0], refPOC1 := [8] } :
        RefSlice).refListStage {}).checkLDC = false ∧
    (({ poc := 4, refPOC0 := [2, 0], refPOC1 := [8] } : RefSlice).refListStage {}).checkLDC
      = true :=
  ⟨lowDelayCheck_iff {} { poc := 4, isInterB := true, refPOC0 := [2, 0], refPOC1 := [8] } rfl
      rfl,
    by decide, by decide⟩

/-- Claim C37. `checkNoOutputPriorPics`: when `m_isNoOutputPriorPics` is set and the
list is not null, the list keeps its entries in place, `neededForOutput` is false
afterwards for every picture whose POC differs from `m_lastPOCNoOutputPriorPics`, a
picture with that POC is unchanged, and no other member of a picture (`referenced`
and `reconstructed` among them) changes; when `m_isNoOutputPriorPics` is not set or
the list is null, nothing changes. -/
theorem checkNoOutputPriorPics_effect (s : DecLib) (pcListPic : Option (List Picture)) :
    (s.m_isNoOutputPriorPics = false → s.checkNoOutputPriorPics pcListPic = pcListPic) ∧
    (s.checkNoOutputPriorPics none = none) ∧
    (s.m_isNoOutputPriorPics = true → ∀ l, pcListPic = some l →
      ∃ l2, s.checkNoOutputPriorPics pcListPic = some l2 ∧
        List.Forall₂ (fun p q =>
          (p.getPOC ≠ s.m_lastPOCNoOutputPriorPics →
            q = { p with neededForOutput := false }) ∧
          (p.getPOC = s.m_lastPOCNoOutputPriorPics → q = p) ∧
          q.referenced = p.referenced ∧ q.reconstructed = p.reconstructed ∧
          q.getPOC = p.getPOC ∧ q.addr = p.addr) l l2) := by
  refine ⟨?_, rfl, ?_⟩
  · intro h
    cases pcListPic with
    | none => rfl
    | some l => simp [DecLib.checkNoOutputPriorPics, h]
  · intro h l hl
    subst hl
    refine ⟨l.map (noOutputPrior s.m_lastPOCNoOutputPriorPics), ?_, ?_⟩
    · simp [DecLib.checkNoOutputPriorPics, h]
    · induction l with
      | nil => exact List.Forall₂.nil
      | cons p l ih =>
        refine List.Forall₂.cons ?_ ih
        by_cases hp : s.m_lastPOCNoOutputPriorPics = p.getPOC
        · have he : noOutputPrior s.m_lastPOCNoOutputPriorPics p = p := by
            unfold noOutputPrior
            simp only [hp, ne_eq, not_true_eq_false, if_false]
          rw [he]
          exact ⟨fun h => absurd hp.symm h, fun _ => rfl, rfl, rfl, rfl, rfl⟩
        · have he : noOutputPrior s.m_lastPOCNoOutputPriorPics p
              = { p with neededForOutput := false } := by
            unfold noOutputPrior
            simp only [ne_eq, hp, not_false_eq_true, if_true]
          rw [he]
          exact ⟨fun _ => rfl, fun h => absurd h.symm hp, rfl, rfl, rfl, rfl⟩

/-- Witness of C37: with `m_lastPOCNoOutputPriorPics = 8` set, the picture of POC 4
that awaits output is no longer needed for output and the picture of POC 8 is
unchanged. -/
theorem checkNoOutputPriorPics_effect_witness :
    ({ m_isNoOutputPriorPics := true, m_lastPOCNoOutputPriorPics := 8 } :
        DecLib).checkNoOutputPriorPics (some [picBusy 0 4, picBusy 1 8])
      = some [{ picBusy 0 4 with neededForOutput := false }, picBusy 1 8] ∧
    ∃ l2, ({ m_isNoOutputPriorPics := true, m_lastPOCNoOutputPriorPics := 8 } :
        DecLib).checkNoOutputPriorPics (some [picBusy 0 4, picBusy 1 8]) = some l2 ∧
      l2.map Picture.referenced = [true, true] :=
  ⟨by decide,
   match (checkNoOutputPriorPics_effect
      { m_isNoOutputPriorPics := true, m_lastPOCNoOutputPriorPics := 8 }
      (some [picBusy 0 4, picBusy 1 8])).2.2 rfl _ rfl with
   | ⟨l2, h, _⟩ => ⟨l2, h, by
      have e : some _ = some l2 := h
      cases e
      decide⟩⟩

theorem nearestForward_inv (cur : Int) (l pre : List Int) (st : Int × Int)
    (h : FwdInv cur pre st) :
    FwdInv cur (pre ++ l) (nearestForward cur l (pre.length : Int) st) := by
  induction l generalizing pre st with
  | nil => simpa [nearestForward] using h
  | cons poc rest ih =>
    rw [nearestForward]
    have hlen : ((pre ++ [poc]).length : Int) = (pre.length : Int) + 1 := by simp
    have happ : pre ++ poc :: rest = (pre ++ [poc]) ++ rest := by simp
    rw [happ, ← hlen]
    split
    · rename_i hc
      simp only [Bool.and_eq_true, decide_eq_true_eq, Bool.or_eq_true, beq_iff_eq] at hc
      apply ih
      right
      refine ⟨pre.length, rfl, by simp, hc.1, ?_⟩
      intro q hq hqc
      simp only [List.mem_append, List.mem_singleton] at hq
      rcases hq with hq | rfl
      · rcases h with ⟨_, _, h3⟩ | ⟨i, _, _, _, h4⟩
        · exact absurd hqc (h3 q hq)
        · rcases hc.2 with h5 | h5
          · have := h4 q hq hqc
            simp only
            omega
          · omega
      · exact le_refl _
    · rename_i hc
      simp only [Bool.and_eq_true, decide_eq_true_eq, Bool.or_eq_true, beq_iff_eq, not_and,
        not_or, not_lt] at hc
      apply ih
      rcases h with ⟨h1, h2, h3⟩ | ⟨i, h1, h2, h3, h4⟩
      · left
        refine ⟨h1, h2, ?_⟩
        intro q hq
        simp only [List.mem_append, List.mem_singleton] at hq
        rcases hq with hq | rfl
        · exact h3 q hq
        · intro hlt
          exact (hc hlt).2 h1
      · right
        refine ⟨i, h1, ?_, h3, ?_⟩
        · have hi : i < pre.length := by
            by_contra hge
            rw [List.get?_eq_none.mpr (by omega)] at h2
            cases h2
          rw [List.get?_eq_getElem?] at h2 ⊢
          rw [List.getElem?_append_left hi]
          exact h2
        · intro q hq hqc
          simp only [List.mem_append, List.mem_singleton] at hq
          rcases hq with hq | rfl
          · exact h4 q hq hqc
          · exact (hc hqc).1

theorem nearestBackward_inv (cur : Int) (l pre : List Int) (st : Int × Int)
    (h : BwdInv cur pre st) :
    BwdInv cur (pre ++ l) (nearestBackward cur l (pre.length : Int) st) := by
  induction l generalizing pre st with
  | nil => simpa [nearestBackward] using h
  | cons poc rest ih =>
    rw [nearestBackward]
    have hlen : ((pre ++ [poc]).length : Int) = (pre.length : Int) + 1 := by simp
    have happ : pre ++ poc :: rest = (pre ++ [poc]) ++ rest := by simp
    rw [happ, ← hlen]
    split
    · rename_i hc
      simp only [Bool.and_eq_true, decide_eq_true_eq, Bool.or_eq_true, beq_iff_eq] at hc
      apply ih
      right
      refine ⟨pre.length, rfl, by simp, hc.1, ?_⟩
      intro q hq hqc
      simp only [List.mem_append, List.mem_singleton] at hq
      rcases hq with hq | rfl
      · rcases h with ⟨_, _, h3⟩ | ⟨i, _, _, _, h4⟩
        · exact absurd hqc (h3 q hq)
        · rcases hc.2 with h5 | h5
          · have := h4 q hq hqc
            simp only
            omega
          · omega
      · exact le_refl _
    · rename_i hc
      simp only [Bool.and_eq_true, decide_eq_true_eq, Bool.or_eq_true, beq_iff_eq, not_and,
        not_or, not_lt] at hc
      apply ih
      rcases h with ⟨h1, h2, h3⟩ | ⟨i, h1, h2, h3, h4⟩
      · left
        refine ⟨h1, h2, ?_⟩
        intro q hq
        simp only [List.mem_append, List.mem_singleton] at hq
        rcases hq with hq | rfl
        · exact h3 q hq
        · intro hlt
          exact (hc hlt).2 h1
      · right
        refine ⟨i, h1, ?_, h3, ?_⟩
        · have hi : i < pre.length := by
            by_contra hge
            rw [List.get?_eq_none.mpr (by omega)] at h2
            cases h2
          rw [List.get?_eq_getElem?] at h2 ⊢
          rw [List.getElem?_append_left hi]
          exact h2
        · intro q hq hqc
          simp only [List.mem_append, List.mem_singleton] at hq
          rcases hq with hq | rfl
          · exact h4 q hq hqc
          · exact (hc hqc).1

theorem nearestForward_result (cur : Int) (l : List Int) :
    ((nearestForward cur l 0 (cur, -1)).1 < cur ↔ ∃ q ∈ l, q < cur) ∧
    ((nearestForward cur l 0 (cur, -1)).1 < cur →
      NearestBelow cur l (nearestForward cur l 0 (cur, -1)).2) := by
  have h := nearestForward_inv cur l [] (cur, -1) (Or.inl ⟨rfl, rfl, by simp⟩)
  simp only [List.nil_append, List.length_nil, Nat.cast_zero] at h
  rcases h with ⟨h1, h2, h3⟩ | ⟨i, h1, h2, h3, h4⟩
  · constructor
    · constructor
      · intro hlt
        omega
      · rintro ⟨q, hq, hqc⟩
        exact absurd hqc (h3 q hq)
    · intro hlt
      omega
  · constructor
    · constructor
      · intro _
        exact ⟨_, List.get?_mem h2, h3⟩
      · intro _
        exact h3
    · intro _
      exact ⟨i, h1, _, h2, h3, h4⟩

theorem nearestBackward_result (cur : Int) (l : List Int) :
    ((nearestBackward cur l 0 (cur, -1)).1 > cur ↔ ∃ q ∈ l, q > cur) ∧
    ((nearestBackward cur l 0 (cur, -1)).1 > cur →
      NearestAbove cur l (nearestBackward cur l 0 (cur, -1)).2) := by
  have h := nearestBackward_inv cur l [] (cur, -1) (Or.inl ⟨rfl, rfl, by simp⟩)
  simp only [List.nil_append, List.length_nil, Nat.cast_zero] at h
  rcases h with ⟨h1, h2, h3⟩ | ⟨i, h1, h2, h3, h4⟩
  · constructor
    · constructor
      · intro hlt
        omega
      · rintro ⟨q, hq, hqc⟩
        exact absurd hqc (h3 q hq)
    · intro hlt
      omega
  · constructor
    · constructor
      · intro _
        exact ⟨_, List.get?_mem h2, h3⟩
      · intro _
        exact h3
    · intro _
      exact ⟨i, h1, _, h2, h3, h4⟩

/-- The search of lines 1306–1373 in terms of the two lists. -/
theorem smvdSearch_spec (cur : Int) (l0 l1 : List Int) :
    (((∃ q ∈ l0, q < cur) ∧ (∃ q ∈ l1, q > cur)) →
      (smvdSearch cur l0 l1).flag = true ∧
      NearestBelow cur l0 (smvdSearch cur l0 l1).refIdx0 ∧
      NearestAbove cur l1 (smvdSearch cur l0 l1).refIdx1) ∧
    (¬ ((∃ q ∈ l0, q < cur) ∧ (∃ q ∈ l1, q > cur)) →
      ((∃ q ∈ l0, q > cur) ∧ (∃ q ∈ l1, q < cur)) →
      (smvdSearch cur l0 l1).flag = true ∧
      NearestAbove cur l0 (smvdSearch cur l0 l1).refIdx0 ∧
      NearestBelow cur l1 (smvdSearch cur l0 l1).refIdx1) ∧
    (¬ ((∃ q ∈ l0, q < cur) ∧ (∃ q ∈ l1, q > cur)) →
      ¬ ((∃ q ∈ l0, q > cur) ∧ (∃ q ∈ l1, q < cur)) →
      smvdSearch cur l0 l1 = { flag := false, refIdx0 := -1, refIdx1 := -1 }) := by
  have f0 := nearestForward_result cur l0
  have b1 := nearestBackward_result cur l1
  have b0 := nearestBackward_result cur l0
  have f1 := nearestForward_result cur l1
  refine ⟨?_, ?_, ?_⟩
  · rintro ⟨hf, hb⟩
    have hf2 := f0.1.mpr hf
    have hb2 := b1.1.mpr hb
    unfold smvdSearch
    simp only [hf2, hb2, decide_True, Bool.and_self, Bool.not_true, Bool.false_eq_true, if_false,
      if_true]
    exact ⟨trivial, f0.2 hf2, b1.2 hb2⟩
  · intro hn hs
    have hcond : ¬ ((nearestForward cur l0 0 (cur, -1)).1 < cur ∧
        (nearestBackward cur l1 0 (cur, -1)).1 > cur) := by
      rw [f0.1, b1.1]
      exact hn
    have hb2 := b0.1.mpr hs.1
    have hf2 := f1.1.mpr hs.2
    unfold smvdSearch
    have hc : (decide ((nearestForward cur l0 0 (cur, -1)).1 < cur) &&
        decide ((nearestBackward cur l1 0 (cur, -1)).1 > cur)) = false := by
      simpa using hcond
    simp only [hc, Bool.not_false, if_true, hf2, hb2, decide_True, Bool.and_self]
    exact ⟨trivial, b0.2 hb2, f1.2 hf2⟩
  · intro hn hs
    have hcond : ¬ ((nearestForward cur l0 0 (cur, -1)).1 < cur ∧
        (nearestBackward cur l1 0 (cur, -1)).1 > cur) := by
      rw [f0.1, b1.1]
      exact hn
    have hcond2 : ¬ ((nearestForward cur l1 0 (cur, -1)).1 < cur ∧
        (nearestBackward cur l0 0 (cur, -1)).1 > cur) := by
      rw [f1.1, b0.1]
      exact fun h => hs ⟨h.2, h.1⟩
    unfold smvdSearch
    have hc : (decide ((nearestForward cur l0 0 (cur, -1)).1 < cur) &&
        decide ((nearestBackward cur l1 0 (cur, -1)).1 > cur)) = false := by
      simpa using hcond
    have hc2 : (decide ((nearestForward cur l1 0 (cur, -1)).1 < cur) &&
        decide ((nearestBackward cur l0 0 (cur, -1)).1 > cur)) = false := by
      simpa using hcond2
    simp only [hc, Bool.not_false, if_true, hc2, Bool.false_eq_true, if_false]

/-- Claim C35. Symmetric-MVD reference selection: when the search of lines
1306–1373 is made, a pair forward in list 0 and backward in list 1 is preferred:
if list 0 has a POC below and list 1 a POC above the current POC, `BiDirPred` is set
with the indices of the nearest such POC of each list; otherwise, if list 0 has a
POC above and list 1 a POC below the current POC, it is set with the indices of the
nearest such POC of each list; if neither orientation has a pair, `BiDirPred` is
false with indices (-1, -1). Whenever `BiDirPred` is true the two POCs lie strictly
on opposite sides of the current POC and each is the nearest of its list on its
side. When the search is not made, `BiDirPred` is false with indices (-1, -1). -/
theorem symmetricMvd_selection (cfg : Config) (sl : RefSlice) :
    let r := sl.symmetricMvd cfg
    let preferred := (∃ q ∈ sl.refPOC0, q < sl.poc) ∧ (∃ q ∈ sl.refPOC1, q > sl.poc)
    let swapped := (∃ q ∈ sl.refPOC0, q > sl.poc) ∧ (∃ q ∈ sl.refPOC1, q < sl.poc)
    (smvdEnabled cfg sl = true → preferred →
      r.biDirPred = true ∧ NearestBelow sl.poc sl.refPOC0 r.symRefIdx0 ∧
      NearestAbove sl.poc sl.refPOC1 r.symRefIdx1) ∧
    (smvdEnabled cfg sl = true → ¬ preferred → swapped →
      r.biDirPred = true ∧ NearestAbove sl.poc sl.refPOC0 r.symRefIdx0 ∧
      NearestBelow sl.poc sl.refPOC1 r.symRefIdx1) ∧
    (smvdEnabled cfg sl = true → ¬ preferred → ¬ swapped →
      r.biDirPred = false ∧ r.symRefIdx0 = -1 ∧ r.symRefIdx1 = -1) ∧
    (smvdEnabled cfg sl = false →
      r.biDirPred = false ∧ r.symRefIdx0 = -1 ∧ r.symRefIdx1 = -1) ∧
    (r.biDirPred = true →
      (NearestBelow sl.poc sl.refPOC0 r.symRefIdx0 ∧
        NearestAbove sl.poc sl.refPOC1 r.symRefIdx1) ∨
      (¬ preferred ∧ NearestAbove sl.poc sl.refPOC0 r.symRefIdx0 ∧
        NearestBelow sl.poc sl.refPOC1 r.symRefIdx1)) := by
  intro r preferred swapped
  have hs := smvdSearch_spec sl.poc sl.refPOC0 sl.refPOC1
  have hon : smvdEnabled cfg sl = true →
      r.biDirPred = (smvdSearch sl.poc sl.refPOC0 sl.refPOC1).flag ∧
      r.symRefIdx0 = (smvdSearch sl.poc sl.refPOC0 sl.refPOC1).refIdx0 ∧
      r.symRefIdx1 = (smvdSearch sl.poc sl.refPOC0 sl.refPOC1).refIdx1 := by
    intro he
    show (sl.symmetricMvd cfg).biDirPred = _ ∧ (sl.symmetricMvd cfg).symRefIdx0 = _ ∧
      (sl.symmetricMvd cfg).symRefIdx1 = _
    unfold RefSlice.symmetricMvd
    simp only [he, if_true, and_self]
  have hoff : smvdEnabled cfg sl = false →
      r.biDirPred = false ∧ r.symRefIdx0 = -1 ∧ r.symRefIdx1 = -1 := by
    intro he
    show (sl.symmetricMvd cfg).biDirPred = _ ∧ (sl.symmetricMvd cfg).symRefIdx0 = _ ∧
      (sl.symmetricMvd cfg).symRefIdx1 = _
    unfold RefSlice.symmetricMvd
    simp only [he, Bool.false_eq_true, if_false, and_self]
  have h1 : smvdEnabled cfg sl = true → preferred →
      r.biDirPred = true ∧ NearestBelow sl.poc sl.refPOC0 r.symRefIdx0 ∧
      NearestAbove sl.poc sl.refPOC1 r.symRefIdx1 := by
    intro he hp
    obtain ⟨e1, e2, e3⟩ := hon he
    rw [e1, e2, e3]
    exact hs.1 hp
  have h2 : smvdEnabled cfg sl = true → ¬ preferred → swapped →
      r.biDirPred = true ∧ NearestAbove sl.poc sl.refPOC0 r.symRefIdx0 ∧
      NearestBelow sl.poc sl.refPOC1 r.symRefIdx1 := by
    intro he hp hw
    obtain ⟨e1, e2, e3⟩ := hon he
    rw [e1, e2, e3]
    exact hs.2.1 hp hw
  have h3 : smvdEnabled cfg sl = true → ¬ preferred → ¬ swapped →
      r.biDirPred = false ∧ r.symRefIdx0 = -1 ∧ r.symRefIdx1 = -1 := by
    intro he hp hw
    obtain ⟨e1, e2, e3⟩ := hon he
    rw [e1, e2, e3, hs.2.2 hp hw]
    exact ⟨rfl, rfl, rfl⟩
  refine ⟨h1, h2, h3, hoff, ?_⟩
  intro ht
  cases he : smvdEnabled cfg sl with
  | false =>
    rw [(hoff he).1] at ht
    cases ht
  | true =>
    by_cases hp : preferred
    · exact Or.inl (h1 he hp).2
    · by_cases hw : swapped
      · exact Or.inr ⟨hp, (h2 he hp hw).2⟩
      · rw [(h3 he hp hw).1] at ht
        cases ht

/-- Witness of C35: for the B slice of POC 4 with list 0 = [2, 0] and list 1 =
[8, 6] the search sets `BiDirPred` with the indices 0 (POC 2) and 1 (POC 6). -/
theorem symmetricMvd_selection_witness :
    (slB.symmetricMvd {}).biDirPred = true ∧ (slB.symmetricMvd {}).symRefIdx0 = 0 ∧
    (slB.symmetricMvd {}).symRefIdx1 = 1 ∧
    NearestBelow 4 [2, 0] (slB.symmetricMvd {}).symRefIdx0 ∧
    NearestAbove 4 [8, 6] (slB.symmetricMvd {}).symRefIdx1 :=
  ⟨by decide, by decide, by decide,
    ((symmetricMvd_selection {} slB).1 rfl ⟨⟨2, by decide, by decide⟩,
      ⟨8, by decide, by decide⟩⟩).2.1,
    ((symmetricMvd_selection {} slB).1 rfl ⟨⟨2, by decide, by decide⟩,
      ⟨8, by decide, by decide⟩⟩).2.2⟩

/-! ## Claims on the candidate lists -/

theorem shiftEntry_inv {α : Type} (c i : Nat) (l0 l : List α) (hc : c ≤ l0.length)
    (hi1 : 1 ≤ i) (hic : i < c) (h : ShiftInv c l0 (i - 1) l) :
    ShiftInv c l0 i (shiftEntry c i l) := by
  obtain ⟨hlen, hget⟩ := h
  have hsrc : l[c - 1 - i]? = l0[c - 1 - i]? := by
    rw [hget]
    have : ¬ (c - (i - 1) ≤ c - 1 - i ∧ c - 1 - i < c) := by omega
    simp only [this, if_false]
  have hex : c - 1 - i < l0.length := by omega
  obtain ⟨x, hx⟩ : ∃ x, l0[c - 1 - i]? = some x :=
    ⟨l0[c - 1 - i], List.getElem?_eq_getElem hex⟩
  have hse : shiftEntry c i l = l.set (c - i) x := by
    unfold shiftEntry
    rw [List.get?_eq_getElem?, hsrc, hx]
  rw [hse]
  refine ⟨by simp [hlen], ?_⟩
  intro j
  rw [List.getElem?_set]
  by_cases hj : c - i = j
  · have hin : c - i ≤ j ∧ j < c := by omega
    have hlt : c - i < l.length := by omega
    have hjm : j - 1 = c - 1 - i := by omega
    rw [if_pos hj, if_pos hlt, if_pos hin, hjm, hx]
  · simp only [hj, if_false]
    rw [hget]
    by_cases hin : c - i ≤ j ∧ j < c
    · have : c - (i - 1) ≤ j ∧ j < c := by omega
      simp only [hin, this, and_self, if_true]
    · have : ¬ (c - (i - 1) ≤ j ∧ j < c) := by omega
      simp only [hin, this, if_false]

theorem shiftLoop_inv {α : Type} (c s : Nat) (l0 : List α) (hc : c ≤ l0.length) (hs : s ≤ c)
    (todo : Nat) (l : List α) (ht : todo + 1 ≤ s) (h : ShiftInv c l0 (s - 1 - todo) l) :
    ShiftInv c l0 (s - 1) (shiftLoop c s todo l) := by
  induction todo generalizing l with
  | zero => simpa [shiftLoop] using h
  | succ todo ih =>
    rw [shiftLoop]
    apply ih _ (by omega)
    have e1 : s - 1 - todo = s - (todo + 1) := by omega
    have e2 : s - 1 - (todo + 1) = s - (todo + 1) - 1 := by omega
    rw [e1]
    rw [e2] at h
    exact shiftEntry_inv c (s - (todo + 1)) l0 l hc (by omega) (by omega) h

/-- Lines 280–298 on a list: the new value is inserted at `c - s` and the entry at
`c - 1` is dropped. -/
theorem overwriteAt_eq {α : Type} (c s : Nat) (x : α) (l : List α) (hc : c ≤ l.length)
    (hs1 : 1 ≤ s) (hs : s ≤ c) :
    overwriteAt c s x l
      = l.take (c - s) ++ x :: ((l.drop (c - s)).take (s - 1) ++ l.drop c) := by
  have h0 : ShiftInv c l (s - 1 - (s - 1)) l := by
    refine ⟨rfl, fun j => ?_⟩
    have : ¬ (c - (s - 1 - (s - 1)) ≤ j ∧ j < c) := by omega
    simp only [this, if_false]
  obtain ⟨hlen, hget⟩ := shiftLoop_inv c s l hc hs (s - 1) l (by omega) h0
  apply List.ext_getElem?
  intro j
  unfold overwriteAt
  rw [List.getElem?_set, hlen]
  by_cases hj : c - s = j
  · subst hj
    have hlt : c - s < l.length := by omega
    simp only [if_true, hlt]
    rw [List.getElem?_append_right (by simp)]
    simp [Nat.min_eq_left (by omega : c - s ≤ l.length)]
  · simp only [hj, if_false]
    rw [hget]
    by_cases hlo : j < c - s
    · have : ¬ (c - (s - 1) ≤ j ∧ j < c) := by omega
      simp only [this, if_false]
      rw [List.getElem?_append_left (by simp; omega)]
      rw [List.getElem?_take]
      simp [hlo]
    · have hgt : c - s < j := by omega
      rw [List.getElem?_append_right (by simp; omega)]
      have hk : j - (l.take (c - s)).length = (j - (c - s) - 1) + 1 := by
        simp [Nat.min_eq_left (by omega : c - s ≤ l.length)]
        omega
      rw [hk, List.getElem?_cons_succ]
      by_cases hjc : j < c
      · have : c - (s - 1) ≤ j ∧ j < c := by omega
        simp only [this, and_self, if_true]
        rw [List.getElem?_append_left (by simp; omega)]
        rw [List.getElem?_take]
        have : j - (c - s) - 1 < s - 1 := by omega
        simp only [this, if_true, List.getElem?_drop]
        congr 1
        omega
      · have : ¬ (c - (s - 1) ≤ j ∧ j < c) := by omega
        simp only [this, if_false]
        rw [List.getElem?_append_right (by simp; omega)]
        simp only [List.length_take, List.length_drop, List.getElem?_drop]
        congr 1
        omega

/-- The value of `shift` after the loop of lines 273–276, for `currSize = n` below
the size of the cost list and below `uiFastCandNum`. -/
theorem candShift_spec {C : Type} [LinearOrder C] (uiCost : C) (costs : List C) (F n : Nat)
    (hn : n ≤ costs.length) (hF : n ≤ F) (rest : Nat) (hr : rest ≤ n)
    (h : ∀ j, rest ≤ j → j < n → ∃ c, costs[j]? = some c ∧ uiCost < c) :
    candShift uiCost costs F n rest ≤ n ∧
    (∀ j, n - candShift uiCost costs F n rest ≤ j → j < n →
      ∃ c, costs[j]? = some c ∧ uiCost < c) ∧
    (candShift uiCost costs F n rest < n →
      ∃ c, costs[n - candShift uiCost costs F n rest - 1]? = some c ∧ c ≤ uiCost) := by
  induction rest with
  | zero =>
    simp only [candShift]
    refine ⟨le_refl _, ?_, fun hlt => absurd hlt (lt_irrefl _)⟩
    intro j _ hj
    exact h j (Nat.zero_le _) hj
  | succ rest ih =>
    have hidx : n - 1 - (n - (rest + 1)) = rest := by omega
    have hex : rest < costs.length := by omega
    rw [candShift]
    simp only [hidx, List.get?_eq_getElem?, List.getElem?_eq_getElem hex]
    by_cases hc : n - (rest + 1) < F ∧ uiCost < costs[rest]
    · simp only [hc, and_self, if_true]
      apply ih (by omega)
      intro j hj1 hj2
      by_cases hjr : j = rest
      · subst hjr
        exact ⟨_, List.getElem?_eq_getElem hex, hc.2⟩
      · exact h j (by omega) hj2
    · simp only [hc, if_false]
      refine ⟨by omega, ?_, ?_⟩
      · intro j hj1 hj2
        exact h j (by omega) hj2
      · intro _
        have hlt : n - (rest + 1) < F := by omega
        have hnot : ¬ uiCost < costs[rest] := fun hh => hc ⟨hlt, hh⟩
        have e : n - (n - (rest + 1)) - 1 = rest := by omega
        rw [e]
        exact ⟨_, List.getElem?_eq_getElem hex, not_lt.mp hnot⟩

/-- For a sorted cost list, `pos = n - shift` separates the costs not above `uiCost`
from the costs above it. -/
theorem candShift_sorted {C : Type} [LinearOrder C] (uiCost : C) (costs : List C) (F : Nat)
    (hF : costs.length ≤ F) (hsorted : costs.Pairwise (· ≤ ·)) :
    candShift uiCost costs F costs.length costs.length ≤ costs.length ∧
    (∀ c ∈ costs.take (costs.length - candShift uiCost costs F costs.length costs.length),
      c ≤ uiCost) ∧
    (∀ c ∈ costs.drop (costs.length - candShift uiCost costs F costs.length costs.length),
      uiCost < c) := by
  obtain ⟨h1, h2, h3⟩ := candShift_spec uiCost costs F costs.length (le_refl _) hF costs.length
    (le_refl _) (fun j hj1 hj2 => by omega)
  refine ⟨h1, ?_, ?_⟩
  · intro c hc
    obtain ⟨i, hi, rfl⟩ := List.mem_iff_getElem.mp hc
    simp only [List.length_take] at hi
    have hs : candShift uiCost costs F costs.length costs.length < costs.length := by omega
    obtain ⟨d, hd, hdu⟩ := h3 hs
    have hdlt : costs.length - candShift uiCost costs F costs.length costs.length - 1
        < costs.length := by omega
    rw [List.getElem?_eq_getElem hdlt] at hd
    simp only [Option.some.injEq] at hd
    rw [List.getElem_take]
    by_cases hie : i = costs.length - candShift uiCost costs F costs.length costs.length - 1
    · subst hie
      rw [hd]
      exact hdu
    · have hlt : i < costs.length - candShift uiCost costs F costs.length costs.length - 1 := by
        omega
      have := List.pairwise_iff_getElem.mp hsorted i _ (by omega) hdlt hlt
      rw [hd] at this
      exact le_trans this hdu
  · intro c hc
    obtain ⟨i, hi, rfl⟩ := List.mem_iff_getElem.mp hc
    simp only [List.length_drop] at hi
    rw [List.getElem_drop]
    obtain ⟨d, hd, hdu⟩ := h2
      (costs.length - candShift uiCost costs F costs.length costs.length + i) (by omega)
      (by omega)
    rw [List.getElem?_eq_getElem (by omega)] at hd
    simp only [Option.some.injEq] at hd
    rw [hd]
    exact hdu

/-- The three branches of lines 278–320 on one list of length `n ≤ F`: in each of
them the list afterwards is the list with the new value inserted at `n - s`, cut to
its first `F` entries. -/
theorem candList_result {α : Type} (n F s : Nat) (x : α) (l : List α) (hl : l.length = n)
    (hs : s ≤ n) :
    (n = F → 1 ≤ s →
      overwriteAt n s x l = (l.take (n - s) ++ x :: l.drop (n - s)).take F) ∧
    (n < F → insertFromEnd s x l = (l.take (n - s) ++ x :: l.drop (n - s)).take F) ∧
    (n = F → s = 0 → l = (l.take (n - s) ++ x :: l.drop (n - s)).take F) := by
  refine ⟨?_, ?_, ?_⟩
  · intro hF hs1
    rw [overwriteAt_eq n s x l (by omega) hs1 hs]
    rw [List.take_append_eq_append_take]
    have h1 : (l.take (n - s)).length = n - s := by simp [hl]
    have h2 : F - (l.take (n - s)).length = (s - 1) + 1 := by omega
    have h3 : (l.take (n - s)).take F = l.take (n - s) := by
      apply List.take_of_length_le
      omega
    have h4 : l.drop n = [] := List.drop_of_length_le (by omega)
    rw [h2, h3, List.take_succ_cons, h4, List.append_nil]
  · intro hF
    unfold insertFromEnd
    rw [hl]
    symm
    apply List.take_of_length_le
    simp [hl]
    omega
  · intro hF hs0
    subst hs0
    have h1 : l.take (n - 0) = l := by
      apply List.take_of_length_le
      omega
    have h2 : l.drop (n - 0) = [] := List.drop_of_length_le (by omega)
    rw [h1, h2, List.take_append_eq_append_take]
    have h3 : l.take F = l := List.take_of_length_le (by omega)
    have h4 : F - l.length = 0 := by omega
    rw [h3, h4]
    simp

/-- The call of `updateCandList` on lists of equal length `n ≤ uiFastCandNum ≤ N`,
by the three branches of lines 278–320. -/
theorem updateCandList_eq {T C : Type} [LinearOrder C] (N : Nat) (uiMode : T) (uiCost : C)
    (modes : List T) (costs : List C) (F : Nat) (hlen : modes.length = costs.length)
    (hn : costs.length ≤ F) (hF : F ≤ N) :
    updateCandList N uiMode uiCost modes costs F =
      if costs.length = F ∧ candShift uiCost costs F costs.length costs.length ≠ 0 then
        .ok { ret := 1,
              candModeList := overwriteAt costs.length
                (candShift uiCost costs F costs.length costs.length) uiMode modes,
              candCostList := overwriteAt costs.length
                (candShift uiCost costs F costs.length costs.length) uiCost costs,
              pos := ((costs.length - candShift uiCost costs F costs.length costs.length : Nat)
                : Int) }
      else if costs.length < F then
        .ok { ret := 1,
              candModeList := insertFromEnd
                (candShift uiCost costs F costs.length costs.length) uiMode modes,
              candCostList := insertFromEnd
                (candShift uiCost costs F costs.length costs.length) uiCost costs,
              pos := ((costs.length - candShift uiCost costs F costs.length costs.length : Nat)
                : Int) }
      else .ok { ret := 0, candModeList := modes, candCostList := costs, pos := -1 } := by
  have hmin : min F costs.length = costs.length := Nat.min_eq_right hn
  have hge : (costs.length ≥ F) = (costs.length = F) :=
    propext ⟨fun h => by omega, fun h => by omega⟩
  have hpos : costs.length + 1 - candShift uiCost costs F costs.length costs.length - 1
      = costs.length - candShift uiCost costs F costs.length costs.length := by omega
  unfold updateCandList
  simp only [hlen, hmin, ne_eq, not_true_eq_false, if_false, gt_iff_lt, not_lt.mpr hF, hge,
    hpos]

/-- Claim C38. `updateCandList` is a stable bounded sorted insert: for a mode list
and a cost list of equal length `n ≤ uiFastCandNum ≤ N` whose costs are sorted in
non-decreasing order, the call raises no error; with `pos` the number of costs not
above `uiCost` (the costs before `pos` are at most `uiCost`, the costs from `pos`
on are above it), each list afterwards is the old list with the new value inserted
at `pos`, cut to its first `uiFastCandNum` entries. Hence the costs stay sorted, both
lengths are `min (n + 1) uiFastCandNum`, the modes stay paired with their costs, the
call returns 1 exactly when `n < uiFastCandNum` or `uiCost` is below the last (the
largest) cost, and returns 0 with both lists unchanged otherwise. -/
theorem updateCandList_sorted_insert {T C : Type} [LinearOrder C] (N : Nat) (uiMode : T)
    (uiCost : C) (modes : List T) (costs : List C) (F : Nat)
    (hlen : modes.length = costs.length) (hn : costs.length ≤ F) (hF : F ≤ N)
    (hsorted : costs.Pairwise (· ≤ ·)) :
    ∃ r pos, updateCandList N uiMode uiCost modes costs F = .ok r ∧
      pos ≤ costs.length ∧
      (∀ c ∈ costs.take pos, c ≤ uiCost) ∧ (∀ c ∈ costs.drop pos, uiCost < c) ∧
      r.candModeList = (modes.take pos ++ uiMode :: modes.drop pos).take F ∧
      r.candCostList = (costs.take pos ++ uiCost :: costs.drop pos).take F ∧
      r.candCostList.Pairwise (· ≤ ·) ∧
      r.candModeList.length = min (costs.length + 1) F ∧
      r.candCostList.length = min (costs.length + 1) F ∧
      List.zip r.candModeList r.candCostList
        = ((List.zip modes costs).take pos ++
            (uiMode, uiCost) :: (List.zip modes costs).drop pos).take F ∧
      (r.ret = 1 ↔ (costs.length < F ∨ ∃ last, costs.getLast? = some last ∧ uiCost < last)) ∧
      (r.ret = 0 ∨ r.ret = 1) ∧
      (r.ret = 0 → r.candModeList = modes ∧ r.candCostList = costs) := by
  obtain ⟨hs, htake, hdrop⟩ := candShift_sorted uiCost costs F hn hsorted
  obtain ⟨-, hidx, hbelow⟩ := candShift_spec uiCost costs F costs.length (le_refl _) hn
    costs.length (le_refl _) (fun j hj1 hj2 => by omega)
  have heq := updateCandList_eq N uiMode uiCost modes costs F hlen hn hF
  generalize candShift uiCost costs F costs.length costs.length = s at *
  have hm := candList_result costs.length F s uiMode modes hlen hs
  have hc := candList_result costs.length F s uiCost costs rfl hs
  -- the sorted insertion
  have hsortedIns : (costs.take (costs.length - s) ++ uiCost ::
      costs.drop (costs.length - s)).Pairwise (· ≤ ·) := by
    rw [List.pairwise_append]
    refine ⟨hsorted.sublist (List.take_sublist _ _), ?_, ?_⟩
    · rw [List.pairwise_cons]
      exact ⟨fun b hb => le_of_lt (hdrop b hb), hsorted.sublist (List.drop_sublist _ _)⟩
    · intro a ha b hb
      rcases List.mem_cons.mp hb with rfl | hb
      · exact htake a ha
      · exact le_trans (htake a ha) (le_of_lt (hdrop b hb))
  have hlenM : ((modes.take (costs.length - s) ++ uiMode ::
      modes.drop (costs.length - s)).take F).length = min (costs.length + 1) F := by
    simp only [List.length_take, List.length_append, List.length_cons, List.length_drop, hlen]
    omega
  have hlenC : ((costs.take (costs.length - s) ++ uiCost ::
      costs.drop (costs.length - s)).take F).length = min (costs.length + 1) F := by
    simp only [List.length_take, List.length_append, List.length_cons, List.length_drop]
    omega
  have hzip : List.zip
      ((modes.take (costs.length - s) ++ uiMode :: modes.drop (costs.length - s)).take F)
      ((costs.take (costs.length - s) ++ uiCost :: costs.drop (costs.length - s)).take F)
      = ((List.zip modes costs).take (costs.length - s) ++
          (uiMode, uiCost) :: (List.zip modes costs).drop (costs.length - s)).take F := by
    have e1 : ∀ (k : Nat) (a : List T) (b : List C), (a.take k).zip (b.take k)
        = (a.zip b).take k := fun k a b => by simp only [List.zip, List.take_zipWith]
    have e2 : ∀ (k : Nat) (a : List T) (b : List C), (a.drop k).zip (b.drop k)
        = (a.zip b).drop k := fun k a b => by simp only [List.zip, List.drop_zipWith]
    rw [e1, List.zip_append (by simp [hlen]), List.zip_cons_cons, e1, e2]
  have hret : (costs.length = F ∧ s ≠ 0) ∨ costs.length < F ↔
      (costs.length < F ∨ ∃ last, costs.getLast? = some last ∧ uiCost < last) := by
    constructor
    · rintro (⟨_, hs0⟩ | h)
      · right
        obtain ⟨c, hc1, hc2⟩ := hidx (costs.length - 1) (by omega) (by omega)
        exact ⟨c, by rw [List.getLast?_eq_getElem?]; exact hc1, hc2⟩
      · exact Or.inl h
    · rintro (h | ⟨last, hl, hlt⟩)
      · exact Or.inr h
      · by_cases hnF : costs.length < F
        · exact Or.inr hnF
        · left
          refine ⟨by omega, ?_⟩
          intro hs0
          subst hs0
          have hmem : last ∈ costs.take (costs.length - 0) := by
            rw [Nat.sub_zero, List.take_of_length_le (le_refl _)]
            exact List.mem_of_getLast?_eq_some hl
          exact absurd hlt (not_lt.mpr (htake last hmem))
  rw [heq]
  by_cases hA : costs.length = F ∧ s ≠ 0
  · rw [if_pos hA]
    refine ⟨_, costs.length - s, rfl, by omega, htake, hdrop, hm.1 hA.1 (by omega),
      hc.1 hA.1 (by omega), ?_, ?_, ?_, ?_, ?_, Or.inr rfl, fun h => by cases h⟩
    · rw [hc.1 hA.1 (by omega)]
      exact hsortedIns.sublist (List.take_sublist _ _)
    · rw [hm.1 hA.1 (by omega)]
      exact hlenM
    · rw [hc.1 hA.1 (by omega)]
      exact hlenC
    · rw [hm.1 hA.1 (by omega), hc.1 hA.1 (by omega)]
      exact hzip
    · exact ⟨fun _ => hret.mp (Or.inl hA), fun _ => rfl⟩
  · rw [if_neg hA]
    by_cases hB : costs.length < F
    · rw [if_pos hB]
      refine ⟨_, costs.length - s, rfl, by omega, htake, hdrop, hm.2.1 hB, hc.2.1 hB, ?_, ?_, ?_,
        ?_, ?_, Or.inr rfl, fun h => by cases h⟩
      · rw [hc.2.1 hB]
        exact hsortedIns.sublist (List.take_sublist _ _)
      · rw [hm.2.1 hB]
        exact hlenM
      · rw [hc.2.1 hB]
        exact hlenC
      · rw [hm.2.1 hB, hc.2.1 hB]
        exact hzip
      · exact ⟨fun _ => hret.mp (Or.inr hB), fun _ => rfl⟩
    · rw [if_neg hB]
      have hnF : costs.length = F := by omega
      have hs0 : s = 0 := by
        by_contra h
        exact hA ⟨hnF, h⟩
      refine ⟨_, costs.length - s, rfl, by omega, htake, hdrop, hm.2.2 hnF hs0,
        hc.2.2 hnF hs0, ?_, ?_, ?_, ?_, ?_, Or.inl rfl, fun _ => ⟨rfl, rfl⟩⟩
      · exact hsorted
      · show modes.length = _
        rw [hlen]
        omega
      · show costs.length = _
        omega
      · show List.zip modes costs = _
        rw [← hzip, ← hm.2.2 hnF hs0, ← hc.2.2 hnF hs0]
      · constructor
        · intro h
          cases h
        · intro h
          rcases hret.mpr h with h2 | h2
          · exact absurd h2 hA
          · exact absurd h2 hB

/-- Witness of C38: a candidate of cost 5 is inserted after the costs 3 and 5 of the
full list of three candidates, and the candidate of cost 9 falls out; a candidate
of cost 9 is not kept. -/
theorem updateCandList_sorted_insert_witness :
    (∃ r pos, updateCandList 4 (7 : Nat) (5 : Int) [1, 2, 3] [3, 5, 9] 3 = .ok r ∧
      pos ≤ 3 ∧ r.candModeList = ([1, 2, 3].take pos ++ 7 :: [1, 2, 3].drop pos).take 3 ∧
      r.candCostList.Pairwise (· ≤ ·)) ∧
    (∃ r, updateCandList 4 (7 : Nat) (5 : Int) [1, 2, 3] [3, 5, 9] 3 = .ok r ∧
      r.candModeList = [1, 2, 7] ∧ r.candCostList = [3, 5, 5] ∧ r.ret = 1) ∧
    (∃ r, updateCandList 4 (7 : Nat) (9 : Int) [1, 2, 3] [3, 5, 9] 3 = .ok r ∧
      r.candModeList = [1, 2, 3] ∧ r.candCostList = [3, 5, 9] ∧ r.ret = 0) :=
  ⟨(updateCandList_sorted_insert 4 (7 : Nat) (5 : Int) [1, 2, 3] [3, 5, 9] 3 rfl (by decide)
      (by decide) (by decide)).imp fun _ h => h.imp fun _ h =>
        ⟨h.1, h.2.1, h.2.2.2.2.1, h.2.2.2.2.2.2.1⟩,
    ⟨_, rfl, by decide, by decide, rfl⟩, ⟨_, rfl, by decide, by decide, rfl⟩⟩


/-- Inserting at one position in two lists of equal length and cutting both to the
same length is inserting the pair in the zipped list. -/
theorem zip_insert_take {α β : Type} (a : List α) (b : List β) (x : α) (y : β) (k F : Nat)
    (hlen : a.length = b.length) :
    List.zip ((a.take k ++ x :: a.drop k).take F) ((b.take k ++ y :: b.drop k).take F)
      = ((List.zip a b).take k ++ (x, y) :: (List.zip a b).drop k).take F := by
  have e1 : ∀ (k : Nat) (a : List α) (b : List β), (a.take k).zip (b.take k)
      = (a.zip b).take k := fun k a b => by simp only [List.zip, List.take_zipWith]
  have e2 : ∀ (k : Nat) (a : List α) (b : List β), (a.drop k).zip (b.drop k)
      = (a.zip b).drop k := fun k a b => by simp only [List.zip, List.drop_zipWith]
  rw [e1, List.zip_append (by simp [hlen]), List.zip_cons_cons, e1, e2]

/-- The three branches of `updateDoubleCandList` past its two size checks. -/
theorem updateDoubleCandList_eq {T C : Type} [LinearOrder C] (N : Nat) (mode : T) (cost : C)
    (modes : List T) (costs : List C) (modes2 : List T) (mode2 : T) (F : Nat)
    (h1 : ¬ min F modes.length ≠ min F costs.length) (h2 : ¬ F > N) :
    updateDoubleCandList N mode cost modes costs modes2 mode2 F =
      if modes.length ≥ F ∧
          candShift cost costs F (min F costs.length) (min F costs.length) ≠ 0 then
        .ok { ret := 1,
              candModeList := overwriteAt (min F costs.length)
                (candShift cost costs F (min F costs.length) (min F costs.length)) mode modes,
              candCostList := overwriteAt (min F costs.length)
                (candShift cost costs F (min F costs.length) (min F costs.length)) cost costs,
              candModeList2 := overwriteAt (min F costs.length)
                (candShift cost costs F (min F costs.length) (min F costs.length)) mode2 modes2,
              pos := ((min F costs.length
                - candShift cost costs F (min F costs.length) (min F costs.length) : Nat) : Int) }
      else if min F costs.length < F then
        .ok { ret := 1,
              candModeList := insertFromEnd
                (candShift cost costs F (min F costs.length) (min F costs.length)) mode modes,
              candCostList := insertFromEnd
                (candShift cost costs F (min F costs.length) (min F costs.length)) cost costs,
              candModeList2 := insertFromEnd
                (candShift cost costs F (min F costs.length) (min F costs.length)) mode2 modes2,
              pos := ((modes.length + 1
                - candShift cost costs F (min F costs.length) (min F costs.length) - 1 : Nat)
                : Int) }
      else .ok { ret := 0, candModeList := modes, candCostList := costs,
                 candModeList2 := modes2, pos := -1 } := by
  unfold updateDoubleCandList
  rw [if_neg h1, if_neg h2]

/-- The three branches of `updateCandList` past its two size checks. -/
theorem updateCandList_branches {T C : Type} [LinearOrder C] (N : Nat) (mode : T) (cost : C)
    (modes : List T) (costs : List C) (F : Nat)
    (h1 : ¬ min F modes.length ≠ min F costs.length) (h2 : ¬ F > N) :
    updateCandList N mode cost modes costs F =
      if modes.length ≥ F ∧
          candShift cost costs F (min F costs.length) (min F costs.length) ≠ 0 then
        .ok { ret := 1,
              candModeList := overwriteAt (min F costs.length)
                (candShift cost costs F (min F costs.length) (min F costs.length)) mode modes,
              candCostList := overwriteAt (min F costs.length)
                (candShift cost costs F (min F costs.length) (min F costs.length)) cost costs,
              pos := ((min F costs.length
                - candShift cost costs F (min F costs.length) (min F costs.length) : Nat) : Int) }
      else if min F costs.length < F then
        .ok { ret := 1,
              candModeList := insertFromEnd
                (candShift cost costs F (min F costs.length) (min F costs.length)) mode modes,
              candCostList := insertFromEnd
                (candShift cost costs F (min F costs.length) (min F costs.length)) cost costs,
              pos := ((modes.length + 1
                - candShift cost costs F (min F costs.length) (min F costs.length) - 1 : Nat)
                : Int) }
      else .ok { ret := 0, candModeList := modes, candCostList := costs, pos := -1 } := by
  unfold updateCandList
  rw [if_neg h1, if_neg h2]

/-- The two size checks of `updateCandList` and of `updateDoubleCandList`. -/
theorem updateCandList_checks {T C : Type} [LinearOrder C] (N : Nat) (mode : T) (cost : C)
    (modes : List T) (costs : List C) (modes2 : List T) (mode2 : T) (F : Nat) :
    (min F modes.length ≠ min F costs.length →
      updateCandList N mode cost modes costs F = .error "Sizes do not match!" ∧
      updateDoubleCandList N mode cost modes costs modes2 mode2 F
        = .error "Sizes do not match!") ∧
    (¬ min F modes.length ≠ min F costs.length → F > N →
      updateCandList N mode cost modes costs F
        = .error "The vector is to small to hold all the candidates!" ∧
      updateDoubleCandList N mode cost modes costs modes2 mode2 F
        = .error "The vector is to small to hold all the candidates!") := by
  constructor
  · intro h1
    unfold updateCandList updateDoubleCandList
    rw [if_pos h1, if_pos h1]
    exact ⟨rfl, rfl⟩
  · intro h1 h2
    unfold updateCandList updateDoubleCandList
    rw [if_neg h1, if_neg h1, if_pos h2, if_pos h2]
    exact ⟨rfl, rfl⟩

/-- Claim C39. `updateDoubleCandList` refines `updateCandList`: for equal inputs
(mode, cost, `candModeList`, `candCostList`, `fastCandNum`) it raises the same
error or produces the same `candModeList`, `candCostList`, return value and insert
position; for a `candModeList2` of the length of `candModeList`, what it does to
`candModeList2` with `mode2` is what `updateCandList` does to a mode list with the
same costs: the same shift and the same insertion; and for lists of at most
`fastCandNum` entries both mode lists are the old lists with the new mode inserted
at one and the same position, cut to the first `fastCandNum` entries, so that
`candModeList2` stays index-aligned with `candModeList`. -/
theorem updateDoubleCandList_refines {T C : Type} [LinearOrder C] (N : Nat) (mode : T) (cost : C)
    (modes : List T) (costs : List C) (modes2 : List T) (mode2 : T) (F : Nat) :
    (∀ e, updateCandList N mode cost modes costs F = .error e →
      updateDoubleCandList N mode cost modes costs modes2 mode2 F = .error e) ∧
    (∀ r, updateCandList N mode cost modes costs F = .ok r →
      ∃ r2, updateDoubleCandList N mode cost modes costs modes2 mode2 F = .ok r2 ∧
        r2.candModeList = r.candModeList ∧ r2.candCostList = r.candCostList ∧
        r2.ret = r.ret ∧ r2.pos = r.pos ∧
        (modes2.length = modes.length →
          (∃ q, updateCandList N mode2 cost modes2 costs F = .ok q ∧
            r2.candModeList2 = q.candModeList ∧ q.ret = r.ret ∧ q.pos = r.pos) ∧
          (costs.length ≤ F → modes.length = costs.length →
            r2.candModeList2.length = r2.candModeList.length ∧
            ∃ pos, pos ≤ modes.length ∧ (r2.ret = 1 → r2.pos = (pos : Int)) ∧
              r2.candModeList = (modes.take pos ++ mode :: modes.drop pos).take F ∧
              r2.candModeList2 = (modes2.take pos ++ mode2 :: modes2.drop pos).take F ∧
              List.zip r2.candModeList r2.candModeList2
                = ((List.zip modes modes2).take pos ++
                    (mode, mode2) :: (List.zip modes modes2).drop pos).take F))) := by
  have hchk := updateCandList_checks N mode cost modes costs modes2 mode2 F
  constructor
  · intro e h
    by_cases h1 : min F modes.length ≠ min F costs.length
    · rw [(hchk.1 h1).1] at h
      rw [(hchk.1 h1).2]
      cases h
      rfl
    · by_cases h2 : F > N
      · rw [(hchk.2 h1 h2).1] at h
        rw [(hchk.2 h1 h2).2]
        cases h
        rfl
      · exfalso
        rw [updateCandList_branches N mode cost modes costs F h1 h2] at h
        split at h
        · cases h
        · split at h <;> cases h
  · intro r h
    by_cases h1 : min F modes.length ≠ min F costs.length
    · rw [(hchk.1 h1).1] at h
      cases h
    by_cases h2 : F > N
    · rw [(hchk.2 h1 h2).1] at h
      cases h
    have hq := updateCandList_branches N mode2 cost modes2 costs F
    rw [updateCandList_branches N mode cost modes costs F h1 h2] at h
    rw [updateDoubleCandList_eq N mode cost modes costs modes2 mode2 F h1 h2]
    -- what the common position is for lists of at most `F` entries
    have key : ∀ s, s = candShift cost costs F (min F costs.length) (min F costs.length) →
        modes2.length = modes.length → costs.length ≤ F → modes.length = costs.length →
        min F costs.length = costs.length ∧ s ≤ costs.length ∧
        (modes.length + 1 - s - 1 = costs.length - s) ∧
        (∀ (α : Type) (x : α) (l : List α), l.length = costs.length →
          (costs.length = F → 1 ≤ s → overwriteAt costs.length s x l
            = (l.take (costs.length - s) ++ x :: l.drop (costs.length - s)).take F) ∧
          (costs.length < F → insertFromEnd s x l
            = (l.take (costs.length - s) ++ x :: l.drop (costs.length - s)).take F) ∧
          (costs.length = F → s = 0 →
            l = (l.take (costs.length - s) ++ x :: l.drop (costs.length - s)).take F)) := by
      intro s hs hlen2 hn hlen
      have hmin : min F costs.length = costs.length := Nat.min_eq_right hn
      have hsn : s ≤ costs.length := by
        rw [hs, hmin]
        exact (candShift_spec cost costs F costs.length (le_refl _) hn costs.length (le_refl _)
          (fun j h1 h2 => absurd h2 (not_lt.mpr h1))).1
      exact ⟨hmin, hsn, by omega, fun α x l hl => candList_result costs.length F s x l hl hsn⟩
    generalize hs : candShift cost costs F (min F costs.length) (min F costs.length) = s at *
    have key := key s rfl
    by_cases h3 : modes.length ≥ F ∧ s ≠ 0
    · rw [if_pos h3] at h ⊢
      cases h
      refine ⟨_, rfl, rfl, rfl, rfl, rfl, ?_⟩
      intro hlen2
      rw [hlen2] at hq
      rw [if_pos h3] at hq
      refine ⟨⟨_, hq h1 h2, rfl, rfl, rfl⟩, ?_⟩
      intro hn hlen
      obtain ⟨hmin, hsn, hpos, hres⟩ := key hlen2 hn hlen
      have hnF : costs.length = F := by omega
      have hs1 : 1 ≤ s := by omega
      have hm := (hres T mode modes hlen).1 hnF hs1
      have hm2 := (hres T mode2 modes2 (hlen2.trans hlen)).1 hnF hs1
      simp only [hmin]
      rw [hm, hm2]
      refine ⟨by simp [hlen2], costs.length - s, by omega, fun _ => rfl, rfl, rfl, ?_⟩
      exact zip_insert_take modes modes2 mode mode2 _ F hlen2.symm
    · rw [if_neg h3] at h ⊢
      by_cases h4 : min F costs.length < F
      · rw [if_pos h4] at h ⊢
        cases h
        refine ⟨_, rfl, rfl, rfl, rfl, rfl, ?_⟩
        intro hlen2
        rw [hlen2] at hq
        rw [if_neg h3, if_pos h4] at hq
        refine ⟨⟨_, hq h1 h2, rfl, rfl, rfl⟩, ?_⟩
        intro hn hlen
        obtain ⟨hmin, hsn, hpos, hres⟩ := key hlen2 hn hlen
        have hnF : costs.length < F := by omega
        have hm := (hres T mode modes hlen).2.1 hnF
        have hm2 := (hres T mode2 modes2 (hlen2.trans hlen)).2.1 hnF
        simp only [hpos]
        rw [hm, hm2]
        refine ⟨by simp [hlen2], costs.length - s, by omega, fun _ => rfl, rfl, rfl, ?_⟩
        exact zip_insert_take modes modes2 mode mode2 _ F hlen2.symm
      · rw [if_neg h4] at h ⊢
        cases h
        refine ⟨_, rfl, rfl, rfl, rfl, rfl, ?_⟩
        intro hlen2
        rw [hlen2] at hq
        rw [if_neg h3, if_neg h4] at hq
        refine ⟨⟨_, hq h1 h2, rfl, rfl, rfl⟩, ?_⟩
        intro hn hlen
        obtain ⟨hmin, hsn, hpos, hres⟩ := key hlen2 hn hlen
        have hnF : costs.length = F := by omega
        have hs0 : s = 0 := by
          by_contra hne
          exact h3 ⟨by omega, hne⟩
        have hm := (hres T mode modes hlen).2.2 hnF hs0
        have hm2 := (hres T mode2 modes2 (hlen2.trans hlen)).2.2 hnF hs0
        refine ⟨hlen2, costs.length - s, by omega, fun h => absurd h Nat.zero_ne_one, hm, hm2, ?_⟩
        show List.zip modes modes2 = _
        rw [← zip_insert_take modes modes2 mode mode2 _ F hlen2.symm, ← hm, ← hm2]

/-- Witness of C39: with three entries and `fastCandNum` 3 the candidate of cost 5
with the modes 7 and 70 is written at index 2 of both mode lists. -/
theorem updateDoubleCandList_refines_witness :
    (∃ r2, updateDoubleCandList 4 (7 : Nat) (5 : Int) [1, 2, 3] [3, 5, 9] [10, 20, 30] 70 3
        = .ok r2 ∧ r2.candModeList = [1, 2, 7] ∧ r2.candCostList = [3, 5, 5] ∧
      r2.ret = 1 ∧ r2.pos = 2) ∧
    (∃ r2, updateDoubleCandList 4 (7 : Nat) (5 : Int) [1, 2, 3] [3, 5, 9] [10, 20, 30] 70 3
        = .ok r2 ∧ r2.candModeList2 = [10, 20, 70]) :=
  ⟨((updateDoubleCandList_refines 4 (7 : Nat) (5 : Int) [1, 2, 3] [3, 5, 9] [10, 20, 30] 70 3).2
      { ret := 1, candModeList := [1, 2, 7], candCostList := [3, 5, 5], pos := 2 } rfl).imp
      fun _ h => ⟨h.1, h.2.1, h.2.2.1, h.2.2.2.1, h.2.2.2.2.1⟩,
    ⟨_, rfl, by decide⟩⟩


/-- A property that holds before a loop over `0 .. n - 1` and is carried from
each iteration to the next holds after the loop. -/
theorem foldl_range_inv {σ : Type} (P : Nat → σ → Prop) (f : σ → Nat → σ) (n : Nat) (s0 : σ)
    (h0 : P 0 s0) (hstep : ∀ k s, k < n → P k s → P (k + 1) (f s k)) :
    P n ((List.range n).foldl f s0) := by
  have h : ∀ m, m ≤ n → P m ((List.range m).foldl f s0) := by
    intro m
    induction m with
    | zero => intro _; exact h0
    | succ m ih =>
      intro hm
      rw [List.range_succ, List.foldl_append]
      exact hstep m _ (by omega) (ih (by omega))
  exact h n (le_refl _)

/-- Conversion of an `int` result to `uint32_t` is the reduction of the exact result. -/
theorem toUInt32_wrapInt (x : Int) : toUInt32 (wrapInt x) = toUInt32 x := by
  unfold wrapInt toInt32
  have h3 : ((toUInt32 x : Nat) : Int) = x % 4294967296 := by
    unfold toUInt32
    exact Int.toNat_of_nonneg (Int.emod_nonneg _ (by decide))
  have h4 : toUInt32 x % 4294967296 = toUInt32 x := by
    apply Nat.mod_eq_of_lt
    have : ((toUInt32 x : Nat) : Int) < 4294967296 := by
      rw [h3]
      exact Int.emod_lt_of_pos _ (by decide)
    omega
  have key : ∀ y : Int, y % 4294967296 = x % 4294967296 → toUInt32 y = toUInt32 x :=
    fun y hy => by
      unfold toUInt32
      rw [hy]
  rw [h4]
  split
  · apply key
    rw [h3]
    omega
  · apply key
    rw [h3]
    omega

/-- The table `g_aucLog2` at a power of two up to 256. -/
theorem g_aucLog2_pow (a : Nat) (h : a ≤ 8) : g_aucLog2 (2 ^ a) = a := by
  interval_cases a <;> rfl

/-- Conversion of a size below `2 ^ 31` to `int` keeps the value. -/
theorem toInt32_small (n : Nat) (h : n < 2147483648) : toInt32 n = (n : Int) := by
  unfold toInt32
  have h1 : n % 4294967296 = n := Nat.mod_eq_of_lt (by omega)
  rw [h1, if_pos h]

/-- A value that converts to `Pel` unchanged, of at most 17 bits in the build with
`int` samples, is below `2 ^ 17`. -/
theorem pel_bound (cfg : Config) (v : Int) (hpel : toPel cfg v = v)
    (hbits : cfg.RExt__HIGH_BIT_DEPTH_SUPPORT = true → v < 131072) : v < 131072 := by
  cases hc : cfg.RExt__HIGH_BIT_DEPTH_SUPPORT
  · unfold toPel at hpel
    rw [hc] at hpel
    simp only [Bool.false_eq_true, if_false] at hpel
    omega
  · exact hbits hc

/-- The summation loops of `xGetPredValDc` over `n` samples that are all `v`. -/
theorem dcSum (src : Nat → Int) (n : Nat) (v s0 : Int) (hsrc : ∀ i, i < n → src i = v)
    (hv0 : 0 ≤ v) (hs0 : 0 ≤ s0) (hb : s0 + n * v < 2147483648) :
    (List.range n).foldl (fun sum idx => wrapInt (sum + src idx)) s0 = s0 + n * v := by
  have h := foldl_range_inv (fun k (s : Int) => s = s0 + k * v)
    (fun sum idx => wrapInt (sum + src idx)) n s0 (by simp) (by
      intro k s hk hs
      show wrapInt (s + src k) = s0 + ((k + 1 : Nat) : Int) * v
      rw [hs, hsrc k hk]
      have h1 : ((k + 1 : Nat) : Int) * v ≤ (n : Int) * v :=
        mul_le_mul_of_nonneg_right (by exact_mod_cast hk) hv0
      have h2 : (0 : Int) ≤ (k : Int) * v := mul_nonneg (by exact_mod_cast Nat.zero_le k) hv0
      have h3 : ((k + 1 : Nat) : Int) * v = (k : Int) * v + v := by push_cast; ring
      rw [wrapInt_of_range _ (by omega) (by omega)]
      omega)
  exact h

/-- Rounded division by a power of two of the sum of `2 ^ d` samples `v`. -/
theorem dcDivide (d : Nat) (v : Int) (hd : 1 ≤ d) :
    (((2 ^ d : Nat) : Int) * v + ((2 ^ d : Nat) : Int) >>> (1 : Nat)) >>> d = v := by
  rw [Int.shiftRight_eq_div_pow, Int.shiftRight_eq_div_pow]
  obtain ⟨e, rfl⟩ : ∃ e, d = e + 1 := ⟨d - 1, by omega⟩
  have hp : (0 : Int) < ((2 ^ e : Nat) : Int) := by exact_mod_cast Nat.pos_pow_of_pos e (by decide)
  have h1 : ((2 ^ (e + 1) : Nat) : Int) = 2 * ((2 ^ e : Nat) : Int) := by
    push_cast
    ring
  have h2 : ((2 ^ (e + 1) : Nat) : Int) / ((2 ^ 1 : Nat) : Int) = ((2 ^ e : Nat) : Int) := by
    rw [h1]
    norm_num
  rw [h2, add_comm, Int.add_mul_ediv_left _ _ (by rw [h1]; omega)]
  rw [Int.ediv_eq_zero_of_lt (le_of_lt hp) (by rw [h1]; omega)]
  simp


/-- The three cases of `xGetPredValDc` on a block of sizes below `2 ^ 31`. -/
theorem xGetPredValDc_eq (cfg : Config) (pSrc : PelBuf) (W H : Nat) (hW0 : W ≠ 0) (hH0 : H ≠ 0)
    (hW : W < 2147483648) (hH : H < 2147483648) :
    xGetPredValDc cfg pSrc W H = .ok (toPel cfg (wrapInt (
      (if (W : Int) ≤ H then
        (List.range H).foldl (fun sum idx => wrapInt (sum + pSrc 0 (1 + idx)))
          (if (W : Int) ≥ H then
            (List.range W).foldl (fun sum idx => wrapInt (sum + pSrc (1 + idx) 0)) 0
          else 0)
      else
        (if (W : Int) ≥ H then
            (List.range W).foldl (fun sum idx => wrapInt (sum + pSrc (1 + idx) 0)) 0
          else 0))
      + (if (W : Int) = H then shlInt W 1 else max (W : Int) H) >>> (1 : Nat))
      >>> g_aucLog2 (if (W : Int) = H then shlInt W 1 else max (W : Int) H).toNat)) := by
  unfold xGetPredValDc
  rw [if_neg (by omega), toInt32_small W hW, toInt32_small H hH]
  simp only [Int.toNat_ofNat]

/-- The DC value of flat references on a block of power-of-two sizes up to 128. -/
theorem xGetPredValDc_flat (cfg : Config) (pSrc : PelBuf) (a b : Nat) (v : Int) (ha : a ≤ 7)
    (hb : b ≤ 7) (hv0 : 0 ≤ v) (hv : v < 131072) (hpel : toPel cfg v = v)
    (htop : ∀ k, k < 2 ^ a → pSrc (1 + k) 0 = v) (hleft : ∀ k, k < 2 ^ b → pSrc 0 (1 + k) = v) :
    xGetPredValDc cfg pSrc (2 ^ a) (2 ^ b) = .ok v := by
  have hWp : 0 < 2 ^ a := Nat.pos_pow_of_pos a (by decide)
  have hHp : 0 < 2 ^ b := Nat.pos_pow_of_pos b (by decide)
  have hW : 2 ^ a ≤ 2 ^ 7 := Nat.pow_le_pow_right (by decide) ha
  have hH : 2 ^ b ≤ 2 ^ 7 := Nat.pow_le_pow_right (by decide) hb
  have hWv : ((2 ^ a : Nat) : Int) * v ≤ 128 * 131072 :=
    mul_le_mul (by exact_mod_cast hW) (le_of_lt hv) hv0 (by decide)
  have hHv : ((2 ^ b : Nat) : Int) * v ≤ 128 * 131072 :=
    mul_le_mul (by exact_mod_cast hH) (le_of_lt hv) hv0 (by decide)
  have hWv0 : (0 : Int) ≤ ((2 ^ a : Nat) : Int) * v := mul_nonneg (by exact_mod_cast hWp.le) hv0
  have hHv0 : (0 : Int) ≤ ((2 ^ b : Nat) : Int) * v := mul_nonneg (by exact_mod_cast hHp.le) hv0
  have sW : ∀ s0 : Int, 0 ≤ s0 → s0 ≤ 128 * 131072 →
      (List.range (2 ^ a)).foldl (fun sum idx => wrapInt (sum + pSrc (1 + idx) 0)) s0
        = s0 + ((2 ^ a : Nat) : Int) * v := fun s0 h0 h1 =>
    dcSum (fun idx => pSrc (1 + idx) 0) (2 ^ a) v s0 htop hv0 h0 (by omega)
  have sH : ∀ s0 : Int, 0 ≤ s0 → s0 ≤ 128 * 131072 →
      (List.range (2 ^ b)).foldl (fun sum idx => wrapInt (sum + pSrc 0 (1 + idx))) s0
        = s0 + ((2 ^ b : Nat) : Int) * v := fun s0 h0 h1 =>
    dcSum (fun idx => pSrc 0 (1 + idx)) (2 ^ b) v s0 hleft hv0 h0 (by omega)
  rw [xGetPredValDc_eq cfg pSrc _ _ (by omega) (by omega) (by omega) (by omega)]
  rcases Nat.lt_trichotomy a b with hab | hab | hab
  · have hlt : 2 ^ a < 2 ^ b := Nat.pow_lt_pow_right (by decide) hab
    have hlt2 : ((2 ^ a : Nat) : Int) < ((2 ^ b : Nat) : Int) := by exact_mod_cast hlt
    rw [if_pos (le_of_lt hlt2), if_neg (not_le.mpr hlt2), if_neg (ne_of_lt hlt2),
      max_eq_right (le_of_lt hlt2), sH 0 (le_refl _) (by decide), Int.toNat_ofNat,
      g_aucLog2_pow b (by omega), zero_add]
    have h1 : (0 : Int) ≤ ((2 ^ b : Nat) : Int) >>> (1 : Nat) := by
      rw [Int.shiftRight_eq_div_pow]
      exact Int.ediv_nonneg (by omega) (by decide)
    have h2 : ((2 ^ b : Nat) : Int) >>> (1 : Nat) ≤ 128 := by
      rw [Int.shiftRight_eq_div_pow]
      have : ((2 ^ b : Nat) : Int) ≤ 128 := by exact_mod_cast hH
      omega
    rw [wrapInt_of_range _ (by omega) (by omega), dcDivide b v (by omega), hpel]
  · subst hab
    have hsh : shlInt ((2 ^ a : Nat) : Int) 1 = ((2 ^ (a + 1) : Nat) : Int) := by
      unfold shlInt
      have h128 : ((2 ^ a : Nat) : Int) ≤ 128 := by exact_mod_cast hW
      have h0 : (0 : Int) ≤ ((2 ^ a : Nat) : Int) := by exact_mod_cast hWp.le
      rw [wrapInt_of_range _ (by omega) (by omega)]
      push_cast
      ring
    have hsum : (0 : Int) + ((2 ^ a : Nat) : Int) * v + ((2 ^ a : Nat) : Int) * v
        = ((2 ^ (a + 1) : Nat) : Int) * v := by
      push_cast
      ring
    have hH2 : 2 ^ (a + 1) ≤ 2 ^ 8 := Nat.pow_le_pow_right (by decide) (by omega)
    rw [if_pos (le_refl _), if_pos (le_refl _), if_pos rfl, hsh, sW 0 (le_refl _) (by decide),
      sH _ (by omega) (by omega), Int.toNat_ofNat, g_aucLog2_pow (a + 1) (by omega), hsum]
    have h1 : (0 : Int) ≤ ((2 ^ (a + 1) : Nat) : Int) >>> (1 : Nat) := by
      rw [Int.shiftRight_eq_div_pow]
      exact Int.ediv_nonneg (by omega) (by decide)
    have h2 : ((2 ^ (a + 1) : Nat) : Int) >>> (1 : Nat) ≤ 256 := by
      rw [Int.shiftRight_eq_div_pow]
      have : ((2 ^ (a + 1) : Nat) : Int) ≤ 256 := by exact_mod_cast hH2
      omega
    rw [← hsum]
    rw [wrapInt_of_range _ (by omega) (by omega), hsum, dcDivide (a + 1) v (by omega), hpel]
  · have hlt : 2 ^ b < 2 ^ a := Nat.pow_lt_pow_right (by decide) hab
    have hlt2 : ((2 ^ b : Nat) : Int) < ((2 ^ a : Nat) : Int) := by exact_mod_cast hlt
    rw [if_neg (not_le.mpr hlt2), if_pos (le_of_lt hlt2), if_neg (ne_of_gt hlt2),
      max_eq_left (le_of_lt hlt2), sW 0 (le_refl _) (by decide), Int.toNat_ofNat,
      g_aucLog2_pow a (by omega), zero_add]
    have h1 : (0 : Int) ≤ ((2 ^ a : Nat) : Int) >>> (1 : Nat) := by
      rw [Int.shiftRight_eq_div_pow]
      exact Int.ediv_nonneg (by omega) (by decide)
    have h2 : ((2 ^ a : Nat) : Int) >>> (1 : Nat) ≤ 128 := by
      rw [Int.shiftRight_eq_div_pow]
      have : ((2 ^ a : Nat) : Int) ≤ 128 := by exact_mod_cast hW
      omega
    rw [wrapInt_of_range _ (by omega) (by omega), dcDivide a v (by omega), hpel]


/-- The loops of lines 443–451 of `xPredIntraPlanar` copy the reference samples. -/
theorem planarFill (src : Nat → Int) (n : Nat) (init : Nat → Int) :
    ∀ k, k < n → (List.range n).foldl (fun a k => Function.update a k (src k)) init k = src k := by
  have h := foldl_range_inv (fun m (a : Nat → Int) => ∀ j, j < m → a j = src j)
    (fun a k => Function.update a k (src k)) n init (fun j hj => absurd hj (Nat.not_lt_zero j))
    (by
      intro k s hk hs j hj
      show Function.update s k (src k) j = src j
      by_cases hjk : j = k
      · subst hjk
        exact Function.update_same _ _ _
      · rw [Function.update_noteq hjk]
        exact hs j (by omega))
  exact h

/-- A sample of at most 17 bits scaled by a block size of at most 128. -/
theorem shlInt_sample (v : Int) (lg : Nat) (hv0 : 0 ≤ v) (hv : v < 131072) (hlg : lg ≤ 14) :
    shlInt v lg = v * 2 ^ lg ∧ 0 ≤ v * 2 ^ lg ∧ v * 2 ^ lg ≤ 131071 * 16384 := by
  have hp : (2 : Int) ^ lg ≤ 2 ^ 14 := pow_le_pow_right₀ (by decide) hlg
  have hp0 : (0 : Int) < 2 ^ lg := pow_pos (by decide) lg
  have h1 : v * 2 ^ lg ≤ 131071 * 2 ^ 14 := mul_le_mul (by omega) hp (le_of_lt hp0) (by decide)
  have h0 : 0 ≤ v * 2 ^ lg := mul_nonneg hv0 (le_of_lt hp0)
  have h2 : (131071 : Int) * 2 ^ 14 = 131071 * 16384 := by norm_num
  refine ⟨?_, h0, by omega⟩
  unfold shlInt
  exact wrapInt_of_range _ (by omega) (by omega)

/-- The loops of lines 457–467 on flat references: the differences are 0 and the
references are scaled. -/
theorem planarEdge_flat (v : Int) (lg n : Nat) (d0 s0 : Nat → Int) (hv0 : 0 ≤ v)
    (hv : v < 131072) (hlg : lg ≤ 7) (hs0 : ∀ k, k < n → s0 k = v) :
    ∀ k, k < n →
      ((List.range n).foldl (planarEdgeStep v lg) { diff := d0, scaled := s0 }).diff k = 0 ∧
      ((List.range n).foldl (planarEdgeStep v lg) { diff := d0, scaled := s0 }).scaled k
        = v * 2 ^ lg := by
  have h := foldl_range_inv
    (fun m (st : PlanarEdge) => (∀ j, j < m → st.diff j = 0 ∧ st.scaled j = v * 2 ^ lg) ∧
      (∀ j, m ≤ j → st.scaled j = s0 j))
    (planarEdgeStep v lg) n { diff := d0, scaled := s0 }
    ⟨fun j hj => absurd hj (Nat.not_lt_zero j), fun j _ => rfl⟩
    (by
      intro k s hk hs
      have hsk : s.scaled k = v := by rw [hs.2 k (le_refl _), hs0 k hk]
      constructor
      · intro j hj
        by_cases hjk : j = k
        · subst hjk
          constructor
          · show Function.update s.diff j (wrapInt (v - s.scaled j)) j = 0
            rw [Function.update_same, hsk, sub_self]
            exact wrapInt_of_range 0 (by decide) (by decide)
          · show Function.update s.scaled j (shlInt (s.scaled j) lg) j = _
            rw [Function.update_same, hsk]
            exact (shlInt_sample v lg hv0 hv (by omega)).1
        · constructor
          · show Function.update s.diff k (wrapInt (v - s.scaled k)) j = 0
            rw [Function.update_noteq hjk]
            exact (hs.1 j (by omega)).1
          · show Function.update s.scaled k (shlInt (s.scaled k) lg) j = _
            rw [Function.update_noteq hjk]
            exact (hs.1 j (by omega)).2
      · intro j hj
        show Function.update s.scaled k (shlInt (s.scaled k) lg) j = _
        rw [Function.update_noteq (by omega)]
        exact hs.2 j (by omega))
  intro k hk
  exact h.1 k hk

/-- The sample computed in line 482 from flat references is the reference value. -/
theorem planar_value (v : Int) (lw lh : Nat) (hv0 : 0 ≤ v) (hv : v < 131072)
    (hs : lw + lh ≤ 14) :
    ((((toUInt32 (wrapInt (shlInt (v * 2 ^ lw) lh + shlInt (v * 2 ^ lh) lw))
        + toUInt32 (shlInt 1 (lw + lh))) % 4294967296) >>> (1 + lw + lh) : Nat) : Int) = v := by
  obtain ⟨n, rfl⟩ : ∃ n : Nat, v = (n : Int) := ⟨v.toNat, (Int.toNat_of_nonneg hv0).symm⟩
  have hn : n < 131072 := by exact_mod_cast hv
  have hQ : 2 ^ (lw + lh) ≤ 2 ^ 14 := Nat.pow_le_pow_right (by decide) hs
  have hQ0 : 0 < 2 ^ (lw + lh) := Nat.pos_pow_of_pos _ (by decide)
  have hnQ : n * 2 ^ (lw + lh) ≤ 131071 * 2 ^ 14 := Nat.mul_le_mul (by omega) hQ
  have hnQ2 : n * 2 ^ (lw + lh) ≤ 2147467264 := by
    have : 131071 * 2 ^ 14 = 2147467264 := by norm_num
    omega
  have hQ2 : 2 ^ (lw + lh) ≤ 16384 := by
    have : 2 ^ 14 = 16384 := by norm_num
    omega
  have e1 : shlInt ((n : Int) * 2 ^ lw) lh = ((n * 2 ^ (lw + lh) : Nat) : Int) := by
    unfold shlInt
    have : (n : Int) * 2 ^ lw * 2 ^ lh = ((n * 2 ^ (lw + lh) : Nat) : Int) := by
      push_cast
      ring
    rw [this]
    exact wrapInt_of_range _ (by omega) (by omega)
  have e2 : shlInt ((n : Int) * 2 ^ lh) lw = ((n * 2 ^ (lw + lh) : Nat) : Int) := by
    unfold shlInt
    have : (n : Int) * 2 ^ lh * 2 ^ lw = ((n * 2 ^ (lw + lh) : Nat) : Int) := by
      push_cast
      ring
    rw [this]
    exact wrapInt_of_range _ (by omega) (by omega)
  have e3 : shlInt 1 (lw + lh) = ((2 ^ (lw + lh) : Nat) : Int) := by
    unfold shlInt
    have : (1 : Int) * 2 ^ (lw + lh) = ((2 ^ (lw + lh) : Nat) : Int) := by
      push_cast
      ring
    rw [this]
    exact wrapInt_of_range _ (by omega) (by omega)
  have e4 : ∀ m : Nat, m < 4294967296 → toUInt32 (m : Int) = m := by
    intro m hm
    unfold toUInt32
    have : ((m : Int)) % 4294967296 = (m : Int) := by omega
    rw [this]
    exact Int.toNat_ofNat m
  rw [e1, e2, e3, toUInt32_wrapInt]
  have e5 : ((n * 2 ^ (lw + lh) : Nat) : Int) + ((n * 2 ^ (lw + lh) : Nat) : Int)
      = ((2 * (n * 2 ^ (lw + lh)) : Nat) : Int) := by
    push_cast
    ring
  rw [e5, e4 _ (by omega), e4 _ (by omega), Nat.mod_eq_of_lt (by omega),
    Nat.shiftRight_eq_div_pow]
  have e6 : 2 ^ (1 + lw + lh) = 2 * 2 ^ (lw + lh) := by
    rw [add_assoc, pow_add]
    norm_num
  have e7 : 2 * (n * 2 ^ (lw + lh)) + 2 ^ (lw + lh) = 2 ^ (lw + lh) + 2 * 2 ^ (lw + lh) * n := by
    ring
  rw [e6, e7, Nat.add_mul_div_left _ _ (by omega), Nat.div_eq_of_lt (by omega), zero_add]

/-- One sample of the planar prediction from flat references. -/
theorem planarSample_flat (cfg : Config) (v : Int) (lw lh : Nat) (bottomRow : Nat → Int)
    (y x : Nat) (st : PlanarInner) (hv0 : 0 ≤ v) (hv : v < 131072) (hpel : toPel cfg v = v)
    (hlw : lw ≤ 7) (hlh : lh ≤ 7) (hhor : st.horPred = v * 2 ^ lw)
    (htop : st.topRow x = v * 2 ^ lh) (hbot : bottomRow x = 0) :
    planarSample cfg lw lh (toUInt32 (shlInt 1 (lw + lh))) (1 + lw + lh) bottomRow 0 y st x
      = { horPred := v * 2 ^ lw, topRow := Function.update st.topRow x (v * 2 ^ lh),
          pred := setAt st.pred x y v } := by
  have hL := shlInt_sample v lw hv0 hv (by omega)
  have hS := shlInt_sample v lh hv0 hv (by omega)
  have hwL : wrapInt (v * 2 ^ lw) = v * 2 ^ lw := wrapInt_of_range _ (by omega) (by omega)
  have hwS : wrapInt (v * 2 ^ lh) = v * 2 ^ lh := wrapInt_of_range _ (by omega) (by omega)
  unfold planarSample
  simp only [hhor, htop, hbot, add_zero, Function.update_same, hwL, hwS,
    planar_value v lw lh hv0 hv (by omega), hpel]

/-- One row of the planar prediction from flat references: the row is filled with
the reference value, the other samples and the scaled top row are kept. -/
theorem planarRow_flat (cfg : Config) (v : Int) (lw lh W : Nat)
    (leftColumn rightColumn bottomRow : Nat → Int) (y : Nat) (st : PlanarOuter) (hv0 : 0 ≤ v)
    (hv : v < 131072) (hpel : toPel cfg v = v) (hlw : lw ≤ 7) (hlh : lh ≤ 7)
    (hleft : leftColumn y = v * 2 ^ lw) (hright : rightColumn y = 0)
    (hbot : ∀ j, j < W → bottomRow j = 0) (htop : ∀ j, j < W → st.topRow j = v * 2 ^ lh) :
    (∀ j, j < W →
      (planarRow cfg lw lh (toUInt32 (shlInt 1 (lw + lh))) (1 + lw + lh) W leftColumn
        rightColumn bottomRow st y).topRow j = v * 2 ^ lh) ∧
    (∀ i j, (planarRow cfg lw lh (toUInt32 (shlInt 1 (lw + lh))) (1 + lw + lh) W leftColumn
        rightColumn bottomRow st y).pred i j = if i < W ∧ j = y then v else st.pred i j) := by
  have h := foldl_range_inv
    (fun x (r : PlanarInner) => r.horPred = v * 2 ^ lw ∧
      (∀ j, j < W → r.topRow j = v * 2 ^ lh) ∧
      (∀ i j, r.pred i j = if i < x ∧ j = y then v else st.pred i j))
    (planarSample cfg lw lh (toUInt32 (shlInt 1 (lw + lh))) (1 + lw + lh) bottomRow 0 y) W
    { horPred := leftColumn y, topRow := st.topRow, pred := st.pred }
    ⟨hleft, htop, fun i j => by simp⟩
    (by
      intro x r hx hr
      rw [planarSample_flat cfg v lw lh bottomRow y x r hv0 hv hpel hlw hlh hr.1
        (hr.2.1 x hx) (hbot x hx)]
      refine ⟨rfl, ?_, ?_⟩
      · intro j hj
        show Function.update r.topRow x (v * 2 ^ lh) j = _
        by_cases hjx : j = x
        · subst hjx
          exact Function.update_same _ _ _
        · rw [Function.update_noteq hjx]
          exact hr.2.1 j hj
      · intro i j
        show setAt r.pred x y v i j = _
        unfold setAt
        by_cases hij : i = x ∧ j = y
        · rw [if_pos hij, if_pos ⟨by omega, hij.2⟩]
        · rw [if_neg hij, hr.2.2 i j]
          by_cases hc : i < x ∧ j = y
          · rw [if_pos hc, if_pos ⟨by omega, hc.2⟩]
          · rw [if_neg hc, if_neg (fun h => by
              rcases h with ⟨h1, h2⟩
              by_cases hix : i = x
              · exact hij ⟨hix, h2⟩
              · exact hc ⟨by omega, h2⟩)])
  unfold planarRow
  rw [hright]
  exact ⟨h.2.1, h.2.2⟩


/-- The logarithm used by `xPredIntraPlanar` for a power-of-two size up to 128. -/
theorem planarLog2 (a : Nat) (ha : a ≤ 7) :
    g_aucLog2 (if 2 ^ a < 2 then 2 else 2 ^ a) ≤ 7 := by
  interval_cases a <;> decide

/-- Planar prediction from flat references on a block of power-of-two sizes up to
128: the block is filled with the reference value, the rest of the buffer is
kept. -/
theorem xPredIntraPlanar_flat (cfg : Config) (pSrc pDst : PelBuf) (a b : Nat) (v : Int)
    (ha : a ≤ 7) (hb : b ≤ 7) (hv0 : 0 ≤ v) (hv : v < 131072) (hpel : toPel cfg v = v)
    (htop : ∀ k, k ≤ 2 ^ a → pSrc (k + 1) 0 = v) (hleft : ∀ k, k ≤ 2 ^ b → pSrc 0 (k + 1) = v) :
    ∃ out, xPredIntraPlanar cfg pSrc pDst (2 ^ a) (2 ^ b) = some out ∧
      ∀ x y, out x y = if x < 2 ^ a ∧ y < 2 ^ b then v else pDst x y := by
  have hW : 2 ^ a ≤ 2 ^ 7 := Nat.pow_le_pow_right (by decide) ha
  have hH : 2 ^ b ≤ 2 ^ 7 := Nat.pow_le_pow_right (by decide) hb
  have hlw := planarLog2 a ha
  have hlh := planarLog2 b hb
  have hT : ∀ k, k < 2 ^ a + 1 → (List.range (2 ^ a + 1)).foldl
      (fun arr k => Function.update arr k (pSrc (k + 1) 0)) (fun _ => 0) k = v :=
    fun k hk => (planarFill (fun k => pSrc (k + 1) 0) _ _ k hk).trans (htop k (by omega))
  have hL : ∀ k, k < 2 ^ b + 1 → (List.range (2 ^ b + 1)).foldl
      (fun arr k => Function.update arr k (pSrc 0 (k + 1))) (fun _ => 0) k = v :=
    fun k hk => (planarFill (fun k => pSrc 0 (k + 1)) _ _ k hk).trans (hleft k (by omega))
  unfold xPredIntraPlanar
  rw [if_neg (by unfold MAX_CU_SIZE; omega)]
  refine ⟨_, rfl, ?_⟩
  simp only [hT (2 ^ a) (by omega), hL (2 ^ b) (by omega)]
  generalize g_aucLog2 (if 2 ^ a < 2 then 2 else 2 ^ a) = lw at hlw ⊢
  generalize g_aucLog2 (if 2 ^ b < 2 then 2 else 2 ^ b) = lh at hlh ⊢
  generalize htr : (List.range (2 ^ a + 1)).foldl
      (fun arr k => Function.update arr k (pSrc (k + 1) 0)) (fun _ => 0) = topRow at hT ⊢
  generalize hlc : (List.range (2 ^ b + 1)).foldl
      (fun arr k => Function.update arr k (pSrc 0 (k + 1))) (fun _ => 0) = leftColumn at hL ⊢
  have hE1 := planarEdge_flat v lh (2 ^ a) (fun _ => 0) topRow hv0 hv hlh
    (fun k hk => hT k (by omega))
  have hE2 := planarEdge_flat v lw (2 ^ b) (fun _ => 0) leftColumn hv0 hv hlw
    (fun k hk => hL k (by omega))
  generalize (List.range (2 ^ a)).foldl (planarEdgeStep v lh)
    { diff := fun _ => 0, scaled := topRow } = top at hE1 ⊢
  generalize (List.range (2 ^ b)).foldl (planarEdgeStep v lw)
    { diff := fun _ => 0, scaled := leftColumn } = left at hE2 ⊢
  have h := foldl_range_inv
    (fun y (st : PlanarOuter) => (∀ j, j < 2 ^ a → st.topRow j = v * 2 ^ lh) ∧
      (∀ i j, st.pred i j = if i < 2 ^ a ∧ j < y then v else pDst i j))
    (planarRow cfg lw lh (toUInt32 (shlInt 1 (lw + lh))) (1 + lw + lh) (2 ^ a) left.scaled
      left.diff top.diff) (2 ^ b) { topRow := top.scaled, pred := pDst }
    ⟨fun j hj => (hE1 j hj).2, fun i j => by simp⟩
    (by
      intro y st hy hst
      have hr := planarRow_flat cfg v lw lh (2 ^ a) left.scaled left.diff top.diff y st hv0 hv
        hpel hlw hlh (hE2 y hy).2 (hE2 y hy).1 (fun j hj => (hE1 j hj).1) hst.1
      refine ⟨hr.1, ?_⟩
      intro i j
      rw [hr.2 i j, hst.2 i j]
      by_cases h1 : i < 2 ^ a ∧ j = y
      · rw [if_pos h1, if_pos ⟨h1.1, by omega⟩]
      · rw [if_neg h1]
        by_cases h2 : i < 2 ^ a ∧ j < y
        · rw [if_pos h2, if_pos ⟨h2.1, by omega⟩]
        · rw [if_neg h2, if_neg (fun h => by
            rcases h with ⟨h3, h4⟩
            by_cases hjy : j = y
            · exact h1 ⟨h3, hjy⟩
            · exact h2 ⟨h3, by omega⟩)])
  exact h.2


/-- The boundary filter of the DC prediction keeps a block that is filled with the
value of the flat references. -/
theorem xDCPredFiltering_flat (cfg : Config) (pSrc pDst : PelBuf) (W H : Nat) (isLuma : Bool)
    (v : Int) (hW : 0 < W) (hH : 0 < H) (hv0 : 0 ≤ v) (hv : v < 131072)
    (hpel : toPel cfg v = v) (htop : ∀ k, k < W → pSrc (k + 1) 0 = v)
    (hleft : ∀ k, k < H → pSrc 0 (k + 1) = v)
    (hdst : ∀ x y, x < W → y < H → pDst x y = v) :
    ∀ x y, x < W → y < H → xDCPredFiltering cfg pSrc pDst W H isLuma x y = v := by
  have hcorner : toPel cfg (wrapInt (wrapInt (wrapInt (v + v) + wrapInt (2 * v)) + 2)
      >>> (2 : Nat)) = v := by
    rw [wrapInt_of_range (v + v) (by omega) (by omega),
      wrapInt_of_range (2 * v) (by omega) (by omega),
      wrapInt_of_range (v + v + 2 * v) (by omega) (by omega),
      wrapInt_of_range (v + v + 2 * v + 2) (by omega) (by omega), Int.shiftRight_eq_div_pow]
    have : (v + v + 2 * v + 2) / ((2 ^ 2 : Nat) : Int) = v := by
      norm_num
      omega
    rw [this, hpel]
  have hedge : toPel cfg (wrapInt (wrapInt (v + wrapInt (3 * v)) + 2) >>> (2 : Nat)) = v := by
    rw [wrapInt_of_range (3 * v) (by omega) (by omega),
      wrapInt_of_range (v + 3 * v) (by omega) (by omega),
      wrapInt_of_range (v + 3 * v + 2) (by omega) (by omega), Int.shiftRight_eq_div_pow]
    have : (v + 3 * v + 2) / ((2 ^ 2 : Nat) : Int) = v := by
      norm_num
      omega
    rw [this, hpel]
  have hset : ∀ (d : PelBuf) (i j : Nat), (∀ x y, x < W → y < H → d x y = v) →
      ∀ x y, x < W → y < H → setAt d i j v x y = v := by
    intro d i j hd x y hx hy
    unfold setAt
    split
    · rfl
    · exact hd x y hx hy
  unfold xDCPredFiltering
  split
  · have h0 : ∀ x y, x < W → y < H → setAt pDst 0 0 (toPel cfg (wrapInt (wrapInt (wrapInt
        (pSrc 1 0 + pSrc 0 1) + wrapInt (2 * pDst 0 0)) + 2) >>> (2 : Nat))) x y = v := by
      rw [htop 0 hW, hleft 0 hH, hdst 0 0 hW hH, hcorner]
      exact hset pDst 0 0 hdst
    have h1 := foldl_range_inv (fun _ (d : PelBuf) => ∀ x y, x < W → y < H → d x y = v)
      (fun d i => setAt d (i + 1) 0 (toPel cfg
        (wrapInt (wrapInt (pSrc (i + 1 + 1) 0 + wrapInt (3 * d (i + 1) 0)) + 2) >>> (2 : Nat))))
      (W - 1) _ h0 (by
        intro k d hk hd
        show ∀ x y, x < W → y < H → setAt d (k + 1) 0 (toPel cfg (wrapInt (wrapInt
          (pSrc (k + 1 + 1) 0 + wrapInt (3 * d (k + 1) 0)) + 2) >>> (2 : Nat))) x y = v
        rw [htop (k + 1) (by omega), hd (k + 1) 0 (by omega) hH, hedge]
        exact hset d _ _ hd)
    have h2 := foldl_range_inv (fun _ (d : PelBuf) => ∀ x y, x < W → y < H → d x y = v)
      (fun d i => setAt d 0 (i + 1) (toPel cfg
        (wrapInt (wrapInt (pSrc 0 (i + 1 + 1) + wrapInt (3 * d 0 (i + 1))) + 2) >>> (2 : Nat))))
      (H - 1) _ h1 (by
        intro k d hk hd
        show ∀ x y, x < W → y < H → setAt d 0 (k + 1) (toPel cfg (wrapInt (wrapInt
          (pSrc 0 (k + 1 + 1) + wrapInt (3 * d 0 (k + 1))) + 2) >>> (2 : Nat))) x y = v
        rw [hleft (k + 1) (by omega), hd 0 (k + 1) hW (by omega), hedge]
        exact hset d _ _ hd)
    exact h2
  · exact hdst

/-- Claim C40. Flat references are preserved by the planar and the DC prediction:
for a block whose width and height are powers of two (up to `MAX_CU_SIZE`, the size
of the arrays of `xPredIntraPlanar`) and a value `v ≥ 0` of the sample type `Pel`
(of at most 17 bits in the build in which `Pel` is `int`), if the top reference
samples `1 .. width + 1` and the left reference samples `1 .. height + 1` are all
`v`, then `xPredIntraPlanar` returns with every sample of the block equal to `v`
(and the rest of the buffer as it was), `xGetPredValDc` returns `v`, and
`xPredIntraDc` returns with every sample of the block equal to `v`, with and without
the boundary filter. -/
theorem flat_reference_preserved (cfg : Config) (pSrc pDst : PelBuf) (width height a b : Nat)
    (v : Int) (isLuma enableBoundaryFilter : Bool) (hw : width = 2 ^ a) (hh : height = 2 ^ b)
    (hwmax : width ≤ MAX_CU_SIZE) (hhmax : height ≤ MAX_CU_SIZE) (hv0 : 0 ≤ v)
    (hpel : toPel cfg v = v) (hbits : cfg.RExt__HIGH_BIT_DEPTH_SUPPORT = true → v < 131072)
    (htop : ∀ k, k ≤ width → pSrc (k + 1) 0 = v)
    (hleft : ∀ k, k ≤ height → pSrc 0 (k + 1) = v) :
    (∃ out, xPredIntraPlanar cfg pSrc pDst width height = some out ∧
      (∀ x y, x < width → y < height → out x y = v) ∧
      (∀ x y, ¬ (x < width ∧ y < height) → out x y = pDst x y)) ∧
    xGetPredValDc cfg pSrc width height = .ok v ∧
    (∃ out, xPredIntraDc cfg pSrc pDst width height isLuma enableBoundaryFilter = .ok out ∧
      ∀ x y, x < width → y < height → out x y = v) := by
  subst hw hh
  have hv := pel_bound cfg v hpel hbits
  have ha : a ≤ 7 := by
    by_contra hc
    have : 2 ^ 8 ≤ 2 ^ a := Nat.pow_le_pow_right (by decide) (by omega)
    unfold MAX_CU_SIZE at hwmax
    omega
  have hb : b ≤ 7 := by
    by_contra hc
    have : 2 ^ 8 ≤ 2 ^ b := Nat.pow_le_pow_right (by decide) (by omega)
    unfold MAX_CU_SIZE at hhmax
    omega
  have hWp : 0 < 2 ^ a := Nat.pos_pow_of_pos a (by decide)
  have hHp : 0 < 2 ^ b := Nat.pos_pow_of_pos b (by decide)
  have hdc : xGetPredValDc cfg pSrc (2 ^ a) (2 ^ b) = .ok v :=
    xGetPredValDc_flat cfg pSrc a b v ha hb hv0 hv hpel
      (fun k hk => by rw [Nat.add_comm]; exact htop k (by omega))
      (fun k hk => by rw [Nat.add_comm]; exact hleft k (by omega))
  refine ⟨?_, hdc, ?_⟩
  · obtain ⟨out, h1, h2⟩ := xPredIntraPlanar_flat cfg pSrc pDst a b v ha hb hv0 hv hpel htop hleft
    refine ⟨out, h1, ?_, ?_⟩
    · intro x y hx hy
      rw [h2 x y, if_pos ⟨hx, hy⟩]
    · intro x y hxy
      rw [h2 x y, if_neg hxy]
  · have hfill : ∀ x y, x < 2 ^ a → y < 2 ^ b → fill pDst (2 ^ a) (2 ^ b) v x y = v := by
      intro x y hx hy
      unfold fill
      rw [if_pos ⟨hx, hy⟩]
    unfold xPredIntraDc
    rw [hdc]
    simp only []
    split
    · exact ⟨_, rfl, xDCPredFiltering_flat cfg pSrc _ (2 ^ a) (2 ^ b) isLuma v hWp hHp hv0 hv
        hpel (fun k hk => htop k (by omega)) (fun k hk => hleft k (by omega)) hfill⟩
    · exact ⟨_, rfl, hfill⟩

/-- Witness of C40: an 8×4 block with all reference samples 512, in the build with
`short` samples and in the build with `int` samples. -/
theorem flat_reference_preserved_witness :
    ((∃ out, xPredIntraPlanar {} (flatBuf 512) (flatBuf 0) 8 4 = some out ∧
        (∀ x y, x < 8 → y < 4 → out x y = 512) ∧
        (∀ x y, ¬ (x < 8 ∧ y < 4) → out x y = flatBuf 0 x y)) ∧
      xGetPredValDc {} (flatBuf 512) 8 4 = .ok 512 ∧
      (∃ out, xPredIntraDc {} (flatBuf 512) (flatBuf 0) 8 4 true false = .ok out ∧
        ∀ x y, x < 8 → y < 4 → out x y = 512)) ∧
    xGetPredValDc { RExt__HIGH_BIT_DEPTH_SUPPORT := true } (flatBuf 65535) 4 4 = .ok 65535 :=
  ⟨flat_reference_preserved {} (flatBuf 512) (flatBuf 0) 8 4 3 2 512 true false rfl rfl
      (by decide) (by decide) (by decide) (by decide) (fun h => absurd h (by decide))
      (fun _ _ => rfl) (fun _ _ => rfl),
    (flat_reference_preserved { RExt__HIGH_BIT_DEPTH_SUPPORT := true } (flatBuf 65535)
      (flatBuf 0) 4 4 2 2 65535 true false rfl rfl (by decide) (by decide) (by decide)
      (by decide) (fun _ => by decide) (fun _ _ => rfl) (fun _ _ => rfl)).2.1⟩

/-! ## The invalid entry point and the first CRA slice -/


/-- Members that lines 1217–1229 of `xDecodeSlice` do not write. -/
theorem beforeActivation_fields (cfg : Config) (s : DecLib) :
    (s.beforeActivation cfg).m_bFirstSliceInPicture = s.m_bFirstSliceInPicture ∧
    (s.beforeActivation cfg).m_apcSlicePilot = s.m_apcSlicePilot ∧
    (s.beforeActivation cfg).m_pocRandomAccess = s.m_pocRandomAccess ∧
    (s.beforeActivation cfg).m_uiSliceSegmentIdx = s.m_uiSliceSegmentIdx := by
  unfold DecLib.beforeActivation DecLib.xUpdateRasInit
  simp only
  split_ifs <;> exact ⟨rfl, rfl, rfl, rfl⟩

/-- Members that the first-slice branch of `xActivateParameterSets` does not
write. -/
theorem firstSliceActivation_frame (cfg : Config) (aenv : ActivationEnv) (s : DecLib) :
    (s.firstSliceActivation cfg aenv).dec.m_pocRandomAccess = s.m_pocRandomAccess ∧
    (s.firstSliceActivation cfg aenv).dec.m_uiSliceSegmentIdx = s.m_uiSliceSegmentIdx := by
  have hg := fun (d : DecLib) (sps : SPS) => xGetNewPicBuffer_fields d sps
    d.m_apcSlicePilot.tLayer aenv.rawPoc
  unfold DecLib.firstSliceActivation
  simp only
  split
  · exact ⟨rfl, rfl⟩
  · split
    · exact ⟨rfl, rfl⟩
    · split
      · exact ⟨rfl, rfl⟩
      · split
        · exact ⟨rfl, rfl⟩
        · split
          · exact ⟨rfl, rfl⟩
          · split
            · exact ⟨rfl, rfl⟩
            · unfold DecLib.acquireAndAttach DecLib.activateFirstSlice
              simp only
              split
              · exact ⟨(hg _ _).2.2.2, (hg _ _).1⟩
              · exact ⟨(hg _ _).2.2.2, (hg _ _).1⟩

/-- The binding of lines 1238–1243 when the current picture and its slice are
there. -/
theorem bindPicture_eq (s : DecLib) (tid a : Nat) (q : Picture) (sl : Slice)
    (hpc : s.m_pcPic = some a) (hq : s.pic? a = some q)
    (hsl : q.slices.get? s.m_uiSliceSegmentIdx = some sl) :
    s.bindPicture tid = { s with m_cListPic := updateAt a (bindFields sl tid) s.m_cListPic } := by
  unfold DecLib.bindPicture
  rw [hpc]
  simp only [hq, Option.bind, hsl]

/-- The decoding part of `xDecodeSlice` (lines 1208–1457) for the first slice of a
picture when no reference picture is missing and the activation raises no error: the
call returns false, the anchor is kept, and the current picture is in the pool, owns
the slice, carries its POC and is marked as referenced. -/
theorem decodeSlice_first (cfg : Config) (aenv : ActivationEnv) (firstSPS : SPS)
    (raw : Nat → Int) (fuel : Nat) (sA : DecLib) (nalu : InputNALUnit) (k : Int)
    (hfirst : sA.m_bFirstSliceInPicture = true)
    (hrefs : checkThatAllRefPicsAreAvailable sA.m_cListPic sA.m_apcSlicePilot.rps ≤ 0)
    (hact : ((sA.beforeActivation cfg).xActivateParameterSets cfg aenv).error = none) :
    ∃ r a q, DecLib.decodeSlice cfg sA nalu (sliceEnvOf cfg aenv firstSPS raw fuel) k
        = some (.ok r) ∧
      r.ret = false ∧ r.iSkipFrame = k ∧ r.dec.m_pocRandomAccess = sA.m_pocRandomAccess ∧
      r.dec.m_pcPic = some a ∧ r.dec.pic? a = some q ∧
      q.getPOC = sA.m_apcSlicePilot.poc ∧ q.referenced = true ∧
      q.slices = [sA.m_apcSlicePilot] ∧
      r.dec.m_bFirstSliceInPicture = false ∧ r.dec.m_uiSliceSegmentIdx = 1 := by
  obtain ⟨b1, b2, b3, b4⟩ := beforeActivation_fields cfg sA
  have hx : (sA.beforeActivation cfg).xActivateParameterSets cfg aenv
      = (sA.beforeActivation cfg).firstSliceActivation cfg aenv := by
    unfold DecLib.xActivateParameterSets
    rw [b1, hfirst]
    rfl
  rw [hx] at hact
  obtain ⟨pps, sps, a, q, _, _, hidx, _, hpc, hq, hsl, _⟩ :=
    firstSliceActivation_ok cfg aenv (sA.beforeActivation cfg) hact
  obtain ⟨g1, g2⟩ := firstSliceActivation_frame cfg aenv (sA.beforeActivation cfg)
  have hrec : sA.recoverLostPictures firstSPS raw fuel 0 = some ([], .ok sA) := by
    unfold DecLib.recoverLostPictures
    simp only [not_lt.mpr hrefs, if_false]
  have henv : (sliceEnvOf cfg aenv firstSPS raw fuel).xActivateParameterSets
      (sA.beforeActivation cfg)
      = .ok ((sA.beforeActivation cfg).firstSliceActivation cfg aenv).dec := by
    show ((sA.beforeActivation cfg).xActivateParameterSets cfg aenv).toExcept = _
    rw [hx]
    unfold ActResult.toExcept
    rw [hact]
  have hdec : DecLib.decodeSlice cfg sA nalu (sliceEnvOf cfg aenv firstSPS raw fuel) k
      = some (.ok (SliceResult.mk false
          (((sA.beforeActivation cfg).firstSliceActivation cfg aenv).dec.closeSlice
            nalu.m_temporalId) k)) := by
    unfold DecLib.beforeActivation at henv
    unfold DecLib.decodeSlice
    have hrec2 : sA.recoverLostPictures (sliceEnvOf cfg aenv firstSPS raw fuel).firstSPS
        (sliceEnvOf cfg aenv firstSPS raw fuel).raw (sliceEnvOf cfg aenv firstSPS raw fuel).fuel 0
        = some ([], .ok sA) := hrec
    rw [hrec2]
    simp only
    rw [henv]
    rfl
  generalize hD : ((sA.beforeActivation cfg).firstSliceActivation cfg aenv).dec = D at *
  have hbind : (DecLib.bindPicture
      { D with m_bFirstSliceInSequence := false, m_bFirstSliceInBitstream := false }
      nalu.m_temporalId).m_cListPic
      = updateAt a (bindFields (sA.beforeActivation cfg).m_apcSlicePilot nalu.m_temporalId)
          D.m_cListPic := by
    rw [bindPicture_eq { D with m_bFirstSliceInSequence := false, m_bFirstSliceInBitstream := false }
      nalu.m_temporalId a q (sA.beforeActivation cfg).m_apcSlicePilot hpc hq
      (by
        show q.slices.get? D.m_uiSliceSegmentIdx = _
        rw [hsl, g2, hidx]
        rfl)]
  refine ⟨_, a, bindFields (sA.beforeActivation cfg).m_apcSlicePilot nalu.m_temporalId q,
    hdec, rfl, rfl, ?_, ?_, ?_, ?_, rfl, hsl.trans (by rw [b2]), rfl, ?_⟩
  · show (DecLib.bindPicture _ _).m_pocRandomAccess = _
    rw [← b3, ← g1]
    unfold DecLib.bindPicture
    split
    · rfl
    · split <;> rfl
  · show (DecLib.bindPicture _ _).m_pcPic = _
    rw [← hpc]
    unfold DecLib.bindPicture
    split
    · rfl
    · split <;> rfl
  · show (DecLib.bindPicture _ _).m_cListPic.find? (fun p => p.addr == a) = _
    rw [hbind, find_updateAt a
      (bindFields (sA.beforeActivation cfg).m_apcSlicePilot nalu.m_temporalId) (fun p => rfl)]
    have : D.m_cListPic.find? (fun p => p.addr == a) = some q := hq
    rw [this]
    rfl
  · show (sA.beforeActivation cfg).m_apcSlicePilot.poc = _
    rw [b2]
  · show (DecLib.bindPicture _ _).m_uiSliceSegmentIdx + 1 = 1
    have : (DecLib.bindPicture
        { D with m_bFirstSliceInSequence := false, m_bFirstSliceInBitstream := false }
        nalu.m_temporalId).m_uiSliceSegmentIdx = D.m_uiSliceSegmentIdx := by
      unfold DecLib.bindPicture
      split
      · rfl
      · split <;> rfl
    rw [this, g2, hidx]

/-- Claim C21. Invalid entry point. From a decoder whose anchor is unset, with
`iSkipFrame = 0`, every slice of a sequence of slices whose type is neither CRA nor
BLA nor IDR is skipped: each call of `xDecodeSlice` returns false, and the anchor is
still unset and the pool unchanged afterwards. The warning of line 1751 is written
once over the whole run if the flag `m_warningMessageSkipPicture` was not set
before (and not at all if it was), and the flag is set after the first slice. For a
CRA slice that follows and whose header stage raises no error,
`isRandomAccessSkipPicture` returns false with the anchor at the POC of the slice;
and when no picture is in progress, no reference picture is missing and the
activation of line 1232 raises no error, the slice is decoded: `xDecodeSlice`
returns false with the anchor at the POC of the slice, and the current picture is
in the pool, owns the slice, carries its POC and is marked as referenced. -/
theorem invalid_entry_point (cfg : Config) (aenv : ActivationEnv) (firstSPS : SPS)
    (raw : Nat → Int) (fuel : Nat) (iPOCLastDisplay : Int)
    (units : List (InputNALUnit × Slice)) (s : DecLib)
    (hunset : s.m_pocRandomAccess = MAX_INT)
    (hty : ∀ u ∈ units, isInvalidEntryType u.1.m_nalUnitType = true) :
    ∃ st, sliceRun cfg (sliceEnvOf cfg aenv firstSPS raw fuel) iPOCLastDisplay units
        { dec := s } = some (.ok st) ∧
      st.rets = List.replicate units.length false ∧
      st.dec.m_pocRandomAccess = MAX_INT ∧
      st.dec.m_cListPic = s.m_cListPic ∧
      st.warnings = (if s.m_warningMessageSkipPicture = false ∧ units ≠ [] then 1 else 0) ∧
      st.dec.m_warningMessageSkipPicture = (s.m_warningMessageSkipPicture || !units.isEmpty) ∧
      ∀ (nalu : InputNALUnit) (parsed : Slice) (s1 : DecLib),
        nalu.m_nalUnitType = .NAL_UNIT_CODED_SLICE_CRA →
        st.dec.sliceHeaderStage cfg nalu parsed = .ok s1 →
        s1.isRandomAccessSkipPicture cfg st.iSkipFrame iPOCLastDisplay
          = { ret := false, dec := { s1 with m_pocRandomAccess := s1.m_apcSlicePilot.poc },
              iSkipFrame := 0, iPOCLastDisplay := iPOCLastDisplay } ∧
        (s.m_bFirstSliceInPicture = true →
          checkThatAllRefPicsAreAvailable s1.m_cListPic s1.m_apcSlicePilot.rps ≤ 0 →
          ((DecLib.beforeActivation cfg
              { s1 with m_pocRandomAccess := s1.m_apcSlicePilot.poc,
                        m_prevSliceSkipped := false }).xActivateParameterSets cfg aenv).error
            = none →
          ∃ r a q, st.dec.xDecodeSlice cfg nalu parsed (sliceEnvOf cfg aenv firstSPS raw fuel)
              st.iSkipFrame iPOCLastDisplay = some (.ok r) ∧
            r.ret = false ∧ r.iSkipFrame = 0 ∧
            r.dec.m_pocRandomAccess = s1.m_apcSlicePilot.poc ∧
            r.dec.m_pcPic = some a ∧ r.dec.pic? a = some q ∧
            q.getPOC = s1.m_apcSlicePilot.poc ∧ q.referenced = true ∧
            q.slices = [s1.m_apcSlicePilot] ∧
            r.dec.m_bFirstSliceInPicture = false ∧ r.dec.m_uiSliceSegmentIdx = 1) := by
  obtain ⟨st, hst, t1, t2, t3, t4, t5, t6, t7, t8⟩ := sliceRun_invalid_entry cfg
    (sliceEnvOf cfg aenv firstSPS raw fuel) iPOCLastDisplay units { dec := s } hunset rfl hty
  refine ⟨st, hst, by simpa using t1, t3, t4, by simpa using t8, t7, ?_⟩
  intro nalu parsed s1 hcra hs1
  obtain ⟨f1, f2, f3, f4, _, _, f7⟩ := sliceHeaderStage_fields cfg st.dec nalu parsed s1 hs1
  have hstart : startsRandomAccess cfg s1.m_apcSlicePilot.nalUnitType = true := by
    rw [f7, hcra]
    unfold startsRandomAccess
    split <;> rfl
  have hskip : s1.isRandomAccessSkipPicture cfg st.iSkipFrame iPOCLastDisplay
      = { ret := false, dec := { s1 with m_pocRandomAccess := s1.m_apcSlicePilot.poc },
          iSkipFrame := 0, iPOCLastDisplay := iPOCLastDisplay } := by
    unfold DecLib.isRandomAccessSkipPicture
    rw [t2]
    simp [f3, t3, hstart]
  refine ⟨hskip, ?_⟩
  intro hfirst hrefs hact
  have hbla : (DecLib.isSkipPictureForBLA
      { s1 with m_pocRandomAccess := s1.m_apcSlicePilot.poc } iPOCLastDisplay).1 = false := by
    unfold DecLib.isSkipPictureForBLA
    simp [f7, hcra]
  have hnew : DecLib.startsNewPicture cfg
      { s1 with m_pocRandomAccess := s1.m_apcSlicePilot.poc, m_prevSliceSkipped := false }
      = false := by
    unfold DecLib.startsNewPicture
    simp [f4, t6, hfirst]
  have hrec : st.dec.stateAtRecovery cfg nalu parsed st.iSkipFrame iPOCLastDisplay
      = some { s1 with m_pocRandomAccess := s1.m_apcSlicePilot.poc,
                       m_prevSliceSkipped := false } := by
    unfold DecLib.stateAtRecovery
    rw [hs1]
    simp only [hskip, hbla, Bool.and_false, Bool.false_eq_true, if_false, hnew]
  rw [xDecodeSlice_of_stateAtRecovery cfg st.dec nalu parsed _ st.iSkipFrame iPOCLastDisplay _
    hrec, t2]
  exact decodeSlice_first cfg aenv firstSPS raw fuel _ nalu 0
    (by show s1.m_bFirstSliceInPicture = true; rw [f4, t6, hfirst]) hrefs hact

/-- Witness of C21: a decoder that holds the SPS and the PPS receives a trailing
slice and a RASL slice; both are skipped, the anchor stays unset and the warning is
written once. The CRA slice of POC 16 that follows is decoded: the anchor is 16 and
the pool holds the current picture, of POC 16 and marked as referenced. -/
theorem invalid_entry_point_witness :
    ∃ st, sliceRun {} envStore 5 entryUnits { dec := stStore } = some (.ok st) ∧
      st.rets = [false, false] ∧ st.dec.m_pocRandomAccess = MAX_INT ∧
      st.dec.m_cListPic = [] ∧ st.warnings = 1 ∧ st.dec.m_warningMessageSkipPicture = true ∧
      ∃ r a q, st.dec.xDecodeSlice {} naluCRA { poc := 16 } envStore st.iSkipFrame 5
          = some (.ok r) ∧
        r.ret = false ∧ r.iSkipFrame = 0 ∧ r.dec.m_pocRandomAccess = 16 ∧
        r.dec.m_pcPic = some a ∧ r.dec.pic? a = some q ∧ q.getPOC = 16 ∧
        q.referenced = true ∧ r.dec.m_bFirstSliceInPicture = false := by
  obtain ⟨st, hst, h1, h2, h3, h4, h5, hcra⟩ := invalid_entry_point {} aenvB spsB (fun _ => 0) 8
    5 entryUnits stStore rfl (by decide)
  have hval : st = stSkipped := by
    have h : sliceRun {} envStore 5 entryUnits { dec := stStore } = some (.ok stSkipped) := rfl
    exact Except.ok.inj (Option.some.inj (hst.symm.trans h))
  subst hval
  obtain ⟨r, a, q, hr, r1, r2, r3, r4, r5, r6, r7, r8, r9, r10⟩ :=
    (hcra naluCRA { poc := 16 } stHeaderCRA rfl rfl).2 rfl (by decide) (by decide)
  exact ⟨stSkipped, hst, h1, h2, h3, h4, h5, r, a, q, hr, r1, r2, r3.trans (by decide), r4, r5,
    r6.trans (by decide), r7, r9⟩

end HelloVTM
